import Mathlib

/-!
Token-chain condensation in the C/C++ tag parser (`parsers/cxx/cxx_parser.c`)

A shallow embedding of the subchain condenser, the enum parser, the
class/struct/union parser, the full-declaration trailer, the analyzer of
other statements, the access-specifier and typedef parsers and the entry
points of `cxx_parser.c`, together with the properties of their
natural-language specification.  The lexer and the parser of
`parsers/swift.c` follow in the namespace `Swift`.

Conventions of the embedding
* The process-wide `g_cxx` record is passed explicitly as `CXXParserState`.
* A token chain (a doubly linked list in C) is a `List CXXToken`; the head of
  the chain is the head of the list and the tail its last element.  `pPrev`
  and `pNext` are positions in that list.
* `unsigned int` values are natural numbers; the two shifts of the condenser
  are reduced modulo `2 ^ 32`.
* Functions that recurse or loop take a `fuel` argument and return
  `Except Fault _`; `Fault.outOfFuel` is never produced when the fuel is
  large enough for the input, `Fault.nullPointer` stands for a dereference
  of `NULL` and `Fault.useAfterFree` for the use of a destroyed object.
-/

namespace CXX

/-! ## Token types -/

/-- Modelled from the spec: the `CXXTokenType` enum lives in `cxx_token.h`, which is
not part of the sources at hand.  Each type is one bit, so that sets of types are
bit masks; an opener shifted left by 4 is its closer and shifted left by 8 its
chain marker. -/
def CXXTokenTypeEOF : Nat := 1 <<< 0
/-- Modelled from the spec: token type of identifiers. -/
def CXXTokenTypeIdentifier : Nat := 1 <<< 1
/-- Modelled from the spec: token type of keywords. -/
def CXXTokenTypeKeyword : Nat := 1 <<< 2
/-- Modelled from the spec: token type of numbers. -/
def CXXTokenTypeNumber : Nat := 1 <<< 3
/-- Modelled from the spec: token type of a single colon. -/
def CXXTokenTypeSingleColon : Nat := 1 <<< 4
/-- Modelled from the spec: token type of `::`. -/
def CXXTokenTypeMultipleColons : Nat := 1 <<< 5
/-- Modelled from the spec: token type of `;`. -/
def CXXTokenTypeSemicolon : Nat := 1 <<< 6
/-- Modelled from the spec: token type of `,`. -/
def CXXTokenTypeComma : Nat := 1 <<< 7
/-- Modelled from the spec: token type of `=`. -/
def CXXTokenTypeAssignment : Nat := 1 <<< 8
/-- Modelled from the spec: token type of the other operators. -/
def CXXTokenTypeOperator : Nat := 1 <<< 9
/-- Modelled from the spec: token type of unclassified input. -/
def CXXTokenTypeUnknown : Nat := 1 <<< 10
/-- Modelled from the spec: token type of `.`. -/
def CXXTokenTypeDotOperator : Nat := 1 <<< 11
/-- Modelled from the spec: token type of `->`. -/
def CXXTokenTypePointerOperator : Nat := 1 <<< 12
/-- Modelled from the spec: token type of string literals. -/
def CXXTokenTypeStringConstant : Nat := 1 <<< 13
/-- Modelled from the spec: token type of `*`. -/
def CXXTokenTypeStar : Nat := 1 <<< 14
/-- Modelled from the spec: token type of `&`. -/
def CXXTokenTypeAnd : Nat := 1 <<< 15
/-- Modelled from the spec: token type of `&&`. -/
def CXXTokenTypeMultipleAnds : Nat := 1 <<< 16
/-- Modelled from the spec: token type of character literals. -/
def CXXTokenTypeCharacterConstant : Nat := 1 <<< 17
/-- Modelled from the spec: token type of `...`. -/
def CXXTokenTypeMultipleDots : Nat := 1 <<< 18
/-- Modelled from the spec: token type of the opener of a brace pair. -/
def CXXTokenTypeOpeningBracket : Nat := 1 <<< 19
/-- Modelled from the spec: token type of `(`. -/
def CXXTokenTypeOpeningParenthesis : Nat := 1 <<< 20
/-- Modelled from the spec: token type of `[`. -/
def CXXTokenTypeOpeningSquareParenthesis : Nat := 1 <<< 21
/-- Modelled from the spec: token type of `<`. -/
def CXXTokenTypeSmallerThanSign : Nat := 1 <<< 22
/-- Modelled from the spec: token type of the closer of a brace pair. -/
def CXXTokenTypeClosingBracket : Nat := 1 <<< 23
/-- Modelled from the spec: token type of `)`. -/
def CXXTokenTypeClosingParenthesis : Nat := 1 <<< 24
/-- Modelled from the spec: token type of `]`. -/
def CXXTokenTypeClosingSquareParenthesis : Nat := 1 <<< 25
/-- Modelled from the spec: token type of `>`. -/
def CXXTokenTypeGreaterThanSign : Nat := 1 <<< 26
/-- Modelled from the spec: marker type of a folded brace pair. -/
def CXXTokenTypeBracketChain : Nat := 1 <<< 27
/-- Modelled from the spec: marker type of a folded `( )` pair. -/
def CXXTokenTypeParenthesisChain : Nat := 1 <<< 28
/-- Modelled from the spec: marker type of a folded `[ ]` pair. -/
def CXXTokenTypeSquareParenthesisChain : Nat := 1 <<< 29
/-- Modelled from the spec: marker type of a folded `< >` pair. -/
def CXXTokenTypeAngleBracketChain : Nat := 1 <<< 30

/-- Modelled from the spec: the `CXXKeyword` enum of `cxx_keyword.h` is not part of the
sources at hand; the keywords named by the parser are listed, the others are
numbered. -/
inductive CXXKeyword where
  | CLASS | ENUM | EXPLICIT | EXTERN | FINAL | FOR | IF | INLINE | NAMESPACE
  | OPERATOR | PRIVATE | PROTECTED | PUBLIC | RETURN | STATIC | STRUCT | SWITCH
  | TEMPLATE | TYPEDEF | UNION | USING | VIRTUAL | WHILE
  | other (n : Nat)
  deriving DecidableEq, Repr

/-! ## Tokens and chains -/

/-- The `CXXToken` record: type, keyword, lexeme, line, trailing-space flag and,
for a chain marker, the chain it owns (`none` is `NULL`).  The links `pPrev` and
`pNext` are the position of the token in the list that holds it. -/
inductive CXXToken where
  | mk (eType : Nat) (eKeyword : CXXKeyword) (pszWord : String) (iLineNumber : Nat)
      (bFollowedBySpace : Bool) (pChain : Option (List CXXToken)) : CXXToken

namespace CXXToken

/-- Field `eType`. -/
def eType : CXXToken → Nat
  | mk t _ _ _ _ _ => t

/-- Field `eKeyword`. -/
def eKeyword : CXXToken → CXXKeyword
  | mk _ k _ _ _ _ => k

/-- Field `pszWord`. -/
def pszWord : CXXToken → String
  | mk _ _ w _ _ _ => w

/-- Field `iLineNumber`. -/
def iLineNumber : CXXToken → Nat
  | mk _ _ _ l _ _ => l

/-- Field `bFollowedBySpace`. -/
def bFollowedBySpace : CXXToken → Bool
  | mk _ _ _ _ s _ => s

/-- Field `pChain`. -/
def pChain : CXXToken → Option (List CXXToken)
  | mk _ _ _ _ _ c => c

end CXXToken

/-- A token chain (`CXXTokenChain`): `pHead` is the first element, `pTail` the
last, `iCount` the length. -/
abbrev CXXTokenChain := List CXXToken

mutual
/-- Structural equality test of two tokens. -/
def CXXToken.beq : CXXToken → CXXToken → Bool
  | .mk t1 k1 w1 l1 s1 none, .mk t2 k2 w2 l2 s2 none =>
      t1 == t2 && k1 == k2 && w1 == w2 && l1 == l2 && s1 == s2
  | .mk t1 k1 w1 l1 s1 (some c1), .mk t2 k2 w2 l2 s2 (some c2) =>
      t1 == t2 && k1 == k2 && w1 == w2 && l1 == l2 && s1 == s2 && chainBeq c1 c2
  | _, _ => false
/-- Structural equality test of two chains. -/
def chainBeq : List CXXToken → List CXXToken → Bool
  | [], [] => true
  | a :: as, b :: bs => CXXToken.beq a b && chainBeq as bs
  | _, _ => false
end

/-- Modelled from the spec: `cxxTokenCreate` (`cxx_token.c`) is not part of the sources
at hand.  A fresh token has an empty lexeme and owns no chain; its type is set
by the caller. -/
def cxxTokenCreate : CXXToken :=
  .mk 0 (.other 0) "" 0 false none

/-- The token the lexer leaves as current token at the end of the input. -/
def cxxTokenEOF : CXXToken :=
  .mk CXXTokenTypeEOF (.other 0) "" 0 false none

/-- Modelled from the spec: `cxxTokenChainTakeLast` detaches the tail of a chain and
hands it to the caller; it returns `NULL` on an empty chain. -/
def cxxTokenChainTakeLast (c : CXXTokenChain) : Option (CXXToken × CXXTokenChain) :=
  match c.getLast? with
  | none => none
  | some t => some (t, c.dropLast)

/-- Modelled from the spec: `cxxTokenChainAppend` adds a token after the tail. -/
def cxxTokenChainAppend (c : CXXTokenChain) (t : CXXToken) : CXXTokenChain :=
  c ++ [t]

/-- Modelled from the spec: `cxxTokenChainPrepend` adds a token before the head. -/
def cxxTokenChainPrepend (c : CXXTokenChain) (t : CXXToken) : CXXTokenChain :=
  t :: c

/-- Modelled from the spec: `cxxTokenChainDestroyLast` removes the tail. -/
def cxxTokenChainDestroyLast (c : CXXTokenChain) : CXXTokenChain :=
  c.dropLast

/-- Modelled from the spec: `cxxTokenChainFirst` is the head, `NULL` when empty. -/
def cxxTokenChainFirst (c : CXXTokenChain) : Option CXXToken :=
  c.head?

/-- Modelled from the spec: `cxxTokenChainLast` is the tail, `NULL` when empty. -/
def cxxTokenChainLast (c : CXXTokenChain) : Option CXXToken :=
  c.getLast?

/-! ## Scope stack, tags and the parser state -/

/-- Modelled from the spec: the `CXXTagKind` enum of `cxx_tag.h` is not part of the
sources at hand; these are the tag kinds the spec lists. -/
inductive CXXTagKind where
  | CLASS | MACRO | ENUMERATOR | FUNCTION | ENUM | INCLUDE | MEMBER | NAMESPACE
  | PROTOTYPE | STRUCT | TYPEDEF | UNION | VARIABLE | PARAMETER
  deriving DecidableEq, Repr

/-- Modelled from the spec: the kind-options table `cxxTagGetKindOptions()` is not part
of the sources at hand; the entry `name` of a kind is its keyword. -/
def CXXTagKind.name : CXXTagKind → String
  | .CLASS => "class"
  | .MACRO => "macro"
  | .ENUMERATOR => "enumerator"
  | .FUNCTION => "function"
  | .ENUM => "enum"
  | .INCLUDE => "header"
  | .MEMBER => "member"
  | .NAMESPACE => "namespace"
  | .PROTOTYPE => "prototype"
  | .STRUCT => "struct"
  | .TYPEDEF => "typedef"
  | .UNION => "union"
  | .VARIABLE => "variable"
  | .PARAMETER => "parameter"

/-- Modelled from the spec: access specifier of a scope (`cxx_scope.h`). -/
inductive CXXScopeAccess where
  | Unknown | Public | Private | Protected
  deriving DecidableEq, Repr

/-- Modelled from the spec: one entry of the scope stack, the lexeme of the owned name
token with the kind and the current access of the scope. -/
structure CXXScope where
  name : String
  kind : CXXTagKind
  access : CXXScopeAccess
  deriving DecidableEq, Repr

/-- Modelled from the spec: a tag record as handed to the host, with the scope stack
that was in force when the tag was begun (bottom of the stack first). -/
structure CXXTag where
  name : String
  kind : CXXTagKind
  lineNumber : Nat
  scope : List CXXScope
  typeRef : Option (String × String)
  inheritance : Option String
  isFileScope : Bool
  deriving DecidableEq, Repr

/-- Calls made to the collaborators that the parser only drives: the variable
extractor, the function-signature scanner and the emitter of function tags. -/
inductive CXXCall where
  | extractVariableDeclarations (chain : CXXTokenChain)
  | lookForFunctionSignature (chain : CXXTokenChain)
  | emitFunctionTags (eTagKind : CXXTagKind)

/-- The parser state `g_cxx` (`CXXParserState`), followed by the state of the
services the parser drives: the tokens the lexer has not delivered yet, the
scope stack (bottom first), the tags committed so far (oldest first), the
counter of anonymous names and the record of collaborator calls. -/
structure CXXParserState where
  pTokenChain : CXXTokenChain
  pTemplateTokenChain : Option CXXTokenChain
  pToken : Option CXXToken
  uKeywordState : Nat
  bParsingTemplateAngleBrackets : Bool
  bParsingClassStructOrUnionDeclaration : Bool
  eLanguage : Int
  eCPPLanguage : Int
  eCLanguage : Int
  input : List CXXToken
  scopes : List CXXScope
  tags : List CXXTag
  iAnonymousCount : Nat
  calls : List CXXCall

/-- Ways a run of the embedding can stop without the C function returning: the fuel
of the embedding is used up, `NULL` is dereferenced, or an object that has been
destroyed is used. -/
inductive Fault where
  | outOfFuel
  | nullPointer
  | useAfterFree
  deriving DecidableEq, Repr

/-- The collaborators of `cxx_parser.c` that are defined in other files: the lambda
detector and handler, the block parser, the variable extractor (which reports
the tags it emits and the chain as it leaves it) and the host's header-file
test. -/
structure CXXCollaborators where
  cxxParserOpeningBracketIsLambda : CXXParserState → Option CXXToken
  cxxParserHandleLambda : CXXToken → CXXParserState → Bool × CXXParserState
  cxxParserParseBlock : Bool → CXXParserState → Bool × CXXParserState
  extractVariableDeclarations : CXXParserState → List CXXTag × CXXTokenChain
  isInputHeaderFile : Bool

/-- Modelled from the spec: the macro `cxxParserCurrentLanguageIsCPP()` of
`cxx_parser_internal.h`; the selected language is C++ when it is the language the
C++ parser was initialised with. -/
def cxxParserCurrentLanguageIsCPP (st : CXXParserState) : Bool :=
  st.eLanguage == st.eCPPLanguage

/-- Modelled from the spec: `cxxParserParseNextToken` (`cxx_parser_tokenizer.c`) is not
part of the sources at hand.  It appends the next token of the input to the active
chain, makes it the current token and returns true; at the end of the input the
token it appends and makes current has type EOF and it returns false. -/
def cxxParserParseNextToken (st : CXXParserState) : Bool × CXXParserState :=
  match st.input with
  | [] =>
      (false, { st with pTokenChain := cxxTokenChainAppend st.pTokenChain cxxTokenEOF,
                        pToken := some cxxTokenEOF })
  | t :: rest =>
      (true, { st with pTokenChain := cxxTokenChainAppend st.pTokenChain t,
                       pToken := some t,
                       input := rest })

/-! ## The subchain condenser -/

/-- The closer mask of an opener type, `eType << 4` on `unsigned int`. -/
def shl4 (x : Nat) : Nat := (x <<< 4) % 2 ^ 32

/-- The chain-marker type of an opener type, `eType << 8` on `unsigned int`. -/
def shl8 (x : Nat) : Nat := (x <<< 8) % 2 ^ 32

/-- A mask test `a & b` used as a C condition. -/
def maskTest (a b : Nat) : Bool := a &&& b != 0

/-- The chain token built at lines 74-76: a fresh token whose type is the opener type
shifted left by 8 and whose `pChain` is the inner chain. -/
def subchainMarker (eOpenerType : Nat) (pChain : CXXTokenChain) : CXXToken :=
  .mk (shl8 eOpenerType) cxxTokenCreate.eKeyword cxxTokenCreate.pszWord
    cxxTokenCreate.iLineNumber cxxTokenCreate.bFollowedBySpace (some pChain)

/-- The terminator mask of a nested parse (lines 78-80): the opener type shifted left
by 4, with EOF added when `bAcceptEOF` is set. -/
def subchainTerminators (eOpenerType : Nat) (bAcceptEOF : Bool) : Nat :=
  shl4 eOpenerType ||| (if bAcceptEOF then CXXTokenTypeEOF else 0)

mutual
/-- Embedding of `cxxParserParseAndCondenseCurrentSubchain` (lines 65-88).  The marker
token points to the inner chain, which is `g_cxx.pTokenChain` during the nested
parse; the marker therefore owns the inner chain as the nested parse leaves it. -/
def cxxParserParseAndCondenseCurrentSubchain (env : CXXCollaborators) (fuel : Nat)
    (uInitialSubchainMarkerTypes : Nat) (bAcceptEOF : Bool) (st : CXXParserState) :
    Except Fault (Bool × CXXParserState) :=
  match fuel with
  | 0 => .error .outOfFuel
  | fuel + 1 =>
    let pCurrentChain := st.pTokenChain
    match cxxTokenChainTakeLast pCurrentChain with
    | none => .error .nullPointer
    | some (pInitial, pCurrentChain1) =>
      match st.pToken with
      | none => .error .nullPointer
      | some pToken =>
        let uTokenTypes := subchainTerminators pToken.eType bAcceptEOF
        match cxxParserParseAndCondenseSubchainsUpToOneOf env fuel uTokenTypes
            uInitialSubchainMarkerTypes
            { st with pTokenChain := cxxTokenChainAppend [] pInitial } with
        | .error e => .error e
        | .ok (bRet, st1) =>
          let pChainToken := subchainMarker pToken.eType st1.pTokenChain
          let pCurrentChain2 := cxxTokenChainAppend pCurrentChain1 pChainToken
          .ok (bRet, { st1 with pTokenChain := pCurrentChain2,
                                pToken := cxxTokenChainLast pCurrentChain2 })
termination_by structural fuel
/-- Embedding of `cxxParserParseAndCondenseSubchainsUpToOneOf` (lines 98-181): the
first read, then the `for(;;)` loop. -/
def cxxParserParseAndCondenseSubchainsUpToOneOf (env : CXXCollaborators) (fuel : Nat)
    (uTokenTypes : Nat) (uInitialSubchainMarkerTypes : Nat) (st : CXXParserState) :
    Except Fault (Bool × CXXParserState) :=
  match fuel with
  | 0 => .error .outOfFuel
  | fuel + 1 =>
    match cxxParserParseNextToken st with
    | (false, st1) => .ok (maskTest uTokenTypes CXXTokenTypeEOF, st1)
    | (true, st1) =>
      cxxParserParseAndCondenseSubchainsUpToOneOfLoop env fuel uTokenTypes
        uInitialSubchainMarkerTypes (shl4 uInitialSubchainMarkerTypes) st1
termination_by structural fuel
/-- The `for(;;)` loop of `cxxParserParseAndCondenseSubchainsUpToOneOf` (lines 112-176),
entered with a current token; one unit of fuel per iteration. -/
def cxxParserParseAndCondenseSubchainsUpToOneOfLoop (env : CXXCollaborators) (fuel : Nat)
    (uTokenTypes : Nat) (uInitialSubchainMarkerTypes : Nat) (uFinalSubchainMarkerTypes : Nat)
    (st : CXXParserState) : Except Fault (Bool × CXXParserState) :=
  match fuel with
  | 0 => .error .outOfFuel
  | fuel + 1 =>
    match st.pToken with
    | none => .error .nullPointer
    | some pToken =>
      if maskTest pToken.eType uTokenTypes then
        .ok (true, st)
      else if maskTest pToken.eType uInitialSubchainMarkerTypes then
        let r : Except Fault (Bool × CXXParserState) :=
          match (if maskTest pToken.eType CXXTokenTypeOpeningBracket
                    && cxxParserCurrentLanguageIsCPP st
                 then env.cxxParserOpeningBracketIsLambda st else none) with
          | some pParenthesis => .ok (env.cxxParserHandleLambda pParenthesis st)
          | none =>
            cxxParserParseAndCondenseCurrentSubchain env fuel uInitialSubchainMarkerTypes
              (maskTest uTokenTypes CXXTokenTypeEOF) st
        match r with
        | .error e => .error e
        | .ok (false, st1) => .ok (false, st1)
        | .ok (true, st1) =>
          match st1.pToken with
          | none => .error .nullPointer
          | some pToken1 =>
            if maskTest pToken1.eType uTokenTypes then
              .ok (true, st1)
            else
              match cxxParserParseNextToken st1 with
              | (false, st2) => .ok (maskTest uTokenTypes CXXTokenTypeEOF, st2)
              | (true, st2) =>
                cxxParserParseAndCondenseSubchainsUpToOneOfLoop env fuel uTokenTypes
                  uInitialSubchainMarkerTypes uFinalSubchainMarkerTypes st2
      else if maskTest pToken.eType uFinalSubchainMarkerTypes then
        .ok (false, st)
      else
        match cxxParserParseNextToken st with
        | (false, st1) => .ok (maskTest uTokenTypes CXXTokenTypeEOF, st1)
        | (true, st1) =>
          cxxParserParseAndCondenseSubchainsUpToOneOfLoop env fuel uTokenTypes
            uInitialSubchainMarkerTypes uFinalSubchainMarkerTypes st1
termination_by structural fuel
end

/-- Embedding of `cxxParserParseUpToOneOf` (lines 193-199): the condenser with the
default opener set. -/
def cxxParserParseUpToOneOf (env : CXXCollaborators) (fuel : Nat) (uTokenTypes : Nat)
    (st : CXXParserState) : Except Fault (Bool × CXXParserState) :=
  cxxParserParseAndCondenseSubchainsUpToOneOf env fuel uTokenTypes
    (CXXTokenTypeOpeningBracket ||| CXXTokenTypeOpeningParenthesis
      ||| CXXTokenTypeOpeningSquareParenthesis) st

/-! ## Keyword state, scope service and tag sink -/

/-- Modelled from the spec: the `CXXParserKeywordState` flags of `cxx_parser_internal.h`
are not part of the sources at hand; each modifier keyword seen in the statement is
one bit of `uKeywordState`. -/
def CXXParserKeywordStateSeenTypedef : Nat := 1 <<< 0
/-- Modelled from the spec: the `return` keyword has been seen. -/
def CXXParserKeywordStateSeenReturn : Nat := 1 <<< 1
/-- Modelled from the spec: the `inline` keyword has been seen. -/
def CXXParserKeywordStateSeenInline : Nat := 1 <<< 2
/-- Modelled from the spec: the `explicit` keyword has been seen. -/
def CXXParserKeywordStateSeenExplicit : Nat := 1 <<< 3
/-- Modelled from the spec: the `operator` keyword has been seen. -/
def CXXParserKeywordStateSeenOperator : Nat := 1 <<< 4
/-- Modelled from the spec: the `virtual` keyword has been seen. -/
def CXXParserKeywordStateSeenVirtual : Nat := 1 <<< 5
/-- Modelled from the spec: the `static` keyword has been seen. -/
def CXXParserKeywordStateSeenStatic : Nat := 1 <<< 6
/-- Modelled from the spec: the `extern` keyword has been seen. -/
def CXXParserKeywordStateSeenExtern : Nat := 1 <<< 7

/-- Modelled from the spec: `cxxScopePush` (`cxx_scope.c`) pushes a scope named by the
token, with the given kind and access, on top of the stack. -/
def cxxScopePush (pToken : CXXToken) (eKind : CXXTagKind) (eAccess : CXXScopeAccess)
    (st : CXXParserState) : CXXParserState :=
  { st with scopes := st.scopes ++ [{ name := pToken.pszWord, kind := eKind, access := eAccess }] }

/-- Modelled from the spec: `cxxScopePop` (`cxx_scope.c`) removes the top of the stack. -/
def cxxScopePop (st : CXXParserState) : CXXParserState :=
  { st with scopes := st.scopes.dropLast }

/-- Modelled from the spec: `cxxScopeGetFullNameAsString` (`cxx_scope.c`) renders the
qualified name of the current scope, the names of the stack joined by `::`; it is
`NULL` when the stack is empty. -/
def cxxScopeGetFullNameAsString (st : CXXParserState) : Option String :=
  match st.scopes with
  | [] => none
  | scopes => some ("::".intercalate (scopes.map (·.name)))

/-- Modelled from the spec: `cxxTagBegin` (`cxx_tag.c`) returns the handle of a tag in
progress, named and anchored as asked and placed in the scope stack in force. -/
def cxxTagBegin (szName : String) (eKind : CXXTagKind) (pToken : CXXToken)
    (st : CXXParserState) : Option CXXTag :=
  some { name := szName, kind := eKind, lineNumber := pToken.iLineNumber, scope := st.scopes,
         typeRef := none, inheritance := none, isFileScope := false }

/-- Modelled from the spec: `cxxTagCommit` (`cxx_tag.c`) publishes the tag in progress. -/
def cxxTagCommit (tag : CXXTag) (st : CXXParserState) : CXXParserState :=
  { st with tags := st.tags ++ [tag] }

/-- Modelled from the spec: `cxxTokenCreateAnonymousIdentifier` (`cxx_token.c`) makes an
identifier token with a fresh anonymous name. -/
def cxxTokenCreateAnonymousIdentifier (st : CXXParserState) : CXXToken × CXXParserState :=
  (.mk CXXTokenTypeIdentifier cxxTokenCreate.eKeyword
      ("__anon" ++ toString st.iAnonymousCount) cxxTokenCreate.iLineNumber
      cxxTokenCreate.bFollowedBySpace none,
    { st with iAnonymousCount := st.iAnonymousCount + 1 })

/-- Modelled from the spec: `cxxTokenChainLastTokenOfType` (`cxx_token_chain.c`) searches
the chain from its tail for a token whose type is in the mask; the result is the
position of the token, `none` for `NULL`. -/
def cxxTokenChainLastTokenOfType (c : CXXTokenChain) (uTokenTypes : Nat) : Option Nat :=
  match c.reverse.findIdx? (fun t => maskTest t.eType uTokenTypes) with
  | none => none
  | some i => some (c.length - 1 - i)

/-- Modelled from the spec: `cxxTokenChainTake` (`cxx_token_chain.c`) detaches the token
at the given position from the chain. -/
def cxxTokenChainTake (c : CXXTokenChain) (i : Nat) : CXXTokenChain :=
  c.eraseIdx i

mutual
/-- Modelled from the spec: the text of a token as `cxxTokenChainCondense` renders it,
the lexeme of a plain token and the joined text of the chain of a marker. -/
def cxxTokenAppendToString : CXXToken → String
  | .mk _ _ w _ _ none => w
  | .mk _ _ _ _ _ (some c) => cxxTokenChainJoin c
/-- Modelled from the spec: the text of a chain, the texts of its tokens in order, each
followed by a space when the token was followed by one. -/
def cxxTokenChainJoin : List CXXToken → String
  | [] => ""
  | t :: ts =>
    cxxTokenAppendToString t ++ (if t.bFollowedBySpace then " " else "") ++ cxxTokenChainJoin ts
end

/-- Modelled from the spec: `cxxTokenChainCondense` (`cxx_token_chain.c`) merges the
tokens of a chain of more than one token into a single token that carries their
text. -/
def cxxTokenChainCondense (c : CXXTokenChain) : CXXTokenChain :=
  match c with
  | [] => []
  | [t] => [t]
  | t :: ts =>
    [.mk CXXTokenTypeUnknown cxxTokenCreate.eKeyword (cxxTokenChainJoin (t :: ts))
      t.iLineNumber ((t :: ts).getLast?.map (·.bFollowedBySpace) |>.getD false) none]

/-- The variable extractor as the parser drives it: `cxxParserExtractVariableDeclarations`
(`cxx_parser_variable.c`) is handed the active chain, emits the tags it finds and
leaves the chain as it likes; the call is recorded. -/
def cxxParserExtractVariableDeclarations (env : CXXCollaborators) (st : CXXParserState) :
    CXXParserState :=
  { st with tags := st.tags ++ (env.extractVariableDeclarations st).1,
            pTokenChain := (env.extractVariableDeclarations st).2,
            calls := st.calls ++ [.extractVariableDeclarations st.pTokenChain] }

/-! ## Statements, enums and classes -/

/-- Embedding of `cxxParserNewStatement` (lines 42-56).  `cppEndStatement` acts on the
preprocessor only and leaves the stream of tokens as it is. -/
def cxxParserNewStatement (st : CXXParserState) : CXXParserState :=
  { st with pTokenChain := [], pTemplateTokenChain := none, uKeywordState := 0 }

/-- The token before the current token (`g_cxx.pToken->pPrev`), the current token being
the tail of the active chain. -/
def currentTokenPrev (st : CXXParserState) : Option CXXToken :=
  st.pTokenChain.dropLast.getLast?

/-- Embedding of `cxxParserParseEnumStructClassOrUnionFullDeclarationTrailer`
(lines 204-281). -/
def cxxParserParseEnumStructClassOrUnionFullDeclarationTrailer (env : CXXCollaborators)
    (fuel : Nat) (bParsingTypedef : Bool) (eTagKind : CXXTagKind) (szTypeName : Option String)
    (st : CXXParserState) : Except Fault (Bool × CXXParserState) :=
  let st := { st with pTokenChain := [] }
  match cxxParserParseUpToOneOf env fuel (CXXTokenTypeEOF ||| CXXTokenTypeSemicolon) st with
  | .error e => .error e
  | .ok (false, st) => .ok (false, st)
  | .ok (true, st) =>
    match st.pToken with
    | none => .error .nullPointer
    | some pToken =>
      if maskTest pToken.eType CXXTokenTypeEOF then .ok (true, st)
      else if st.pTokenChain.length < 2 then .ok (true, st)
      else if bParsingTypedef then
        let st := { st with pTokenChain := cxxTokenChainDestroyLast st.pTokenChain }
        match cxxTokenChainLast st.pTokenChain with
        | none => .ok (true, st)
        | some pLast =>
          if pLast.eType == CXXTokenTypeIdentifier then
            match cxxTagBegin pLast.pszWord .TYPEDEF pLast st with
            | none => .ok (true, st)
            | some tag =>
              let tag :=
                match szTypeName with
                | some szTypeName => { tag with typeRef := some (eTagKind.name, szTypeName) }
                | none => tag
              let tag := { tag with isFileScope := !env.isInputHeaderFile }
              .ok (true, cxxTagCommit tag st)
          else .ok (true, st)
      else
        match szTypeName with
        | none => .error .nullPointer
        | some szTypeName =>
          let pIdentifier : CXXToken :=
            .mk CXXTokenTypeIdentifier cxxTokenCreate.eKeyword szTypeName
              cxxTokenCreate.iLineNumber true none
          let st := { st with pTokenChain := cxxTokenChainPrepend st.pTokenChain pIdentifier }
          let pKeyword : CXXToken :=
            .mk CXXTokenTypeKeyword cxxTokenCreate.eKeyword eTagKind.name
              cxxTokenCreate.iLineNumber true none
          let st := { st with pTokenChain := cxxTokenChainPrepend st.pTokenChain pKeyword }
          .ok (true, cxxParserExtractVariableDeclarations env st)

/-- The backward walk of lines 364-377 (and 585-598) over the tokens before the name,
nearest first: the number of `::` + identifier pairs that precede the name. -/
def qualifierPairs : List CXXToken → Nat
  | pPrev :: pPrev2 :: rest =>
    if pPrev.eType != CXXTokenTypeMultipleColons then 0
    else if pPrev2.eType != CXXTokenTypeIdentifier then 0
    else qualifierPairs rest + 1
  | _ => 0

/-- The loop of lines 379-386 (and 600-607): while `pNamespaceBegin` is not the name,
take the token at `pNamespaceBegin` out of the chain, push it as a class scope of
unknown access and step over the `::` that followed it.  Positions after the token
taken move down by one. -/
def pushQualifierScopes (fuel : Nat) (pNamespaceBegin pName : Nat) (iPushedScopes : Nat)
    (st : CXXParserState) : Except Fault (Nat × Nat × CXXParserState) :=
  match fuel with
  | 0 => .error .outOfFuel
  | fuel + 1 =>
    if pNamespaceBegin == pName then .ok (pName, iPushedScopes, st)
    else
      match st.pTokenChain.get? pNamespaceBegin with
      | none => .error .nullPointer
      | some pToken =>
        let st := { st with pTokenChain := cxxTokenChainTake st.pTokenChain pNamespaceBegin }
        let st := cxxScopePush pToken .CLASS .Unknown st
        pushQualifierScopes fuel (pNamespaceBegin + 1) (pName - 1) (iPushedScopes + 1) st

/-- Lines 356-393 of `cxxParserParseEnum` and, word for word, lines 577-614 of
`cxxParserParseClassStructOrUnion`: find the last identifier of the chain, push the
scopes of its qualifiers, take the name out of the chain; without an identifier the
name is anonymous.  The result is the name token and the number of scopes pushed. -/
def cxxParserExtractQualifiedName (st : CXXParserState) :
    Except Fault (CXXToken × Nat × CXXParserState) :=
  match cxxTokenChainLastTokenOfType st.pTokenChain CXXTokenTypeIdentifier with
  | some pName =>
    let pNamespaceBegin := pName - 2 * qualifierPairs (st.pTokenChain.take pName).reverse
    match pushQualifierScopes (st.pTokenChain.length + 1) pNamespaceBegin pName 0 st with
    | .error e => .error e
    | .ok (pName, iPushedScopes, st) =>
      match st.pTokenChain.get? pName with
      | none => .error .nullPointer
      | some pToken =>
        .ok (pToken, iPushedScopes,
          { st with pTokenChain := cxxTokenChainTake st.pTokenChain pName })
  | none =>
    let (pToken, st) := cxxTokenCreateAnonymousIdentifier st
    .ok (pToken, 0, st)

/-- The loop of lines 440-444 (and 668-672): pop `iPushedScopes` scopes. -/
def popScopes (iPushedScopes : Nat) (st : CXXParserState) : CXXParserState :=
  match iPushedScopes with
  | 0 => st
  | n + 1 => popScopes n (cxxScopePop st)

/-- The enumerator loop of `cxxParserParseEnum` (lines 411-438); it returns false on the
failure return of line 420. -/
def cxxParserParseEnumBlock (env : CXXCollaborators) (fuel : Nat) (st : CXXParserState) :
    Except Fault (Bool × CXXParserState) :=
  match fuel with
  | 0 => .error .outOfFuel
  | fuel + 1 =>
    let st := { st with pTokenChain := [] }
    match cxxParserParseUpToOneOf env fuel
        (CXXTokenTypeComma ||| CXXTokenTypeClosingBracket ||| CXXTokenTypeEOF) st with
    | .error e => .error e
    | .ok (false, st) => .ok (false, st)
    | .ok (true, st) =>
      let pFirst := cxxTokenChainFirst st.pTokenChain
      let st :=
        match pFirst with
        | some pFirst =>
          if st.pTokenChain.length > 1 && pFirst.eType == CXXTokenTypeIdentifier then
            match cxxTagBegin pFirst.pszWord .ENUMERATOR pFirst st with
            | some tag => cxxTagCommit { tag with isFileScope := !env.isInputHeaderFile } st
            | none => st
          else st
        | none => st
      match st.pToken with
      | none => .error .nullPointer
      | some pToken =>
        if maskTest pToken.eType (CXXTokenTypeEOF ||| CXXTokenTypeClosingBracket) then
          .ok (true, st)
        else cxxParserParseEnumBlock env fuel st

/-- Embedding of `cxxParserParseEnum` (lines 283-454). -/
def cxxParserParseEnum (env : CXXCollaborators) (fuel : Nat) (st : CXXParserState) :
    Except Fault (Bool × CXXParserState) :=
  let st := { st with pTokenChain := [] }
  match cxxParserParseUpToOneOf env fuel
      (CXXTokenTypeEOF ||| CXXTokenTypeSemicolon ||| CXXTokenTypeParenthesisChain
        ||| CXXTokenTypeOpeningBracket) st with
  | .error e => .error e
  | .ok (false, st) => .ok (false, st)
  | .ok (true, st) =>
    match st.pToken with
    | none => .error .nullPointer
    | some pToken =>
      if pToken.eType == CXXTokenTypeParenthesisChain then .ok (true, st)
      else if pToken.eType == CXXTokenTypeSemicolon then
        if st.pTokenChain.length > 3 then
          if maskTest st.uKeywordState CXXParserKeywordStateSeenTypedef then
            match currentTokenPrev st with
            | none => .error .nullPointer
            | some pPrev =>
              if pPrev.eType == CXXTokenTypeIdentifier then
                match cxxTagBegin pPrev.pszWord .TYPEDEF pPrev st with
                | some tag =>
                  .ok (true, cxxParserNewStatement
                    (cxxTagCommit { tag with isFileScope := !env.isInputHeaderFile } st))
                | none => .ok (true, cxxParserNewStatement st)
              else .ok (true, cxxParserNewStatement st)
          else .ok (true, cxxParserNewStatement (cxxParserExtractVariableDeclarations env st))
        else .ok (true, cxxParserNewStatement st)
      else if pToken.eType == CXXTokenTypeEOF then .ok (true, cxxParserNewStatement st)
      else
        match cxxParserExtractQualifiedName st with
        | .error e => .error e
        | .ok (pEnumName, iPushedScopes, st) =>
          let st :=
            match cxxTagBegin pEnumName.pszWord .ENUM pEnumName st with
            | some tag => cxxTagCommit { tag with isFileScope := !env.isInputHeaderFile } st
            | none => st
          let st := cxxScopePush pEnumName .ENUM .Public st
          let iPushedScopes := iPushedScopes + 1
          let pScopeName := cxxScopeGetFullNameAsString st
          match cxxParserParseEnumBlock env fuel st with
          | .error e => .error e
          | .ok (false, st) => .ok (false, st)
          | .ok (true, st) =>
            let st := popScopes iPushedScopes st
            match pScopeName with
            | none => .error .nullPointer
            | some szScopeName =>
              match cxxParserParseEnumStructClassOrUnionFullDeclarationTrailer env fuel
                  (maskTest st.uKeywordState CXXParserKeywordStateSeenTypedef) .ENUM
                  (some szScopeName) st with
              | .error e => .error e
              | .ok (bRet, st) => .ok (bRet, cxxParserNewStatement st)

/-- The header loop of `cxxParserParseClassStructOrUnion` (lines 486-519): parse up to a
terminator and, while the parse stops at `<`, fold the template arguments and parse
on; it returns false on the failure returns of lines 494 and 517. -/
def cxxParserParseClassStructOrUnionHeader (env : CXXCollaborators) (fuel : Nat)
    (uTerminatorTypes : Nat) (st : CXXParserState) : Except Fault (Bool × CXXParserState) :=
  match fuel with
  | 0 => .error .outOfFuel
  | fuel + 1 =>
    match cxxParserParseUpToOneOf env fuel uTerminatorTypes st with
    | .error e => .error e
    | .ok (false, st) =>
      .ok (false, { st with bParsingClassStructOrUnionDeclaration := false })
    | .ok (true, st) =>
      match st.pToken with
      | none => .error .nullPointer
      | some pToken =>
        if pToken.eType != CXXTokenTypeSmallerThanSign then .ok (true, st)
        else
          match cxxParserParseAndCondenseCurrentSubchain env fuel
              (CXXTokenTypeOpeningParenthesis ||| CXXTokenTypeOpeningBracket
                ||| CXXTokenTypeOpeningSquareParenthesis ||| CXXTokenTypeSmallerThanSign)
              false st with
          | .error e => .error e
          | .ok (false, st) =>
            .ok (false, { st with bParsingClassStructOrUnionDeclaration := false })
          | .ok (true, st) => cxxParserParseClassStructOrUnionHeader env fuel uTerminatorTypes st

/-- Embedding of `cxxParserParseClassStructOrUnion` (lines 457-682).  The current token
is read after the chain that held it has been cleared (lines 616-618); the embedding
keeps its value. -/
def cxxParserParseClassStructOrUnion (env : CXXCollaborators) (fuel : Nat)
    (eTagKind : CXXTagKind) (st : CXXParserState) : Except Fault (Bool × CXXParserState) :=
  let bParsingTypedef := maskTest st.uKeywordState CXXParserKeywordStateSeenTypedef
  let st := { st with bParsingClassStructOrUnionDeclaration := true }
  let uTerminatorTypes :=
    (CXXTokenTypeEOF ||| CXXTokenTypeSingleColon ||| CXXTokenTypeSemicolon
      ||| CXXTokenTypeOpeningBracket ||| CXXTokenTypeSmallerThanSign)
      ||| (if eTagKind != .CLASS then CXXTokenTypeParenthesisChain else 0)
  match cxxParserParseClassStructOrUnionHeader env fuel uTerminatorTypes st with
  | .error e => .error e
  | .ok (false, st) => .ok (false, st)
  | .ok (true, st) =>
    let st := { st with bParsingClassStructOrUnionDeclaration := false }
    match st.pToken with
    | none => .error .nullPointer
    | some pToken =>
      if pToken.eType == CXXTokenTypeParenthesisChain then .ok (true, st)
      else if pToken.eType == CXXTokenTypeSemicolon then
        if st.pTokenChain.length > 3 then
          if bParsingTypedef then
            match currentTokenPrev st with
            | none => .error .nullPointer
            | some pPrev =>
              if pPrev.eType == CXXTokenTypeIdentifier then
                match cxxTagBegin pPrev.pszWord .TYPEDEF pPrev st with
                | some tag =>
                  .ok (true, cxxParserNewStatement
                    (cxxTagCommit { tag with isFileScope := !env.isInputHeaderFile } st))
                | none => .ok (true, cxxParserNewStatement st)
              else .ok (true, cxxParserNewStatement st)
          else .ok (true, cxxParserNewStatement (cxxParserExtractVariableDeclarations env st))
        else .ok (true, cxxParserNewStatement st)
      else if pToken.eType == CXXTokenTypeEOF then .ok (true, cxxParserNewStatement st)
      else
        match cxxParserExtractQualifiedName st with
        | .error e => .error e
        | .ok (pClassName, iPushedScopes, st) =>
          let st := { st with pTokenChain := [] }
          let rBase : Except Fault (Option Bool × CXXParserState) :=
            if pToken.eType == CXXTokenTypeSingleColon then
              match cxxParserParseUpToOneOf env fuel
                  (CXXTokenTypeEOF ||| CXXTokenTypeSemicolon ||| CXXTokenTypeOpeningBracket)
                  st with
              | .error e => .error e
              | .ok (false, st) => .ok (some false, st)
              | .ok (true, st) =>
                match st.pToken with
                | none => .error .nullPointer
                | some pToken =>
                  if maskTest pToken.eType (CXXTokenTypeSemicolon ||| CXXTokenTypeEOF) then
                    .ok (some true, cxxParserNewStatement st)
                  else
                    .ok (none,
                      { st with pTokenChain := cxxTokenChainDestroyLast st.pTokenChain })
            else .ok (none, st)
          match rBase with
          | .error e => .error e
          | .ok (some bRet, st) => .ok (bRet, st)
          | .ok (none, st) =>
            let st :=
              match cxxTagBegin pClassName.pszWord eTagKind pClassName st with
              | some tag =>
                let tag :=
                  if st.pTokenChain.length > 0 then
                    { tag with inheritance :=
                        (cxxTokenChainCondense st.pTokenChain).head?.map (·.pszWord) }
                  else tag
                let st :=
                  if st.pTokenChain.length > 0 then
                    { st with pTokenChain := cxxTokenChainCondense st.pTokenChain }
                  else st
                cxxTagCommit { tag with isFileScope := !env.isInputHeaderFile } st
              | none => st
            let st := cxxScopePush pClassName eTagKind
              (if eTagKind == .CLASS then .Private else .Public) st
            let pScopeName := cxxScopeGetFullNameAsString st
            match env.cxxParserParseBlock true st with
            | (false, st) => .ok (false, st)
            | (true, st) =>
              let iPushedScopes := iPushedScopes + 1
              let st := popScopes iPushedScopes st
              match pScopeName with
              | none => .error .nullPointer
              | some szScopeName =>
                match cxxParserParseEnumStructClassOrUnionFullDeclarationTrailer env fuel
                    bParsingTypedef eTagKind (some szScopeName) st with
                | .error e => .error e
                | .ok (bRet, st) => .ok (bRet, cxxParserNewStatement st)

/-! ## Notions used to state the properties of the condenser -/

/-- The opener step of the loop: lambda handler or nested subchain. -/
def openerStep (env : CXXCollaborators) (fuel O : Nat) (a : Bool) (pToken : CXXToken)
    (st : CXXParserState) : Except Fault (Bool × CXXParserState) :=
  match (if maskTest pToken.eType CXXTokenTypeOpeningBracket
            && cxxParserCurrentLanguageIsCPP st
         then env.cxxParserOpeningBracketIsLambda st else none) with
  | some pParenthesis => .ok (env.cxxParserHandleLambda pParenthesis st)
  | none => cxxParserParseAndCondenseCurrentSubchain env fuel O a st

/-- The lambda handler hands back a current token and reads input only forwards. -/
def LambdaHandlerTotal (env : CXXCollaborators) : Prop :=
  ∀ p st, (env.cxxParserHandleLambda p st).2.input.length ≤ st.input.length ∧
    (env.cxxParserHandleLambda p st).2.pToken ≠ none

/-- No lambda is ever handled from this state on: the language is C, or the lambda
detector never reports one. -/
def LambdaFree (env : CXXCollaborators) (st : CXXParserState) : Prop :=
  cxxParserCurrentLanguageIsCPP st = false ∨ ∀ s, env.cxxParserOpeningBracketIsLambda s = none

/-- The stop conditions of `cxxParserParseAndCondenseSubchainsUpToOneOf`, with the
value returned in each. -/
inductive StopCondition (env : CXXCollaborators) (T O : Nat) : Bool → CXXParserState → Prop
  | terminator (st : CXXParserState) (tok : CXXToken) :
      st.pToken = some tok → maskTest tok.eType T = true → StopCondition env T O true st
  | endOfInputAccepted (st : CXXParserState) :
      st.pToken = some cxxTokenEOF → st.input = [] → maskTest T CXXTokenTypeEOF = true →
      StopCondition env T O true st
  | endOfInput (st : CXXParserState) :
      st.pToken = some cxxTokenEOF → st.input = [] → maskTest T CXXTokenTypeEOF = false →
      StopCondition env T O false st
  | unmatchedCloser (st : CXXParserState) (tok : CXXToken) :
      st.pToken = some tok → maskTest tok.eType T = false → maskTest tok.eType O = false →
      maskTest tok.eType (shl4 O) = true → StopCondition env T O false st
  | nestedFailure (st : CXXParserState) (fuel : Nat) (s : CXXParserState) :
      cxxParserParseAndCondenseCurrentSubchain env fuel O (maskTest T CXXTokenTypeEOF) s
        = .ok (false, st) → StopCondition env T O false st
  | lambdaFailure (st : CXXParserState) (p : CXXToken) (s : CXXParserState) :
      env.cxxParserHandleLambda p s = (false, st) → StopCondition env T O false st


/-! ## Notions used to state the properties in C mode -/

/-- The state `st` with the active chain, the current token and the pending input
replaced; every other field is that of `st`. -/
def CXXParserState.frame (st : CXXParserState) (c : CXXTokenChain) (p : Option CXXToken)
    (i : List CXXToken) : CXXParserState :=
  { st with pTokenChain := c, pToken := p, input := i }

/-- The state `st` with tags added after those committed so far. -/
def CXXParserState.addTags (st : CXXParserState) (more : List CXXTag) : CXXParserState :=
  { st with tags := st.tags ++ more }

/-- A token type made of one bit of an `unsigned int`. -/
def IsTokenTypeBit (x : Nat) : Prop := ∃ k, k < 32 ∧ x = 1 <<< k

/-- A token as the lexer delivers it: one type bit and no chain. -/
def IsLexerToken (t : CXXToken) : Prop := IsTokenTypeBit t.eType ∧ t.pChain = none

mutual
/-- Every chain marker inside the token, at any depth, has the type of the head of its
chain shifted left by 8 (and its chain is not empty). -/
def CXXToken.subchainHeadsOK : CXXToken → Bool
  | .mk _ _ _ _ _ none => true
  | .mk ty _ _ _ _ (some c) =>
    (match c.head? with
      | some h => ty == shl8 h.eType
      | none => false) && chainSubchainHeadsOK c
/-- Every chain marker inside the chain satisfies `CXXToken.subchainHeadsOK`. -/
def chainSubchainHeadsOK : List CXXToken → Bool
  | [] => true
  | t :: ts => t.subchainHeadsOK && chainSubchainHeadsOK ts
end

mutual
/-- Every chain marker inside the token, at any depth, owns a chain whose tail has the
type of its head shifted left by 4, or, when `bAcceptEOF` is set, the type EOF. -/
def CXXToken.subchainTailsOK (bAcceptEOF : Bool) : CXXToken → Bool
  | .mk _ _ _ _ _ none => true
  | .mk _ _ _ _ _ (some c) =>
    (match c.head?, c.getLast? with
      | some h, some l =>
        l.eType == shl4 h.eType || (bAcceptEOF && l.eType == CXXTokenTypeEOF)
      | _, _ => false) && chainSubchainTailsOK bAcceptEOF c
/-- Every chain marker inside the chain satisfies `CXXToken.subchainTailsOK`. -/
def chainSubchainTailsOK (bAcceptEOF : Bool) : List CXXToken → Bool
  | [] => true
  | t :: ts => t.subchainTailsOK bAcceptEOF && chainSubchainTailsOK bAcceptEOF ts
end

/-- What the condenser leaves behind in C mode, from a state `st` whose active chain
is `c` followed by nothing the run keeps: the chain has grown by `new ++ [tok]`,
`tok` is the current token, only a prefix of the input has been consumed, and
every other field of the state is untouched; the markers built are well formed,
and on success the current token is a terminator. -/
def CondenserPost (T : Nat) (st : CXXParserState) (c : CXXTokenChain) (b : Bool)
    (st' : CXXParserState) : Prop :=
  ∃ new tok used, st' = st.frame (c ++ new ++ [tok]) (some tok) st'.input ∧
    st.input = used ++ st'.input ∧
    chainSubchainHeadsOK (new ++ [tok]) = true ∧
    (tok.eType = 0 ∨ IsTokenTypeBit tok.eType) ∧
    (b = true → maskTest tok.eType T = true ∧
      chainSubchainTailsOK (maskTest T CXXTokenTypeEOF) (new ++ [tok]) = true)

/-- What `cxxParserParseAndCondenseCurrentSubchain` leaves behind in C mode, from a
state whose active chain is `c ++ [t0]` with `t0` the current token. -/
def SubchainPost (a : Bool) (st : CXXParserState) (c : CXXTokenChain) (t0 : CXXToken)
    (b : Bool) (st' : CXXParserState) : Prop :=
  ∃ inner used,
    st' = st.frame (c ++ [subchainMarker t0.eType (t0 :: inner)])
      (some (subchainMarker t0.eType (t0 :: inner))) st'.input ∧
    st.input = used ++ st'.input ∧
    chainSubchainHeadsOK inner = true ∧
    (b = true → ∃ l, (t0 :: inner).getLast? = some l ∧
      maskTest l.eType (subchainTerminators t0.eType a) = true ∧
      (l.eType = 0 ∨ IsTokenTypeBit l.eType) ∧
      chainSubchainTailsOK a inner = true)

/-! ## Token sequences consumed at one level -/

/-- `Skips O T ins outs`: a parse with terminators `T` and openers `O` consumes the
tokens `ins` entirely at its own level and goes on: none of them is a terminator or
an unmatched closer at this level and every opener of `O` is balanced.  `outs` is
what they leave on the active chain, each balanced pair folded into its marker
(which is no terminator either). -/
inductive Skips (O : Nat) : Nat → List CXXToken → List CXXToken → Prop
  | nil (T : Nat) : Skips O T [] []
  | plain (T : Nat) (t : CXXToken) (ins outs : List CXXToken) :
      maskTest t.eType T = false → maskTest t.eType O = false →
      maskTest t.eType (shl4 O) = false →
      Skips O T ins outs → Skips O T (t :: ins) (t :: outs)
  | pair (T : Nat) (t : CXXToken) (inner innerOuts : List CXXToken) (cl : CXXToken)
      (ins outs : List CXXToken) :
      maskTest t.eType T = false → maskTest t.eType O = true →
      Skips O (subchainTerminators t.eType (maskTest T CXXTokenTypeEOF)) inner innerOuts →
      maskTest cl.eType (subchainTerminators t.eType (maskTest T CXXTokenTypeEOF)) = true →
      maskTest (shl8 t.eType) T = false →
      Skips O T ins outs →
      Skips O T (t :: inner ++ cl :: ins)
        (subchainMarker t.eType (t :: innerOuts ++ [cl]) :: outs)

/-- `EndsInside O T ins`: the tokens `ins` are the whole rest of the input and the
input ends inside at least one pair opened at the level of a parse with terminators
`T` and openers `O`: after tokens consumed at this level comes an opener whose
closer never arrives, whatever the depth of the unclosed pairs after it. -/
inductive EndsInside (O : Nat) : Nat → List CXXToken → Prop
  | here (T : Nat) (pre outs : List CXXToken) (t : CXXToken) (inner innerOuts : List CXXToken) :
      Skips O T pre outs →
      maskTest t.eType T = false → maskTest t.eType O = true →
      Skips O (subchainTerminators t.eType (maskTest T CXXTokenTypeEOF)) inner innerOuts →
      EndsInside O T (pre ++ t :: inner)
  | deeper (T : Nat) (pre outs : List CXXToken) (t : CXXToken) (inner : List CXXToken) :
      Skips O T pre outs →
      maskTest t.eType T = false → maskTest t.eType O = true →
      EndsInside O (subchainTerminators t.eType (maskTest T CXXTokenTypeEOF)) inner →
      EndsInside O T (pre ++ t :: inner)

/-! ## Concrete inputs -/

/-- A token as the lexer delivers it, with the given type and lexeme. -/
def lexerToken (eType : Nat) (pszWord : String) : CXXToken :=
  .mk eType (.other 0) pszWord 0 false none

/-- Collaborators that find no lambda, parse no block and extract no variable. -/
def idleCollaborators : CXXCollaborators where
  cxxParserOpeningBracketIsLambda := fun _ => none
  cxxParserHandleLambda := fun _ st => (true, st)
  cxxParserParseBlock := fun _ st => (true, st)
  extractVariableDeclarations := fun st => ([], st.pTokenChain)
  isInputHeaderFile := false

/-- The parser state at the start of a statement of a C file (as left by
`cxxCParserInitialize`: the C++ language is `-1`), with the given tokens pending, an
empty scope stack and no tag. -/
def startState (input : List CXXToken) : CXXParserState where
  pTokenChain := []
  pTemplateTokenChain := none
  pToken := none
  uKeywordState := 0
  bParsingTemplateAngleBrackets := false
  bParsingClassStructOrUnionDeclaration := false
  eLanguage := 0
  eCPPLanguage := -1
  eCLanguage := 0
  input := input
  scopes := []
  tags := []
  iAnonymousCount := 0
  calls := []

/-- The opener set of `cxxParserParseUpToOneOf` (lines 197). -/
def defaultOpeners : Nat :=
  CXXTokenTypeOpeningBracket ||| CXXTokenTypeOpeningParenthesis
    ||| CXXTokenTypeOpeningSquareParenthesis

/-- The identifier token with the given lexeme. -/
def tokIdentifier (pszWord : String) : CXXToken := lexerToken CXXTokenTypeIdentifier pszWord
/-- The number token with the given lexeme. -/
def tokNumber (pszWord : String) : CXXToken := lexerToken CXXTokenTypeNumber pszWord
/-- The token `(`. -/
def tokOpeningParenthesis : CXXToken := lexerToken CXXTokenTypeOpeningParenthesis "("
/-- The token `)`. -/
def tokClosingParenthesis : CXXToken := lexerToken CXXTokenTypeClosingParenthesis ")"
/-- The token `[`. -/
def tokOpeningSquareParenthesis : CXXToken :=
  lexerToken CXXTokenTypeOpeningSquareParenthesis "["
/-- The token `]`. -/
def tokClosingSquareParenthesis : CXXToken :=
  lexerToken CXXTokenTypeClosingSquareParenthesis "]"
/-- The opening brace token. -/
def tokOpeningBracket : CXXToken := lexerToken CXXTokenTypeOpeningBracket "\x7b"
/-- The closing brace token. -/
def tokClosingBracket : CXXToken := lexerToken CXXTokenTypeClosingBracket "\x7d"
/-- The token `;`. -/
def tokSemicolon : CXXToken := lexerToken CXXTokenTypeSemicolon ";"
/-- The token `,`. -/
def tokComma : CXXToken := lexerToken CXXTokenTypeComma ","
/-- The token `=`. -/
def tokAssignment : CXXToken := lexerToken CXXTokenTypeAssignment "="
/-- The token `>`. -/
def tokGreaterThanSign : CXXToken := lexerToken CXXTokenTypeGreaterThanSign ">"
/-- The token `::`. -/
def tokMultipleColons : CXXToken := lexerToken CXXTokenTypeMultipleColons "::"

/-! ## Enumerators as the spec describes them -/

/-- The terminators of an enumerator (line 415). -/
def enumeratorTerminators : Nat :=
  CXXTokenTypeComma ||| CXXTokenTypeClosingBracket ||| CXXTokenTypeEOF

/-- `EnumItems body chains`: `body` is the body of an enum after its opening brace, made
of comma-separated items and closed by a closing brace; each item is consumed at one
level (its brackets folded) and `chains` lists, in order, what each item leaves on
the chain, the item followed by its terminator. -/
inductive EnumItems : List CXXToken → List (List CXXToken) → Prop
  | last (item outs : List CXXToken) (cb : CXXToken) :
      Skips defaultOpeners enumeratorTerminators item outs →
      cb.eType = CXXTokenTypeClosingBracket →
      EnumItems (item ++ [cb]) [outs ++ [cb]]
  | more (item outs : List CXXToken) (cm : CXXToken) (rest : List CXXToken)
      (chains : List (List CXXToken)) :
      Skips defaultOpeners enumeratorTerminators item outs →
      cm.eType = CXXTokenTypeComma →
      EnumItems rest chains →
      EnumItems (item ++ cm :: rest) ((outs ++ [cm]) :: chains)

/-- The enumerator tag of an item, as the spec words it: one tag, named by the first
token, for an item whose first token is an identifier and whose chain (item plus
terminator) has more than one token; no tag otherwise. -/
def enumeratorTag (env : CXXCollaborators) (scopes : List CXXScope) (chain : List CXXToken) :
    Option CXXTag :=
  match chain.head? with
  | some pFirst =>
    if chain.length > 1 ∧ pFirst.eType = CXXTokenTypeIdentifier then
      some { name := pFirst.pszWord, kind := .ENUMERATOR, lineNumber := pFirst.iLineNumber,
             scope := scopes, typeRef := none, inheritance := none,
             isFileScope := !env.isInputHeaderFile }
    else none
  | none => none

/-- The enumerator tags of the items of a body, in source order. -/
def enumeratorTags (env : CXXCollaborators) (scopes : List CXXScope)
    (chains : List (List CXXToken)) : List CXXTag :=
  chains.filterMap (enumeratorTag env scopes)

/-- The state after the enumerator step of one item: the tag of the item, if any, is
committed. -/
def afterEnumerator (env : CXXCollaborators) (st : CXXParserState) : CXXParserState :=
  match cxxTokenChainFirst st.pTokenChain with
  | some pFirst =>
    if st.pTokenChain.length > 1 && pFirst.eType == CXXTokenTypeIdentifier then
      match cxxTagBegin pFirst.pszWord .ENUMERATOR pFirst st with
      | some tag => cxxTagCommit { tag with isFileScope := !env.isInputHeaderFile } st
      | none => st
    else st
  | none => st

/-! ## Qualified names -/

/-- The tokens `Q1 :: Q2 :: ... Qn ::` of the qualifiers of a name, given as the list
of the pairs of a qualifier and the `::` that follows it. -/
def qualifierTokens : List (CXXToken × CXXToken) → List CXXToken
  | [] => []
  | (q, c) :: rest => q :: c :: qualifierTokens rest

/-- The scope pushed for a qualifier: named by it, of kind class and unknown access. -/
def qualifierScope (q : CXXToken) : CXXScope :=
  { name := q.pszWord, kind := .CLASS, access := .Unknown }

/-- The tag begun for a name in the scope stack `scopes`, as `cxxParserParseEnum` and
`cxxParserParseClassStructOrUnion` commit it. -/
def definitionTag (env : CXXCollaborators) (name : CXXToken) (eKind : CXXTagKind)
    (scopes : List CXXScope) (inheritance : Option String) : CXXTag :=
  { name := name.pszWord, kind := eKind, lineNumber := name.iLineNumber, scope := scopes,
    typeRef := none, inheritance := inheritance, isFileScope := !env.isInputHeaderFile }

/-- The block parser, a collaborator, only adds tags, only consumes input and keeps
the language. -/
def BlockParserForward (env : CXXCollaborators) : Prop :=
  ∀ b st, (∃ more, (env.cxxParserParseBlock b st).2.tags = st.tags ++ more) ∧
    (env.cxxParserParseBlock b st).2.input.length ≤ st.input.length ∧
    (LambdaFree env st → LambdaFree env (env.cxxParserParseBlock b st).2)

/-- The terminators of the header of an enum (line 296). -/
def enumHeaderTerminators : Nat :=
  CXXTokenTypeEOF ||| CXXTokenTypeSemicolon ||| CXXTokenTypeParenthesisChain
    ||| CXXTokenTypeOpeningBracket

/-- The terminators of the header of a class, struct or union (lines 480-482). -/
def classHeaderTerminators (eTagKind : CXXTagKind) : Nat :=
  (CXXTokenTypeEOF ||| CXXTokenTypeSingleColon ||| CXXTokenTypeSemicolon
    ||| CXXTokenTypeOpeningBracket ||| CXXTokenTypeSmallerThanSign)
    ||| (if eTagKind != .CLASS then CXXTokenTypeParenthesisChain else 0)

/-! ## Example statements -/

/-- The tokens of `enum E { A, B = 2, C };` after the keyword `enum`. -/
def enumExampleTokens : List CXXToken :=
  [tokIdentifier "E", tokOpeningBracket, tokIdentifier "A", tokComma, tokIdentifier "B",
    tokAssignment, tokNumber "2", tokComma, tokIdentifier "C", tokClosingBracket, tokSemicolon]

/-- The enumerator tag of the name `szName` in the scope of the enum `E` of a C file. -/
def enumExampleTag (szName : String) : CXXTag :=
  { name := szName, kind := .ENUMERATOR, lineNumber := 0,
    scope := [{ name := "E", kind := .ENUM, access := .Public }],
    typeRef := none, inheritance := none, isFileScope := true }

/-- The tokens of `enum N::M::E { A };` after the keyword. -/
def qualifiedExampleTokens : List CXXToken :=
  [tokIdentifier "N", tokMultipleColons, tokIdentifier "M", tokMultipleColons,
    tokIdentifier "E", tokOpeningBracket, tokIdentifier "A", tokClosingBracket, tokSemicolon]

/-- The tokens of `enum E { A ) };` after the keyword `enum`. -/
def enumFailureTokens : List CXXToken :=
  [tokIdentifier "E", tokOpeningBracket, tokIdentifier "A", tokClosingParenthesis,
    tokClosingBracket, tokSemicolon]

/-! ## The analyzer of other statements -/

/-- Modelled from the spec: `cxxScopeGetKind` (`cxx_scope.c`) is the kind of the scope
on top of the stack, the "current-kind" of the scope service; outside every scope the
kind is that of the global namespace. -/
def cxxScopeGetKind (st : CXXParserState) : CXXTagKind :=
  match st.scopes.getLast? with
  | some s => s.kind
  | none => .NAMESPACE

/-- Modelled from the spec: `CXXFunctionSignatureInfo` (`cxx_parser_internal.h`) is what
the function-signature scanner returns, the name token plus the signature token. -/
structure CXXFunctionSignatureInfo where
  pIdentifier : CXXToken
  pSignature : CXXToken

/-- The collaborators of `cxxParserAnalyzeOtherStatement` that are defined in
`cxx_parser_function.c`: the function-signature scanner, which inspects a chain, and
the emitter of function tags, which reports the tags it commits. -/
structure CXXFunctionCollaborators where
  cxxParserLookForFunctionSignature : CXXTokenChain → Option CXXFunctionSignatureInfo
  cxxParserEmitFunctionTags : CXXFunctionSignatureInfo → CXXTagKind → CXXParserState → List CXXTag

/-- The keyword-state bits that make a statement a function for sure (lines 762-765). -/
def mustBeFunctionKeywords : Nat :=
  CXXParserKeywordStateSeenInline ||| CXXParserKeywordStateSeenExplicit
    ||| CXXParserKeywordStateSeenOperator ||| CXXParserKeywordStateSeenVirtual

/-- The classification of lines 752-770: 0 = no, 1 = maybe, 2 = only possibility. -/
def mayBeFunction (st : CXXParserState) : Nat :=
  if cxxScopeGetKind st == .FUNCTION then 0
  else if maskTest st.uKeywordState mustBeFunctionKeywords then 2
  else 1

/-- Embedding of `cxxParserAnalyzeOtherStatement` (lines 711-787).  The calls of the
scanner, of the emitter and of the variable extractor are recorded in `calls`. -/
def cxxParserAnalyzeOtherStatement (env : CXXCollaborators) (fenv : CXXFunctionCollaborators)
    (st : CXXParserState) : Except Fault CXXParserState :=
  if st.pTokenChain.length < 2 then .ok st
  else if maskTest st.uKeywordState CXXParserKeywordStateSeenReturn then .ok st
  else
    match cxxTokenChainFirst st.pTokenChain with
    | none => .error .nullPointer
    | some t =>
      if !maskTest t.eType (CXXTokenTypeIdentifier ||| CXXTokenTypeKeyword) then .ok st
      else
        let mayBeFunction := mayBeFunction st
        let r : Option CXXParserState × CXXParserState :=
          if mayBeFunction != 0 then
            let st := { st with calls := st.calls ++ [.lookForFunctionSignature st.pTokenChain] }
            match fenv.cxxParserLookForFunctionSignature st.pTokenChain with
            | some oInfo =>
              (some { st with
                  tags := st.tags ++ fenv.cxxParserEmitFunctionTags oInfo .PROTOTYPE st,
                  calls := st.calls ++ [.emitFunctionTags .PROTOTYPE] }, st)
            | none =>
              if mayBeFunction == 2 then (some st, st) else (none, st)
          else (none, st)
        match r with
        | (some st, _) => .ok st
        | (none, st) => .ok (cxxParserExtractVariableDeclarations env st)

/-! ## More example tokens -/

/-- The keyword token of the given keyword and lexeme. -/
def tokKeyword (eKeyword : CXXKeyword) (pszWord : String) : CXXToken :=
  .mk CXXTokenTypeKeyword eKeyword pszWord 0 false none
/-- The token `:`. -/
def tokSingleColon : CXXToken := lexerToken CXXTokenTypeSingleColon ":"
/-- The token `<`. -/
def tokSmallerThanSign : CXXToken := lexerToken CXXTokenTypeSmallerThanSign "<"
/-- The token `*`. -/
def tokStar : CXXToken := lexerToken CXXTokenTypeStar "*"
/-- The token `.`. -/
def tokDotOperator : CXXToken := lexerToken CXXTokenTypeDotOperator "."

/-- Collaborators whose function-signature scanner finds nothing. -/
def idleFunctionCollaborators : CXXFunctionCollaborators where
  cxxParserLookForFunctionSignature := fun _ => none
  cxxParserEmitFunctionTags := fun _ _ _ => []

/-- The statement passes the rejection checks of lines 725-745: at least two tokens on
the chain, no `return` seen, and a first token that is an identifier or a keyword. -/
def passesRejectionChecks (st : CXXParserState) : Prop :=
  2 ≤ st.pTokenChain.length ∧
  maskTest st.uKeywordState CXXParserKeywordStateSeenReturn = false ∧
  ∃ t, st.pTokenChain.head? = some t ∧
    maskTest t.eType (CXXTokenTypeIdentifier ||| CXXTokenTypeKeyword) = true

/-- The statement `a.operator+;` inside the body of the function `f`, the keyword
`operator` seen. -/
def operatorInFunctionState : CXXParserState :=
  { startState [] with
    pTokenChain := [tokIdentifier "a", tokDotOperator, tokKeyword .OPERATOR "operator",
      lexerToken CXXTokenTypeOperator "+", tokSemicolon],
    pToken := some tokSemicolon,
    uKeywordState := CXXParserKeywordStateSeenOperator,
    scopes := [{ name := "f", kind := .FUNCTION, access := .Unknown }] }

/-- The statement `virtual int x;` in the body of the class `C`, the keyword `virtual`
seen. -/
def virtualInClassState : CXXParserState :=
  { startState [] with
    pTokenChain := [tokKeyword .VIRTUAL "virtual", tokKeyword (.other 1) "int",
      tokIdentifier "x", tokSemicolon],
    pToken := some tokSemicolon,
    uKeywordState := CXXParserKeywordStateSeenVirtual,
    scopes := [{ name := "C", kind := .CLASS, access := .Private }] }

/-! ## The definition part of the class parser -/

/-- Lines 638-681 of `cxxParserParseClassStructOrUnion`, as a function of the state
reached after the header and the base clause (the chain holds the base clause): the
class tag with its inheritance, the scope of the class, the block, the pops and the
trailer. -/
def cxxParserParseClassStructOrUnionDefinition (env : CXXCollaborators) (fuel : Nat)
    (eTagKind : CXXTagKind) (bParsingTypedef : Bool) (pClassName : CXXToken)
    (iPushedScopes : Nat) (st : CXXParserState) : Except Fault (Bool × CXXParserState) :=
  let st :=
    match cxxTagBegin pClassName.pszWord eTagKind pClassName st with
    | some tag =>
      let tag :=
        if st.pTokenChain.length > 0 then
          { tag with inheritance :=
              (cxxTokenChainCondense st.pTokenChain).head?.map (·.pszWord) }
        else tag
      let st :=
        if st.pTokenChain.length > 0 then
          { st with pTokenChain := cxxTokenChainCondense st.pTokenChain }
        else st
      cxxTagCommit { tag with isFileScope := !env.isInputHeaderFile } st
    | none => st
  let st := cxxScopePush pClassName eTagKind
    (if eTagKind == .CLASS then .Private else .Public) st
  let pScopeName := cxxScopeGetFullNameAsString st
  match env.cxxParserParseBlock true st with
  | (false, st) => .ok (false, st)
  | (true, st) =>
    let iPushedScopes := iPushedScopes + 1
    let st := popScopes iPushedScopes st
    match pScopeName with
    | none => .error .nullPointer
    | some szScopeName =>
      match cxxParserParseEnumStructClassOrUnionFullDeclarationTrailer env fuel
          bParsingTypedef eTagKind (some szScopeName) st with
      | .error e => .error e
      | .ok (bRet, st) => .ok (bRet, cxxParserNewStatement st)

/-- The inheritance field of lines 642-646 for a base-clause chain: the lexeme of the
head of the condensed chain, nothing for an empty chain. -/
def classInheritance (base : CXXTokenChain) : Option String :=
  if base.length > 0 then (cxxTokenChainCondense base).head?.map (·.pszWord) else none

/-- The state in which the block parser is called for the body of a class (lines
638-657): the class tag is committed, then the scope of the class is pushed. -/
def classBlockEntry (env : CXXCollaborators) (eTagKind : CXXTagKind) (pClassName : CXXToken)
    (st : CXXParserState) : CXXParserState :=
  cxxScopePush pClassName eTagKind (if eTagKind == .CLASS then .Private else .Public)
    (cxxTagCommit
      { name := pClassName.pszWord, kind := eTagKind, lineNumber := pClassName.iLineNumber,
        scope := st.scopes, typeRef := none,
        inheritance := classInheritance st.pTokenChain,
        isFileScope := !env.isInputHeaderFile }
      (if st.pTokenChain.length > 0 then
        { st with pTokenChain := cxxTokenChainCondense st.pTokenChain }
      else st))

/-- The terminators of the base clause (line 622). -/
def baseClauseTerminators : Nat :=
  CXXTokenTypeEOF ||| CXXTokenTypeSemicolon ||| CXXTokenTypeOpeningBracket

/-- The terminators of the trailer (line 212). -/
def trailerTerminators : Nat := CXXTokenTypeEOF ||| CXXTokenTypeSemicolon

/-- The qualified name of a scope stack, the names joined by `::`. -/
def scopeFullName (scopes : List CXXScope) : String :=
  "::".intercalate (scopes.map (·.name))

/-! ## Example statements of the class parser -/

/-- The state in the middle of a statement of a C file: the tokens read so far are on
the chain, the last of them is the current token, and `input` is still to come. -/
def statementState (chain : CXXTokenChain) (input : List CXXToken) : CXXParserState :=
  { startState input with pTokenChain := chain, pToken := chain.getLast? }

/-- The tokens of `struct N::S : B;` after the keyword. -/
def classFailureTokens : List CXXToken :=
  [tokIdentifier "N", tokMultipleColons, tokIdentifier "S", tokSingleColon,
    tokIdentifier "B", tokSemicolon]

/-- The tokens of `struct S *getS();` after the keyword. -/
def functionExampleTokens : List CXXToken :=
  [tokIdentifier "S", tokStar, tokIdentifier "getS", tokOpeningParenthesis,
    tokClosingParenthesis, tokSemicolon]

/-- The marker of the folded pair `()`. -/
def emptyParenthesisChain : CXXToken :=
  subchainMarker CXXTokenTypeOpeningParenthesis [tokOpeningParenthesis, tokClosingParenthesis]

/-- Collaborators whose block parser stands for a body that holds no tag: it reads
the input up to and including the first closing brace and, as a block does at each of
its statements, starts a new statement. -/
def skippingCollaborators : CXXCollaborators where
  cxxParserOpeningBracketIsLambda := fun _ => none
  cxxParserHandleLambda := fun _ st => (true, st)
  cxxParserParseBlock := fun _ st =>
    (true, cxxParserNewStatement
      { st with input :=
          (st.input.dropWhile (fun t => t.eType != CXXTokenTypeClosingBracket)).drop 1 })
  extractVariableDeclarations := fun st => ([], st.pTokenChain)
  isInputHeaderFile := false

/-- The token `>`, followed by a space. -/
def tokGreaterThanSignSpace : CXXToken :=
  .mk CXXTokenTypeGreaterThanSign (.other 0) ">" 0 true none

/-- The tokens of `class A<T> : B<U> { };` after the keyword. -/
def inheritanceExampleTokens : List CXXToken :=
  [tokIdentifier "A", tokSmallerThanSign, tokIdentifier "T", tokGreaterThanSign,
    tokSingleColon, tokIdentifier "B", tokSmallerThanSign, tokIdentifier "U",
    tokGreaterThanSign, tokOpeningBracket, tokClosingBracket, tokSemicolon]

/-- The marker of the folded template arguments `<T>`. -/
def templateArgumentsChain : CXXToken :=
  subchainMarker CXXTokenTypeSmallerThanSign
    [tokSmallerThanSign, tokIdentifier "T", tokGreaterThanSign]

/-- The tokens of `struct S { };` after the keyword. -/
def structExampleTokens : List CXXToken :=
  [tokIdentifier "S", tokOpeningBracket, tokClosingBracket, tokSemicolon]

/-! ## Tags and tokens of the trailer -/

/-- The typedef tag of lines 236-255: named by the token, begun in the scope stack in
force, with the type reference made of the kind name and the type name. -/
def typedefTag (env : CXXCollaborators) (pLast : CXXToken) (eTagKind : CXXTagKind)
    (szTypeName : String) (scopes : List CXXScope) : CXXTag :=
  { name := pLast.pszWord, kind := .TYPEDEF, lineNumber := pLast.iLineNumber, scope := scopes,
    typeRef := some (eTagKind.name, szTypeName), inheritance := none,
    isFileScope := !env.isInputHeaderFile }

/-- The keyword token faked at line 271: the kind name, followed by a space. -/
def fakeKeyword (eTagKind : CXXTagKind) : CXXToken :=
  .mk CXXTokenTypeKeyword cxxTokenCreate.eKeyword eTagKind.name cxxTokenCreate.iLineNumber
    true none

/-- The identifier token faked at line 265: the type name, followed by a space. -/
def fakeIdentifier (szTypeName : String) : CXXToken :=
  .mk CXXTokenTypeIdentifier cxxTokenCreate.eKeyword szTypeName cxxTokenCreate.iLineNumber
    true none

/-- The tokens of `T[10];`, the trailer of `typedef enum { X, Y } T[10];`. -/
def arrayTrailerTokens : List CXXToken :=
  [tokIdentifier "T", tokOpeningSquareParenthesis, tokNumber "10",
    tokClosingSquareParenthesis, tokSemicolon]

/-- The marker of the folded pair `[10]`. -/
def arraySizeChain : CXXToken :=
  subchainMarker CXXTokenTypeOpeningSquareParenthesis
    [tokOpeningSquareParenthesis, tokNumber "10", tokClosingSquareParenthesis]

/-- The tokens of `typedef enum { X, Y } T;` after the keyword `enum`. -/
def typedefEnumTokens : List CXXToken :=
  [tokOpeningBracket, tokIdentifier "X", tokComma, tokIdentifier "Y", tokClosingBracket,
    tokIdentifier "T", tokSemicolon]

/-- The state at the start of a statement of a C file after the keyword `typedef`. -/
def typedefState (chain : CXXTokenChain) (input : List CXXToken) : CXXParserState :=
  { statementState chain input with uKeywordState := CXXParserKeywordStateSeenTypedef }

/-- The tokens of `enum X Y;` (and of `struct X Y;`) after the keyword. -/
def declaratorExampleTokens : List CXXToken :=
  [tokIdentifier "X", tokIdentifier "Y", tokSemicolon]

/-- The tokens of `typedef struct { int x; } Foo;` after the keyword `struct`. -/
def typedefStructTokens : List CXXToken :=
  [tokOpeningBracket, tokKeyword (.other 1) "int", tokIdentifier "x", tokSemicolon,
    tokClosingBracket, tokIdentifier "Foo", tokSemicolon]

/-- The anonymous name token number `n`, as `cxxTokenCreateAnonymousIdentifier` makes
it. -/
def tokAnonymous (n : Nat) : CXXToken :=
  .mk CXXTokenTypeIdentifier cxxTokenCreate.eKeyword ("__anon" ++ toString n)
    cxxTokenCreate.iLineNumber cxxTokenCreate.bFollowedBySpace none

/-! ## Equality tests, to evaluate runs on concrete statements -/

/-- Equality test of two optional chains. -/
def optionChainBeq : Option CXXTokenChain → Option CXXTokenChain → Bool
  | none, none => true
  | some a, some b => chainBeq a b
  | _, _ => false

/-- Equality test of two optional tokens. -/
def optionTokenBeq : Option CXXToken → Option CXXToken → Bool
  | none, none => true
  | some a, some b => CXXToken.beq a b
  | _, _ => false

/-- Equality test of two recorded calls. -/
def CXXCall.beq : CXXCall → CXXCall → Bool
  | .extractVariableDeclarations a, .extractVariableDeclarations b => chainBeq a b
  | .lookForFunctionSignature a, .lookForFunctionSignature b => chainBeq a b
  | .emitFunctionTags a, .emitFunctionTags b => a == b
  | _, _ => false

/-- Equality test of two records of calls. -/
def callsBeq : List CXXCall → List CXXCall → Bool
  | [], [] => true
  | a :: as, b :: bs => CXXCall.beq a b && callsBeq as bs
  | _, _ => false

/-- Equality test of two parser states, field by field. -/
def CXXParserState.beq (a b : CXXParserState) : Bool :=
  chainBeq a.pTokenChain b.pTokenChain
    && optionChainBeq a.pTemplateTokenChain b.pTemplateTokenChain
    && optionTokenBeq a.pToken b.pToken
    && a.uKeywordState == b.uKeywordState
    && a.bParsingTemplateAngleBrackets == b.bParsingTemplateAngleBrackets
    && a.bParsingClassStructOrUnionDeclaration == b.bParsingClassStructOrUnionDeclaration
    && a.eLanguage == b.eLanguage && a.eCPPLanguage == b.eCPPLanguage
    && a.eCLanguage == b.eCLanguage
    && chainBeq a.input b.input
    && a.scopes == b.scopes && a.tags == b.tags
    && a.iAnonymousCount == b.iAnonymousCount
    && callsBeq a.calls b.calls

/-- Equality test of two results of a parser. -/
def resultBeq : Except Fault (Bool × CXXParserState) → Except Fault (Bool × CXXParserState) → Bool
  | .ok (b, s), .ok (b', s') => b == b' && CXXParserState.beq s s'
  | .error e, .error e' => e == e'
  | _, _ => false

/-- Equality test of two results of the name extraction. -/
def nameResultBeq : Except Fault (CXXToken × Nat × CXXParserState) →
    Except Fault (CXXToken × Nat × CXXParserState) → Bool
  | .ok (t, n, s), .ok (t', n', s') => CXXToken.beq t t' && n == n' && CXXParserState.beq s s'
  | .error e, .error e' => e == e'
  | _, _ => false

/-! ## Access specifiers and generic typedefs -/

/-- Modelled from the spec: `cxxScopeSetAccess` (`cxx_scope.c`), the "set-access" of
the scope service, sets the access of the scope on top of the stack. -/
def cxxScopeSetAccess (eAccess : CXXScopeAccess) (st : CXXParserState) : CXXParserState :=
  match st.scopes.getLast? with
  | none => st
  | some s => { st with scopes := st.scopes.dropLast ++ [{ s with access := eAccess }] }

/-- The terminators of the skip after an access specifier (line 822). -/
def accessSpecifierTerminators : Nat :=
  CXXTokenTypeSingleColon ||| CXXTokenTypeSemicolon ||| CXXTokenTypeClosingBracket
    ||| CXXTokenTypeEOF

/-- Embedding of `cxxParserParseAccessSpecifier` (lines 792-831). -/
def cxxParserParseAccessSpecifier (env : CXXCollaborators) (fuel : Nat)
    (st : CXXParserState) : Except Fault (Bool × CXXParserState) :=
  let eScopeKind := cxxScopeGetKind st
  if eScopeKind != .CLASS && eScopeKind != .STRUCT && eScopeKind != .UNION then
    .ok (false, st)
  else
    match st.pToken with
    | none => .error .nullPointer
    | some pToken =>
      let st :=
        match pToken.eKeyword with
        | .PUBLIC => cxxScopeSetAccess .Public st
        | .PRIVATE => cxxScopeSetAccess .Private st
        | .PROTECTED => cxxScopeSetAccess .Protected st
        | _ => st
      match cxxParserParseUpToOneOf env fuel
          (CXXTokenTypeSingleColon ||| CXXTokenTypeSemicolon ||| CXXTokenTypeClosingBracket
            ||| CXXTokenTypeEOF) st with
      | .error e => .error e
      | .ok (false, st) => .ok (false, st)
      | .ok (true, st) => .ok (true, { st with pTokenChain := [] })

/-- The terminators of the scan of a generic typedef (line 842). -/
def typedefTerminators : Nat :=
  CXXTokenTypeSemicolon ||| CXXTokenTypeEOF ||| CXXTokenTypeClosingBracket
    ||| CXXTokenTypeKeyword

/-- The keywords that end a typedef (lines 859-863). -/
def isTypedefBlockingKeyword (k : CXXKeyword) : Bool :=
  k == .EXTERN || k == .TYPEDEF || k == .STATIC

/-- The `for(;;)` loop of `cxxParserParseGenericTypedef` (lines 840-870); `some b` is a
return of `b` from inside the loop, `none` the `break` at a `;`. -/
def cxxParserParseGenericTypedefLoop (env : CXXCollaborators) (fuel : Nat)
    (st : CXXParserState) : Except Fault (Option Bool × CXXParserState) :=
  match fuel with
  | 0 => .error .outOfFuel
  | fuel + 1 =>
    match cxxParserParseUpToOneOf env fuel
        (CXXTokenTypeSemicolon ||| CXXTokenTypeEOF ||| CXXTokenTypeClosingBracket
          ||| CXXTokenTypeKeyword) st with
    | .error e => .error e
    | .ok (false, st) => .ok (some false, st)
    | .ok (true, st) =>
      match st.pToken with
      | none => .error .nullPointer
      | some pToken =>
        if pToken.eType != CXXTokenTypeKeyword then
          if pToken.eType != CXXTokenTypeSemicolon then .ok (some true, st)
          else .ok (none, st)
        else if pToken.eKeyword == .EXTERN || pToken.eKeyword == .TYPEDEF
            || pToken.eKeyword == .STATIC then
          .ok (some true, st)
        else cxxParserParseGenericTypedefLoop env fuel st

/-- Embedding of `cxxParserParseGenericTypedef` (lines 836-905).  A token has no
`pPrev` when it is at position 0 of the chain. -/
def cxxParserParseGenericTypedef (env : CXXCollaborators) (fuel : Nat)
    (st : CXXParserState) : Except Fault (Bool × CXXParserState) :=
  match cxxParserParseGenericTypedefLoop env fuel st with
  | .error e => .error e
  | .ok (some bRet, st) => .ok (bRet, st)
  | .ok (none, st) =>
    match cxxTokenChainLastTokenOfType st.pTokenChain CXXTokenTypeIdentifier with
    | none => .ok (true, st)
    | some i =>
      match st.pTokenChain.get? i with
      | none => .error .nullPointer
      | some t =>
        if i == 0 then .ok (true, st)
        else
          match cxxTagBegin t.pszWord .TYPEDEF t st with
          | some tag =>
            .ok (true, cxxTagCommit { tag with isFileScope := !env.isInputHeaderFile } st)
          | none => .ok (true, st)

/-! ## The entry points -/

/-- The result of `cxxParserMain` (`rescanReason` of the host). -/
inductive RescanReason where
  | RESCAN_NONE
  | RESCAN_FAILED
  deriving DecidableEq, Repr

/-- The state of an object that a pointer of the process refers to: never created
(`NULL`), alive, or destroyed with the pointer left dangling. -/
inductive ObjectState where
  | null
  | live
  | destroyed
  deriving DecidableEq, Repr

/-- The process-wide state of the parser: `g_cxx`, the flag `g_bFirstRun`, and the
state of the objects the entry points create and destroy: the chain behind
`g_cxx.pTokenChain`, the chain behind `g_cxx.pTemplateTokenChain`, the scope stack of
the scope service and the token API. -/
structure CXXProcess where
  g_cxx : CXXParserState
  g_bFirstRun : Bool
  pTokenChain : ObjectState
  pTemplateTokenChain : ObjectState
  scope : ObjectState
  tokenAPI : ObjectState

/-- The process at program start: `g_bFirstRun` is set (line 35) and nothing exists. -/
def processStart : CXXProcess where
  g_cxx := startState []
  g_bFirstRun := true
  pTokenChain := .null
  pTemplateTokenChain := .null
  scope := .null
  tokenAPI := .null

/-- A use of the object behind a pointer: a fault unless the object is alive. -/
def useObject (o : ObjectState) : Except Fault Unit :=
  match o with
  | .live => .ok ()
  | .null => .error .nullPointer
  | .destroyed => .error .useAfterFree

/-- Embedding of `cxxCppParserInitialize` (lines 997-1009): on the first run `g_cxx` is
zeroed, then the languages are set. -/
def cxxCppParserInitialize (language : Int) (p : CXXProcess) : CXXProcess :=
  let p :=
    if p.g_bFirstRun then
      { p with
        g_cxx := { p.g_cxx with pTokenChain := [], pTemplateTokenChain := none, pToken := none,
                                uKeywordState := 0, bParsingTemplateAngleBrackets := false,
                                bParsingClassStructOrUnionDeclaration := false,
                                eLanguage := 0, eCPPLanguage := 0, eCLanguage := 0 },
        pTokenChain := .null, pTemplateTokenChain := .null }
    else p
  { p with g_cxx := { p.g_cxx with eLanguage := language, eCPPLanguage := language,
                                   eCLanguage := -1 } }

/-- Embedding of `cxxCParserInitialize` (lines 1011-1023). -/
def cxxCParserInitialize (language : Int) (p : CXXProcess) : CXXProcess :=
  let p :=
    if p.g_bFirstRun then
      { p with
        g_cxx := { p.g_cxx with pTokenChain := [], pTemplateTokenChain := none, pToken := none,
                                uKeywordState := 0, bParsingTemplateAngleBrackets := false,
                                bParsingClassStructOrUnionDeclaration := false,
                                eLanguage := 0, eCPPLanguage := 0, eCLanguage := 0 },
        pTokenChain := .null, pTemplateTokenChain := .null }
    else p
  { p with g_cxx := { p.g_cxx with eLanguage := language, eCLanguage := language,
                                   eCPPLanguage := -1 } }

/-- Lines 958-994 of `cxxParserMain`: the preprocessor is started on the file `input`,
the top-level block is parsed, the chains are cleared and the result is computed.  A
template chain that the block parser leaves behind is alive. -/
def cxxParserMainRun (env : CXXCollaborators) (passCount : Nat) (input : List CXXToken)
    (p : CXXProcess) : RescanReason × CXXProcess :=
  let st := { p.g_cxx with input := input }
  match env.cxxParserParseBlock false st with
  | (bRet, st) =>
    let st := { st with pTokenChain := [] }
    let st :=
      match st.pTemplateTokenChain with
      | some _ => { st with pTemplateTokenChain := some [] }
      | none => st
    let p := { p with g_cxx := st,
                      pTemplateTokenChain :=
                        if st.pTemplateTokenChain.isSome then .live else .null }
    if !bRet && passCount == 1 then (.RESCAN_FAILED, p)
    else (.RESCAN_NONE, p)

/-- Embedding of `cxxParserMain` (lines 940-995).  `input` is the file that `cppInit`
opens for the lexer; the tags of the run are those added to `g_cxx.tags`.  On a run
that is not the first, `cxxScopeClear`, `cxxTokenAPINewFile` and the
`cxxTokenChainClear` of `cxxParserNewStatement` use the objects that the first run
created. -/
def cxxParserMain (env : CXXCollaborators) (passCount : Nat) (input : List CXXToken)
    (p : CXXProcess) : Except Fault (RescanReason × CXXProcess) :=
  let r : Except Fault CXXProcess :=
    if p.g_bFirstRun then
      .ok { p with
        tokenAPI := .live,
        g_cxx := { p.g_cxx with pTokenChain := [], scopes := [] },
        pTokenChain := .live,
        scope := .live,
        g_bFirstRun := false }
    else
      match useObject p.scope with
      | .error e => .error e
      | .ok _ =>
        let p := { p with g_cxx := { p.g_cxx with scopes := [] } }
        match useObject p.tokenAPI with
        | .error e => .error e
        | .ok _ =>
          match useObject p.pTokenChain with
          | .error e => .error e
          | .ok _ =>
            match (if p.g_cxx.pTemplateTokenChain.isSome then useObject p.pTemplateTokenChain
                   else .ok ()) with
            | .error e => .error e
            | .ok _ =>
              .ok { p with g_cxx := cxxParserNewStatement p.g_cxx, pTemplateTokenChain := .null }
  match r with
  | .error e => .error e
  | .ok p => .ok (cxxParserMainRun env passCount input p)

/-- Embedding of `cxxParserCleanup` (lines 1025-1038): the chains, the scope stack and
the token API are destroyed; the pointers and `g_bFirstRun` are left as they are. -/
def cxxParserCleanup (p : CXXProcess) : Except Fault CXXProcess :=
  if p.g_bFirstRun then .ok p
  else
    match (if p.pTokenChain != .null then useObject p.pTokenChain else .ok ()) with
    | .error e => .error e
    | .ok _ =>
      let p := { p with pTokenChain := if p.pTokenChain != .null then .destroyed else .null }
      match (if p.g_cxx.pTemplateTokenChain.isSome then useObject p.pTemplateTokenChain
             else .ok ()) with
      | .error e => .error e
      | .ok _ =>
        let p := { p with pTemplateTokenChain :=
          if p.g_cxx.pTemplateTokenChain.isSome then .destroyed else p.pTemplateTokenChain }
        match useObject p.scope with
        | .error e => .error e
        | .ok _ =>
          match useObject p.tokenAPI with
          | .error e => .error e
          | .ok _ => .ok { p with scope := .destroyed, tokenAPI := .destroyed }

/-! ## Example statements -/

/-- The statement `int x;` at top level, read up to its `;`. -/
def variableStatementState : CXXParserState :=
  statementState [tokKeyword (.other 1) "int", tokIdentifier "x", tokSemicolon] []

/-- The state at the keyword `public` in the body of the class `C`, whose access is
private, with `: int x;` still to come. -/
def accessSpecifierState : CXXParserState :=
  { statementState [tokKeyword .PUBLIC "public"]
      [tokSingleColon, tokKeyword (.other 1) "int", tokIdentifier "x", tokSemicolon] with
    scopes := [{ name := "C", kind := .CLASS, access := .Private }] }

/-! ## The tokens of a generic typedef -/

/-- `TypedefItems body outs`: `body` is made of runs of tokens consumed at one level by
the scan of a generic typedef, separated by keywords other than `extern`, `typedef`
and `static`, at which the scan stops and starts again; `outs` is what `body` leaves on
the chain, the keywords included. -/
inductive TypedefItems : List CXXToken → List CXXToken → Prop
  | last (seg outs : List CXXToken) :
      Skips defaultOpeners typedefTerminators seg outs → TypedefItems seg outs
  | keyword (seg outs : List CXXToken) (kw : CXXToken) (rest routs : List CXXToken) :
      Skips defaultOpeners typedefTerminators seg outs →
      kw.eType = CXXTokenTypeKeyword → isTypedefBlockingKeyword kw.eKeyword = false →
      TypedefItems rest routs →
      TypedefItems (seg ++ kw :: rest) (outs ++ kw :: routs)

/-- The typedef tag of lines 888-901: named by the token, with no type reference. -/
def genericTypedefTag (env : CXXCollaborators) (t : CXXToken) (scopes : List CXXScope) :
    CXXTag :=
  { name := t.pszWord, kind := .TYPEDEF, lineNumber := t.iLineNumber, scope := scopes,
    typeRef := none, inheritance := none, isFileScope := !env.isInputHeaderFile }

/-- The tokens of `typedef unsigned int uint;` after the keyword `typedef`. -/
def typedefExampleTokens : List CXXToken :=
  [tokKeyword (.other 2) "unsigned", tokKeyword (.other 1) "int", tokIdentifier "uint",
    tokSemicolon]

/-- The tokens of `typedef unsigned int uint` followed, the `;` missing, by
`extern int x;`. -/
def typedefBlockedTokens : List CXXToken :=
  [tokKeyword (.other 2) "unsigned", tokKeyword (.other 1) "int", tokIdentifier "uint",
    tokKeyword .EXTERN "extern", tokKeyword (.other 1) "int", tokIdentifier "x", tokSemicolon]

/-! ## The recursion depth of the condenser

The condenser of `D1` once more, with the depth of its recursion counted: the third
component of a result is the greatest number of activations of
`cxxParserParseAndCondenseCurrentSubchain` that were nested in one another during the
call.  The control flow is the one of lines 65-181; only the counter is added. -/

mutual
/-- The function `cxxParserParseAndCondenseCurrentSubchain` (lines 65-88) with the depth
of the recursion: one more than the depth of the nested parse of line 82. -/
def cxxParserParseAndCondenseCurrentSubchainDepth (env : CXXCollaborators) (fuel : Nat)
    (uInitialSubchainMarkerTypes : Nat) (bAcceptEOF : Bool) (st : CXXParserState) :
    Except Fault (Bool × CXXParserState × Nat) :=
  match fuel with
  | 0 => .error .outOfFuel
  | fuel + 1 =>
    let pCurrentChain := st.pTokenChain
    match cxxTokenChainTakeLast pCurrentChain with
    | none => .error .nullPointer
    | some (pInitial, pCurrentChain1) =>
      match st.pToken with
      | none => .error .nullPointer
      | some pToken =>
        let uTokenTypes := subchainTerminators pToken.eType bAcceptEOF
        match cxxParserParseAndCondenseSubchainsUpToOneOfDepth env fuel uTokenTypes
            uInitialSubchainMarkerTypes
            { st with pTokenChain := cxxTokenChainAppend [] pInitial } with
        | .error e => .error e
        | .ok (bRet, st1, d) =>
          let pChainToken := subchainMarker pToken.eType st1.pTokenChain
          let pCurrentChain2 := cxxTokenChainAppend pCurrentChain1 pChainToken
          .ok (bRet, { st1 with pTokenChain := pCurrentChain2,
                                pToken := cxxTokenChainLast pCurrentChain2 }, d + 1)
termination_by structural fuel
/-- The function `cxxParserParseAndCondenseSubchainsUpToOneOf` (lines 98-181) with the
depth of the recursion: the greatest depth of the nested parses its loop starts. -/
def cxxParserParseAndCondenseSubchainsUpToOneOfDepth (env : CXXCollaborators) (fuel : Nat)
    (uTokenTypes : Nat) (uInitialSubchainMarkerTypes : Nat) (st : CXXParserState) :
    Except Fault (Bool × CXXParserState × Nat) :=
  match fuel with
  | 0 => .error .outOfFuel
  | fuel + 1 =>
    match cxxParserParseNextToken st with
    | (false, st1) => .ok (maskTest uTokenTypes CXXTokenTypeEOF, st1, 0)
    | (true, st1) =>
      cxxParserParseAndCondenseSubchainsUpToOneOfLoopDepth env fuel uTokenTypes
        uInitialSubchainMarkerTypes (shl4 uInitialSubchainMarkerTypes) 0 st1
termination_by structural fuel
/-- The `for(;;)` loop (lines 112-176) with the depth of the recursion; `uDepth` is the
greatest depth of the nested parses of the earlier iterations.  The lambda handler is a
collaborator and adds nothing to the count. -/
def cxxParserParseAndCondenseSubchainsUpToOneOfLoopDepth (env : CXXCollaborators)
    (fuel : Nat) (uTokenTypes : Nat) (uInitialSubchainMarkerTypes : Nat)
    (uFinalSubchainMarkerTypes : Nat) (uDepth : Nat) (st : CXXParserState) :
    Except Fault (Bool × CXXParserState × Nat) :=
  match fuel with
  | 0 => .error .outOfFuel
  | fuel + 1 =>
    match st.pToken with
    | none => .error .nullPointer
    | some pToken =>
      if maskTest pToken.eType uTokenTypes then
        .ok (true, st, uDepth)
      else if maskTest pToken.eType uInitialSubchainMarkerTypes then
        let r : Except Fault (Bool × CXXParserState × Nat) :=
          match (if maskTest pToken.eType CXXTokenTypeOpeningBracket
                    && cxxParserCurrentLanguageIsCPP st
                 then env.cxxParserOpeningBracketIsLambda st else none) with
          | some pParenthesis =>
            .ok ((env.cxxParserHandleLambda pParenthesis st).1,
                 (env.cxxParserHandleLambda pParenthesis st).2, 0)
          | none =>
            cxxParserParseAndCondenseCurrentSubchainDepth env fuel
              uInitialSubchainMarkerTypes (maskTest uTokenTypes CXXTokenTypeEOF) st
        match r with
        | .error e => .error e
        | .ok (false, st1, d) => .ok (false, st1, max uDepth d)
        | .ok (true, st1, d) =>
          match st1.pToken with
          | none => .error .nullPointer
          | some pToken1 =>
            if maskTest pToken1.eType uTokenTypes then
              .ok (true, st1, max uDepth d)
            else
              match cxxParserParseNextToken st1 with
              | (false, st2) => .ok (maskTest uTokenTypes CXXTokenTypeEOF, st2, max uDepth d)
              | (true, st2) =>
                cxxParserParseAndCondenseSubchainsUpToOneOfLoopDepth env fuel uTokenTypes
                  uInitialSubchainMarkerTypes uFinalSubchainMarkerTypes (max uDepth d) st2
      else if maskTest pToken.eType uFinalSubchainMarkerTypes then
        .ok (false, st, uDepth)
      else
        match cxxParserParseNextToken st with
        | (false, st1) => .ok (maskTest uTokenTypes CXXTokenTypeEOF, st1, uDepth)
        | (true, st1) =>
          cxxParserParseAndCondenseSubchainsUpToOneOfLoopDepth env fuel uTokenTypes
            uInitialSubchainMarkerTypes uFinalSubchainMarkerTypes uDepth st1
termination_by structural fuel
end

/-- The number of opener tokens, for the opener mask `O`, among the tokens `ts`. -/
def openerCount (O : Nat) (ts : List CXXToken) : Nat :=
  ts.countP (fun t => maskTest t.eType O)

/-- One when the current token is an opener for the mask `O`, zero otherwise. -/
def currentOpener (O : Nat) (p : Option CXXToken) : Nat :=
  match p with
  | some t => if maskTest t.eType O then 1 else 0
  | none => 0

end CXX

/-! ## The Swift parser (`parsers/swift.c`)

A shallow embedding of the lexer `readTokenFull`, of the tag makers and of the
recursive-descent parser `enterScope`.

Conventions of the embedding
* The input file is the list of the characters not read yet; what
  `ungetcToInputFile` gives back is put in front of it.  `EOF` is `none`.
* A token is returned by the lexer in place of being written through the pointer
  `token`; the line number and the file position of a token are left out.
* A `vString` is a `String`, a `vString *` that may be `NULL` an `Option String`.
* `CORK_NIL` is the index `0`; the first entry of the cork queue has the index `1`.
* The static variable `SwiftNestingLevels` and the cork queue of the host are fields
  of `SwiftState`.
-/

namespace Swift

/-- The keyword identifiers (lines 32-42), `KEYWORD_NONE` included. -/
inductive keywordId
  | KEYWORD_NONE
  | KEYWORD_class
  | KEYWORD_deinit
  | KEYWORD_if
  | KEYWORD_init
  | KEYWORD_let
  | KEYWORD_func
  | KEYWORD_typealias
  | KEYWORD_var
  deriving DecidableEq

/-- The kinds of tags (lines 44-55). -/
inductive swiftKind
  | K_CLASS
  | K_FUNCTION
  | K_MEMBER
  | K_VARIABLE
  | K_NAMESPACE
  | K_CONSTANT
  | K_PARAMETER
  | K_LOCAL_VARIABLE
  | K_TYPEALIAS
  deriving DecidableEq

/-- A row of the table of kinds. -/
structure kindOption where
  enabled : Bool
  letter : Char
  name : String
  description : String

/-- The table `SwiftKinds` (lines 57-67), with the initial values of the flags. -/
def SwiftKinds : swiftKind → kindOption
  | .K_CLASS => ⟨true, 'c', "class", "classes"⟩
  | .K_FUNCTION => ⟨true, 'f', "function", "functions"⟩
  | .K_MEMBER => ⟨true, 'm', "member", "class members"⟩
  | .K_VARIABLE => ⟨true, 'v', "variable", "variables"⟩
  | .K_NAMESPACE => ⟨true, 'n', "namespace", "namespaces"⟩
  | .K_CONSTANT => ⟨true, 'C', "constant", "constants"⟩
  | .K_PARAMETER => ⟨false, 'z', "parameter", "function parameters"⟩
  | .K_LOCAL_VARIABLE => ⟨false, 'l', "local", "local variables"⟩
  | .K_TYPEALIAS => ⟨true, 't', "typealias", "type alias"⟩

/-- The table `SwiftKeywordTable` (lines 69-79). -/
def SwiftKeywordTable : List (String × keywordId) :=
  [("class", .KEYWORD_class), ("deinit", .KEYWORD_deinit), ("if", .KEYWORD_if),
   ("init", .KEYWORD_init), ("let", .KEYWORD_let), ("func", .KEYWORD_func),
   ("typealias", .KEYWORD_typealias), ("var", .KEYWORD_var)]

/-- Modelled from the spec: the keyword lookup of the host, over the table of the
parser; a word that is not in the table is `KEYWORD_NONE`. -/
def lookupKeyword (string : String) : keywordId :=
  match SwiftKeywordTable.find? (fun e => e.1 == string) with
  | some e => e.2
  | none => .KEYWORD_NONE

/-- The token types (lines 81-92): the value of a byte, or one of the named types. -/
inductive tokenType
  | byte (c : Char)
  | TOKEN_EOF
  | TOKEN_UNDEFINED
  | TOKEN_KEYWORD
  | TOKEN_IDENTIFIER
  | TOKEN_STRING
  | TOKEN_INTEGER
  | TOKEN_REAL
  | TOKEN_RIGHT_ARROW
  | TOKEN_WHITESPACE
  deriving DecidableEq

/-- The record `tokenInfo` (lines 94-100), without line number and file position. -/
structure tokenInfo where
  type : tokenType
  keyword : keywordId
  string : String
  deriving DecidableEq

/-- The fields of a tag entry that the parser sets.  `typeRef` is `typeRef[1]`, with
`typeRef[0]` being `"typename"` whenever it is set. -/
structure tagEntryInfo where
  name : String
  kind : swiftKind
  scopeIndex : Nat
  inheritance : Option String
  signature : Option String
  typeRef : Option String
  deriving DecidableEq

/-- A nesting level of the host: the cork index of the entry that opened it. -/
structure NestingLevel where
  corkIndex : Nat
  deriving DecidableEq

/-- The state of a run of the parser: the input not read yet, the cork queue of the
host, and the stack `SwiftNestingLevels` with the current level last. -/
structure SwiftState where
  input : List Char
  corkQueue : List tagEntryInfo
  SwiftNestingLevels : List NestingLevel
  deriving DecidableEq

/-- The index that stands for no entry of the cork queue. -/
def CORK_NIL : Nat := 0

/-- Modelled from the spec: `initTagEntry` of the host, a fresh entry with its name and
kind, no scope and no extension field. -/
def initTagEntry (name : String) (kind : swiftKind) : tagEntryInfo :=
  { name := name, kind := kind, scopeIndex := CORK_NIL, inheritance := none,
    signature := none, typeRef := none }

/-- Modelled from the spec: `makeTagEntry` of the host with the cork queue in use, the
entry is put at the end of the queue and its index is returned. -/
def makeTagEntry (e : tagEntryInfo) (st : SwiftState) : Nat × SwiftState :=
  (st.corkQueue.length + 1, { st with corkQueue := st.corkQueue ++ [e] })

/-- Modelled from the spec: `getEntryInCorkQueue` of the host, `NULL` for `CORK_NIL`
and for an index past the end. -/
def getEntryInCorkQueue (st : SwiftState) (n : Nat) : Option tagEntryInfo :=
  if n = CORK_NIL then none else st.corkQueue.get? (n - 1)

/-- Modelled from the spec: `nestingLevelsGetCurrent` of the host, the level pushed
last, `NULL` when there is none. -/
def nestingLevelsGetCurrent (nls : List NestingLevel) : Option NestingLevel :=
  nls.getLast?

/-- Modelled from the spec: `nestingLevelsPush` of the host. -/
def nestingLevelsPush (nls : List NestingLevel) (corkIndex : Nat) : List NestingLevel :=
  nls ++ [{ corkIndex := corkIndex }]

/-- Modelled from the spec: `nestingLevelsPop` of the host. -/
def nestingLevelsPop (nls : List NestingLevel) : List NestingLevel :=
  nls.dropLast

/-- Modelled from the spec: `getEntryOfNestingLevel` of the host, the entry of the cork
queue at the index of the level. -/
def getEntryOfNestingLevel (st : SwiftState) (nl : NestingLevel) : Option tagEntryInfo :=
  getEntryInCorkQueue st nl.corkIndex

/-- Embedding of `initSwiftEntry` (lines 112-144).  Inside a nesting level the entry
gets the scope of the level, and the kind `K_VARIABLE` is replaced: by `K_MEMBER`
when the entry of the level is a class, by `K_LOCAL_VARIABLE` otherwise. -/
def initSwiftEntry (st : SwiftState) (token : tokenInfo) (kind : swiftKind) :
    tagEntryInfo :=
  let e := initTagEntry token.string kind
  match nestingLevelsGetCurrent st.SwiftNestingLevels with
  | none => e
  | some nl =>
    let e := { e with scopeIndex := nl.corkIndex }
    match getEntryOfNestingLevel st nl with
    | none => e
    | some nlEntry =>
      if kind = .K_VARIABLE then
        if nlEntry.kind = .K_CLASS then
          { e with kind := .K_MEMBER }
        else
          { e with kind := .K_LOCAL_VARIABLE }
      else e

/-- Embedding of `makeClassTag` (lines 146-161); `inheritance` is never `NULL` at the
call of line 845. -/
def makeClassTag (token : tokenInfo) (inheritance : String) (st : SwiftState) :
    Nat × SwiftState :=
  if (SwiftKinds .K_CLASS).enabled then
    makeTagEntry { initSwiftEntry st token .K_CLASS with inheritance := some inheritance } st
  else (CORK_NIL, st)

/-- Embedding of `makeFunctionTag` (lines 163-185). -/
def makeFunctionTag (token : tokenInfo) (arglist : Option String) (type : Option String)
    (st : SwiftState) : Nat × SwiftState :=
  if (SwiftKinds .K_FUNCTION).enabled then
    makeTagEntry { initSwiftEntry st token .K_FUNCTION with
      signature := arglist, typeRef := type } st
  else (CORK_NIL, st)

/-- Embedding of `makeVariableTag` (lines 187-207): the flag tested is the one of the
kind asked for. -/
def makeVariableTag (token : tokenInfo) (kind : swiftKind) (type : Option String)
    (st : SwiftState) : Nat × SwiftState :=
  if (SwiftKinds kind).enabled then
    makeTagEntry { initSwiftEntry st token kind with typeRef := type } st
  else (CORK_NIL, st)

/-- Embedding of `makeTypeAliasTag` (lines 209-228). -/
def makeTypeAliasTag (token : tokenInfo) (aliased : Option String) (st : SwiftState) :
    Nat × SwiftState :=
  if (SwiftKinds .K_TYPEALIAS).enabled then
    makeTagEntry { initSwiftEntry st token .K_TYPEALIAS with typeRef := aliased } st
  else (CORK_NIL, st)

/-! ### The lexer -/

/-- Modelled from the spec: `getcFromInputFile` of the host, the next character of
the input, `EOF` at its end and from then on. -/
def getcFromInputFile (input : List Char) : Option Char × List Char :=
  match input with
  | [] => (none, [])
  | c :: rest => (some c, rest)

/-- Modelled from the spec: `ungetcToInputFile` of the host; `EOF` given back is read
again as the end of the input. -/
def ungetcToInputFile (c : Option Char) (input : List Char) : List Char :=
  match c with
  | none => input
  | some c => c :: input

/-- The test `isIdentifierChar` (lines 27-28). -/
def isIdentifierChar (c : Char) : Bool :=
  c.isAlphanum || c == '_' || decide (c.toNat ≥ 0x80)

/-- The character that opens and closes a quoted identifier. -/
def backquote : Char := Char.ofNat 96

/-- The single quote. -/
def singleQuote : Char := Char.ofNat 39

/-- The double quote. -/
def doubleQuote : Char := Char.ofNat 34

/-- The backslash. -/
def backslash : Char := Char.ofNat 92

/-- The form feed. -/
def formFeed : Char := Char.ofNat 12

/-- Embedding of `readString` (lines 279-302), entered with `escaped` false: the
characters up to the delimiter or the end of the line. -/
def readString (string : String) (delimiter : Char) (escaped : Bool) :
    List Char → String × List Char
  | [] => (string, [])
  | c :: rest =>
    if escaped then
      readString (string.push c) delimiter false rest
    else if c == backslash then
      readString string delimiter true rest
    else if c == delimiter || c == '\n' || c == '\r' then
      (string, if c != delimiter then c :: rest else rest)
    else
      readString (string.push c) delimiter false rest

/-- The loop of `readIdentifier` (lines 309-314) after the first character is stored,
and the test of line 315. -/
def readIdentifierLoop (string : String) : List Char → String × List Char
  | [] => (string, [])
  | c :: rest =>
    if isIdentifierChar c then
      readIdentifierLoop (string.push c) rest
    else
      (string, if c != backquote then c :: rest else rest)

/-- Embedding of `readIdentifier` (lines 304-317).  After a backquote at the end of
the input the byte stored is `(char) EOF`. -/
def readIdentifier (string : String) (firstChar : Char) (input : List Char) :
    String × List Char :=
  if firstChar == backquote then
    match input with
    | [] => readIdentifierLoop (string.push (Char.ofNat 255)) []
    | c :: rest => readIdentifierLoop (string.push c) rest
  else
    readIdentifierLoop (string.push firstChar) input

/-- The loop of lines 330-336: the number of characters read, the first one that is
no blank, and the input after it. -/
def skipBlanks (n : Nat) : List Char → Nat × Option Char × List Char
  | [] => (n + 1, none, [])
  | c :: rest =>
    if c == ' ' || c == '\t' || c == formFeed then
      skipBlanks (n + 1) rest
    else
      (n + 1, some c, rest)

/-- The loop of lines 389-393: the rest of a line comment, the end of the line being
given back. -/
def skipLineComment : List Char → List Char
  | [] => []
  | d :: rest =>
    if d == '\r' || d == '\n' then d :: rest else skipLineComment rest

/-- The loop of lines 400-419, entered with `depth` one after the opening of a block
comment: it ends at the end of the input or when `depth` is zero.  After a `*` or a
`/` the next character is read as well, and given back when it is the same one. -/
def skipBlockComment (depth : Nat) : List Char → List Char
  | [] => []
  | [d] => if depth = 0 then [d] else []
  | d :: d2 :: rest2 =>
    if depth = 0 then
      d :: d2 :: rest2
    else if d == '*' then
      if d2 == '/' then skipBlockComment (depth - 1) rest2
      else if d2 == '*' then skipBlockComment depth (d2 :: rest2)
      else skipBlockComment depth rest2
    else if d == '/' then
      if d2 == '*' then skipBlockComment (depth + 1) rest2
      else if d2 == '/' then skipBlockComment depth (d2 :: rest2)
      else skipBlockComment depth rest2
    else
      skipBlockComment depth (d2 :: rest2)

/-- The loop of lines 434-446 over the ends of lines and the empty lines that follow,
entered with the end of line `c` read; the first character of the next line that is
not empty is given back. -/
def skipEmptyLines (fuel : Nat) (c : Char) (input : List Char) : Except CXX.Fault (List Char) :=
  match fuel with
  | 0 => .error .outOfFuel
  | fuel + 1 =>
    let input1 :=
      if c == '\r' then
        match getcFromInputFile input with
        | (d, rest) => if d != some '\n' then ungetcToInputFile d rest else rest
      else input
    match skipBlanks 0 input1 with
    | (_, some c2, input2) =>
      if c2 == '\r' || c2 == '\n' then skipEmptyLines fuel c2 input2
      else .ok (ungetcToInputFile (some c2) input2)
    | (_, none, input2) => .ok (ungetcToInputFile none input2)

/-- The loop of lines 466-487 over the characters of a number after the first one:
the string, the type and the input, the character that ended the loop given back. -/
def readNumber (string : String) (type : tokenType) (c : Char) :
    List Char → String × tokenType × List Char
  | [] => (string, type, [])
  | d :: rest =>
    if d.isAlphanum || d == '_' || d == '.' || d == '-' || d == '+' then
      if d == '.' then
        if type = .TOKEN_INTEGER then
          readNumber (string.push d) .TOKEN_REAL d rest
        else
          (string, type, d :: rest)
      else if d == 'p' || d == 'P' then
        readNumber (string.push d) .TOKEN_REAL d rest
      else if (d == '-' || d == '+') &&
          (type != .TOKEN_REAL || (c != 'e' && c != 'E' && c != 'p' && c != 'P')) then
        (string, type, d :: rest)
      else
        readNumber (string.push d) type d rest
    else
      (string, type, d :: rest)

/-- Embedding of `readTokenFull` (lines 319-506).  A unit of fuel is used by each
`goto getNextChar` and by each turn of the loop over empty lines. -/
def readTokenFull (fuel : Nat) (inclWhitespaces : Bool) (input : List Char) :
    Except CXX.Fault (tokenInfo × List Char) :=
  match fuel with
  | 0 => .error .outOfFuel
  | fuel + 1 =>
    match skipBlanks 0 input with
    | (n, c, input) =>
      if inclWhitespaces && decide (n > 1) && c != some '\r' && c != some '\n' then
        .ok (⟨.TOKEN_WHITESPACE, .KEYWORD_NONE, " "⟩, ungetcToInputFile c input)
      else
        match c with
        | none => .ok (⟨.TOKEN_EOF, .KEYWORD_NONE, ""⟩, input)
        | some c =>
          if c == '-' then
            match getcFromInputFile input with
            | (d, input) =>
              if d == some '>' then
                .ok (⟨.TOKEN_RIGHT_ARROW, .KEYWORD_NONE, ("".push c).push '>'⟩, input)
              else
                .ok (⟨.byte c, .KEYWORD_NONE, "".push c⟩, ungetcToInputFile d input)
          else if c == singleQuote || c == doubleQuote then
            match readString ("".push c) c false input with
            | (string, input) => .ok (⟨.TOKEN_STRING, .KEYWORD_NONE, string.push c⟩, input)
          else if c == '/' then
            match getcFromInputFile input with
            | (d, input) =>
              if d == some '/' then
                readTokenFull fuel inclWhitespaces (skipLineComment input)
              else if d == some '*' then
                readTokenFull fuel inclWhitespaces (skipBlockComment 1 input)
              else
                .ok (⟨.byte c, .KEYWORD_NONE, "".push c⟩, ungetcToInputFile d input)
          else if c == '\r' || c == '\n' then
            match skipEmptyLines fuel c input with
            | .error e => .error e
            | .ok input => .ok (⟨.byte ';', .KEYWORD_NONE, ""⟩, input)
          else if c.isDigit || c == '.' then
            match getcFromInputFile input with
            | (d, input) =>
              if c == '.' && !(match d with | some d => d.isDigit | none => false) then
                .ok (⟨.byte c, .KEYWORD_NONE, "".push c⟩, ungetcToInputFile d input)
              else
                match readNumber ("".push c)
                    (if c == '.' then .TOKEN_REAL else .TOKEN_INTEGER) c
                    (ungetcToInputFile d input) with
                | (string, type, input) => .ok (⟨type, .KEYWORD_NONE, string⟩, input)
          else if !isIdentifierChar c && c != backquote then
            .ok (⟨.byte c, .KEYWORD_NONE, "".push c⟩, input)
          else
            match readIdentifier "" c input with
            | (string, input) =>
              if lookupKeyword string = .KEYWORD_NONE then
                .ok (⟨.TOKEN_IDENTIFIER, .KEYWORD_NONE, string⟩, input)
              else
                .ok (⟨.TOKEN_KEYWORD, lookupKeyword string, string⟩, input)

/-- Embedding of `readToken` (lines 508-511) on the input of a state; the fuel given
to the lexer is enough for every input. -/
def readToken (st : SwiftState) : Except CXX.Fault (tokenInfo × SwiftState) :=
  match readTokenFull (st.input.length + 1) false st.input with
  | .error e => .error e
  | .ok (token, input) => .ok (token, { st with input := input })

/-! ### The parser -/

/-- Embedding of `reprCat` (lines 516-527). -/
def reprCat (repr : String) (token : tokenInfo) : String :=
  if token.type != .byte ';' && token.type != .TOKEN_WHITESPACE then
    repr ++ token.string
  else if decide (repr.length > 0) && repr.data.getLast? != some ' ' then
    repr.push ' '
  else repr

/-- The `do`-`while` loop of `skipOverPair` (lines 538-548), entered with `depth` at
least one; one unit of fuel per turn. -/
def skipOverPairLoop (fuel : Nat) (tOpen tClose : tokenType) (repr : Option String)
    (reprOuterPair : Bool) (depth : Nat) (st : SwiftState) :
    Except CXX.Fault (tokenInfo × Option String × SwiftState) :=
  match fuel with
  | 0 => .error .outOfFuel
  | fuel + 1 =>
    match readTokenFull (st.input.length + 1) true st.input with
    | .error e => .error e
    | .ok (token, input) =>
      let st1 := { st with input := input }
      let repr1 :=
        if reprOuterPair || token.type != tClose || decide (depth > 1) then
          repr.map (fun r => reprCat r token)
        else repr
      let depth1 :=
        if token.type = tOpen then depth + 1
        else if token.type = tClose then depth - 1
        else depth
      if token.type != .TOKEN_EOF && decide (depth1 > 0) then
        skipOverPairLoop fuel tOpen tClose repr1 reprOuterPair depth1 st1
      else
        .ok (token, repr1, st1)

/-- Embedding of `skipOverPair` (lines 529-552): the value returned, the current
token, the representation and the state. -/
def skipOverPair (fuel : Nat) (token : tokenInfo) (tOpen tClose : tokenType)
    (repr : Option String) (reprOuterPair : Bool) (st : SwiftState) :
    Except CXX.Fault (Bool × tokenInfo × Option String × SwiftState) :=
  if token.type = tOpen then
    match skipOverPairLoop fuel tOpen tClose
        (if reprOuterPair then repr.map (fun r => reprCat r token) else repr)
        reprOuterPair 1 st with
    | .error e => .error e
    | .ok (token1, repr1, st1) => .ok (token1.type == tClose, token1, repr1, st1)
  else
    .ok (token.type == tClose, token, repr, st)

/-- Embedding of `readType` (lines 665-718), entered with `*type` being `NULL`: the
value returned, the current token, the type and the state. -/
def readType (fuel : Nat) (token : tokenInfo) (st : SwiftState) :
    Except CXX.Fault (Bool × tokenInfo × Option String × SwiftState) :=
  match fuel with
  | 0 => .error .outOfFuel
  | fuel + 1 =>
    let first : Except CXX.Fault (Bool × tokenInfo × Option String × SwiftState) :=
      if token.type = .byte '(' then
        match skipOverPair fuel token (.byte '(') (.byte ')') (some "") true st with
        | .error e => .error e
        | .ok (b, token1, type1, st1) =>
          match (if b then readToken st1 else .ok (token1, st1)) with
          | .error e => .error e
          | .ok (token2, st2) =>
            if token2.type != .TOKEN_RIGHT_ARROW then
              .ok (false, token2, type1, st2)
            else
              match readToken st2 with
              | .error e => .error e
              | .ok (token3, st3) =>
                match readType fuel token3 st3 with
                | .error e => .error e
                | .ok (readNext, token4, sub, st4) =>
                  .ok (readNext, token4,
                    (match sub with
                     | some s => type1.map (fun t => (t ++ " -> ") ++ s)
                     | none => type1.map (fun t => t ++ " -> ")), st4)
      else if token.type != .TOKEN_IDENTIFIER then
        .ok (false, token, none, st)
      else
        match readToken st with
        | .error e => .error e
        | .ok (token1, st1) => .ok (true, token1, some token.string, st1)
    match first with
    | .error e => .error e
    | .ok (readNext, token1, type1, st1) =>
      match (if readNext then readToken st1 else .ok (token1, st1)) with
      | .error e => .error e
      | .ok (token2, st2) =>
        match type1 with
        | some t =>
          if token2.type = .byte '?' then .ok (readNext, token2, some (t.push '?'), st2)
          else if token2.type = .byte '!' then .ok (readNext, token2, some (t.push '!'), st2)
          else .ok (false, token2, type1, st2)
        | none => .ok (false, token2, type1, st2)

/-- The `let`/`var` branch of `enterScope` (lines 738-774), entered at the keyword:
the values of `readNext` and `corkIndex`, the current token and the state at its end.
The branch of line 756 is dead code (`false &&`). -/
def enterScopeVariable (fuel : Nat) (isIf : Bool) (corkIndex : Nat) (token : tokenInfo)
    (st : SwiftState) : Except CXX.Fault (Bool × Nat × tokenInfo × SwiftState) :=
  let kind : swiftKind :=
    if token.keyword = .KEYWORD_let then .K_CONSTANT else .K_VARIABLE
  match readToken st with
  | .error e => .error e
  | .ok (name, st1) =>
    if name.type = .TOKEN_IDENTIFIER then
      match readToken st1 with
      | .error e => .error e
      | .ok (token2, st2) =>
        let typed : Except CXX.Fault (Bool × tokenInfo × Option String × SwiftState) :=
          if token2.type = .byte ':' then
            match readToken st2 with
            | .error e => .error e
            | .ok (token3, st3) => readType fuel token3 st3
          else
            .ok (false, token2, none, st2)
        match typed with
        | .error e => .error e
        | .ok (readNext, token4, type, st4) =>
          match makeVariableTag name kind type st4 with
          | (corkIndex1, st5) =>
            .ok (readNext, if isIf then CORK_NIL else corkIndex1, token4, st5)
    else
      .ok (false, corkIndex, name, st1)

/-- The `func`/`init`/`deinit` branch of `enterScope` (lines 775-813), entered at the
keyword. -/
def enterScopeFunction (fuel : Nat) (corkIndex : Nat) (token : tokenInfo)
    (st : SwiftState) : Except CXX.Fault (Bool × Nat × tokenInfo × SwiftState) :=
  match (if token.keyword = .KEYWORD_func then readToken st else .ok (token, st)) with
  | .error e => .error e
  | .ok (name, st1) =>
    -- the token at this point is the name of the function
    if name.keyword = .KEYWORD_func ∧ name.type ≠ .TOKEN_IDENTIFIER then
      .ok (false, corkIndex, name, st1)
    else
      match readToken st1 with
      | .error e => .error e
      | .ok (token2, st2) =>
        match skipOverPair fuel token2 (.byte '(') (.byte ')') (some "") true st2 with
        | .error e => .error e
        | .ok (b, token3, arglist, st3) =>
          match (if b then readToken st3 else .ok (token3, st3)) with
          | .error e => .error e
          | .ok (token4, st4) =>
            let typed : Except CXX.Fault (Bool × tokenInfo × Option String × SwiftState) :=
              if token4.type = .TOKEN_RIGHT_ARROW then
                match readToken st4 with
                | .error e => .error e
                | .ok (token5, st5) => readType fuel token5 st5
              else
                .ok (false, token4, none, st4)
            match typed with
            | .error e => .error e
            | .ok (readNext, token6, type, st6) =>
              match makeFunctionTag name arglist type st6 with
              | (corkIndex1, st7) => .ok (readNext, corkIndex1, token6, st7)

/-- The `do`-`while` loop over the inheritance list of a class (lines 828-841); one
unit of fuel per turn. -/
def enterScopeInheritance (fuel : Nat) (inheritance : String) (st : SwiftState) :
    Except CXX.Fault (tokenInfo × String × SwiftState) :=
  match fuel with
  | 0 => .error .outOfFuel
  | fuel + 1 =>
    match readToken st with
    | .error e => .error e
    | .ok (token, st1) =>
      if token.type = .TOKEN_IDENTIFIER ∨ token.keyword = .KEYWORD_class then
        let inheritance1 :=
          (if inheritance.length > 0 then inheritance ++ ", " else inheritance)
            ++ token.string
        if token.type = .byte ',' then
          enterScopeInheritance fuel inheritance1 st1
        else
          .ok (token, inheritance1, st1)
      else
        .ok (token, inheritance, st1)

/-- The `class` branch of `enterScope` (lines 814-849), entered at the keyword. -/
def enterScopeClass (fuel : Nat) (corkIndex : Nat) (st : SwiftState) :
    Except CXX.Fault (Bool × Nat × tokenInfo × SwiftState) :=
  match readToken st with
  | .error e => .error e
  | .ok (name, st1) =>
    if name.type ≠ .TOKEN_IDENTIFIER then
      .ok (false, corkIndex, name, st1)
    else
      match readToken st1 with
      | .error e => .error e
      | .ok (token2, st2) =>
        let inherited : Except CXX.Fault (tokenInfo × String × SwiftState) :=
          if token2.type = .byte ':' then enterScopeInheritance fuel "" st2
          else .ok (token2, "", st2)
        match inherited with
        | .error e => .error e
        | .ok (token3, inheritance, st3) =>
          match makeClassTag name inheritance st3 with
          | (corkIndex1, st4) => .ok (false, corkIndex1, token3, st4)

/-- The `typealias` branch of `enterScope` (lines 850-875), entered at the
keyword. -/
def enterScopeTypealias (fuel : Nat) (corkIndex : Nat) (st : SwiftState) :
    Except CXX.Fault (Bool × Nat × tokenInfo × SwiftState) :=
  match readToken st with
  | .error e => .error e
  | .ok (name, st1) =>
    if name.type ≠ .TOKEN_IDENTIFIER then
      .ok (false, corkIndex, name, st1)
    else
      match readToken st1 with
      | .error e => .error e
      | .ok (token2, st2) =>
        let typed : Except CXX.Fault (Bool × tokenInfo × Option String × SwiftState) :=
          if token2.type = .byte '=' then
            match readToken st2 with
            | .error e => .error e
            | .ok (token3, st3) => readType fuel token3 st3
          else
            .ok (false, token2, none, st2)
        match typed with
        | .error e => .error e
        | .ok (readNext, token4, type, st4) =>
          match makeTypeAliasTag name type st4 with
          | (corkIndex1, st5) => .ok (readNext, corkIndex1, token4, st5)

mutual
/-- Embedding of `enterScope` (lines 720-898): the first read, then the loop.  The
current token and the state at the return are the result; `parentIndex` is not used
by the function (lines 893-897 hold a comment only). -/
def enterScope (fuel : Nat) (root : Bool) (_parentIndex : Nat) (st : SwiftState) :
    Except CXX.Fault (tokenInfo × SwiftState) :=
  match fuel with
  | 0 => .error .outOfFuel
  | fuel + 1 =>
    match readToken st with
    | .error e => .error e
    | .ok (token, st1) => enterScopeLoop fuel root CORK_NIL token st1
termination_by structural fuel
/-- The `while` loop of `enterScope` (lines 725-891), entered with the current token
and the value of `corkIndex`; one unit of fuel per turn. -/
def enterScopeLoop (fuel : Nat) (root : Bool) (corkIndex : Nat) (token : tokenInfo)
    (st : SwiftState) : Except CXX.Fault (tokenInfo × SwiftState) :=
  match fuel with
  | 0 => .error .outOfFuel
  | fuel + 1 =>
    if token.type != .TOKEN_EOF && (root || token.type != .byte '\x7d') then
      -- lines 730-736: skip the keyword
      match (if token.keyword = .KEYWORD_if then
               match readToken st with
               | .error e => .error e
               | .ok (token1, st1) => .ok (true, CORK_NIL, token1, st1)
             else (.ok (false, corkIndex, token, st) :
               Except CXX.Fault (Bool × Nat × tokenInfo × SwiftState))) with
      | .error e => .error e
      | .ok (isIf, corkIndex1, token1, st1) =>
        let body : Except CXX.Fault (Bool × Nat × tokenInfo × SwiftState) :=
          if token1.keyword = .KEYWORD_let ∨ token1.keyword = .KEYWORD_var then
            enterScopeVariable fuel isIf corkIndex1 token1 st1
          else if token1.keyword = .KEYWORD_func ∨ token1.keyword = .KEYWORD_init ∨
              token1.keyword = .KEYWORD_deinit then
            enterScopeFunction fuel corkIndex1 token1 st1
          else if token1.keyword = .KEYWORD_class then
            enterScopeClass fuel corkIndex1 st1
          else if token1.keyword = .KEYWORD_typealias then
            enterScopeTypealias fuel corkIndex1 st1
          else if token1.type = .byte '\x7b' then
            match enterScope fuel false corkIndex1
                (if corkIndex1 ≠ CORK_NIL then
                   { st1 with SwiftNestingLevels :=
                       nestingLevelsPush st1.SwiftNestingLevels corkIndex1 }
                 else st1) with
            | .error e => .error e
            | .ok (token2, st2) =>
              .ok (token2.type != .TOKEN_EOF, CORK_NIL, token2,
                if corkIndex1 ≠ CORK_NIL then
                  { st2 with SwiftNestingLevels := nestingLevelsPop st2.SwiftNestingLevels }
                else st2)
          else
            .ok (true, corkIndex1, token1, st1)
        match body with
        | .error e => .error e
        | .ok (readNext, corkIndex2, token2, st2) =>
          match (if readNext then readToken st2 else .ok (token2, st2)) with
          | .error e => .error e
          | .ok (token3, st3) => enterScopeLoop fuel root corkIndex2 token3 st3
    else
      .ok (token, st)
termination_by structural fuel
end

/-- Embedding of `findSwiftTags` (lines 900-910): the cork queue at the end of the
run over the file `input`. -/
def findSwiftTags (fuel : Nat) (input : List Char) : Except CXX.Fault (List tagEntryInfo) :=
  match enterScope fuel true CORK_NIL
      { input := input, corkQueue := [], SwiftNestingLevels := [] } with
  | .error e => .error e
  | .ok (_, st) => .ok st.corkQueue

/-- The state `st1` comes from the state `st` by reading input: the cork queue and the
nesting levels are the same and the input is not longer. -/
def ReadsFrom (st st1 : SwiftState) : Prop :=
  st1.corkQueue = st.corkQueue ∧ st1.SwiftNestingLevels = st.SwiftNestingLevels ∧
    st1.input.length ≤ st.input.length

/-- The name and the kind of every entry of a cork queue. -/
def tagKinds (q : List tagEntryInfo) : List (String × swiftKind) :=
  q.map (fun e => (e.name, e.kind))

/-- A Swift file with a `var` and a `let` declaration in the body of a class, in the
body of a function and at top level. -/
def kindsExampleFile : List Char :=
  ("class A \x7b\n  var x: Int\n  let k = 1\n  func f() \x7b\n    var y = 2\n"
    ++ "    let z = 3\n  \x7d\n\x7d\nvar t = 0\nlet c = 1\n").toList

/-- The state in the body of a class `A`, at the characters ` x` and the end of the
line that follow a keyword `var` or `let`. -/
def memberExampleState : SwiftState :=
  { input := " x\n".toList,
    corkQueue := [{ initTagEntry "A" .K_CLASS with inheritance := some "" }],
    SwiftNestingLevels := [{ corkIndex := 1 }] }

/-- The token of the keyword `var`. -/
def varToken : tokenInfo := ⟨.TOKEN_KEYWORD, .KEYWORD_var, "var"⟩

/-- The token of the identifier `x`. -/
def xToken : tokenInfo := ⟨.TOKEN_IDENTIFIER, .KEYWORD_NONE, "x"⟩

end Swift

namespace CXX

end CXX

/-! ## Notions used to state the properties of the Swift parser -/

namespace Swift

/-- What is still to be handled in a scope: the characters of the input, plus one
when the current token is not the end of the input. -/
def pending (token : tokenInfo) (st : SwiftState) : Nat :=
  st.input.length + (if token.type = .TOKEN_EOF then 0 else 1)

/-- The tokens that `n` successive calls `readTokenFull (token, true)` return, white
space included, and the state after them. -/
def readTokens : Nat → SwiftState → Except CXX.Fault (List tokenInfo × SwiftState)
  | 0, st => .ok ([], st)
  | n + 1, st =>
    match readTokenFull (st.input.length + 1) true st.input with
    | .error e => .error e
    | .ok (t, input) =>
      match readTokens n { st with input := input } with
      | .error e => .error e
      | .ok (ts, st1) => .ok (t :: ts, st1)

/-- The number of tokens of type `tOpen` minus the number of tokens of type `tClose`
among the tokens `ts`. -/
def pairCount (tOpen tClose : tokenType) (ts : List tokenInfo) : Int :=
  (ts.countP (fun t => t.type = tOpen) : Int) - (ts.countP (fun t => t.type = tClose) : Int)

/-- The representation of the tokens `ts`, added to `repr` one after the other. -/
def reprCatAll (repr : String) (ts : List tokenInfo) : String :=
  ts.foldl reprCat repr

/-- Specification of a block comment, read from inside the comment at the nesting
depth `depth`: `/*` opens a level, `*/` closes one, and the result is the input after
the `*/` that closes the outermost level, or `none` when the comment is not
terminated. -/
def blockCommentRest (depth : Nat) : List Char → Option (List Char)
  | [] => none
  | [_] => none
  | c :: d :: rest =>
    if c == '/' && d == '*' then
      blockCommentRest (depth + 1) rest
    else if c == '*' && d == '/' then
      if depth ≤ 1 then some rest else blockCommentRest (depth - 1) rest
    else
      blockCommentRest depth (d :: rest)

/-- The token of the end of the input. -/
def eofToken : tokenInfo := ⟨.TOKEN_EOF, .KEYWORD_NONE, ""⟩

/-- The token of an opening parenthesis. -/
def openParenToken : tokenInfo := ⟨.byte '(', .KEYWORD_NONE, "("⟩

/-- The state at the start of a run over the file `input`. -/
def fileState (input : List Char) : SwiftState :=
  { input := input, corkQueue := [], SwiftNestingLevels := [] }

/-- A class with two base classes. -/
def inheritanceExampleFile : List Char :=
  "class A : B, C \x7b\n\x7d\n".toList

/-- A variable of an optional type. -/
def optionalExampleFile : List Char :=
  "var x: Int?\n".toList

/-- A variable whose type is a tuple type with the suffix `?`. -/
def tupleOptionalExampleFile : List Char :=
  "var x: (Int)?\n".toList

/-- The keyword `func` followed by a parenthesis. -/
def funcExampleFile : List Char :=
  "func (x)\n".toList

/-- An initializer and a deinitializer. -/
def initExampleFile : List Char :=
  "init(a: Int) \x7b\n\x7d\ndeinit \x7b\n\x7d\n".toList

/-- A function with a name. -/
def namedFuncExampleFile : List Char :=
  "func f(a: Int) \x7b\n\x7d\n".toList

/-- A variable at top level, then a loop statement with a block that declares a
variable. -/
def whileExampleFile : List Char :=
  "var x = 1\nwhile x > 0 \x7b\n  var y = 2\n\x7d\n".toList

/-- A file with a closing brace too many and a block that is not closed. -/
def unbalancedExampleFile : List Char :=
  "\x7d\nclass A \x7b\n  func f() \x7b\n".toList

/-- The characters `a (b) c )` and the rest of a line, after an opening parenthesis. -/
def pairExampleState : SwiftState :=
  fileState "a (b) c) d\n".toList

/-- The characters after the opening of a block comment that holds a nested comment
and is followed by an identifier. -/
def commentExampleRest : List Char :=
  " a /* b */ c **/ x\n".toList

/-- A nested block comment followed by an identifier. -/
def commentExampleFile : List Char :=
  '/' :: '*' :: commentExampleRest

/-- A class with one base class. -/
def singleBaseExampleFile : List Char :=
  "class A : B \x7b\n\x7d\n".toList

/-- A class without base class. -/
def noBaseExampleFile : List Char :=
  "class A \x7b\n\x7d\n".toList

/-- The token of a closing parenthesis. -/
def closeParenToken : tokenInfo := ⟨.byte ')', .KEYWORD_NONE, ")"⟩

end Swift

namespace CXX

/-! ## Unfolding, fuel and stop conditions of the condenser -/

theorem upTo_succ (env : CXXCollaborators) (fuel T O : Nat) (st : CXXParserState) :
    cxxParserParseAndCondenseSubchainsUpToOneOf env (fuel + 1) T O st =
      match cxxParserParseNextToken st with
      | (false, st1) => .ok (maskTest T CXXTokenTypeEOF, st1)
      | (true, st1) =>
        cxxParserParseAndCondenseSubchainsUpToOneOfLoop env fuel T O (shl4 O) st1 := rfl

theorem sub_succ (env : CXXCollaborators) (fuel O : Nat) (a : Bool) (st : CXXParserState) :
    cxxParserParseAndCondenseCurrentSubchain env (fuel + 1) O a st =
      match cxxTokenChainTakeLast st.pTokenChain with
      | none => .error .nullPointer
      | some (pInitial, pCurrentChain1) =>
        match st.pToken with
        | none => .error .nullPointer
        | some pToken =>
          match cxxParserParseAndCondenseSubchainsUpToOneOf env fuel
              (subchainTerminators pToken.eType a) O
              { st with pTokenChain := cxxTokenChainAppend [] pInitial } with
          | .error e => .error e
          | .ok (bRet, st1) =>
            .ok (bRet, { st1 with
              pTokenChain := cxxTokenChainAppend pCurrentChain1
                (subchainMarker pToken.eType st1.pTokenChain),
              pToken := cxxTokenChainLast (cxxTokenChainAppend pCurrentChain1
                (subchainMarker pToken.eType st1.pTokenChain)) }) := rfl

theorem loop_succ (env : CXXCollaborators) (fuel T O F : Nat) (st : CXXParserState) :
    cxxParserParseAndCondenseSubchainsUpToOneOfLoop env (fuel + 1) T O F st =
    match st.pToken with
    | none => .error .nullPointer
    | some pToken =>
      if maskTest pToken.eType T then
        .ok (true, st)
      else if maskTest pToken.eType O then
        match openerStep env fuel O (maskTest T CXXTokenTypeEOF) pToken st with
        | .error e => .error e
        | .ok (false, st1) => .ok (false, st1)
        | .ok (true, st1) =>
          match st1.pToken with
          | none => .error .nullPointer
          | some pToken1 =>
            if maskTest pToken1.eType T then
              .ok (true, st1)
            else
              match cxxParserParseNextToken st1 with
              | (false, st2) => .ok (maskTest T CXXTokenTypeEOF, st2)
              | (true, st2) =>
                cxxParserParseAndCondenseSubchainsUpToOneOfLoop env fuel T O F st2
      else if maskTest pToken.eType F then
        .ok (false, st)
      else
        match cxxParserParseNextToken st with
        | (false, st1) => .ok (maskTest T CXXTokenTypeEOF, st1)
        | (true, st1) =>
          cxxParserParseAndCondenseSubchainsUpToOneOfLoop env fuel T O F st1 := rfl


theorem condenser_mono (env : CXXCollaborators) (fuel : Nat) :
    (∀ k T O st r, cxxParserParseAndCondenseSubchainsUpToOneOf env fuel T O st = .ok r →
        cxxParserParseAndCondenseSubchainsUpToOneOf env (fuel + k) T O st = .ok r) ∧
    (∀ k T O F st r, cxxParserParseAndCondenseSubchainsUpToOneOfLoop env fuel T O F st = .ok r →
        cxxParserParseAndCondenseSubchainsUpToOneOfLoop env (fuel + k) T O F st = .ok r) ∧
    (∀ k O a st r, cxxParserParseAndCondenseCurrentSubchain env fuel O a st = .ok r →
        cxxParserParseAndCondenseCurrentSubchain env (fuel + k) O a st = .ok r) := by
  induction fuel with
  | zero =>
    refine ⟨?_, ?_, ?_⟩ <;> intros <;> rename_i h <;> cases h
  | succ n ih =>
    obtain ⟨ihU, ihL, ihS⟩ := ih
    refine ⟨?_, ?_, ?_⟩
    · intro k T O st r h
      rw [show n + 1 + k = (n + k) + 1 by omega, upTo_succ]
      rw [upTo_succ] at h
      rcases hp : cxxParserParseNextToken st with ⟨b, st1⟩
      rw [hp] at h
      cases b
      · exact h
      · exact ihL k _ _ _ _ _ h
    · intro k T O F st r h
      rw [show n + 1 + k = (n + k) + 1 by omega, loop_succ]
      rw [loop_succ] at h
      cases hpt : st.pToken with
      | none => rw [hpt] at h; cases h
      | some tok =>
        rw [hpt] at h
        simp only at h ⊢
        by_cases h1 : maskTest tok.eType T = true
        · simpa [h1] using h
        · simp only [h1, if_false] at h ⊢
          by_cases h2 : maskTest tok.eType O = true
          · simp only [h2, if_true] at h ⊢
            have hstep : ∀ r', openerStep env n O (maskTest T CXXTokenTypeEOF) tok st = .ok r' →
                openerStep env (n + k) O (maskTest T CXXTokenTypeEOF) tok st = .ok r' := by
              intro r' hr'
              unfold openerStep at hr' ⊢
              split at hr'
              · exact hr'
              · exact ihS k _ _ _ _ hr'
            cases hs : openerStep env n O (maskTest T CXXTokenTypeEOF) tok st with
            | error e => rw [hs] at h; cases h
            | ok r' =>
              rw [hstep r' hs]
              rw [hs] at h
              rcases r' with ⟨b, st1⟩
              cases b
              · exact h
              · simp only at h ⊢
                cases hpt1 : st1.pToken with
                | none => rw [hpt1] at h; cases h
                | some tok1 =>
                  rw [hpt1] at h
                  simp only at h ⊢
                  by_cases h3 : maskTest tok1.eType T = true
                  · simpa [h3] using h
                  · simp only [h3, if_false] at h ⊢
                    rcases hp : cxxParserParseNextToken st1 with ⟨b2, st2⟩
                    rw [hp] at h
                    cases b2
                    · exact h
                    · exact ihL k _ _ _ _ _ h
          · simp only [h2, if_false] at h ⊢
            by_cases h4 : maskTest tok.eType F = true
            · simpa [h4] using h
            · simp only [h4, if_false] at h ⊢
              rcases hp : cxxParserParseNextToken st with ⟨b2, st2⟩
              rw [hp] at h
              cases b2
              · exact h
              · exact ihL k _ _ _ _ _ h
    · intro k O a st r h
      rw [show n + 1 + k = (n + k) + 1 by omega, sub_succ]
      rw [sub_succ] at h
      split at h
      · cases h
      · split at h
        · cases h
        · split at h
          · cases h
          · rename_i hu
            rw [ihU k _ _ _ _ hu]
            exact h


theorem parseNext_input_le (st : CXXParserState) :
    (cxxParserParseNextToken st).2.input.length ≤ st.input.length := by
  unfold cxxParserParseNextToken
  split <;> simp_all

theorem parseNext_true_lt (st st1 : CXXParserState)
    (h : cxxParserParseNextToken st = (true, st1)) :
    st1.input.length + 1 = st.input.length := by
  unfold cxxParserParseNextToken at h
  split at h
  · simp at h
  · rename_i t rest hi
    simp only [Prod.mk.injEq, true_and] at h
    subst h
    simp [hi]

theorem parseNext_false (st st1 : CXXParserState)
    (h : cxxParserParseNextToken st = (false, st1)) :
    st.input = [] ∧ st1.input = [] ∧ st1.pToken = some cxxTokenEOF := by
  unfold cxxParserParseNextToken at h
  split at h
  · rename_i hi
    simp only [Prod.mk.injEq, true_and] at h
    subst h
    simp [hi]
  · simp at h

theorem parseNext_pToken (st : CXXParserState) :
    (cxxParserParseNextToken st).2.pToken ≠ none := by
  unfold cxxParserParseNextToken
  split <;> simp

theorem parseNext_chain (st : CXXParserState) :
    (cxxParserParseNextToken st).2.pTokenChain ≠ [] := by
  unfold cxxParserParseNextToken
  split <;> simp [cxxTokenChainAppend]

theorem takeLast_append (c : CXXTokenChain) (t : CXXToken) :
    cxxTokenChainTakeLast (c ++ [t]) = some (t, c) := by
  simp [cxxTokenChainTakeLast]

theorem takeLast_of_ne_nil (c : CXXTokenChain) (h : c ≠ []) :
    cxxTokenChainTakeLast c = some (c.getLast h, c.dropLast) := by
  conv_lhs => rw [← List.dropLast_append_getLast h]
  rw [takeLast_append]

theorem chainLast_append (c : CXXTokenChain) (t : CXXToken) :
    cxxTokenChainLast (cxxTokenChainAppend c t) = some t := by
  simp [cxxTokenChainLast, cxxTokenChainAppend]

theorem parseNext_isCPP (env : CXXCollaborators) (st : CXXParserState) :
    LambdaFree env (cxxParserParseNextToken st).2 ↔ LambdaFree env st := by
  unfold cxxParserParseNextToken
  split <;> exact Iff.rfl

theorem condenser_total (env : CXXCollaborators) (fuel : Nat) :
    (∀ T O st, (LambdaHandlerTotal env ∨ LambdaFree env st) →
      3 * st.input.length + 1 ≤ fuel →
      ∃ b st', cxxParserParseAndCondenseSubchainsUpToOneOf env fuel T O st = .ok (b, st') ∧
        st'.input.length ≤ st.input.length ∧ st'.pToken ≠ none ∧
        (LambdaFree env st → LambdaFree env st')) ∧
    (∀ T O F st, (LambdaHandlerTotal env ∨ LambdaFree env st) →
      st.pToken ≠ none → st.pTokenChain ≠ [] → 3 * st.input.length + 3 ≤ fuel →
      ∃ b st', cxxParserParseAndCondenseSubchainsUpToOneOfLoop env fuel T O F st = .ok (b, st') ∧
        st'.input.length ≤ st.input.length ∧ st'.pToken ≠ none ∧
        (LambdaFree env st → LambdaFree env st')) ∧
    (∀ O a st, (LambdaHandlerTotal env ∨ LambdaFree env st) →
      st.pToken ≠ none → st.pTokenChain ≠ [] → 3 * st.input.length + 2 ≤ fuel →
      ∃ b st', cxxParserParseAndCondenseCurrentSubchain env fuel O a st = .ok (b, st') ∧
        st'.input.length ≤ st.input.length ∧ st'.pToken ≠ none ∧
        (LambdaFree env st → LambdaFree env st')) := by
  induction fuel with
  | zero =>
    refine ⟨?_, ?_, ?_⟩ <;> intros <;> omega
  | succ n ih =>
    obtain ⟨ihU, ihL, ihS⟩ := ih
    -- reading the next token and looping
    have hnext : ∀ T O F (st : CXXParserState),
        (LambdaHandlerTotal env ∨ LambdaFree env st) →
        3 * st.input.length ≤ n →
        ∃ b st', (match cxxParserParseNextToken st with
            | (false, st1) => Except.ok (maskTest T CXXTokenTypeEOF, st1)
            | (true, st1) =>
              cxxParserParseAndCondenseSubchainsUpToOneOfLoop env n T O F st1) = .ok (b, st') ∧
          st'.input.length ≤ st.input.length ∧ st'.pToken ≠ none ∧
          (LambdaFree env st → LambdaFree env st') := by
      intro T O F st hH hf
      rcases hp : cxxParserParseNextToken st with ⟨b, st1⟩
      have hle := parseNext_input_le st
      have hpt := parseNext_pToken st
      have hch := parseNext_chain st
      have hcpp := parseNext_isCPP env st
      rw [hp] at hle hpt hch hcpp
      simp only at hcpp
      cases b
      · exact ⟨_, st1, rfl, hle, hpt, fun h => hcpp.mpr h⟩
      · have hlt := parseNext_true_lt st st1 hp
        obtain ⟨b', st', h1, h2, h3, h4⟩ :=
          ihL T O F st1 (hH.imp id hcpp.mpr) hpt hch (by omega)
        exact ⟨b', st', h1, by omega, h3, fun h => h4 (hcpp.mpr h)⟩
    refine ⟨?_, ?_, ?_⟩
    · intro T O st hH hf
      rw [upTo_succ]
      exact hnext T O _ st hH (by omega)
    · intro T O F st hH hpt hch hf
      rw [loop_succ]
      cases hpt' : st.pToken with
      | none => exact absurd hpt' hpt
      | some tok =>
        simp only
        by_cases h1 : maskTest tok.eType T = true
        · exact ⟨true, st, by simp [h1], le_refl _, hpt, id⟩
        · simp only [h1, if_false]
          by_cases h2 : maskTest tok.eType O = true
          · simp only [h2, if_true]
            have hstep : ∃ b1 st1, openerStep env n O (maskTest T CXXTokenTypeEOF) tok st
                = .ok (b1, st1) ∧ st1.input.length ≤ st.input.length ∧ st1.pToken ≠ none ∧
                (LambdaHandlerTotal env ∨ LambdaFree env st1) ∧
                (LambdaFree env st → LambdaFree env st1) := by
              unfold openerStep
              split
              · rename_i p hp
                have hnf : ¬ LambdaFree env st := by
                  intro hfree
                  rcases hfree with hne | hne
                  · simp [hne] at hp
                  · rw [hne] at hp
                    simp at hp
                have hL : LambdaHandlerTotal env := by
                  rcases hH with h | h
                  · exact h
                  · exact absurd h hnf
                exact ⟨_, _, rfl, (hL p st).1, (hL p st).2, Or.inl hL,
                  fun h => absurd h hnf⟩
              · obtain ⟨b1, st1, g1, g2, g3, g4⟩ := ihS O _ st hH hpt hch (by omega)
                refine ⟨b1, st1, g1, g2, g3, ?_, g4⟩
                rcases hH with h | h
                · exact Or.inl h
                · exact Or.inr (g4 h)
            obtain ⟨b1, st1, hs, hle1, hpt1, hH1, hcpp1⟩ := hstep
            rw [hs]
            cases b1
            · exact ⟨false, st1, rfl, hle1, hpt1, hcpp1⟩
            · simp only
              cases hpt1' : st1.pToken with
              | none => exact absurd hpt1' hpt1
              | some tok1 =>
                simp only
                by_cases h3 : maskTest tok1.eType T = true
                · exact ⟨true, st1, by simp [h3], hle1, hpt1, hcpp1⟩
                · simp only [h3, if_false]
                  obtain ⟨b', st', h1', h2', h3', h4'⟩ := hnext T O F st1 hH1 (by omega)
                  exact ⟨b', st', h1', by omega, h3', fun h => h4' (hcpp1 h)⟩
          · simp only [h2, if_false]
            by_cases h4 : maskTest tok.eType F = true
            · exact ⟨false, st, by simp [h4], le_refl _, hpt, id⟩
            · simp only [h4, if_false]
              exact hnext T O F st hH (by omega)
    · intro O a st hH hpt hc hf
      rw [sub_succ, takeLast_of_ne_nil _ hc]
      obtain ⟨tok, hpt'⟩ := Option.ne_none_iff_exists'.mp hpt
      obtain ⟨b1, st1, hu, hle1, -, hcpp1⟩ := ihU (subchainTerminators tok.eType a) O
        { st with pTokenChain := cxxTokenChainAppend [] (st.pTokenChain.getLast hc) }
        hH (by simpa using (by omega : 3 * st.input.length + 1 ≤ n))
      rw [hpt'] at hu ⊢
      simp only
      rw [hu]
      refine ⟨b1, _, rfl, ?_, ?_, ?_⟩
      · simpa using hle1
      · simp [chainLast_append]
      · intro h
        exact hcpp1 h

theorem condenser_stop (env : CXXCollaborators) (T O : Nat) (fuel : Nat) :
    (∀ st b st', cxxParserParseAndCondenseSubchainsUpToOneOf env fuel T O st = .ok (b, st') →
      StopCondition env T O b st') ∧
    (∀ st b st', cxxParserParseAndCondenseSubchainsUpToOneOfLoop env fuel T O (shl4 O) st
        = .ok (b, st') → StopCondition env T O b st') := by
  induction fuel with
  | zero => refine ⟨?_, ?_⟩ <;> intros <;> rename_i h <;> cases h
  | succ n ih =>
    obtain ⟨-, ihL⟩ := ih
    have hnext : ∀ (st : CXXParserState) b st',
        (match cxxParserParseNextToken st with
          | (false, st1) => Except.ok (maskTest T CXXTokenTypeEOF, st1)
          | (true, st1) =>
            cxxParserParseAndCondenseSubchainsUpToOneOfLoop env n T O (shl4 O) st1)
          = .ok (b, st') → StopCondition env T O b st' := by
      intro st b st' h
      rcases hp : cxxParserParseNextToken st with ⟨b1, st1⟩
      rw [hp] at h
      cases b1
      · obtain ⟨-, h2, h3⟩ := parseNext_false st st1 hp
        simp only [Except.ok.injEq, Prod.mk.injEq] at h
        obtain ⟨hb, hst⟩ := h
        subst hst
        cases hT : maskTest T CXXTokenTypeEOF
        · rw [hT] at hb; subst hb
          exact .endOfInput _ h3 h2 hT
        · rw [hT] at hb; subst hb
          exact .endOfInputAccepted _ h3 h2 hT
      · exact ihL _ _ _ h
    refine ⟨?_, ?_⟩
    · intro st b st' h
      rw [upTo_succ] at h
      exact hnext st b st' h
    · intro st b st' h
      rw [loop_succ] at h
      split at h
      · cases h
      · rename_i tok hpt
        split at h
        · rename_i h1
          simp only [Except.ok.injEq, Prod.mk.injEq] at h
          obtain ⟨hb, hst⟩ := h
          subst hb; subst hst
          exact .terminator _ tok hpt h1
        · rename_i h1
          split at h
          · rename_i h2
            split at h
            · cases h
            · rename_i st1 hs
              simp only [Except.ok.injEq, Prod.mk.injEq] at h
              obtain ⟨hb, hst⟩ := h
              subst hb; subst hst
              unfold openerStep at hs
              split at hs
              · rename_i p _
                simp only [Except.ok.injEq] at hs
                exact .lambdaFailure _ p st hs
              · exact .nestedFailure _ n st hs
            · rename_i st1 hs
              split at h
              · cases h
              · rename_i tok1 hpt1
                split at h
                · rename_i h3
                  simp only [Except.ok.injEq, Prod.mk.injEq] at h
                  obtain ⟨hb, hst⟩ := h
                  subst hb; subst hst
                  exact .terminator _ tok1 hpt1 h3
                · exact hnext _ _ _ h
          · rename_i h2
            split at h
            · rename_i h4
              simp only [Except.ok.injEq, Prod.mk.injEq] at h
              obtain ⟨hb, hst⟩ := h
              subst hb; subst hst
              exact .unmatchedCloser _ tok hpt (by simpa using h1) (by simpa using h2) h4
            · exact hnext _ _ _ h

/-! ## Frames, reads and masks -/

@[simp] theorem frame_pTokenChain (st : CXXParserState) (c p i) :
    (st.frame c p i).pTokenChain = c := rfl
@[simp] theorem frame_pToken (st : CXXParserState) (c p i) :
    (st.frame c p i).pToken = p := rfl
@[simp] theorem frame_input (st : CXXParserState) (c p i) :
    (st.frame c p i).input = i := rfl
@[simp] theorem frame_frame (st : CXXParserState) (c p i c' p' i') :
    (st.frame c p i).frame c' p' i' = st.frame c' p' i' := rfl
@[simp] theorem frame_isCPP (st : CXXParserState) (c p i) :
    cxxParserCurrentLanguageIsCPP (st.frame c p i) = cxxParserCurrentLanguageIsCPP st := rfl
theorem frame_self (st : CXXParserState) :
    st.frame st.pTokenChain st.pToken st.input = st := rfl

theorem parseNext_nil (st : CXXParserState) (h : st.input = []) :
    cxxParserParseNextToken st
      = (false, st.frame (st.pTokenChain ++ [cxxTokenEOF]) (some cxxTokenEOF) []) := by
  unfold cxxParserParseNextToken
  rw [h]
  rfl

theorem parseNext_cons (st : CXXParserState) (t : CXXToken) (rest : List CXXToken)
    (h : st.input = t :: rest) :
    cxxParserParseNextToken st = (true, st.frame (st.pTokenChain ++ [t]) (some t) rest) := by
  unfold cxxParserParseNextToken
  rw [h]
  rfl

theorem sub_succ_frame (env : CXXCollaborators) (fuel O : Nat) (a : Bool) (st : CXXParserState)
    (c : CXXTokenChain) (t0 : CXXToken)
    (hc : st.pTokenChain = c ++ [t0]) (hp : st.pToken = some t0) :
    cxxParserParseAndCondenseCurrentSubchain env (fuel + 1) O a st =
      match cxxParserParseAndCondenseSubchainsUpToOneOf env fuel
          (subchainTerminators t0.eType a) O (st.frame [t0] (some t0) st.input) with
      | .error e => .error e
      | .ok (bRet, st1) =>
        .ok (bRet, st1.frame (c ++ [subchainMarker t0.eType st1.pTokenChain])
          (some (subchainMarker t0.eType st1.pTokenChain)) st1.input) := by
  rw [sub_succ, hc, takeLast_append]
  simp only [hp, chainLast_append]
  rfl

@[simp] theorem lambdaFree_frame (env : CXXCollaborators) (st : CXXParserState) (c p i) :
    LambdaFree env (st.frame c p i) ↔ LambdaFree env st := Iff.rfl

theorem openerStep_cmode (env : CXXCollaborators) (fuel O : Nat) (a : Bool) (tok : CXXToken)
    (st : CXXParserState) (h : LambdaFree env st) :
    openerStep env fuel O a tok st = cxxParserParseAndCondenseCurrentSubchain env fuel O a st := by
  unfold openerStep
  rcases h with h | h
  · simp [h]
  · rw [h]
    simp

theorem maskTest_comm (a b : Nat) : maskTest a b = maskTest b a := by
  unfold maskTest
  rw [Nat.land_comm]

theorem maskTest_zero_left (b : Nat) : maskTest 0 b = false := by
  simp [maskTest]

theorem shl4_and_one (x : Nat) : shl4 x &&& 1 = 0 := by
  unfold shl4
  rw [Nat.and_one_is_mod, Nat.shiftLeft_eq]
  omega

theorem subchainTerminators_eof (x : Nat) (a : Bool) :
    maskTest (subchainTerminators x a) CXXTokenTypeEOF = a := by
  unfold maskTest subchainTerminators
  have h1 : CXXTokenTypeEOF = 1 := rfl
  rw [h1, Nat.and_distrib_right, shl4_and_one]
  cases a <;> simp

set_option maxRecDepth 100000 in
theorem bit_closer_aux : ∀ k, k < 32 → ∀ j, j < 32 → ∀ a : Bool,
    maskTest (1 <<< k) (subchainTerminators (1 <<< j) a) = true →
      (1 <<< k = shl4 (1 <<< j) ∨ (a = true ∧ 1 <<< k = CXXTokenTypeEOF)) := by
  decide

set_option maxRecDepth 100000 in
theorem shl8_bit_aux : ∀ k, k < 32 → (shl8 (1 <<< k) = 0 ∨ ∃ m, m < 32 ∧ shl8 (1 <<< k) = 1 <<< m) := by
  intro k hk
  by_cases h : k + 8 < 32
  · right
    refine ⟨k + 8, h, ?_⟩
    revert k
    decide
  · left
    revert k
    decide

theorem chainHeadsOK_append (xs ys : List CXXToken) :
    chainSubchainHeadsOK (xs ++ ys) = (chainSubchainHeadsOK xs && chainSubchainHeadsOK ys) := by
  induction xs with
  | nil => simp [chainSubchainHeadsOK]
  | cons x xs ih => simp [chainSubchainHeadsOK, ih, Bool.and_assoc]

theorem chainTailsOK_append (a : Bool) (xs ys : List CXXToken) :
    chainSubchainTailsOK a (xs ++ ys)
      = (chainSubchainTailsOK a xs && chainSubchainTailsOK a ys) := by
  induction xs with
  | nil => simp [chainSubchainTailsOK]
  | cons x xs ih => simp [chainSubchainTailsOK, ih, Bool.and_assoc]

theorem headsOK_of_plain (t : CXXToken) (h : t.pChain = none) : t.subchainHeadsOK = true := by
  cases t with
  | mk ty k w l s c =>
    simp only [CXXToken.pChain] at h
    subst h
    simp [CXXToken.subchainHeadsOK]

theorem tailsOK_of_plain (a : Bool) (t : CXXToken) (h : t.pChain = none) :
    t.subchainTailsOK a = true := by
  cases t with
  | mk ty k w l s c =>
    simp only [CXXToken.pChain] at h
    subst h
    simp [CXXToken.subchainTailsOK]

theorem chainHeadsOK_single (t : CXXToken) :
    chainSubchainHeadsOK [t] = t.subchainHeadsOK := by
  simp [chainSubchainHeadsOK]

theorem chainTailsOK_single (a : Bool) (t : CXXToken) :
    chainSubchainTailsOK a [t] = t.subchainTailsOK a := by
  simp [chainSubchainTailsOK]

theorem headsOK_marker (ty : Nat) (h : CXXToken) (inner : List CXXToken) :
    (subchainMarker ty (h :: inner)).subchainHeadsOK
      = ((shl8 ty == shl8 h.eType) && (h.subchainHeadsOK && chainSubchainHeadsOK inner)) := by
  simp only [subchainMarker, CXXToken.subchainHeadsOK, chainSubchainHeadsOK, List.head?_cons]

theorem tailsOK_marker (a : Bool) (ty : Nat) (h l : CXXToken) (inner : List CXXToken)
    (hl : (h :: inner).getLast? = some l) :
    (subchainMarker ty (h :: inner)).subchainTailsOK a
      = (((l.eType == shl4 h.eType) || (a && (l.eType == CXXTokenTypeEOF)))
          && (h.subchainTailsOK a && chainSubchainTailsOK a inner)) := by
  simp only [subchainMarker, CXXToken.subchainTailsOK, chainSubchainTailsOK, List.head?_cons, hl]

theorem eof_isLexerToken : IsLexerToken cxxTokenEOF :=
  ⟨⟨0, by decide, rfl⟩, rfl⟩

theorem closer_of_maskTest (l t0 : CXXToken) (a : Bool)
    (hl : l.eType = 0 ∨ IsTokenTypeBit l.eType) (ht : IsTokenTypeBit t0.eType)
    (h : maskTest l.eType (subchainTerminators t0.eType a) = true) :
    l.eType = shl4 t0.eType ∨ (a = true ∧ l.eType = CXXTokenTypeEOF) := by
  rcases hl with h0 | ⟨k, hk, hk'⟩
  · rw [h0, maskTest_zero_left] at h; cases h
  · obtain ⟨j, hj, hj'⟩ := ht
    rw [hk', hj'] at h ⊢
    exact bit_closer_aux k hk j hj a h

theorem marker_type_bit (t0 : CXXToken) (inner : List CXXToken) (ht : IsTokenTypeBit t0.eType) :
    (subchainMarker t0.eType inner).eType = 0 ∨
      IsTokenTypeBit (subchainMarker t0.eType inner).eType := by
  obtain ⟨j, hj, hj'⟩ := ht
  have : (subchainMarker t0.eType inner).eType = shl8 t0.eType := rfl
  rw [this, hj']
  rcases shl8_bit_aux j hj with h | ⟨m, hm, hm'⟩
  · exact Or.inl h
  · exact Or.inr ⟨m, hm, hm'⟩

/-! ## The condenser in C mode: what a run leaves behind -/

theorem lexer_of_suffix {i used rest : List CXXToken} (h : ∀ t ∈ i, IsLexerToken t)
    (e : i = used ++ rest) : ∀ t ∈ rest, IsLexerToken t := by
  intro t ht
  exact h t (by rw [e]; exact List.mem_append_right _ ht)

theorem condenser_cmode (env : CXXCollaborators) (fuel : Nat) :
    (∀ T O st b st', LambdaFree env st →
      (∀ t ∈ st.input, IsLexerToken t) →
      cxxParserParseAndCondenseSubchainsUpToOneOf env fuel T O st = .ok (b, st') →
      CondenserPost T st st.pTokenChain b st') ∧
    (∀ T O F st b st' c t0, LambdaFree env st →
      (∀ t ∈ st.input, IsLexerToken t) →
      st.pTokenChain = c ++ [t0] → st.pToken = some t0 → IsLexerToken t0 →
      cxxParserParseAndCondenseSubchainsUpToOneOfLoop env fuel T O F st = .ok (b, st') →
      CondenserPost T st c b st') ∧
    (∀ O a st b st' c t0, LambdaFree env st →
      (∀ t ∈ st.input, IsLexerToken t) →
      st.pTokenChain = c ++ [t0] → st.pToken = some t0 → IsLexerToken t0 →
      cxxParserParseAndCondenseCurrentSubchain env fuel O a st = .ok (b, st') →
      SubchainPost a st c t0 b st') := by
  induction fuel with
  | zero => refine ⟨?_, ?_, ?_⟩ <;> intros <;> rename_i h <;> cases h
  | succ n ih =>
    obtain ⟨ihU, ihL, ihS⟩ := ih
    have hnext : ∀ T O F (st : CXXParserState) b st',
        LambdaFree env st → (∀ t ∈ st.input, IsLexerToken t) →
        (match cxxParserParseNextToken st with
          | (false, st1) => Except.ok (maskTest T CXXTokenTypeEOF, st1)
          | (true, st1) =>
            cxxParserParseAndCondenseSubchainsUpToOneOfLoop env n T O F st1) = .ok (b, st') →
        CondenserPost T st st.pTokenChain b st' := by
      intro T O F st b st' hC hI h
      cases hi : st.input with
      | nil =>
        rw [parseNext_nil st hi] at h
        simp only [Except.ok.injEq, Prod.mk.injEq] at h
        obtain ⟨hb, hst⟩ := h
        subst hst
        refine ⟨[], cxxTokenEOF, [], ?_, ?_, ?_, Or.inr eof_isLexerToken.1, ?_⟩
        · simp
        · simp [hi]
        · simp [chainHeadsOK_single, headsOK_of_plain _ eof_isLexerToken.2]
        · intro hb'
          rw [hb'] at hb
          refine ⟨?_, ?_⟩
          · rw [maskTest_comm]; exact hb
          · simp [chainTailsOK_single, tailsOK_of_plain _ _ eof_isLexerToken.2]
      | cons t rest =>
        rw [parseNext_cons st t rest hi] at h
        have ht : IsLexerToken t := hI t (by simp [hi])
        have hrest : ∀ x ∈ rest, IsLexerToken x := fun x hx => hI x (by simp [hi, hx])
        obtain ⟨new, tok, used, h1, h2, h3, h4, h5⟩ :=
          ihL T O F _ b st' st.pTokenChain t (by simpa using hC) (by simpa using hrest)
            rfl rfl ht h
        refine ⟨new, tok, t :: used, ?_, ?_, h3, h4, h5⟩
        · simpa using h1
        · simp only [frame_input] at h2
          rw [hi, h2]; rfl
    refine ⟨?_, ?_, ?_⟩
    · intro T O st b st' hC hI h
      rw [upTo_succ] at h
      exact hnext T O _ st b st' hC hI h
    · intro T O F st b st' c t0 hC hI hc hp ht0 h
      rw [loop_succ, hp] at h
      simp only at h
      split at h
      · -- the current token is a terminator
        rename_i h1
        simp only [Except.ok.injEq, Prod.mk.injEq] at h
        obtain ⟨hb, hst⟩ := h
        subst hb; subst hst
        refine ⟨[], t0, [], ?_, by simp, ?_, Or.inr ht0.1, ?_⟩
        · rw [List.append_nil, ← hc, ← hp]; rfl
        · simp [chainHeadsOK_single, headsOK_of_plain _ ht0.2]
        · intro _
          exact ⟨h1, by simp [chainTailsOK_single, tailsOK_of_plain _ _ ht0.2]⟩
      · split at h
        · -- opener
          rw [openerStep_cmode _ _ _ _ _ _ hC] at h
          split at h
          · cases h
          · -- nested failure
            rename_i st1 hs
            simp only [Except.ok.injEq, Prod.mk.injEq] at h
            obtain ⟨hb, hst⟩ := h
            subst hb; subst hst
            obtain ⟨inner, used, h1, h2, h3, -⟩ := ihS O _ st false _ c t0 hC hI hc hp ht0 hs
            refine ⟨[], subchainMarker t0.eType (t0 :: inner), used, ?_, h2, ?_,
              marker_type_bit t0 _ ht0.1, ?_⟩
            · simpa using h1
            · simp [chainHeadsOK_single, headsOK_marker, headsOK_of_plain _ ht0.2, h3]
            · intro hb; cases hb
          · -- nested success
            rename_i st1 hs
            obtain ⟨inner, used, h1, h2, h3, h4⟩ := ihS O _ st true _ c t0 hC hI hc hp ht0 hs
            obtain ⟨l, hl1, hl2, hl3, hl4⟩ := h4 rfl
            have hmH : (subchainMarker t0.eType (t0 :: inner)).subchainHeadsOK = true := by
              simp [headsOK_marker, headsOK_of_plain _ ht0.2, h3]
            have hmT : (subchainMarker t0.eType (t0 :: inner)).subchainTailsOK
                (maskTest T CXXTokenTypeEOF) = true := by
              rw [tailsOK_marker _ _ _ l _ hl1]
              have := closer_of_maskTest l t0 _ hl3 ht0.1 hl2
              rcases this with e | ⟨e1, e2⟩
              · simp [e, tailsOK_of_plain _ _ ht0.2, hl4]
              · rw [e1] at hl4
                simp [e1, e2, tailsOK_of_plain _ _ ht0.2, hl4]
            have hp1 : st1.pToken = some (subchainMarker t0.eType (t0 :: inner)) := by
              rw [h1]; rfl
            rw [hp1] at h
            simp only at h
            split at h
            · -- the marker is a terminator
              rename_i h3'
              simp only [Except.ok.injEq, Prod.mk.injEq] at h
              obtain ⟨hb, hst⟩ := h
              subst hb; subst hst
              refine ⟨[], subchainMarker t0.eType (t0 :: inner), used, ?_, h2, ?_,
                marker_type_bit t0 _ ht0.1, ?_⟩
              · simpa using h1
              · simpa [chainHeadsOK_single] using hmH
              · intro _
                exact ⟨h3', by simpa [chainTailsOK_single] using hmT⟩
            · -- read on
              have hC1 : LambdaFree env st1 := by rw [h1]; simpa using hC
              have hI1 : ∀ t ∈ st1.input, IsLexerToken t := lexer_of_suffix hI h2
              obtain ⟨new, tok, used', g1, g2, g3, g4, g5⟩ := hnext T O F st1 b st' hC1 hI1 h
              have hch1 : st1.pTokenChain = c ++ [subchainMarker t0.eType (t0 :: inner)] := by
                rw [h1]; rfl
              refine ⟨subchainMarker t0.eType (t0 :: inner) :: new, tok, used ++ used', ?_, ?_, ?_,
                g4, ?_⟩
              · rw [g1, hch1, h1]; simp
              · rw [h2, g2]; simp
              · simp [chainSubchainHeadsOK, hmH, g3]
              · intro hb
                obtain ⟨k1, k2⟩ := g5 hb
                refine ⟨k1, ?_⟩
                simp [chainSubchainTailsOK, hmT, k2]
        · split at h
          · -- unmatched closer
            simp only [Except.ok.injEq, Prod.mk.injEq] at h
            obtain ⟨hb, hst⟩ := h
            subst hb; subst hst
            refine ⟨[], t0, [], ?_, by simp, ?_, Or.inr ht0.1, ?_⟩
            · rw [List.append_nil, ← hc, ← hp]; rfl
            · simp [chainHeadsOK_single, headsOK_of_plain _ ht0.2]
            · intro hb; cases hb
          · -- plain token
            obtain ⟨new, tok, used', g1, g2, g3, g4, g5⟩ := hnext T O F st b st' hC hI h
            refine ⟨t0 :: new, tok, used', ?_, g2, ?_, g4, ?_⟩
            · rw [g1, hc]; simp
            · simp [chainSubchainHeadsOK, headsOK_of_plain _ ht0.2, g3]
            · intro hb
              obtain ⟨k1, k2⟩ := g5 hb
              refine ⟨k1, ?_⟩
              simp [chainSubchainTailsOK, tailsOK_of_plain _ _ ht0.2, k2]
    · intro O a st b st' c t0 hC hI hc hp ht0 h
      rw [sub_succ_frame env n O a st c t0 hc hp] at h
      split at h
      · cases h
      · rename_i b1 st1 hu
        simp only [Except.ok.injEq, Prod.mk.injEq] at h
        obtain ⟨hb, hst⟩ := h
        subst hb; subst hst
        obtain ⟨new, tok, used, h1, h2, h3, h4, h5⟩ :=
          ihU _ O _ b1 st1 (by simpa using hC) (by simpa using hI) hu
        simp only [frame_pTokenChain, frame_input] at h1 h2
        have hch1 : st1.pTokenChain = t0 :: (new ++ [tok]) := by rw [h1]; simp
        refine ⟨new ++ [tok], used, ?_, ?_, h3, ?_⟩
        · rw [hch1, h1]; simp
        · simpa using h2
        · intro hb
          obtain ⟨k1, k2⟩ := h5 hb
          refine ⟨tok, ?_, k1, h4, ?_⟩
          · have e : t0 :: (new ++ [tok]) = (t0 :: new) ++ [tok] := rfl
            rw [e]
            exact List.getLast?_concat _
          · rw [subchainTerminators_eof] at k2
            exact k2

/-! ## Steps of the loop -/

theorem upTo_mono (env : CXXCollaborators) {fuel fuel' T O : Nat} {st : CXXParserState}
    {r : Bool × CXXParserState}
    (h : cxxParserParseAndCondenseSubchainsUpToOneOf env fuel T O st = .ok r)
    (hle : fuel ≤ fuel') :
    cxxParserParseAndCondenseSubchainsUpToOneOf env fuel' T O st = .ok r := by
  obtain ⟨k, rfl⟩ := Nat.exists_eq_add_of_le hle
  exact (condenser_mono env fuel).1 k T O st r h

theorem sub_mono (env : CXXCollaborators) {fuel fuel' O : Nat} {a : Bool} {st : CXXParserState}
    {r : Bool × CXXParserState}
    (h : cxxParserParseAndCondenseCurrentSubchain env fuel O a st = .ok r)
    (hle : fuel ≤ fuel') :
    cxxParserParseAndCondenseCurrentSubchain env fuel' O a st = .ok r := by
  obtain ⟨k, rfl⟩ := Nat.exists_eq_add_of_le hle
  exact (condenser_mono env fuel).2.2 k O a st r h

theorem upTo_det (env : CXXCollaborators) {f1 f2 T O : Nat} {st : CXXParserState}
    {r1 r2 : Bool × CXXParserState}
    (h1 : cxxParserParseAndCondenseSubchainsUpToOneOf env f1 T O st = .ok r1)
    (h2 : cxxParserParseAndCondenseSubchainsUpToOneOf env f2 T O st = .ok r2) : r1 = r2 := by
  have e1 := upTo_mono env h1 (Nat.le_max_left f1 f2)
  have e2 := upTo_mono env h2 (Nat.le_max_right f1 f2)
  rw [e1] at e2
  exact Except.ok.inj e2

theorem sub_det (env : CXXCollaborators) {f1 f2 O : Nat} {a : Bool} {st : CXXParserState}
    {r1 r2 : Bool × CXXParserState}
    (h1 : cxxParserParseAndCondenseCurrentSubchain env f1 O a st = .ok r1)
    (h2 : cxxParserParseAndCondenseCurrentSubchain env f2 O a st = .ok r2) : r1 = r2 := by
  have e1 := sub_mono env h1 (Nat.le_max_left f1 f2)
  have e2 := sub_mono env h2 (Nat.le_max_right f1 f2)
  rw [e1] at e2
  exact Except.ok.inj e2

theorem upTo_ne_zero (env : CXXCollaborators) {fuel T O : Nat} {st : CXXParserState}
    {r : Bool × CXXParserState}
    (h : cxxParserParseAndCondenseSubchainsUpToOneOf env fuel T O st = .ok r) :
    ∃ n, fuel = n + 1 := by
  cases fuel with
  | zero => cases h
  | succ n => exact ⟨n, rfl⟩

/-- The run does not depend on the current token it is entered with. -/
theorem upTo_frame_pToken (env : CXXCollaborators) (fuel T O : Nat) (st : CXXParserState)
    (c : CXXTokenChain) (p p' : Option CXXToken) (i : List CXXToken) :
    cxxParserParseAndCondenseSubchainsUpToOneOf env fuel T O (st.frame c p i)
      = cxxParserParseAndCondenseSubchainsUpToOneOf env fuel T O (st.frame c p' i) := by
  cases fuel with
  | zero => rfl
  | succ n =>
    rw [upTo_succ, upTo_succ]
    cases i with
    | nil => rw [parseNext_nil _ rfl, parseNext_nil _ rfl]; rfl
    | cons t rest => rw [parseNext_cons _ t rest rfl, parseNext_cons _ t rest rfl]; rfl

/-- At a token that is neither terminator, opener nor closer the loop reads on. -/
theorem loop_plain (env : CXXCollaborators) (n T O : Nat) (st : CXXParserState) (t : CXXToken)
    (hp : st.pToken = some t) (h1 : maskTest t.eType T = false)
    (h2 : maskTest t.eType O = false) (h3 : maskTest t.eType (shl4 O) = false) :
    cxxParserParseAndCondenseSubchainsUpToOneOfLoop env (n + 1) T O (shl4 O) st
      = cxxParserParseAndCondenseSubchainsUpToOneOf env (n + 1) T O st := by
  rw [loop_succ, upTo_succ, hp]
  simp [h1, h2, h3]

/-- At a terminator the loop stops with success. -/
theorem loop_terminator (env : CXXCollaborators) (n T O F : Nat) (st : CXXParserState)
    (t : CXXToken) (hp : st.pToken = some t) (h1 : maskTest t.eType T = true) :
    cxxParserParseAndCondenseSubchainsUpToOneOfLoop env (n + 1) T O F st = .ok (true, st) := by
  rw [loop_succ, hp]
  simp [h1]

/-- At an unmatched closer the loop stops with failure. -/
theorem loop_closer (env : CXXCollaborators) (n T O F : Nat) (st : CXXParserState)
    (t : CXXToken) (hp : st.pToken = some t) (h1 : maskTest t.eType T = false)
    (h2 : maskTest t.eType O = false) (h3 : maskTest t.eType F = true) :
    cxxParserParseAndCondenseSubchainsUpToOneOfLoop env (n + 1) T O F st = .ok (false, st) := by
  rw [loop_succ, hp]
  simp [h1, h2, h3]

/-- At an opener, in C mode, when the nested parse succeeds and the marker is not a
terminator, the loop reads on after the marker. -/
theorem loop_opener_continue (env : CXXCollaborators) (n T O : Nat) (st st1 : CXXParserState)
    (t m : CXXToken) (hC : LambdaFree env st)
    (hp : st.pToken = some t) (h1 : maskTest t.eType T = false)
    (h2 : maskTest t.eType O = true)
    (hs : cxxParserParseAndCondenseCurrentSubchain env (n + 1) O
      (maskTest T CXXTokenTypeEOF) st = .ok (true, st1))
    (hp1 : st1.pToken = some m) (h3 : maskTest m.eType T = false) :
    cxxParserParseAndCondenseSubchainsUpToOneOfLoop env (n + 2) T O (shl4 O) st
      = cxxParserParseAndCondenseSubchainsUpToOneOf env (n + 2) T O st1 := by
  rw [loop_succ, upTo_succ, hp]
  simp only [h1, h2, if_true, Bool.false_eq_true, if_false]
  rw [openerStep_cmode _ _ _ _ _ _ hC, hs]
  simp only [hp1, h3, Bool.false_eq_true, if_false]

/-- At an opener, in C mode, when the nested parse succeeds and the marker is a
terminator, the loop stops with success. -/
theorem loop_opener_terminator (env : CXXCollaborators) (n T O F : Nat)
    (st st1 : CXXParserState)
    (t m : CXXToken) (hC : LambdaFree env st)
    (hp : st.pToken = some t) (h1 : maskTest t.eType T = false)
    (h2 : maskTest t.eType O = true)
    (hs : cxxParserParseAndCondenseCurrentSubchain env n O
      (maskTest T CXXTokenTypeEOF) st = .ok (true, st1))
    (hp1 : st1.pToken = some m) (h3 : maskTest m.eType T = true) :
    cxxParserParseAndCondenseSubchainsUpToOneOfLoop env (n + 1) T O F st = .ok (true, st1) := by
  rw [loop_succ, hp]
  simp only [h1, h2, if_true, Bool.false_eq_true, if_false]
  rw [openerStep_cmode _ _ _ _ _ _ hC, hs]
  simp only [hp1, h3, if_true]

/-- At an opener, in C mode, when the nested parse fails, the loop stops with
failure. -/
theorem loop_opener_failure (env : CXXCollaborators) (n T O F : Nat)
    (st st1 : CXXParserState)
    (t : CXXToken) (hC : LambdaFree env st)
    (hp : st.pToken = some t) (h1 : maskTest t.eType T = false)
    (h2 : maskTest t.eType O = true)
    (hs : cxxParserParseAndCondenseCurrentSubchain env n O
      (maskTest T CXXTokenTypeEOF) st = .ok (false, st1)) :
    cxxParserParseAndCondenseSubchainsUpToOneOfLoop env (n + 1) T O F st = .ok (false, st1) := by
  rw [loop_succ, hp]
  simp only [h1, h2, if_true, Bool.false_eq_true, if_false]
  rw [openerStep_cmode _ _ _ _ _ _ hC, hs]

/-! ## Skipping tokens consumed at one level -/

/-- Reading one token that is a terminator. -/
theorem upTo_at_terminator (env : CXXCollaborators) (T O : Nat) (st : CXXParserState)
    (t : CXXToken) (rest : List CXXToken) (hi : st.input = t :: rest)
    (h1 : maskTest t.eType T = true) :
    cxxParserParseAndCondenseSubchainsUpToOneOf env 2 T O st
      = .ok (true, st.frame (st.pTokenChain ++ [t]) (some t) rest) := by
  rw [upTo_succ, parseNext_cons st t rest hi]
  simp only
  exact loop_terminator env 0 T O _ _ t rfl h1

/-- Skipping tokens consumed at the current level: the run on `ins ++ rest` is the run
on `rest` from the chain that `ins` leaves. -/
theorem upTo_skips (env : CXXCollaborators) {O T : Nat} {ins outs : List CXXToken}
    (hS : Skips O T ins outs) :
    ∀ (st : CXXParserState) (rest : List CXXToken) (p : Option CXXToken) (fuel : Nat)
      (r : Bool × CXXParserState),
      LambdaFree env st → st.input = ins ++ rest →
      cxxParserParseAndCondenseSubchainsUpToOneOf env fuel T O
        (st.frame (st.pTokenChain ++ outs) p rest) = .ok r →
      ∃ fuel', cxxParserParseAndCondenseSubchainsUpToOneOf env fuel' T O st = .ok r := by
  induction hS with
  | nil T =>
    intro st rest p fuel r _ hi h
    refine ⟨fuel, ?_⟩
    rw [← h]
    conv_lhs => rw [← frame_self st]
    rw [List.append_nil, List.nil_append] at *
    rw [hi]
    exact upTo_frame_pToken env fuel T O st _ _ _ _
  | plain T t ins outs h1 h2 h3 _ ih =>
    intro st rest p fuel r hC hi h
    obtain ⟨f1, hf1⟩ := ih (st.frame (st.pTokenChain ++ [t]) (some t) (ins ++ rest)) rest p fuel r
      (by simpa using hC) rfl (by simpa using h)
    obtain ⟨n, rfl⟩ := upTo_ne_zero env hf1
    refine ⟨n + 2, ?_⟩
    rw [upTo_succ, parseNext_cons st t (ins ++ rest) (by simpa using hi)]
    simp only
    rw [loop_plain env n T O _ t rfl h1 h2 h3]
    exact hf1
  | pair T t inner innerOuts cl ins outs h1 h2 _ h4 h5 _ ihI ihO =>
    intro st rest p fuel r hC hi h
    -- the nested parse
    have hN := ihI (st.frame [t] (some t) (inner ++ (cl :: (ins ++ rest)))) (cl :: (ins ++ rest))
      (some t) 2 _ (by simpa using hC) rfl
      (upTo_at_terminator env _ O _ cl (ins ++ rest) rfl h4)
    obtain ⟨f3, hf3⟩ := hN
    simp only [frame_frame, frame_pTokenChain] at hf3
    -- the rest of this level
    obtain ⟨f2, hf2⟩ := ihO
      (st.frame (st.pTokenChain ++ [subchainMarker t.eType (t :: innerOuts ++ [cl])])
        (some (subchainMarker t.eType (t :: innerOuts ++ [cl]))) (ins ++ rest)) rest p fuel r
      (by simpa using hC) rfl (by simpa using h)
    -- the subchain call
    have hsub : cxxParserParseAndCondenseCurrentSubchain env (f3 + 1) O
        (maskTest T CXXTokenTypeEOF)
        (st.frame (st.pTokenChain ++ [t]) (some t) (inner ++ (cl :: (ins ++ rest))))
        = .ok (true, st.frame
            (st.pTokenChain ++ [subchainMarker t.eType (t :: innerOuts ++ [cl])])
            (some (subchainMarker t.eType (t :: innerOuts ++ [cl]))) (ins ++ rest)) := by
      rw [sub_succ_frame env f3 O _ _ st.pTokenChain t rfl rfl]
      simp only [frame_frame, frame_input]
      rw [hf3]
      simp
    refine ⟨f3 + f2 + 3, ?_⟩
    rw [upTo_succ, parseNext_cons st t (inner ++ (cl :: (ins ++ rest))) (by simpa using hi)]
    simp only
    rw [loop_opener_continue env (f3 + f2) T O _ _ t _ (by simpa using hC) rfl h1 h2
        (sub_mono env hsub (by omega)) rfl h5]
    exact upTo_mono env hf2 (by omega)

/-! ## Runs of the condenser on inputs of a known shape -/

/-- A result obtained with some fuel is the result for every fuel that is enough for
the input. -/
theorem upTo_of_returns (env : CXXCollaborators) {T O : Nat} {st : CXXParserState}
    {r : Bool × CXXParserState} (hC : LambdaFree env st)
    (h : ∃ f, cxxParserParseAndCondenseSubchainsUpToOneOf env f T O st = .ok r)
    (fuel : Nat) (hf : 3 * st.input.length + 1 ≤ fuel) :
    cxxParserParseAndCondenseSubchainsUpToOneOf env fuel T O st = .ok r := by
  obtain ⟨f, hf'⟩ := h
  obtain ⟨b, st', h1, -⟩ := (condenser_total env fuel).1 T O st (Or.inr hC) hf
  rw [h1, upTo_det env h1 hf']

theorem sub_of_returns (env : CXXCollaborators) {O : Nat} {a : Bool} {st : CXXParserState}
    {r : Bool × CXXParserState} (hC : LambdaFree env st)
    (hp : st.pToken ≠ none) (hc : st.pTokenChain ≠ [])
    (h : ∃ f, cxxParserParseAndCondenseCurrentSubchain env f O a st = .ok r)
    (fuel : Nat) (hf : 3 * st.input.length + 2 ≤ fuel) :
    cxxParserParseAndCondenseCurrentSubchain env fuel O a st = .ok r := by
  obtain ⟨f, hf'⟩ := h
  obtain ⟨b, st', h1, -⟩ := (condenser_total env fuel).2.2 O a st (Or.inr hC) hp hc hf
  rw [h1, sub_det env h1 hf']

/-- A run that meets the end of the input at its own level. -/
theorem upTo_at_eof (env : CXXCollaborators) (T O : Nat) (st : CXXParserState)
    (hi : st.input = []) :
    cxxParserParseAndCondenseSubchainsUpToOneOf env 1 T O st
      = .ok (maskTest T CXXTokenTypeEOF,
          st.frame (st.pTokenChain ++ [cxxTokenEOF]) (some cxxTokenEOF) []) := by
  rw [upTo_succ, parseNext_nil st hi]

/-- A run that meets an unmatched closer at its own level. -/
theorem upTo_at_closer (env : CXXCollaborators) (T O : Nat) (st : CXXParserState)
    (t : CXXToken) (rest : List CXXToken) (hi : st.input = t :: rest)
    (h1 : maskTest t.eType T = false) (h2 : maskTest t.eType O = false)
    (h3 : maskTest t.eType (shl4 O) = true) :
    cxxParserParseAndCondenseSubchainsUpToOneOf env 2 T O st
      = .ok (false, st.frame (st.pTokenChain ++ [t]) (some t) rest) := by
  rw [upTo_succ, parseNext_cons st t rest hi]
  simp only
  exact loop_closer env 0 T O _ _ t rfl h1 h2 h3

/-- The nested parse of a balanced pair. -/
theorem sub_balanced (env : CXXCollaborators) {O : Nat} {a : Bool} {t cl : CXXToken}
    {inner innerOuts : List CXXToken}
    (hS : Skips O (subchainTerminators t.eType a) inner innerOuts)
    (hcl : maskTest cl.eType (subchainTerminators t.eType a) = true)
    (st : CXXParserState) (c rest : List CXXToken) (hC : LambdaFree env st) :
    ∃ f, cxxParserParseAndCondenseCurrentSubchain env f O a
        (st.frame (c ++ [t]) (some t) (inner ++ cl :: rest))
      = .ok (true, st.frame (c ++ [subchainMarker t.eType (t :: innerOuts ++ [cl])])
          (some (subchainMarker t.eType (t :: innerOuts ++ [cl]))) rest) := by
  obtain ⟨f3, hf3⟩ := upTo_skips env hS (st.frame [t] (some t) (inner ++ cl :: rest))
    (cl :: rest) (some t) 2 _ (by simpa using hC) rfl
    (upTo_at_terminator env _ O _ cl rest rfl hcl)
  simp only [frame_frame, frame_pTokenChain] at hf3
  refine ⟨f3 + 1, ?_⟩
  rw [sub_succ_frame env f3 O _ _ c t rfl rfl]
  simp only [frame_frame, frame_input]
  rw [hf3]
  simp

/-- A balanced pair whose marker is a terminator ends the run. -/
theorem upTo_pair_terminator (env : CXXCollaborators) {O T : Nat} {t cl : CXXToken}
    {inner innerOuts : List CXXToken}
    (h1 : maskTest t.eType T = false) (h2 : maskTest t.eType O = true)
    (hS : Skips O (subchainTerminators t.eType (maskTest T CXXTokenTypeEOF)) inner innerOuts)
    (hcl : maskTest cl.eType (subchainTerminators t.eType (maskTest T CXXTokenTypeEOF)) = true)
    (h5 : maskTest (shl8 t.eType) T = true)
    (st : CXXParserState) (rest : List CXXToken) (hC : LambdaFree env st)
    (hi : st.input = t :: inner ++ cl :: rest) :
    ∃ f, cxxParserParseAndCondenseSubchainsUpToOneOf env f T O st
      = .ok (true, st.frame
          (st.pTokenChain ++ [subchainMarker t.eType (t :: innerOuts ++ [cl])])
          (some (subchainMarker t.eType (t :: innerOuts ++ [cl]))) rest) := by
  obtain ⟨f, hf⟩ := sub_balanced env hS hcl st st.pTokenChain rest hC
  refine ⟨f + 2, ?_⟩
  rw [upTo_succ, parseNext_cons st t (inner ++ cl :: rest) (by simpa using hi)]
  simp only
  exact loop_opener_terminator env f T O _ _ _ t _ (by simpa using hC) rfl h1 h2 hf rfl h5

/-- An opener whose nested parse consumes the whole input: the run returns whether
EOF is a terminator. -/
theorem upTo_open_at_end (env : CXXCollaborators) {O T : Nat} {t : CXXToken}
    {inner : List CXXToken}
    (h1 : maskTest t.eType T = false) (h2 : maskTest t.eType O = true)
    (st : CXXParserState) (hC : LambdaFree env st) (hi : st.input = t :: inner)
    (hN : ∃ f c tok, cxxParserParseAndCondenseSubchainsUpToOneOf env f
        (subchainTerminators t.eType (maskTest T CXXTokenTypeEOF)) O
        (st.frame [t] (some t) inner)
      = .ok (maskTest T CXXTokenTypeEOF, st.frame c (some tok) [])) :
    ∃ f c tok, cxxParserParseAndCondenseSubchainsUpToOneOf env f T O st
        = .ok (maskTest T CXXTokenTypeEOF, st.frame c (some tok) []) := by
  obtain ⟨f, c', tok', hf⟩ := hN
  have hsub : cxxParserParseAndCondenseCurrentSubchain env (f + 1) O
      (maskTest T CXXTokenTypeEOF) (st.frame (st.pTokenChain ++ [t]) (some t) inner)
      = .ok (maskTest T CXXTokenTypeEOF,
          st.frame (st.pTokenChain ++ [subchainMarker t.eType c'])
            (some (subchainMarker t.eType c')) []) := by
    rw [sub_succ_frame env f O _ _ st.pTokenChain t rfl rfl]
    simp only [frame_frame, frame_input]
    rw [hf]
    simp
  cases ha : maskTest T CXXTokenTypeEOF with
  | false =>
    rw [ha] at hsub
    refine ⟨f + 3, st.pTokenChain ++ [subchainMarker t.eType c'],
      subchainMarker t.eType c', ?_⟩
    rw [upTo_succ, parseNext_cons st t inner hi]
    simp only
    exact loop_opener_failure env (f + 1) T O _ _ _ t (by simpa using hC) rfl h1 h2
      (by rw [ha]; exact hsub)
  | true =>
    rw [ha] at hsub
    by_cases hm : maskTest (subchainMarker t.eType c').eType T = true
    · refine ⟨f + 3, st.pTokenChain ++ [subchainMarker t.eType c'],
        subchainMarker t.eType c', ?_⟩
      rw [upTo_succ, parseNext_cons st t inner hi]
      simp only
      exact loop_opener_terminator env (f + 1) T O _ _ _ t _ (by simpa using hC) rfl h1 h2
        (by rw [ha]; exact hsub) rfl hm
    · simp only [Bool.not_eq_true] at hm
      refine ⟨f + 3, st.pTokenChain ++ [subchainMarker t.eType c'] ++ [cxxTokenEOF],
        cxxTokenEOF, ?_⟩
      rw [upTo_succ, parseNext_cons st t inner hi]
      simp only
      rw [loop_opener_continue env f T O _ _ t _ (by simpa using hC) rfl h1 h2
        (by rw [ha]; exact hsub) rfl hm]
      have := upTo_mono env (upTo_at_eof env T O
        (st.frame (st.pTokenChain ++ [subchainMarker t.eType c'])
            (some (subchainMarker t.eType c')) []) rfl) (by omega : 1 ≤ f + 2)
      rw [this, ha]
      rfl

/-- A run on an input that ends inside an unclosed pair returns whether EOF is a
terminator, with the whole input consumed. -/
theorem upTo_endsInside (env : CXXCollaborators) {O T : Nat} {ins : List CXXToken}
    (hE : EndsInside O T ins) :
    ∀ (st : CXXParserState), LambdaFree env st → st.input = ins →
      ∃ f c tok, cxxParserParseAndCondenseSubchainsUpToOneOf env f T O st
        = .ok (maskTest T CXXTokenTypeEOF, st.frame c (some tok) []) := by
  induction hE with
  | here T pre outs t inner innerOuts hpre h1 h2 hin =>
    intro st hC hi
    -- the nested parse runs into the end of the input
    have hN : ∀ (s : CXXParserState), LambdaFree env s →
        ∃ f c tok, cxxParserParseAndCondenseSubchainsUpToOneOf env f
          (subchainTerminators t.eType (maskTest T CXXTokenTypeEOF)) O
          (s.frame [t] (some t) inner)
        = .ok (maskTest T CXXTokenTypeEOF, s.frame c (some tok) []) := by
      intro s hs
      obtain ⟨f3, hf3⟩ := upTo_skips env hin
        (s.frame [t] (some t) inner) [] (some t) 1 _ (by simpa using hs) (by simp)
        (upTo_at_eof env _ O _ rfl)
      simp only [frame_frame, frame_pTokenChain, subchainTerminators_eof] at hf3
      exact ⟨f3, _, _, hf3⟩
    obtain ⟨f, c, tok, hf⟩ := upTo_open_at_end env h1 h2
      (st.frame (st.pTokenChain ++ outs) none (t :: inner)) (by simpa using hC) rfl
      (hN _ (by simpa using hC))
    obtain ⟨f', hf'⟩ := upTo_skips env hpre st (t :: inner) none f _ hC hi hf
    exact ⟨f', c, tok, hf'⟩
  | deeper T pre outs t inner hpre h1 h2 _ ih =>
    intro st hC hi
    have hN : ∀ (s : CXXParserState), LambdaFree env s →
        ∃ f c tok, cxxParserParseAndCondenseSubchainsUpToOneOf env f
          (subchainTerminators t.eType (maskTest T CXXTokenTypeEOF)) O
          (s.frame [t] (some t) inner)
        = .ok (maskTest T CXXTokenTypeEOF, s.frame c (some tok) []) := by
      intro s hs
      obtain ⟨f3, c, tok, hf3⟩ := ih (s.frame [t] (some t) inner) (by simpa using hs) rfl
      simp only [frame_frame, subchainTerminators_eof] at hf3
      exact ⟨f3, _, _, hf3⟩
    obtain ⟨f, c, tok, hf⟩ := upTo_open_at_end env h1 h2
      (st.frame (st.pTokenChain ++ outs) none (t :: inner)) (by simpa using hC) rfl
      (hN _ (by simpa using hC))
    obtain ⟨f', hf'⟩ := upTo_skips env hpre st (t :: inner) none f _ hC hi hf
    exact ⟨f', c, tok, hf'⟩

/-! ## The claims on the condenser -/

theorem parseUpToOneOf_eq (env : CXXCollaborators) (fuel T : Nat) (st : CXXParserState) :
    cxxParserParseUpToOneOf env fuel T st
      = cxxParserParseAndCondenseSubchainsUpToOneOf env fuel T defaultOpeners st := rfl

/-- C1: for every pending input, terminator mask `T` and opener set `O`, given fuel
enough for the input, `cxxParserParseAndCondenseSubchainsUpToOneOf` returns, and it
returns in one of the stop conditions of `StopCondition`: `true` when the current
token has a type in `T` or the input has ended with EOF in `T`; `false` when the input
has ended with EOF not in `T`, at a closer of `O` that is not in `T`, or when a nested
subchain or the lambda handler has failed. -/
theorem c1_condenser_stop_conditions (env : CXXCollaborators) (T O : Nat)
    (st : CXXParserState)
    (hL : LambdaHandlerTotal env ∨ LambdaFree env st)
    (fuel : Nat) (hf : 3 * st.input.length + 1 ≤ fuel) :
    ∃ b st', cxxParserParseAndCondenseSubchainsUpToOneOf env fuel T O st = .ok (b, st') ∧
      StopCondition env T O b st' ∧
      (b = true → ∃ tok, st'.pToken = some tok ∧ maskTest tok.eType T = true) := by
  obtain ⟨b, st', h, -⟩ := (condenser_total env fuel).1 T O st hL hf
  have hs := (condenser_stop env T O fuel).1 st b st' h
  refine ⟨b, st', h, hs, ?_⟩
  intro hb
  subst hb
  cases hs with
  | terminator _ tok h1 h2 => exact ⟨tok, h1, h2⟩
  | endOfInputAccepted _ h1 _ h3 =>
    exact ⟨cxxTokenEOF, h1, by rw [maskTest_comm]; exact h3⟩

/-- Witness of C1 on the tokens `a ( b ) ;` with terminator `;`. -/
theorem c1_condenser_stop_conditions_witness :
    (LambdaHandlerTotal idleCollaborators ∨ LambdaFree idleCollaborators
      (startState [tokIdentifier "a", tokOpeningParenthesis, tokIdentifier "b",
        tokClosingParenthesis, tokSemicolon])) ∧
    ∃ b st', cxxParserParseAndCondenseSubchainsUpToOneOf idleCollaborators 16
        CXXTokenTypeSemicolon defaultOpeners
        (startState [tokIdentifier "a", tokOpeningParenthesis, tokIdentifier "b",
          tokClosingParenthesis, tokSemicolon]) = .ok (b, st') ∧
      StopCondition idleCollaborators CXXTokenTypeSemicolon defaultOpeners b st' ∧
      (b = true → ∃ tok, st'.pToken = some tok ∧
        maskTest tok.eType CXXTokenTypeSemicolon = true) :=
  ⟨Or.inr (Or.inl (by decide)),
    c1_condenser_stop_conditions idleCollaborators CXXTokenTypeSemicolon defaultOpeners
      (startState [tokIdentifier "a", tokOpeningParenthesis, tokIdentifier "b",
        tokClosingParenthesis, tokSemicolon])
      (Or.inr (Or.inl (by decide))) 16 (by decide)⟩

/-- C2: `cxxParserParseAndCondenseCurrentSubchain`, called with the current token
`opener` at the tail of the active chain `c ++ [opener]`, returns (whatever its
result) a state that differs from the entry state only in the active chain, the
current token and the pending input; the active chain has the same count and the
same tokens before its tail, its tail is a new token of type `opener.eType << 8`
whose chain has `opener` as head, and that tail is the current token. -/
theorem c2_current_subchain_frame (env : CXXCollaborators) (O : Nat) (a : Bool)
    (st : CXXParserState) (c : CXXTokenChain) (opener : CXXToken)
    (hC : LambdaFree env st) (hI : ∀ t ∈ st.input, IsLexerToken t)
    (hc : st.pTokenChain = c ++ [opener]) (hp : st.pToken = some opener)
    (ht : IsLexerToken opener)
    (fuel : Nat) (hf : 3 * st.input.length + 2 ≤ fuel) :
    ∃ b st' m inner,
      cxxParserParseAndCondenseCurrentSubchain env fuel O a st = .ok (b, st') ∧
      st' = st.frame (c ++ [m]) (some m) st'.input ∧
      st'.pTokenChain.length = st.pTokenChain.length ∧
      st'.pTokenChain.dropLast = st.pTokenChain.dropLast ∧
      st'.pTokenChain.getLast? = some m ∧
      m.eType = shl8 opener.eType ∧
      m.pChain = some (opener :: inner) ∧
      st'.pToken = some m := by
  obtain ⟨b, st', h, -⟩ := (condenser_total env fuel).2.2 O a st (Or.inr hC)
    (by rw [hp]; simp) (by rw [hc]; simp) hf
  obtain ⟨inner, used, h1, -⟩ := (condenser_cmode env fuel).2.2 O a st b st' c opener hC hI
    hc hp ht h
  refine ⟨b, st', subchainMarker opener.eType (opener :: inner), inner, h, h1, ?_, ?_, ?_,
    rfl, rfl, ?_⟩
  · rw [h1, hc]; simp
  · rw [h1, hc]; simp
  · rw [h1]; simp
  · rw [h1]; rfl

/-- Witness of C2 on the chain `f (` with `x )` pending. -/
theorem c2_current_subchain_frame_witness :
    ∃ b st' m inner,
      cxxParserParseAndCondenseCurrentSubchain idleCollaborators 8 defaultOpeners false
        ((startState []).frame [tokIdentifier "f", tokOpeningParenthesis]
          (some tokOpeningParenthesis) [tokIdentifier "x", tokClosingParenthesis])
        = .ok (b, st') ∧
      st' = ((startState []).frame [tokIdentifier "f", tokOpeningParenthesis]
          (some tokOpeningParenthesis) [tokIdentifier "x", tokClosingParenthesis]).frame
        ([tokIdentifier "f"] ++ [m]) (some m) st'.input ∧
      st'.pTokenChain.length = 2 ∧
      st'.pTokenChain.dropLast = [tokIdentifier "f"] ∧
      st'.pTokenChain.getLast? = some m ∧
      m.eType = shl8 tokOpeningParenthesis.eType ∧
      m.pChain = some (tokOpeningParenthesis :: inner) ∧
      st'.pToken = some m :=
  c2_current_subchain_frame idleCollaborators defaultOpeners false
    ((startState []).frame [tokIdentifier "f", tokOpeningParenthesis]
      (some tokOpeningParenthesis) [tokIdentifier "x", tokClosingParenthesis])
    [tokIdentifier "f"] tokOpeningParenthesis
    (Or.inl (by decide))
    (by
      intro t ht
      simp only [frame_input, List.mem_cons, List.mem_singleton, List.not_mem_nil,
        or_false] at ht
      rcases ht with rfl | rfl
      · exact ⟨⟨1, by decide, rfl⟩, rfl⟩
      · exact ⟨⟨24, by decide, rfl⟩, rfl⟩)
    rfl rfl ⟨⟨20, by decide, rfl⟩, rfl⟩ 8 (by decide)

/-- C3, as stated, fails: on the input `( a` that ends inside the parentheses, with
`;` and EOF as terminators, the condenser returns true and the marker it has built
owns the chain `( a EOF`, whose tail has type EOF and not the type of `)`. -/
theorem c3_tail_not_closer_at_eof :
    ∃ st' m inner l,
      cxxParserParseUpToOneOf idleCollaborators 10
        (CXXTokenTypeSemicolon ||| CXXTokenTypeEOF)
        (startState [tokOpeningParenthesis, tokIdentifier "a"]) = .ok (true, st') ∧
      st'.pTokenChain.head? = some m ∧ m.pChain = some inner ∧
      m.eType = shl8 CXXTokenTypeOpeningParenthesis ∧
      inner.getLast? = some l ∧ l.eType = CXXTokenTypeEOF ∧
      l.eType ≠ shl4 CXXTokenTypeOpeningParenthesis :=
  ⟨_, _, _, _, rfl, rfl, rfl, rfl, rfl, rfl, by decide⟩

/-- C3 (amended): every chain marker `M` the condenser builds, at any depth, has the
type of the head of its chain shifted left by 8 (the head being the opener); and when
the condenser returns true, the tail of the chain of every such marker has the type
of its head shifted left by 4, or the type EOF if EOF is among the terminators. -/
theorem c3_subchain_arithmetic (env : CXXCollaborators) (T O : Nat) (st : CXXParserState)
    (hC : LambdaFree env st) (hI : ∀ t ∈ st.input, IsLexerToken t)
    (fuel : Nat) (hf : 3 * st.input.length + 1 ≤ fuel) :
    ∃ b st' new,
      cxxParserParseAndCondenseSubchainsUpToOneOf env fuel T O st = .ok (b, st') ∧
      st'.pTokenChain = st.pTokenChain ++ new ∧
      chainSubchainHeadsOK new = true ∧
      (b = true → chainSubchainTailsOK (maskTest T CXXTokenTypeEOF) new = true) := by
  obtain ⟨b, st', h, -⟩ := (condenser_total env fuel).1 T O st (Or.inr hC) hf
  obtain ⟨new, tok, used, h1, -, h3, -, h5⟩ :=
    (condenser_cmode env fuel).1 T O st b st' hC hI h
  refine ⟨b, st', new ++ [tok], h, ?_, h3, fun hb => (h5 hb).2⟩
  rw [h1]
  simp

/-- Witness of C3 on the tokens `f ( [ ] ) ;` with terminator `;`. -/
theorem c3_subchain_arithmetic_witness :
    ∃ b st' new,
      cxxParserParseAndCondenseSubchainsUpToOneOf idleCollaborators 19
        CXXTokenTypeSemicolon defaultOpeners
        (startState [tokIdentifier "f", tokOpeningParenthesis, tokOpeningSquareParenthesis,
          tokClosingSquareParenthesis, tokClosingParenthesis, tokSemicolon]) = .ok (b, st') ∧
      st'.pTokenChain = (startState [tokIdentifier "f", tokOpeningParenthesis,
          tokOpeningSquareParenthesis, tokClosingSquareParenthesis, tokClosingParenthesis,
          tokSemicolon]).pTokenChain ++ new ∧
      chainSubchainHeadsOK new = true ∧
      (b = true → chainSubchainTailsOK (maskTest CXXTokenTypeSemicolon CXXTokenTypeEOF) new
        = true) :=
  c3_subchain_arithmetic idleCollaborators CXXTokenTypeSemicolon defaultOpeners
    (startState [tokIdentifier "f", tokOpeningParenthesis, tokOpeningSquareParenthesis,
      tokClosingSquareParenthesis, tokClosingParenthesis, tokSemicolon])
    (Or.inl (by decide))
    (by
      intro t ht
      simp only [startState, List.mem_cons, List.mem_singleton, List.not_mem_nil,
        or_false] at ht
      rcases ht with rfl | rfl | rfl | rfl | rfl | rfl
      · exact ⟨⟨1, by decide, rfl⟩, rfl⟩
      · exact ⟨⟨20, by decide, rfl⟩, rfl⟩
      · exact ⟨⟨21, by decide, rfl⟩, rfl⟩
      · exact ⟨⟨25, by decide, rfl⟩, rfl⟩
      · exact ⟨⟨24, by decide, rfl⟩, rfl⟩
      · exact ⟨⟨6, by decide, rfl⟩, rfl⟩)
    19 (by decide)

/-- C4, as stated, fails: `cxxParserParseUpToOneOf` with terminator `;` meets the
token `>` at its own level, where it is no terminator, and goes on to return true at
the `;` that follows. -/
theorem c4_greater_than_is_not_a_closer :
    cxxParserParseUpToOneOf idleCollaborators 10 CXXTokenTypeSemicolon
        (startState [tokGreaterThanSign, tokSemicolon])
      = .ok (true, (startState []).frame [tokGreaterThanSign, tokSemicolon]
          (some tokSemicolon) []) ∧
    maskTest tokGreaterThanSign.eType CXXTokenTypeSemicolon = false :=
  ⟨rfl, rfl⟩

/-- C4 (amended): for every terminator mask `T`, when `cxxParserParseUpToOneOf` meets at
its own level (after tokens `pre` it consumes at that level) a token whose type is
ClosingParenthesis, ClosingSquareParenthesis or ClosingBracket and is not in `T`, it
returns failure, with that closer as current token and nothing after it read. -/
theorem c4_unmatched_closer (env : CXXCollaborators) (T : Nat) (st : CXXParserState)
    (pre outs rest : List CXXToken) (cl : CXXToken)
    (hC : LambdaFree env st)
    (hpre : Skips defaultOpeners T pre outs)
    (hcl : cl.eType = CXXTokenTypeClosingParenthesis ∨
      cl.eType = CXXTokenTypeClosingSquareParenthesis ∨
      cl.eType = CXXTokenTypeClosingBracket)
    (hT : maskTest cl.eType T = false)
    (hi : st.input = pre ++ cl :: rest)
    (fuel : Nat) (hf : 3 * st.input.length + 1 ≤ fuel) :
    cxxParserParseUpToOneOf env fuel T st
      = .ok (false, st.frame (st.pTokenChain ++ outs ++ [cl]) (some cl) rest) := by
  rw [parseUpToOneOf_eq]
  apply upTo_of_returns env hC _ fuel hf
  have h2 : maskTest cl.eType defaultOpeners = false := by
    rcases hcl with h | h | h <;> rw [h] <;> decide
  have h3 : maskTest cl.eType (shl4 defaultOpeners) = true := by
    rcases hcl with h | h | h <;> rw [h] <;> decide
  have := upTo_at_closer env T defaultOpeners
    (st.frame (st.pTokenChain ++ outs) none (cl :: rest)) cl rest rfl hT h2 h3
  exact upTo_skips env hpre st (cl :: rest) none 2 _ hC hi this

/-- Witness of C4 on the tokens `a ( b ) ] ;` with terminator `;`. -/
theorem c4_unmatched_closer_witness :
    cxxParserParseUpToOneOf idleCollaborators 19 CXXTokenTypeSemicolon
      (startState [tokIdentifier "a", tokOpeningParenthesis, tokIdentifier "b",
        tokClosingParenthesis, tokClosingSquareParenthesis, tokSemicolon])
      = .ok (false, (startState [tokIdentifier "a", tokOpeningParenthesis, tokIdentifier "b",
          tokClosingParenthesis, tokClosingSquareParenthesis, tokSemicolon]).frame
        ([] ++ [tokIdentifier "a", subchainMarker tokOpeningParenthesis.eType
            (tokOpeningParenthesis :: [tokIdentifier "b"] ++ [tokClosingParenthesis])]
          ++ [tokClosingSquareParenthesis])
        (some tokClosingSquareParenthesis) [tokSemicolon]) :=
  c4_unmatched_closer idleCollaborators CXXTokenTypeSemicolon
    (startState [tokIdentifier "a", tokOpeningParenthesis, tokIdentifier "b",
        tokClosingParenthesis, tokClosingSquareParenthesis, tokSemicolon])
    [tokIdentifier "a", tokOpeningParenthesis, tokIdentifier "b", tokClosingParenthesis]
    _ [tokSemicolon] tokClosingSquareParenthesis (Or.inl (by decide))
    (Skips.plain _ _ _ _ (by decide) (by decide) (by decide)
      (Skips.pair _ tokOpeningParenthesis [tokIdentifier "b"] [tokIdentifier "b"]
        tokClosingParenthesis [] [] (by decide) (by decide)
        (Skips.plain _ _ _ _ (by decide) (by decide) (by decide) (Skips.nil _))
        (by decide) (by decide) (Skips.nil _)))
    (Or.inr (Or.inl rfl)) (by decide) rfl 19 (by decide)

/-- Two sequences consumed at one level, one after the other. -/
theorem skips_append {O T : Nat} {a outsA b outsB : List CXXToken}
    (hA : Skips O T a outsA) (hB : Skips O T b outsB) :
    Skips O T (a ++ b) (outsA ++ outsB) := by
  induction hA with
  | nil T => exact hB
  | plain T t ins outs h1 h2 h3 _ ih =>
    exact Skips.plain T t _ _ h1 h2 h3 (ih hB)
  | pair T t inner' innerOuts' cl' ins outs h1 h2 h3 h4 h5 _ _ ih =>
    have := Skips.pair T t inner' innerOuts' cl' _ _ h1 h2 h3 h4 h5 (ih hB)
    simpa using this

/-- C5, as stated, fails: with `(` not in the terminator mask but its chain marker in
it, `cxxParserParseUpToOneOf` folds the pair `( )` and stops there with success; it
does not go on past the pair to the `;` that follows, which stays unread. -/
theorem c5_folded_pair_can_stop_the_parse :
    maskTest tokOpeningParenthesis.eType
      (CXXTokenTypeParenthesisChain ||| CXXTokenTypeSemicolon) = false ∧
    cxxParserParseUpToOneOf idleCollaborators 10
        (CXXTokenTypeParenthesisChain ||| CXXTokenTypeSemicolon)
        (startState [tokOpeningParenthesis, tokClosingParenthesis, tokSemicolon])
      = .ok (true, (startState []).frame
          [subchainMarker tokOpeningParenthesis.eType
            [tokOpeningParenthesis, tokClosingParenthesis]]
          (some (subchainMarker tokOpeningParenthesis.eType
            [tokOpeningParenthesis, tokClosingParenthesis]))
          [tokSemicolon]) :=
  ⟨rfl, rfl⟩

/-- C5 (amended): after tokens `pre` consumed at its own level, (1) at an opener whose
type is in the terminator mask `cxxParserParseUpToOneOf` returns true, the opener left
as it is at the tail of the active chain and nothing after it read; (2) at an opener
whose type is not in the mask, followed by its balanced content and closer, with the
chain-marker type not in the mask either, the pair is folded into one marker and the
parse goes on after it: its result is the result of the parse of the rest of the
input from the chain that ends with the marker. -/
theorem c5_stop_at_scope_start (env : CXXCollaborators) (T : Nat) (st : CXXParserState)
    (pre outs rest : List CXXToken) (op : CXXToken)
    (hC : LambdaFree env st) (hpre : Skips defaultOpeners T pre outs)
    (hop : maskTest op.eType defaultOpeners = true) :
    (maskTest op.eType T = true → st.input = pre ++ op :: rest →
      ∀ fuel, 3 * st.input.length + 1 ≤ fuel →
        cxxParserParseUpToOneOf env fuel T st
          = .ok (true, st.frame (st.pTokenChain ++ outs ++ [op]) (some op) rest)) ∧
    (maskTest op.eType T = false → maskTest (shl8 op.eType) T = false →
      ∀ inner innerOuts cl,
        Skips defaultOpeners (subchainTerminators op.eType (maskTest T CXXTokenTypeEOF))
          inner innerOuts →
        maskTest cl.eType (subchainTerminators op.eType (maskTest T CXXTokenTypeEOF)) = true →
        st.input = pre ++ op :: inner ++ cl :: rest →
        ∀ fuel, 3 * st.input.length + 1 ≤ fuel →
          cxxParserParseUpToOneOf env fuel T st
            = cxxParserParseUpToOneOf env fuel T
                (st.frame
                  (st.pTokenChain ++ outs
                    ++ [subchainMarker op.eType (op :: innerOuts ++ [cl])])
                  (some (subchainMarker op.eType (op :: innerOuts ++ [cl]))) rest)) := by
  constructor
  · intro hT hi fuel hf
    rw [parseUpToOneOf_eq]
    apply upTo_of_returns env hC _ fuel hf
    have := upTo_at_terminator env T defaultOpeners
      (st.frame (st.pTokenChain ++ outs) none (op :: rest)) op rest rfl hT
    exact upTo_skips env hpre st (op :: rest) none 2 _ hC hi this
  · intro hT hM inner innerOuts cl hin hcl hi fuel hf
    rw [parseUpToOneOf_eq, parseUpToOneOf_eq]
    -- the run on the rest of the input returns
    obtain ⟨b, st', h, -⟩ := (condenser_total env fuel).1 T defaultOpeners
      (st.frame (st.pTokenChain ++ outs ++ [subchainMarker op.eType (op :: innerOuts ++ [cl])])
        (some (subchainMarker op.eType (op :: innerOuts ++ [cl]))) rest)
      (Or.inr (by simpa using hC))
      (by simp only [frame_input]; rw [hi] at hf; simp at hf; omega)
    rw [h]
    apply upTo_of_returns env hC _ fuel hf
    have hS : Skips defaultOpeners T (pre ++ (op :: inner ++ cl :: []))
        (outs ++ [subchainMarker op.eType (op :: innerOuts ++ [cl])]) :=
      skips_append hpre
        (Skips.pair T op inner innerOuts cl [] [] hT hop hin hcl hM (Skips.nil T))
    refine upTo_skips env hS st rest (some (subchainMarker op.eType (op :: innerOuts ++ [cl])))
      fuel _ hC (by rw [hi]; simp) ?_
    rw [← h]
    simp

/-- Witness of C5 on the tokens `a` then an opening brace: with the brace in the mask
the parse stops at it. -/
theorem c5_stop_at_scope_start_witness :
    cxxParserParseUpToOneOf idleCollaborators 7
        (CXXTokenTypeOpeningBracket ||| CXXTokenTypeSemicolon)
        (startState [tokIdentifier "a", tokOpeningBracket])
      = .ok (true, (startState [tokIdentifier "a", tokOpeningBracket]).frame
          ([] ++ [tokIdentifier "a"] ++ [tokOpeningBracket]) (some tokOpeningBracket) []) :=
  (c5_stop_at_scope_start idleCollaborators
    (CXXTokenTypeOpeningBracket ||| CXXTokenTypeSemicolon)
    (startState [tokIdentifier "a", tokOpeningBracket])
    [tokIdentifier "a"] [tokIdentifier "a"] [] tokOpeningBracket (Or.inl (by decide))
    (Skips.plain _ _ _ _ (by decide) (by decide) (by decide) (Skips.nil _))
    (by decide)).1 (by decide) rfl 7 (by decide)

/-- C6: when the chain-marker type of an opener of `O` is in the terminator mask `T`,
the opener itself is not, and the tokens `pre` before it are consumed at the level of
the parse, then on an input where the opener is followed by its balanced content and
its closer the condenser returns true right after the closer: the current token is
the new marker, it is the tail of the active chain, and the tokens `rest` after the
closer are still pending. -/
theorem c6_subchain_as_terminator (env : CXXCollaborators) (T O : Nat)
    (st : CXXParserState) (pre outs inner innerOuts rest : List CXXToken) (op cl : CXXToken)
    (hC : LambdaFree env st) (hpre : Skips O T pre outs)
    (hop : maskTest op.eType O = true) (hT : maskTest op.eType T = false)
    (hM : maskTest (shl8 op.eType) T = true)
    (hin : Skips O (subchainTerminators op.eType (maskTest T CXXTokenTypeEOF)) inner innerOuts)
    (hcl : maskTest cl.eType (subchainTerminators op.eType (maskTest T CXXTokenTypeEOF)) = true)
    (hi : st.input = pre ++ op :: inner ++ cl :: rest)
    (fuel : Nat) (hf : 3 * st.input.length + 1 ≤ fuel) :
    ∃ st', cxxParserParseAndCondenseSubchainsUpToOneOf env fuel T O st = .ok (true, st') ∧
      st' = st.frame
        (st.pTokenChain ++ outs ++ [subchainMarker op.eType (op :: innerOuts ++ [cl])])
        (some (subchainMarker op.eType (op :: innerOuts ++ [cl]))) rest ∧
      st'.pToken = some (subchainMarker op.eType (op :: innerOuts ++ [cl])) ∧
      st'.pTokenChain.getLast? = some (subchainMarker op.eType (op :: innerOuts ++ [cl])) ∧
      st'.input = rest := by
  refine ⟨_, ?_, rfl, rfl, by simp, rfl⟩
  apply upTo_of_returns env hC _ fuel hf
  obtain ⟨f, hf'⟩ := upTo_pair_terminator env hT hop hin hcl hM
    (st.frame (st.pTokenChain ++ outs) none (op :: inner ++ cl :: rest)) rest
    (by simpa using hC) rfl
  exact upTo_skips env hpre st (op :: inner ++ cl :: rest) none f _ hC
    (by rw [hi]; simp) hf'

/-- Witness of C6 on the tokens `if ( x ) y` with the parenthesis chain as
terminator. -/
theorem c6_subchain_as_terminator_witness :
    ∃ st', cxxParserParseAndCondenseSubchainsUpToOneOf idleCollaborators 16
        (CXXTokenTypeParenthesisChain ||| CXXTokenTypeSemicolon) defaultOpeners
        (startState [tokIdentifier "if", tokOpeningParenthesis, tokIdentifier "x",
          tokClosingParenthesis, tokIdentifier "y"]) = .ok (true, st') ∧
      st' = (startState [tokIdentifier "if", tokOpeningParenthesis, tokIdentifier "x",
          tokClosingParenthesis, tokIdentifier "y"]).frame
        ([] ++ [tokIdentifier "if"] ++ [subchainMarker tokOpeningParenthesis.eType
          (tokOpeningParenthesis :: [tokIdentifier "x"] ++ [tokClosingParenthesis])])
        (some (subchainMarker tokOpeningParenthesis.eType
          (tokOpeningParenthesis :: [tokIdentifier "x"] ++ [tokClosingParenthesis])))
        [tokIdentifier "y"] ∧
      st'.pToken = some (subchainMarker tokOpeningParenthesis.eType
          (tokOpeningParenthesis :: [tokIdentifier "x"] ++ [tokClosingParenthesis])) ∧
      st'.pTokenChain.getLast? = some (subchainMarker tokOpeningParenthesis.eType
          (tokOpeningParenthesis :: [tokIdentifier "x"] ++ [tokClosingParenthesis])) ∧
      st'.input = [tokIdentifier "y"] :=
  c6_subchain_as_terminator idleCollaborators
    (CXXTokenTypeParenthesisChain ||| CXXTokenTypeSemicolon) defaultOpeners
    (startState [tokIdentifier "if", tokOpeningParenthesis, tokIdentifier "x",
      tokClosingParenthesis, tokIdentifier "y"])
    [tokIdentifier "if"] [tokIdentifier "if"] [tokIdentifier "x"] [tokIdentifier "x"]
    [tokIdentifier "y"] tokOpeningParenthesis tokClosingParenthesis
    (Or.inl (by decide))
    (Skips.plain _ _ _ _ (by decide) (by decide) (by decide) (Skips.nil _))
    (by decide) (by decide) (by decide)
    (Skips.plain _ _ _ _ (by decide) (by decide) (by decide) (Skips.nil _))
    (by decide) rfl 16 (by decide)

/-- C7, as stated, fails when something stops the parse before the input ends.  On
the input `f ( a ]`, which ends inside the unclosed `(`, with `;` and EOF as
terminators, the nested parse meets the unmatched closer `]` and returns false
(lines 165-169), and `cxxParserParseUpToOneOf` passes the failure up (lines 140-144)
although EOF is in its mask; `cxxParserParseAndCondenseCurrentSubchain` called at
that `(` with `bAcceptEOF` set returns false likewise.  On the input `; ( a`, which
ends inside the unclosed `(`, with `;` alone as terminator, the parse returns true at
the `;` although EOF is not in its mask. -/
theorem c7_unmatched_closer_before_the_end :
    maskTest (CXXTokenTypeSemicolon ||| CXXTokenTypeEOF) CXXTokenTypeEOF = true ∧
    (∃ st', cxxParserParseUpToOneOf idleCollaborators 16
        (CXXTokenTypeSemicolon ||| CXXTokenTypeEOF)
        (startState [tokIdentifier "f", tokOpeningParenthesis, tokIdentifier "a",
          tokClosingSquareParenthesis]) = .ok (false, st') ∧ st'.input = []) ∧
    (∃ st', cxxParserParseAndCondenseCurrentSubchain idleCollaborators 16 defaultOpeners
        true
        ((startState []).frame [tokIdentifier "f", tokOpeningParenthesis]
          (some tokOpeningParenthesis) [tokIdentifier "a", tokClosingSquareParenthesis])
        = .ok (false, st') ∧ st'.input = []) ∧
    maskTest CXXTokenTypeSemicolon CXXTokenTypeEOF = false ∧
    (∃ st', cxxParserParseUpToOneOf idleCollaborators 16 CXXTokenTypeSemicolon
        (startState [tokSemicolon, tokOpeningParenthesis, tokIdentifier "a"])
        = .ok (true, st') ∧
      st'.input = [tokOpeningParenthesis, tokIdentifier "a"]) :=
  ⟨by decide, ⟨_, rfl, rfl⟩, ⟨_, rfl, rfl⟩, by decide, ⟨_, rfl, rfl⟩⟩

/-- C7 (amended): (1) `cxxParserParseAndCondenseCurrentSubchain` called at an opener,
with an input that ends before the closer of that opener arrives and holds no
unmatched closer (its tokens are consumed at the nested level, or end inside deeper
unclosed pairs), returns `bAcceptEOF`; (2) the terminator mask of a nested parse
contains EOF exactly when `bAcceptEOF` is set, so that every nested level inherits
it; (3) `cxxParserParseUpToOneOf` on an input that ends inside unclosed pairs of any
depth, with no unmatched closer and, outside the unclosed pairs, no terminator of its
mask before the end, returns whether EOF is in its mask. -/
theorem c7_eof_tolerance_inherited (env : CXXCollaborators) :
    (∀ (O : Nat) (a : Bool) (st : CXXParserState) (c : CXXTokenChain) (op : CXXToken),
      LambdaFree env st → st.pTokenChain = c ++ [op] → st.pToken = some op →
      ((∃ outs, Skips O (subchainTerminators op.eType a) st.input outs) ∨
        EndsInside O (subchainTerminators op.eType a) st.input) →
      ∀ fuel, 3 * st.input.length + 2 ≤ fuel →
        ∃ st', cxxParserParseAndCondenseCurrentSubchain env fuel O a st = .ok (a, st')) ∧
    (∀ (x : Nat) (a : Bool), maskTest (subchainTerminators x a) CXXTokenTypeEOF = a) ∧
    (∀ (T : Nat) (st : CXXParserState),
      LambdaFree env st → EndsInside defaultOpeners T st.input →
      ∀ fuel, 3 * st.input.length + 1 ≤ fuel →
        ∃ st', cxxParserParseUpToOneOf env fuel T st
          = .ok (maskTest T CXXTokenTypeEOF, st')) := by
  refine ⟨?_, subchainTerminators_eof, ?_⟩
  · intro O a st c op hC hc hp hin fuel hf
    have hN : ∃ f c' tok, cxxParserParseAndCondenseSubchainsUpToOneOf env f
        (subchainTerminators op.eType a) O (st.frame [op] (some op) st.input)
        = .ok (a, st.frame c' (some tok) []) := by
      rcases hin with ⟨outs, hS⟩ | hE
      · obtain ⟨f, hf'⟩ := upTo_skips env hS (st.frame [op] (some op) st.input) []
          (some op) 1 _ (by simpa using hC) (by simp) (upTo_at_eof env _ O _ rfl)
        simp only [frame_frame, frame_pTokenChain, subchainTerminators_eof] at hf'
        exact ⟨f, _, _, hf'⟩
      · obtain ⟨f, c', tok, hf'⟩ := upTo_endsInside env hE (st.frame [op] (some op) st.input)
          (by simpa using hC) rfl
        simp only [frame_frame, subchainTerminators_eof] at hf'
        exact ⟨f, c', tok, hf'⟩
    obtain ⟨f, c', tok, hf'⟩ := hN
    have hsub : cxxParserParseAndCondenseCurrentSubchain env (f + 1) O a st
        = .ok (a, st.frame (c ++ [subchainMarker op.eType c'])
            (some (subchainMarker op.eType c')) []) := by
      rw [sub_succ_frame env f O a st c op hc hp, hf']
      rfl
    exact ⟨_, sub_of_returns env hC (by rw [hp]; simp) (by rw [hc]; simp) ⟨f + 1, hsub⟩
      fuel hf⟩
  · intro T st hC hE fuel hf
    obtain ⟨f, c, tok, hf'⟩ := upTo_endsInside env hE st hC rfl
    exact ⟨_, by rw [parseUpToOneOf_eq]; exact upTo_of_returns env hC ⟨f, hf'⟩ fuel hf⟩

/-- Witness of C7 on the input `f ( a [ b` that ends inside two unclosed pairs, with
EOF among the terminators. -/
theorem c7_eof_tolerance_inherited_witness :
    ∃ st', cxxParserParseUpToOneOf idleCollaborators 16
        (CXXTokenTypeSemicolon ||| CXXTokenTypeEOF)
        (startState [tokIdentifier "f", tokOpeningParenthesis, tokIdentifier "a",
          tokOpeningSquareParenthesis, tokIdentifier "b"])
      = .ok (maskTest (CXXTokenTypeSemicolon ||| CXXTokenTypeEOF) CXXTokenTypeEOF, st') :=
  (c7_eof_tolerance_inherited idleCollaborators).2.2
    (CXXTokenTypeSemicolon ||| CXXTokenTypeEOF)
    (startState [tokIdentifier "f", tokOpeningParenthesis, tokIdentifier "a",
      tokOpeningSquareParenthesis, tokIdentifier "b"])
    (Or.inl (by decide))
    (EndsInside.deeper _ [tokIdentifier "f"] [tokIdentifier "f"] tokOpeningParenthesis
      [tokIdentifier "a", tokOpeningSquareParenthesis, tokIdentifier "b"]
      (Skips.plain _ _ _ _ (by decide) (by decide) (by decide) (Skips.nil _))
      (by decide) (by decide)
      (EndsInside.here _ [tokIdentifier "a"] [tokIdentifier "a"] tokOpeningSquareParenthesis
        [tokIdentifier "b"] [tokIdentifier "b"]
        (Skips.plain _ _ _ _ (by decide) (by decide) (by decide) (Skips.nil _))
        (by decide) (by decide)
        (Skips.plain _ _ _ _ (by decide) (by decide) (by decide) (Skips.nil _))))
    16 (by decide)

/-! ## The frame of the condenser -/

/-- When no lambda is handled, a run of the condenser changes nothing but the active
chain, the current token and the pending input, and it does not lengthen the
input. -/
theorem condenser_frame (env : CXXCollaborators) (fuel : Nat) :
    (∀ T O st b st', LambdaFree env st →
      cxxParserParseAndCondenseSubchainsUpToOneOf env fuel T O st = .ok (b, st') →
      ∃ c tok i, st' = st.frame c (some tok) i ∧ c.getLast? = some tok ∧
        i.length ≤ st.input.length) ∧
    (∀ T O F st b st', LambdaFree env st → st.pToken ≠ none →
      st.pTokenChain.getLast? = st.pToken →
      cxxParserParseAndCondenseSubchainsUpToOneOfLoop env fuel T O F st = .ok (b, st') →
      ∃ c tok i, st' = st.frame c (some tok) i ∧ c.getLast? = some tok ∧
        i.length ≤ st.input.length) ∧
    (∀ O a st b st', LambdaFree env st →
      cxxParserParseAndCondenseCurrentSubchain env fuel O a st = .ok (b, st') →
      ∃ c tok i, st' = st.frame c (some tok) i ∧ c.getLast? = some tok ∧
        i.length ≤ st.input.length) := by
  induction fuel with
  | zero => refine ⟨?_, ?_, ?_⟩ <;> intros <;> rename_i h <;> cases h
  | succ n ih =>
    obtain ⟨ihU, ihL, ihS⟩ := ih
    have hnext : ∀ T O F (st : CXXParserState) b st', LambdaFree env st →
        (match cxxParserParseNextToken st with
          | (false, st1) => Except.ok (maskTest T CXXTokenTypeEOF, st1)
          | (true, st1) =>
            cxxParserParseAndCondenseSubchainsUpToOneOfLoop env n T O F st1) = .ok (b, st') →
        ∃ c tok i, st' = st.frame c (some tok) i ∧ c.getLast? = some tok ∧
          i.length ≤ st.input.length ∧ (st.input ≠ [] → i.length < st.input.length) := by
      intro T O F st b st' hC h
      cases hi : st.input with
      | nil =>
        rw [parseNext_nil st hi] at h
        simp only [Except.ok.injEq, Prod.mk.injEq] at h
        obtain ⟨-, hst⟩ := h
        subst hst
        exact ⟨_, _, _, rfl, by simp, by simp, by simp⟩
      | cons t rest =>
        rw [parseNext_cons st t rest hi] at h
        obtain ⟨c, tok, i, h1, h2, h3⟩ := ihL T O F _ b st' (by simpa using hC) (by simp)
          (by simp) h
        refine ⟨c, tok, i, by simpa using h1, h2, ?_, ?_⟩
        · simp only [frame_input] at h3
          simp only [List.length_cons]
          omega
        · intro _
          simp only [frame_input] at h3
          simp only [List.length_cons]
          omega
    refine ⟨?_, ?_, ?_⟩
    · intro T O st b st' hC h
      rw [upTo_succ] at h
      obtain ⟨c, tok, i, h1, h2, h3, -⟩ := hnext T O _ st b st' hC h
      exact ⟨c, tok, i, h1, h2, h3⟩
    · intro T O F st b st' hC hp hl h
      obtain ⟨t0, hp'⟩ := Option.ne_none_iff_exists'.mp hp
      rw [loop_succ, hp'] at h
      simp only at h
      have hself : ∃ c tok i, st = st.frame c (some tok) i ∧ c.getLast? = some tok ∧
          i.length ≤ st.input.length :=
        ⟨st.pTokenChain, t0, st.input, by rw [← hp']; rfl, by rw [hl, hp'], le_refl _⟩
      split at h
      · simp only [Except.ok.injEq, Prod.mk.injEq] at h
        obtain ⟨-, hst⟩ := h
        subst hst
        exact hself
      · split at h
        · rw [openerStep_cmode _ _ _ _ _ _ hC] at h
          split at h
          · cases h
          · rename_i st1 hs
            simp only [Except.ok.injEq, Prod.mk.injEq] at h
            obtain ⟨-, hst⟩ := h
            subst hst
            exact ihS O _ st false _ hC hs
          · rename_i st1 hs
            obtain ⟨c, tok, i, h1, h2, h3⟩ := ihS O _ st true _ hC hs
            have hp1 : st1.pToken = some tok := by rw [h1]; rfl
            rw [hp1] at h
            simp only at h
            split at h
            · simp only [Except.ok.injEq, Prod.mk.injEq] at h
              obtain ⟨-, hst⟩ := h
              subst hst
              exact ⟨c, tok, i, h1, h2, h3⟩
            · obtain ⟨c', tok', i', g1, g2, g3, -⟩ := hnext T O F st1 b st'
                (by rw [h1]; simpa using hC) h
              refine ⟨c', tok', i', ?_, g2, ?_⟩
              · rw [g1, h1]; rfl
              · rw [h1] at g3
                simp only [frame_input] at g3
                omega
        · split at h
          · simp only [Except.ok.injEq, Prod.mk.injEq] at h
            obtain ⟨-, hst⟩ := h
            subst hst
            exact hself
          · obtain ⟨c, tok, i, h1, h2, h3, -⟩ := hnext T O F st b st' hC h
            exact ⟨c, tok, i, h1, h2, h3⟩
    · intro O a st b st' hC h
      rw [sub_succ] at h
      split at h
      · cases h
      · split at h
        · cases h
        · split at h
          · cases h
          · rename_i b1 st1 hu
            simp only [Except.ok.injEq, Prod.mk.injEq] at h
            obtain ⟨-, hst⟩ := h
            subst hst
            obtain ⟨c, tok, i, h1, -, h3⟩ := ihU _ O _ b1 st1 (by exact hC) hu
            simp only [chainLast_append]
            rw [h1]
            exact ⟨_, _, _, rfl, chainLast_append _ _, h3⟩

/-- Summary of a run of `cxxParserParseUpToOneOf` when no lambda is handled and the
fuel is enough: it returns, changes only the chain, the current token (the tail of the
chain) and the input, consumes at least one token unless the input is over, and on
success stands on a terminator. -/
theorem parseUpToOneOf_spec (env : CXXCollaborators) (T : Nat) (st : CXXParserState)
    (hC : LambdaFree env st) (fuel : Nat) (hf : 3 * st.input.length + 1 ≤ fuel) :
    ∃ b c tok i, cxxParserParseUpToOneOf env fuel T st = .ok (b, st.frame c (some tok) i) ∧
      c.getLast? = some tok ∧ i.length ≤ st.input.length ∧
      (st.input ≠ [] → i.length < st.input.length) ∧
      (b = true → maskTest tok.eType T = true) ∧
      (st.input = [] → tok = cxxTokenEOF) := by
  rw [parseUpToOneOf_eq]
  obtain ⟨b, st', h, -⟩ := (condenser_total env fuel).1 T defaultOpeners st (Or.inr hC) hf
  obtain ⟨c, tok, i, h1, h2, h3⟩ := (condenser_frame env fuel).1 T defaultOpeners st b st' hC h
  subst h1
  refine ⟨b, c, tok, i, h, h2, h3, ?_, ?_, ?_⟩
  · intro hne
    obtain ⟨n, rfl⟩ := upTo_ne_zero env h
    rw [upTo_succ] at h
    obtain ⟨t, rest, hi⟩ := List.exists_cons_of_ne_nil hne
    rw [parseNext_cons st t rest hi] at h
    obtain ⟨c', tok', i', g1, -, g3⟩ := (condenser_frame env n).2.1 T defaultOpeners _ _ b _
      (by simpa using hC) (by simp) (by simp) h
    have : i = i' := by
      have := congrArg CXXParserState.input g1
      simpa using this
    subst this
    simp only [frame_input] at g3
    rw [hi]
    simp only [List.length_cons]
    omega
  · intro hb
    subst hb
    have hs := (condenser_stop env T defaultOpeners fuel).1 st true _ h
    cases hs with
    | terminator _ tok' h1 h2 =>
      simp only [frame_pToken, Option.some.injEq] at h1
      subst h1
      exact h2
    | endOfInputAccepted _ h1 _ h3 =>
      simp only [frame_pToken, Option.some.injEq] at h1
      subst h1
      rw [maskTest_comm]; exact h3
  · intro hnil
    obtain ⟨n, rfl⟩ := upTo_ne_zero env h
    rw [upTo_succ, parseNext_nil st hnil] at h
    simp only [Except.ok.injEq, Prod.mk.injEq] at h
    have := congrArg CXXParserState.pToken h.2
    simp only [frame_pToken, Option.some.injEq] at this
    exact this.symm

/-! ## The trailer and the enum parser -/

@[simp] theorem frame_scopes (st : CXXParserState) (c p i) :
    (st.frame c p i).scopes = st.scopes := rfl
@[simp] theorem frame_tags (st : CXXParserState) (c p i) :
    (st.frame c p i).tags = st.tags := rfl
@[simp] theorem frame_uKeywordState (st : CXXParserState) (c p i) :
    (st.frame c p i).uKeywordState = st.uKeywordState := rfl
@[simp] theorem frame_calls (st : CXXParserState) (c p i) :
    (st.frame c p i).calls = st.calls := rfl

theorem clearChain_eq_frame (st : CXXParserState) :
    ({ st with pTokenChain := [] } : CXXParserState) = st.frame [] st.pToken st.input := rfl

/-- The trailer returns, leaves the scope stack as it is and only adds tags. -/
theorem trailer_total (env : CXXCollaborators) (bTypedef : Bool) (eKind : CXXTagKind)
    (szTypeName : String) (st : CXXParserState) (hC : LambdaFree env st)
    (fuel : Nat) (hf : 3 * st.input.length + 1 ≤ fuel) :
    ∃ b st', cxxParserParseEnumStructClassOrUnionFullDeclarationTrailer env fuel bTypedef eKind
        (some szTypeName) st = .ok (b, st') ∧
      st'.scopes = st.scopes ∧ (∃ more, st'.tags = st.tags ++ more) := by
  unfold cxxParserParseEnumStructClassOrUnionFullDeclarationTrailer
  simp only [clearChain_eq_frame]
  obtain ⟨b, c, tok, i, h, -⟩ := parseUpToOneOf_spec env
    (CXXTokenTypeEOF ||| CXXTokenTypeSemicolon) (st.frame [] st.pToken st.input)
    (by simpa using hC) fuel (by simpa using hf)
  rw [h]
  simp only [frame_frame]
  cases b with
  | false => exact ⟨_, _, rfl, rfl, [], by simp⟩
  | true =>
    simp only [frame_pToken]
    split
    · exact ⟨_, _, rfl, rfl, [], by simp⟩
    · split
      · exact ⟨_, _, rfl, rfl, [], by simp⟩
      · split
        · split
          · exact ⟨_, _, rfl, rfl, [], by simp⟩
          · split
            · simp only [cxxTagBegin]
              exact ⟨_, _, rfl, rfl, _, rfl⟩
            · exact ⟨_, _, rfl, rfl, [], by simp⟩
        · exact ⟨_, _, rfl, rfl, _, rfl⟩

theorem enumBlock_succ (env : CXXCollaborators) (fuel : Nat) (st : CXXParserState) :
    cxxParserParseEnumBlock env (fuel + 1) st =
      match cxxParserParseUpToOneOf env fuel enumeratorTerminators
          (st.frame [] st.pToken st.input) with
      | .error e => .error e
      | .ok (false, st) => .ok (false, st)
      | .ok (true, st) =>
        match (afterEnumerator env st).pToken with
        | none => .error .nullPointer
        | some pToken =>
          if maskTest pToken.eType (CXXTokenTypeEOF ||| CXXTokenTypeClosingBracket) then
            .ok (true, afterEnumerator env st)
          else cxxParserParseEnumBlock env fuel (afterEnumerator env st) := rfl

@[simp] theorem addTags_scopes (st : CXXParserState) (m) :
    (st.addTags m).scopes = st.scopes := rfl
@[simp] theorem addTags_tags (st : CXXParserState) (m) :
    (st.addTags m).tags = st.tags ++ m := rfl
@[simp] theorem addTags_input (st : CXXParserState) (m) :
    (st.addTags m).input = st.input := rfl
@[simp] theorem addTags_pToken (st : CXXParserState) (m) :
    (st.addTags m).pToken = st.pToken := rfl
@[simp] theorem addTags_pTokenChain (st : CXXParserState) (m) :
    (st.addTags m).pTokenChain = st.pTokenChain := rfl
@[simp] theorem addTags_uKeywordState (st : CXXParserState) (m) :
    (st.addTags m).uKeywordState = st.uKeywordState := rfl
@[simp] theorem addTags_lambdaFree (env : CXXCollaborators) (st : CXXParserState) (m) :
    LambdaFree env (st.addTags m) ↔ LambdaFree env st := Iff.rfl
@[simp] theorem addTags_frame (st : CXXParserState) (m c p i) :
    (st.addTags m).frame c p i = (st.frame c p i).addTags m := rfl
theorem addTags_nil (st : CXXParserState) : st.addTags [] = st := by
  unfold CXXParserState.addTags
  simp
theorem addTags_addTags (st : CXXParserState) (m m' : List CXXTag) :
    (st.addTags m).addTags m' = st.addTags (m ++ m') := by
  unfold CXXParserState.addTags
  simp

theorem afterEnumerator_eq (env : CXXCollaborators) (st : CXXParserState) :
    afterEnumerator env st
      = st.addTags (enumeratorTag env st.scopes st.pTokenChain).toList := by
  unfold afterEnumerator enumeratorTag cxxTokenChainFirst CXXParserState.addTags
  cases hh : st.pTokenChain.head? with
  | none => simp
  | some f =>
    simp only
    by_cases h1 : st.pTokenChain.length > 1
    · by_cases h2 : f.eType = CXXTokenTypeIdentifier
      · simp [h1, h2, cxxTagBegin, cxxTagCommit]
      · simp [h1, h2]
    · simp [h1]

theorem afterEnumerator_frame (env : CXXCollaborators) (st : CXXParserState) (c p i) :
    afterEnumerator env (st.frame c p i)
      = (st.frame c p i).addTags (enumeratorTag env st.scopes c).toList := by
  rw [afterEnumerator_eq]
  rfl

/-- The enumerator loop returns, leaves the scope stack, the keyword state and the
language as they are, only adds tags and only consumes input. -/
theorem enumBlock_total (env : CXXCollaborators) (fuel : Nat) :
    ∀ (st : CXXParserState), LambdaFree env st → 3 * st.input.length + 3 ≤ fuel →
      ∃ b st', cxxParserParseEnumBlock env fuel st = .ok (b, st') ∧
        st'.scopes = st.scopes ∧ (∃ more, st'.tags = st.tags ++ more) ∧
        LambdaFree env st' ∧ st'.input.length ≤ st.input.length ∧
        st'.uKeywordState = st.uKeywordState := by
  induction fuel with
  | zero => intro st _ hf; omega
  | succ n ih =>
    intro st hC hf
    rw [enumBlock_succ]
    obtain ⟨b, c, tok, i, h, -, h3, h4, -, h6⟩ := parseUpToOneOf_spec env
      enumeratorTerminators (st.frame [] st.pToken st.input)
      (by simpa using hC) n (by simp only [frame_input]; omega)
    rw [h]
    simp only [frame_frame, frame_input] at h3 h4 h6 ⊢
    cases b with
    | false => exact ⟨_, _, rfl, rfl, ⟨[], by simp⟩, by simpa using hC, h3, rfl⟩
    | true =>
      simp only [afterEnumerator_frame, frame_pToken, addTags_pToken]
      split
      · refine ⟨_, _, rfl, rfl, ⟨_, rfl⟩, hC, h3, rfl⟩
      · rename_i hbrk
        have hne : st.input ≠ [] := by
          intro hnil
          rw [h6 hnil] at hbrk
          exact hbrk (by decide)
        have hlt := h4 hne
        obtain ⟨b', st', g1, g2, ⟨more, g3⟩, g4, g5, g6⟩ := ih
          ((st.frame c (some tok) i).addTags (enumeratorTag env st.scopes c).toList)
          hC (by simp only [frame_input, addTags_input]; omega)
        refine ⟨b', st', g1, g2, ⟨(enumeratorTag env st.scopes c).toList ++ more, ?_⟩, g4, ?_, g6⟩
        · rw [g3]; simp
        · simp only [frame_input, addTags_input] at g5
          omega

/-- A run over tokens consumed at its level and then a terminator. -/
theorem parseUpToOneOf_item (env : CXXCollaborators) {T : Nat} {item outs : List CXXToken}
    (hS : Skips defaultOpeners T item outs) (sep : CXXToken) (rest : List CXXToken)
    (hsep : maskTest sep.eType T = true)
    (st : CXXParserState) (hC : LambdaFree env st) (hi : st.input = item ++ sep :: rest)
    (fuel : Nat) (hf : 3 * st.input.length + 1 ≤ fuel) :
    cxxParserParseUpToOneOf env fuel T st
      = .ok (true, st.frame (st.pTokenChain ++ outs ++ [sep]) (some sep) rest) := by
  rw [parseUpToOneOf_eq]
  apply upTo_of_returns env hC _ fuel hf
  have := upTo_at_terminator env T defaultOpeners
    (st.frame (st.pTokenChain ++ outs) none (sep :: rest)) sep rest rfl hsep
  exact upTo_skips env hS st (sep :: rest) none 2 _ hC hi this

theorem enumeratorTags_cons (env : CXXCollaborators) (scopes : List CXXScope)
    (ch : List CXXToken) (chains : List (List CXXToken)) :
    enumeratorTags env scopes (ch :: chains)
      = (enumeratorTag env scopes ch).toList ++ enumeratorTags env scopes chains := by
  unfold enumeratorTags
  rw [List.filterMap_cons]
  cases enumeratorTag env scopes ch <;> simp

/-- The enumerator loop on a body made of items: it ends with success at the closing
brace, having committed the enumerator tags of the items in order. -/
theorem enumBlock_items (env : CXXCollaborators) {body : List CXXToken}
    {chains : List (List CXXToken)} (hB : EnumItems body chains) :
    ∀ (st : CXXParserState) (rest : List CXXToken) (fuel : Nat), LambdaFree env st →
      st.input = body ++ rest → 3 * st.input.length + 3 ≤ fuel →
      ∃ c tok, cxxParserParseEnumBlock env fuel st
        = .ok (true, (st.frame c (some tok) rest).addTags
            (enumeratorTags env st.scopes chains)) := by
  induction hB with
  | last item outs cb hS hcb =>
    intro st rest fuel hC hi hf
    obtain ⟨n, rfl⟩ : ∃ n, fuel = n + 1 := ⟨fuel - 1, by omega⟩
    rw [enumBlock_succ]
    rw [parseUpToOneOf_item env hS cb rest (by rw [hcb]; decide) _ (by simpa using hC)
      (by simpa using hi) n (by simp only [frame_input]; omega)]
    simp only [frame_frame, frame_pTokenChain, afterEnumerator_frame, frame_pToken,
      addTags_pToken]
    have : maskTest cb.eType (CXXTokenTypeEOF ||| CXXTokenTypeClosingBracket) = true := by
      rw [hcb]; decide
    rw [if_pos this]
    refine ⟨[] ++ outs ++ [cb], cb, ?_⟩
    rw [enumeratorTags_cons]
    simp [enumeratorTags]
  | more item outs cm rest' chains hS hcm _ ih =>
    intro st rest fuel hC hi hf
    obtain ⟨n, rfl⟩ : ∃ n, fuel = n + 1 := ⟨fuel - 1, by omega⟩
    rw [enumBlock_succ]
    rw [parseUpToOneOf_item env hS cm (rest' ++ rest) (by rw [hcm]; decide) _
      (by simpa using hC) (by simpa using hi) n (by simp only [frame_input]; omega)]
    simp only [frame_frame, frame_pTokenChain, afterEnumerator_frame, frame_pToken,
      addTags_pToken]
    have : maskTest cm.eType (CXXTokenTypeEOF ||| CXXTokenTypeClosingBracket) = false := by
      rw [hcm]; decide
    rw [if_neg (by rw [this]; simp)]
    obtain ⟨c, tok, h⟩ := ih
      ((st.frame ([] ++ outs ++ [cm]) (some cm) (rest' ++ rest)).addTags
        (enumeratorTag env st.scopes ([] ++ outs ++ [cm])).toList)
      rest n hC rfl (by
        simp only [frame_input, addTags_input]
        rw [hi] at hf
        simp only [List.length_append, List.length_cons] at hf ⊢
        omega)
    rw [h]
    refine ⟨c, tok, ?_⟩
    simp only [addTags_frame, frame_frame, addTags_addTags, addTags_scopes, frame_scopes,
      enumeratorTags_cons, List.nil_append]

/-! ## Qualified names -/

theorem qualifierTokens_length (qs : List (CXXToken × CXXToken)) :
    (qualifierTokens qs).length = 2 * qs.length := by
  induction qs with
  | nil => rfl
  | cons p qs ih =>
    obtain ⟨q, c⟩ := p
    simp only [qualifierTokens, List.length_cons, ih]
    omega

theorem qualifierTokens_append (qs : List (CXXToken × CXXToken)) (q c : CXXToken) :
    qualifierTokens (qs ++ [(q, c)]) = qualifierTokens qs ++ [q, c] := by
  induction qs with
  | nil => rfl
  | cons p qs ih =>
    obtain ⟨q', c'⟩ := p
    show q' :: c' :: qualifierTokens (qs ++ [(q, c)]) = _
    rw [ih]
    rfl

/-- The backward walk counts the qualifiers and stops where the alternation breaks. -/
theorem qualifierPairs_qualified (pre : List CXXToken) (qs : List (CXXToken × CXXToken))
    (hq : ∀ p ∈ qs, p.1.eType = CXXTokenTypeIdentifier ∧ p.2.eType = CXXTokenTypeMultipleColons)
    (hpre : qualifierPairs pre.reverse = 0) :
    qualifierPairs (pre ++ qualifierTokens qs).reverse = qs.length := by
  induction qs using List.reverseRecOn with
  | nil => simpa [qualifierTokens] using hpre
  | append_singleton qs p ih =>
    obtain ⟨q, c⟩ := p
    have h1 := hq (q, c) (by simp)
    have ih' := ih (fun p hp => hq p (by simp [hp]))
    rw [qualifierTokens_append, ← List.append_assoc, List.reverse_append]
    show qualifierPairs (c :: q :: (pre ++ qualifierTokens qs).reverse) = _
    simp only [qualifierPairs, h1.1, h1.2, bne_self_eq_false, Bool.false_eq_true,
      if_false, ih', List.length_append, List.length_singleton]

/-- The loop that pushes the qualifier scopes. -/
theorem pushQualifierScopes_qualified (qs : List (CXXToken × CXXToken)) :
    ∀ (pre tail : List CXXToken) (st : CXXParserState) (iPushed fuel : Nat),
      st.pTokenChain = pre ++ qualifierTokens qs ++ tail → qs.length + 1 ≤ fuel →
      pushQualifierScopes fuel pre.length (pre.length + 2 * qs.length) iPushed st
        = .ok (pre.length + qs.length, iPushed + qs.length,
            { st with pTokenChain := pre ++ qs.map (·.2) ++ tail,
                      scopes := st.scopes ++ qs.map (fun p => qualifierScope p.1) }) := by
  induction qs with
  | nil =>
    intro pre tail st iPushed fuel hc hf
    obtain ⟨n, rfl⟩ : ∃ n, fuel = n + 1 := ⟨fuel - 1, by omega⟩
    simp only [pushQualifierScopes, List.length_nil, Nat.mul_zero, Nat.add_zero, beq_self_eq_true,
      if_true, List.map_nil, List.append_nil]
    simp only [qualifierTokens, List.append_nil] at hc
    rw [← hc]
  | cons p qs ih =>
    intro pre tail st iPushed fuel hc hf
    obtain ⟨q, c⟩ := p
    obtain ⟨n, rfl⟩ : ∃ n, fuel = n + 1 := ⟨fuel - 1, by omega⟩
    simp only [List.length_cons] at hf ⊢
    have hne : (pre.length == pre.length + 2 * (qs.length + 1)) = false := by
      simp only [beq_eq_false_iff_ne, ne_eq]
      omega
    have hget : st.pTokenChain.get? pre.length = some q := by
      rw [hc, List.append_assoc, List.get?_eq_getElem?,
        List.getElem?_append_right (le_refl _)]
      simp [qualifierTokens]
    have herase : cxxTokenChainTake st.pTokenChain pre.length
        = (pre ++ [c]) ++ qualifierTokens qs ++ tail := by
      unfold cxxTokenChainTake
      rw [hc, List.append_assoc, List.eraseIdx_append_of_length_le (le_refl _)]
      simp [qualifierTokens]
    rw [pushQualifierScopes]
    simp only [hne, Bool.false_eq_true, if_false, hget]
    have := ih (pre ++ [c]) tail
      (cxxScopePush q .CLASS .Unknown
        { st with pTokenChain := cxxTokenChainTake st.pTokenChain pre.length })
      (iPushed + 1) n (by simpa [cxxScopePush] using herase) (by omega)
    simp only [List.length_append, List.length_singleton] at this
    rw [show pre.length + 2 * (qs.length + 1) - 1 = pre.length + 1 + 2 * qs.length by omega,
      this]
    simp only [cxxScopePush, qualifierScope, List.map_cons, List.append_assoc,
      List.singleton_append, List.cons_append]
    congr 2
    · omega
    · congr 1
      omega

theorem lastTokenOfType_found (front post : List CXXToken) (name : CXXToken) (M : Nat)
    (hn : maskTest name.eType M = true) (hpost : ∀ t ∈ post, maskTest t.eType M = false) :
    cxxTokenChainLastTokenOfType (front ++ [name] ++ post) M = some front.length := by
  unfold cxxTokenChainLastTokenOfType
  have h1 : post.reverse.findIdx? (fun t => maskTest t.eType M) = none := by
    rw [List.findIdx?_eq_none_iff]
    intro x hx
    exact hpost x (List.mem_reverse.mp hx)
  have : (front ++ [name] ++ post).reverse.findIdx? (fun t => maskTest t.eType M)
      = some post.length := by
    rw [List.reverse_append, List.findIdx?_append, h1]
    simp [hn]
  rw [this]
  simp only [List.length_append, List.length_singleton, Option.some.injEq]
  omega

/-- The name extraction on a chain that ends with a qualified name. -/
theorem extractQualifiedName_qualified (st : CXXParserState) (pre post : List CXXToken)
    (qs : List (CXXToken × CXXToken)) (name : CXXToken)
    (hq : ∀ p ∈ qs, p.1.eType = CXXTokenTypeIdentifier ∧ p.2.eType = CXXTokenTypeMultipleColons)
    (hn : maskTest name.eType CXXTokenTypeIdentifier = true)
    (hpost : ∀ t ∈ post, maskTest t.eType CXXTokenTypeIdentifier = false)
    (hpre : qualifierPairs pre.reverse = 0)
    (hc : st.pTokenChain = pre ++ qualifierTokens qs ++ [name] ++ post) :
    cxxParserExtractQualifiedName st
      = .ok (name, qs.length,
          { st with pTokenChain := pre ++ qs.map (·.2) ++ post,
                    scopes := st.scopes ++ qs.map (fun p => qualifierScope p.1) }) := by
  unfold cxxParserExtractQualifiedName
  have hlast : cxxTokenChainLastTokenOfType st.pTokenChain CXXTokenTypeIdentifier
      = some (pre.length + 2 * qs.length) := by
    rw [hc, lastTokenOfType_found (pre ++ qualifierTokens qs) post name _ hn hpost]
    simp [qualifierTokens_length]
  rw [hlast]
  simp only
  have htake : (st.pTokenChain.take (pre.length + 2 * qs.length))
      = pre ++ qualifierTokens qs := by
    rw [hc, List.append_assoc]
    exact List.take_left' (by simp [qualifierTokens_length])
  rw [htake, qualifierPairs_qualified pre qs hq hpre]
  rw [show pre.length + 2 * qs.length - 2 * qs.length = pre.length by omega]
  rw [pushQualifierScopes_qualified qs pre ([name] ++ post) st 0 _
    (by rw [hc]; simp)
    (by rw [hc]; simp only [List.length_append, qualifierTokens_length]; omega)]
  simp only [Nat.zero_add]
  have hget : (pre ++ qs.map (·.2) ++ ([name] ++ post)).get? (pre.length + qs.length)
      = some name := by
    rw [List.get?_eq_getElem?, List.getElem?_append_right (by simp)]
    simp
  rw [hget]
  simp only [cxxTokenChainTake]
  rw [List.eraseIdx_append_of_length_le (by simp)]
  simp

/-! ## The definition branch of the enum and class parsers -/

@[simp] theorem newStatement_tags (st : CXXParserState) :
    (cxxParserNewStatement st).tags = st.tags := rfl
@[simp] theorem newStatement_scopes (st : CXXParserState) :
    (cxxParserNewStatement st).scopes = st.scopes := rfl
@[simp] theorem scopePush_tags (t : CXXToken) (k a) (st : CXXParserState) :
    (cxxScopePush t k a st).tags = st.tags := rfl
@[simp] theorem scopePush_input (t : CXXToken) (k a) (st : CXXParserState) :
    (cxxScopePush t k a st).input = st.input := rfl
@[simp] theorem scopePush_lambdaFree (env : CXXCollaborators) (t : CXXToken) (k a)
    (st : CXXParserState) : LambdaFree env (cxxScopePush t k a st) ↔ LambdaFree env st := Iff.rfl
@[simp] theorem tagCommit_tags (tag : CXXTag) (st : CXXParserState) :
    (cxxTagCommit tag st).tags = st.tags ++ [tag] := rfl
@[simp] theorem tagCommit_input (tag : CXXTag) (st : CXXParserState) :
    (cxxTagCommit tag st).input = st.input := rfl
@[simp] theorem tagCommit_scopes (tag : CXXTag) (st : CXXParserState) :
    (cxxTagCommit tag st).scopes = st.scopes := rfl
@[simp] theorem tagCommit_lambdaFree (env : CXXCollaborators) (tag : CXXTag)
    (st : CXXParserState) : LambdaFree env (cxxTagCommit tag st) ↔ LambdaFree env st := Iff.rfl

theorem popScopes_tags (n : Nat) (st : CXXParserState) : (popScopes n st).tags = st.tags := by
  induction n generalizing st with
  | zero => rfl
  | succ n ih => rw [popScopes, ih]; rfl

theorem popScopes_input (n : Nat) (st : CXXParserState) :
    (popScopes n st).input = st.input := by
  induction n generalizing st with
  | zero => rfl
  | succ n ih => rw [popScopes, ih]; rfl

theorem popScopes_lambdaFree (env : CXXCollaborators) (n : Nat) (st : CXXParserState) :
    LambdaFree env (popScopes n st) ↔ LambdaFree env st := by
  induction n generalizing st with
  | zero => exact Iff.rfl
  | succ n ih => rw [popScopes, ih]; exact Iff.rfl

theorem popScopes_uKeywordState (n : Nat) (st : CXXParserState) :
    (popScopes n st).uKeywordState = st.uKeywordState := by
  induction n generalizing st with
  | zero => rfl
  | succ n ih => rw [popScopes, ih]; rfl

/-- The definition branch of the enum parser, from the state `st2` left by the name
extraction: it returns and its tags start with the enum tag. -/
theorem parseEnum_definition (env : CXXCollaborators) (fuel : Nat) (name : CXXToken)
    (n : Nat) (st2 : CXXParserState) (hC : LambdaFree env st2)
    (hf : 3 * st2.input.length + 3 ≤ fuel) :
    ∃ b st' more,
      (match cxxParserParseEnumBlock env fuel
          (cxxScopePush name .ENUM .Public
            (cxxTagCommit (definitionTag env name .ENUM st2.scopes none) st2)) with
        | .error e => .error e
        | .ok (false, st) => .ok (false, st)
        | .ok (true, st) =>
          match cxxScopeGetFullNameAsString (cxxScopePush name .ENUM .Public
              (cxxTagCommit (definitionTag env name .ENUM st2.scopes none) st2)) with
          | none => .error .nullPointer
          | some szScopeName =>
            match cxxParserParseEnumStructClassOrUnionFullDeclarationTrailer env fuel
                (maskTest (popScopes (n + 1) st).uKeywordState
                  CXXParserKeywordStateSeenTypedef) .ENUM
                (some szScopeName) (popScopes (n + 1) st) with
            | .error e => .error e
            | .ok (bRet, st) => .ok (bRet, cxxParserNewStatement st))
        = (.ok (b, st') : Except Fault (Bool × CXXParserState)) ∧
      st'.tags = st2.tags ++ definitionTag env name .ENUM st2.scopes none :: more := by
  obtain ⟨b, st3, h, -, ⟨more, hm⟩, hC3, hi3, -⟩ := enumBlock_total env fuel
    (cxxScopePush name .ENUM .Public
      (cxxTagCommit (definitionTag env name .ENUM st2.scopes none) st2))
    (by simpa using hC) (by simpa using hf)
  rw [h]
  cases b with
  | false =>
    refine ⟨false, st3, more, rfl, ?_⟩
    rw [hm]; simp
  | true =>
    simp only
    have hname : ∃ s, cxxScopeGetFullNameAsString (cxxScopePush name .ENUM .Public
        (cxxTagCommit (definitionTag env name .ENUM st2.scopes none) st2)) = some s := by
      unfold cxxScopeGetFullNameAsString
      split
      · rename_i heq
        simp [cxxScopePush] at heq
      · exact ⟨_, rfl⟩
    obtain ⟨s, hs⟩ := hname
    rw [hs]
    simp only
    obtain ⟨bT, stT, hT, -, ⟨moreT, hmT⟩⟩ := trailer_total env
      (maskTest (popScopes (n + 1) st3).uKeywordState CXXParserKeywordStateSeenTypedef)
      .ENUM s (popScopes (n + 1) st3) ((popScopes_lambdaFree env _ _).mpr hC3) fuel
      (by
        rw [popScopes_input]
        simp only [scopePush_input, tagCommit_input] at hi3
        omega)
    rw [hT]
    refine ⟨bT, _, more ++ moreT, rfl, ?_⟩
    rw [newStatement_tags, hmT, popScopes_tags, hm]
    simp

/-- The enum parser on a header that ends at an opening brace: the definition
branch. -/
theorem parseEnum_unfold (env : CXXCollaborators) (fuel : Nat) (st st1 st2 : CXXParserState)
    (tok name : CXXToken) (n : Nat)
    (hh : cxxParserParseUpToOneOf env fuel enumHeaderTerminators
      (st.frame [] st.pToken st.input) = .ok (true, st1))
    (hp : st1.pToken = some tok) (ht : tok.eType = CXXTokenTypeOpeningBracket)
    (hx : cxxParserExtractQualifiedName st1 = .ok (name, n, st2)) :
    cxxParserParseEnum env fuel st =
      match cxxParserParseEnumBlock env fuel
          (cxxScopePush name .ENUM .Public
            (cxxTagCommit (definitionTag env name .ENUM st2.scopes none) st2)) with
        | .error e => .error e
        | .ok (false, st) => .ok (false, st)
        | .ok (true, st) =>
          match cxxScopeGetFullNameAsString (cxxScopePush name .ENUM .Public
              (cxxTagCommit (definitionTag env name .ENUM st2.scopes none) st2)) with
          | none => .error .nullPointer
          | some szScopeName =>
            match cxxParserParseEnumStructClassOrUnionFullDeclarationTrailer env fuel
                (maskTest (popScopes (n + 1) st).uKeywordState
                  CXXParserKeywordStateSeenTypedef) .ENUM
                (some szScopeName) (popScopes (n + 1) st) with
            | .error e => .error e
            | .ok (bRet, st) => .ok (bRet, cxxParserNewStatement st) := by
  unfold cxxParserParseEnum
  have hh' : cxxParserParseUpToOneOf env fuel
      (CXXTokenTypeEOF ||| CXXTokenTypeSemicolon ||| CXXTokenTypeParenthesisChain
        ||| CXXTokenTypeOpeningBracket) { st with pTokenChain := [] } = .ok (true, st1) := hh
  simp only [hh', hp, ht]
  rw [if_neg (by decide), if_neg (by decide), if_neg (by decide)]
  simp only [hx]
  rfl

/-- What follows the commit of the class tag (lines 655-681): the scope of the class,
the block, the pops and the trailer.  It returns and only adds tags. -/
theorem parseClass_body (env : CXXCollaborators) (hB : BlockParserForward env) (fuel : Nat)
    (name : CXXToken) (eKind : CXXTagKind) (bTypedef : Bool) (n : Nat) (st3 : CXXParserState)
    (hC : LambdaFree env st3) (hf : 3 * st3.input.length + 3 ≤ fuel) :
    ∃ b st' more,
      (match env.cxxParserParseBlock true
          (cxxScopePush name eKind (if eKind == .CLASS then .Private else .Public) st3) with
        | (false, st) => .ok (false, st)
        | (true, st) =>
          match cxxScopeGetFullNameAsString
              (cxxScopePush name eKind (if eKind == .CLASS then .Private else .Public) st3) with
          | none => .error .nullPointer
          | some szScopeName =>
            match cxxParserParseEnumStructClassOrUnionFullDeclarationTrailer env fuel
                bTypedef eKind (some szScopeName) (popScopes (n + 1) st) with
            | .error e => .error e
            | .ok (bRet, st) => .ok (bRet, cxxParserNewStatement st))
        = (.ok (b, st') : Except Fault (Bool × CXXParserState)) ∧
      st'.tags = st3.tags ++ more := by
  obtain ⟨⟨more, hm⟩, hi, hl⟩ := hB true
    (cxxScopePush name eKind (if eKind == .CLASS then .Private else .Public) st3)
  rcases hblk : env.cxxParserParseBlock true
    (cxxScopePush name eKind (if eKind == .CLASS then .Private else .Public) st3) with ⟨b, st4⟩
  rw [hblk] at hm hi hl
  simp only at hm hi hl
  cases b with
  | false => exact ⟨false, st4, more, rfl, by rw [hm]; simp⟩
  | true =>
    simp only
    have hname : ∃ s, cxxScopeGetFullNameAsString
        (cxxScopePush name eKind (if eKind == .CLASS then .Private else .Public) st3)
        = some s := by
      unfold cxxScopeGetFullNameAsString
      split
      · rename_i heq
        simp [cxxScopePush] at heq
      · exact ⟨_, rfl⟩
    obtain ⟨s, hs⟩ := hname
    rw [hs]
    simp only
    obtain ⟨bT, stT, hT, -, ⟨moreT, hmT⟩⟩ := trailer_total env bTypedef eKind s
      (popScopes (n + 1) st4)
      ((popScopes_lambdaFree env _ _).mpr (hl (by simpa using hC))) fuel
      (by
        rw [popScopes_input]
        simp only [scopePush_input] at hi
        omega)
    rw [hT]
    refine ⟨bT, _, more ++ moreT, rfl, ?_⟩
    rw [newStatement_tags, hmT, popScopes_tags, hm]
    simp

/-- The class parser on a header that ends at an opening brace or at a colon: it
returns, and the first tag it commits, if it commits one, is the class tag begun in
the scope stack left by the name extraction. -/
theorem parseClass_definition (env : CXXCollaborators) (hB : BlockParserForward env)
    (fuel : Nat) (eKind : CXXTagKind) (st st1 st2 : CXXParserState) (tok name : CXXToken)
    (n : Nat)
    (hh : cxxParserParseClassStructOrUnionHeader env fuel (classHeaderTerminators eKind)
      { st with bParsingClassStructOrUnionDeclaration := true } = .ok (true, st1))
    (hp : st1.pToken = some tok)
    (ht : tok.eType = CXXTokenTypeOpeningBracket ∨ tok.eType = CXXTokenTypeSingleColon)
    (hx : cxxParserExtractQualifiedName
      { st1 with bParsingClassStructOrUnionDeclaration := false } = .ok (name, n, st2))
    (hC : LambdaFree env st2) (hf : 3 * st2.input.length + 3 ≤ fuel) :
    ∃ b st', cxxParserParseClassStructOrUnion env fuel eKind st = .ok (b, st') ∧
      (st'.tags = st2.tags ∨
        ∃ inh more, st'.tags = st2.tags ++ definitionTag env name eKind st2.scopes inh :: more) ∧
      (tok.eType = CXXTokenTypeOpeningBracket →
        ∃ more, st'.tags = st2.tags ++ definitionTag env name eKind st2.scopes none :: more) := by
  unfold cxxParserParseClassStructOrUnion
  have hh' : cxxParserParseClassStructOrUnionHeader env fuel
      ((CXXTokenTypeEOF ||| CXXTokenTypeSingleColon ||| CXXTokenTypeSemicolon
        ||| CXXTokenTypeOpeningBracket ||| CXXTokenTypeSmallerThanSign)
        ||| (if eKind != .CLASS then CXXTokenTypeParenthesisChain else 0))
      { st with bParsingClassStructOrUnionDeclaration := true } = .ok (true, st1) := hh
  simp only [hp] at hx
  simp only [hh', hp]
  have e1 : (tok.eType == CXXTokenTypeParenthesisChain) = false := by
    rcases ht with h | h <;> rw [h] <;> decide
  have e2 : (tok.eType == CXXTokenTypeSemicolon) = false := by
    rcases ht with h | h <;> rw [h] <;> decide
  have e3 : (tok.eType == CXXTokenTypeEOF) = false := by
    rcases ht with h | h <;> rw [h] <;> decide
  simp only [e1, e2, e3, Bool.false_eq_true, if_false, hx]
  rcases ht with ht | ht
  · -- the header ends at the opening brace: no base clause
    have e4 : (tok.eType == CXXTokenTypeSingleColon) = false := by rw [ht]; decide
    simp only [e4, Bool.false_eq_true, if_false, cxxTagBegin, List.length_nil,
      Nat.lt_irrefl, if_false]
    obtain ⟨b, st', more, h, hm⟩ := parseClass_body env hB fuel name eKind
      (maskTest st.uKeywordState CXXParserKeywordStateSeenTypedef) n
      (cxxTagCommit (definitionTag env name eKind st2.scopes none)
        { st2 with pTokenChain := [] })
      (by exact hC) (by exact hf)
    refine ⟨b, st', ?_, ?_, ?_⟩
    · exact h
    · right
      exact ⟨none, more, by rw [hm]; simp⟩
    · intro _
      exact ⟨more, by rw [hm]; simp⟩
  · -- the header ends at the colon: the base clause is parsed first
    have e4 : (tok.eType == CXXTokenTypeSingleColon) = true := by rw [ht]; decide
    have e5 : tok.eType ≠ CXXTokenTypeOpeningBracket := by rw [ht]; decide
    simp only [e4, if_true]
    obtain ⟨b, c, tok', i, h, -, h3, -⟩ := parseUpToOneOf_spec env
      (CXXTokenTypeEOF ||| CXXTokenTypeSemicolon ||| CXXTokenTypeOpeningBracket)
      ({ st2 with pTokenChain := [] }) (by exact hC) fuel
      (by show 3 * st2.input.length + 1 ≤ fuel; omega)
    rw [h]
    cases b with
    | false =>
      exact ⟨false, _, rfl, Or.inl rfl, fun h => absurd h e5⟩
    | true =>
      simp only [frame_pToken]
      by_cases hsemi : maskTest tok'.eType (CXXTokenTypeSemicolon ||| CXXTokenTypeEOF) = true
      · simp only [hsemi, if_true]
        exact ⟨true, _, rfl, Or.inl rfl, fun h => absurd h e5⟩
      · simp only [hsemi, Bool.false_eq_true, if_false, cxxTagBegin]
        obtain ⟨b, st', more, h, hm⟩ := parseClass_body env hB fuel name eKind
          (maskTest st.uKeywordState CXXParserKeywordStateSeenTypedef) n
          (cxxTagCommit
            { definitionTag env name eKind st2.scopes none with
              inheritance :=
                if (cxxTokenChainDestroyLast c).length > 0 then
                  (cxxTokenChainCondense (cxxTokenChainDestroyLast c)).head?.map (·.pszWord)
                else none }
            (if (cxxTokenChainDestroyLast c).length > 0 then
              { ({ st2 with pTokenChain := [] } : CXXParserState).frame
                  (cxxTokenChainDestroyLast c) (some tok') i with
                pTokenChain := cxxTokenChainCondense (cxxTokenChainDestroyLast c) }
            else ({ st2 with pTokenChain := [] } : CXXParserState).frame
                  (cxxTokenChainDestroyLast c) (some tok') i))
          (by split <;> exact hC)
          (by
            have : ∀ (x : CXXParserState), x.input = i → 3 * x.input.length + 3 ≤ fuel := by
              intro x hx
              rw [hx]
              have : i.length ≤ st2.input.length := h3
              omega
            split <;> exact this _ rfl)
        refine ⟨b, st', ?_, ?_, fun h => absurd h e5⟩
        · rw [← h]
          by_cases hlen : (cxxTokenChainDestroyLast c).length > 0
          · simp only [frame_pTokenChain, hlen, if_true]
            rfl
          · simp only [frame_pTokenChain, hlen, if_false]
            rfl
        · right
          refine ⟨if (cxxTokenChainDestroyLast c).length > 0 then
              (cxxTokenChainCondense (cxxTokenChainDestroyLast c)).head?.map (·.pszWord)
            else none, more, ?_⟩
          rw [hm]
          by_cases hlen : (cxxTokenChainDestroyLast c).length > 0
          · simp only [hlen, if_true, tagCommit_tags, List.append_assoc, List.singleton_append]
            rfl
          · simp only [hlen, if_false, tagCommit_tags, List.append_assoc, List.singleton_append]
            rfl

/-! ## The claim on enumerators -/

/-- C8: for an enum definition (the header ends at an opening brace and names the
enum `name`) whose body is made of comma-separated items closed by a closing brace,
each item consumed at one level with its brackets folded (so a comma inside brackets
splits nothing), `cxxParserParseEnum` reaches the trailer in a state `stB` whose tags
are the tags at entry, then the enum tag, then the enumerator tags of the items in
source order (one for each item whose first token is an identifier and whose chain,
item plus terminator, has more than one token, none for the others), all begun in
the scope of the enum; what it returns is what the trailer returns from `stB`, and it
does return, with the tags of `stB` first. -/
theorem c8_enumerators (env : CXXCollaborators) (fuel : Nat) (st st1 st2 : CXXParserState)
    (tok name : CXXToken) (n : Nat) (body rest : List CXXToken)
    (chains : List (List CXXToken))
    (hh : cxxParserParseUpToOneOf env fuel enumHeaderTerminators
      (st.frame [] st.pToken st.input) = .ok (true, st1))
    (hp : st1.pToken = some tok) (ht : tok.eType = CXXTokenTypeOpeningBracket)
    (hx : cxxParserExtractQualifiedName st1 = .ok (name, n, st2))
    (hC : LambdaFree env st2) (hi : st2.input = body ++ rest) (hB : EnumItems body chains)
    (hf : 3 * st2.input.length + 3 ≤ fuel) :
    ∃ stB szScopeName,
      stB.tags = st2.tags ++ definitionTag env name .ENUM st2.scopes none ::
        enumeratorTags env
          (st2.scopes ++ [{ name := name.pszWord, kind := .ENUM, access := .Public }]) chains ∧
      stB.input = rest ∧
      cxxParserParseEnum env fuel st =
        (match cxxParserParseEnumStructClassOrUnionFullDeclarationTrailer env fuel
            (maskTest stB.uKeywordState CXXParserKeywordStateSeenTypedef) .ENUM
            (some szScopeName) stB with
          | .error e => .error e
          | .ok (bRet, s) => .ok (bRet, cxxParserNewStatement s)) ∧
      ∃ b st' more, cxxParserParseEnum env fuel st = .ok (b, st') ∧
        st'.tags = stB.tags ++ more := by
  rw [parseEnum_unfold env fuel st st1 st2 tok name n hh hp ht hx]
  obtain ⟨c, tokc, hb⟩ := enumBlock_items env hB
    (cxxScopePush name .ENUM .Public
      (cxxTagCommit (definitionTag env name .ENUM st2.scopes none) st2)) rest fuel
    (by simpa using hC) (by simpa using hi) (by simpa using hf)
  rw [hb]
  have hname : ∃ s, cxxScopeGetFullNameAsString (cxxScopePush name .ENUM .Public
      (cxxTagCommit (definitionTag env name .ENUM st2.scopes none) st2)) = some s := by
    unfold cxxScopeGetFullNameAsString
    split
    · rename_i heq
      simp [cxxScopePush] at heq
    · exact ⟨_, rfl⟩
  obtain ⟨s, hs⟩ := hname
  simp only [hs]
  refine ⟨popScopes (n + 1) _, s, ?_, ?_, rfl, ?_⟩
  · rw [popScopes_tags]
    simp [cxxScopePush, cxxTagCommit]
  · rw [popScopes_input]
    simp
  · have hlen : rest.length ≤ st2.input.length := by rw [hi]; simp
    obtain ⟨b, st', hT, -, more, hm⟩ := trailer_total env
      (maskTest (popScopes (n + 1) (((cxxScopePush name .ENUM .Public
        (cxxTagCommit (definitionTag env name .ENUM st2.scopes none) st2)).frame c
          (some tokc) rest).addTags (enumeratorTags env (cxxScopePush name .ENUM .Public
        (cxxTagCommit (definitionTag env name .ENUM st2.scopes none) st2)).scopes
          chains))).uKeywordState CXXParserKeywordStateSeenTypedef) .ENUM s
      (popScopes (n + 1) (((cxxScopePush name .ENUM .Public
        (cxxTagCommit (definitionTag env name .ENUM st2.scopes none) st2)).frame c
          (some tokc) rest).addTags (enumeratorTags env (cxxScopePush name .ENUM .Public
        (cxxTagCommit (definitionTag env name .ENUM st2.scopes none) st2)).scopes chains)))
      (by rw [popScopes_lambdaFree]; simpa using hC) fuel
      (by rw [popScopes_input]; simp only [addTags_input, frame_input]; omega)
    rw [hT]
    exact ⟨b, cxxParserNewStatement st', more, rfl, by rw [newStatement_tags, hm]⟩

/-- Witness of C8 on `enum E { A, B = 2, C };`: the tags are `E`, then `A`, `B`, `C`
in the scope `E`. -/
theorem c8_enumerators_witness :
    ∃ stB szScopeName,
      stB.tags = [definitionTag idleCollaborators (tokIdentifier "E") .ENUM [] none,
        enumExampleTag "A", enumExampleTag "B", enumExampleTag "C"] ∧
      stB.input = [tokSemicolon] ∧
      cxxParserParseEnum idleCollaborators 40 (startState enumExampleTokens) =
        (match cxxParserParseEnumStructClassOrUnionFullDeclarationTrailer idleCollaborators 40
            (maskTest stB.uKeywordState CXXParserKeywordStateSeenTypedef) .ENUM
            (some szScopeName) stB with
          | .error e => .error e
          | .ok (bRet, s) => .ok (bRet, cxxParserNewStatement s)) ∧
      ∃ b st' more, cxxParserParseEnum idleCollaborators 40 (startState enumExampleTokens)
          = .ok (b, st') ∧ st'.tags = stB.tags ++ more :=
  c8_enumerators idleCollaborators 40 (startState enumExampleTokens)
    ((startState enumExampleTokens).frame [tokIdentifier "E", tokOpeningBracket]
      (some tokOpeningBracket) (enumExampleTokens.drop 2))
    ((startState enumExampleTokens).frame [tokOpeningBracket]
      (some tokOpeningBracket) (enumExampleTokens.drop 2))
    tokOpeningBracket (tokIdentifier "E") 0
    [tokIdentifier "A", tokComma, tokIdentifier "B", tokAssignment, tokNumber "2", tokComma,
      tokIdentifier "C", tokClosingBracket]
    [tokSemicolon]
    [[tokIdentifier "A", tokComma],
     [tokIdentifier "B", tokAssignment, tokNumber "2", tokComma],
     [tokIdentifier "C", tokClosingBracket]]
    rfl rfl rfl rfl (Or.inl (by decide)) rfl
    (EnumItems.more [tokIdentifier "A"] [tokIdentifier "A"] tokComma _ _
      (Skips.plain _ _ _ _ (by decide) (by decide) (by decide) (Skips.nil _)) rfl
      (EnumItems.more [tokIdentifier "B", tokAssignment, tokNumber "2"]
        [tokIdentifier "B", tokAssignment, tokNumber "2"] tokComma _ _
        (Skips.plain _ _ _ _ (by decide) (by decide) (by decide)
          (Skips.plain _ _ _ _ (by decide) (by decide) (by decide)
            (Skips.plain _ _ _ _ (by decide) (by decide) (by decide) (Skips.nil _)))) rfl
        (EnumItems.last [tokIdentifier "C"] [tokIdentifier "C"] tokClosingBracket
          (Skips.plain _ _ _ _ (by decide) (by decide) (by decide) (Skips.nil _)) rfl)))
    (by decide)

/-- The run of the enum parser on `enum E { A, B = 2, C };`: it succeeds with exactly
the tags `E`, `A`, `B`, `C` in this order and with the scope stack empty again. -/
theorem enum_example_run :
    ∃ st', cxxParserParseEnum idleCollaborators 40 (startState enumExampleTokens)
        = .ok (true, st') ∧
      st'.tags = [definitionTag idleCollaborators (tokIdentifier "E") .ENUM [] none,
        enumExampleTag "A", enumExampleTag "B", enumExampleTag "C"] ∧
      st'.scopes = [] := by
  have h : (match cxxParserParseEnum idleCollaborators 40 (startState enumExampleTokens) with
      | .ok (true, st') =>
        decide (st'.tags = [definitionTag idleCollaborators (tokIdentifier "E") .ENUM [] none,
          enumExampleTag "A", enumExampleTag "B", enumExampleTag "C"] ∧ st'.scopes = [])
      | _ => false) = true := by decide!
  revert h
  generalize cxxParserParseEnum idleCollaborators 40 (startState enumExampleTokens) = r
  intro h
  match r, h with
  | .ok (true, st'), h => exact ⟨st', rfl, of_decide_eq_true h⟩

/-! ## The claim on qualified names -/

/-- A prefix that does not end with an identifier followed by `::` stops the backward
walk at once. -/
theorem qualifierPairs_of_break (pre : List CXXToken)
    (h : ∀ pre' q c, pre = pre' ++ [q, c] →
      ¬ (q.eType = CXXTokenTypeIdentifier ∧ c.eType = CXXTokenTypeMultipleColons)) :
    qualifierPairs pre.reverse = 0 := by
  rcases hr : pre.reverse with _ | ⟨c, _ | ⟨q, rest⟩⟩
  · rfl
  · rfl
  · have hpre : pre = rest.reverse ++ [q, c] := by
      have := congrArg List.reverse hr
      simpa using this
    have hb := h _ q c hpre
    simp only [qualifierPairs]
    by_cases hc : c.eType = CXXTokenTypeMultipleColons
    · by_cases hq : q.eType = CXXTokenTypeIdentifier
      · exact absurd ⟨hq, hc⟩ hb
      · simp [hc, hq]
    · simp [hc]

/-- C9: when the header of an enum or class/struct/union definition has left the chain
`pre ++ Q1 :: Q2 :: ... Qn :: Name ++ post`, `Name` being the last identifier of the
chain and `pre` not ending with an identifier and `::` (there the backward walk
stops), then (1) the name extraction pushes exactly the scopes `Q1 ... Qn`, in that
order, of kind class and unknown access, and takes the qualifiers and the name out of
the chain, leaving the `::` tokens; (2) `cxxParserParseEnum` returns and the first
tag it commits is the enum tag of `Name`, begun in the scope stack made of the stack
at entry and the qualifier scopes, without the scope of `Name`; (3)
`cxxParserParseClassStructOrUnion` returns and, unless the base clause ends the
statement before any tag, the first tag it commits is that of `Name`, begun in that
same stack. -/
theorem c9_qualified_names (env : CXXCollaborators) (st1 : CXXParserState)
    (pre post : List CXXToken) (qs : List (CXXToken × CXXToken)) (name tok : CXXToken)
    (hq : ∀ p ∈ qs, p.1.eType = CXXTokenTypeIdentifier ∧ p.2.eType = CXXTokenTypeMultipleColons)
    (hn : name.eType = CXXTokenTypeIdentifier)
    (hpost : ∀ t ∈ post, maskTest t.eType CXXTokenTypeIdentifier = false)
    (hpre : ∀ pre' q c, pre = pre' ++ [q, c] →
      ¬ (q.eType = CXXTokenTypeIdentifier ∧ c.eType = CXXTokenTypeMultipleColons))
    (hc : st1.pTokenChain = pre ++ qualifierTokens qs ++ [name] ++ post)
    (hp : st1.pToken = some tok) (hC : LambdaFree env st1) :
    cxxParserExtractQualifiedName st1
      = .ok (name, qs.length,
          { st1 with pTokenChain := pre ++ qs.map (·.2) ++ post,
                     scopes := st1.scopes ++ qs.map (fun p => qualifierScope p.1) }) ∧
    (∀ (st : CXXParserState) (fuel : Nat),
      cxxParserParseUpToOneOf env fuel enumHeaderTerminators (st.frame [] st.pToken st.input)
        = .ok (true, st1) →
      tok.eType = CXXTokenTypeOpeningBracket → 3 * st1.input.length + 3 ≤ fuel →
      ∃ b st' more, cxxParserParseEnum env fuel st = .ok (b, st') ∧
        st'.tags = st1.tags ++ definitionTag env name .ENUM
          (st1.scopes ++ qs.map (fun p => qualifierScope p.1)) none :: more) ∧
    (∀ (st : CXXParserState) (fuel : Nat) (eKind : CXXTagKind),
      BlockParserForward env →
      cxxParserParseClassStructOrUnionHeader env fuel (classHeaderTerminators eKind)
        { st with bParsingClassStructOrUnionDeclaration := true } = .ok (true, st1) →
      tok.eType = CXXTokenTypeOpeningBracket ∨ tok.eType = CXXTokenTypeSingleColon →
      3 * st1.input.length + 3 ≤ fuel →
      ∃ b st', cxxParserParseClassStructOrUnion env fuel eKind st = .ok (b, st') ∧
        (st'.tags = st1.tags ∨
          ∃ inh more, st'.tags = st1.tags ++ definitionTag env name eKind
            (st1.scopes ++ qs.map (fun p => qualifierScope p.1)) inh :: more) ∧
        (tok.eType = CXXTokenTypeOpeningBracket →
          ∃ more, st'.tags = st1.tags ++ definitionTag env name eKind
            (st1.scopes ++ qs.map (fun p => qualifierScope p.1)) none :: more)) := by
  have hn' : maskTest name.eType CXXTokenTypeIdentifier = true := by rw [hn]; decide
  have hpre' := qualifierPairs_of_break pre hpre
  have hx := extractQualifiedName_qualified st1 pre post qs name hq hn' hpost hpre' hc
  refine ⟨hx, ?_, ?_⟩
  · intro st fuel hh ht hf
    rw [parseEnum_unfold env fuel st st1 _ tok name qs.length hh hp ht hx]
    exact parseEnum_definition env fuel name qs.length _ hC hf
  · intro st fuel eKind hB hh ht hf
    have hx' := extractQualifiedName_qualified
      { st1 with bParsingClassStructOrUnionDeclaration := false } pre post qs name hq hn' hpost
      hpre' hc
    exact parseClass_definition env hB fuel eKind st st1 _ tok name qs.length hh hp ht hx' hC hf


/-- The idle block parser only adds tags and only consumes input. -/
theorem idle_blockParserForward : BlockParserForward idleCollaborators :=
  fun _ _ => ⟨⟨[], (List.append_nil _).symm⟩, Nat.le_refl _, id⟩

/-- Witness of C9 on `N::M::E { A };` read as an enum and as a struct: the scopes `N`
and `M` are pushed in this order and the tag of `E` is begun in the stack `N`, `M`. -/
theorem c9_qualified_names_witness :
    (cxxParserExtractQualifiedName
        ((startState qualifiedExampleTokens).frame (qualifiedExampleTokens.take 6)
          (some tokOpeningBracket) (qualifiedExampleTokens.drop 6))
      = .ok (tokIdentifier "E", 2,
          { (startState qualifiedExampleTokens).frame (qualifiedExampleTokens.take 6)
              (some tokOpeningBracket) (qualifiedExampleTokens.drop 6) with
            pTokenChain := [tokMultipleColons, tokMultipleColons, tokOpeningBracket],
            scopes := [{ name := "N", kind := .CLASS, access := .Unknown },
                       { name := "M", kind := .CLASS, access := .Unknown }] })) ∧
    (∃ b st' more, cxxParserParseEnum idleCollaborators 40 (startState qualifiedExampleTokens)
        = .ok (b, st') ∧
      st'.tags = definitionTag idleCollaborators (tokIdentifier "E") .ENUM
          [{ name := "N", kind := .CLASS, access := .Unknown },
           { name := "M", kind := .CLASS, access := .Unknown }] none :: more) ∧
    (∃ b st' more, cxxParserParseClassStructOrUnion idleCollaborators 40 .STRUCT
        (startState qualifiedExampleTokens) = .ok (b, st') ∧
      st'.tags = definitionTag idleCollaborators (tokIdentifier "E") .STRUCT
          [{ name := "N", kind := .CLASS, access := .Unknown },
           { name := "M", kind := .CLASS, access := .Unknown }] none :: more) :=
  have hq : ∀ p ∈ [(tokIdentifier "N", tokMultipleColons), (tokIdentifier "M", tokMultipleColons)],
      p.1.eType = CXXTokenTypeIdentifier ∧ p.2.eType = CXXTokenTypeMultipleColons := by
    intro p hp
    simp only [List.mem_cons, List.mem_singleton, List.not_mem_nil, or_false] at hp
    rcases hp with rfl | rfl <;> exact ⟨rfl, rfl⟩
  have hpost : ∀ t ∈ [tokOpeningBracket], maskTest t.eType CXXTokenTypeIdentifier = false := by
    intro t ht
    simp only [List.mem_singleton] at ht
    subst ht
    decide
  have hpre : ∀ (pre' : List CXXToken) (q c : CXXToken), ([] : List CXXToken) = pre' ++ [q, c] →
      ¬ (q.eType = CXXTokenTypeIdentifier ∧ c.eType = CXXTokenTypeMultipleColons) := by
    intro pre' q c h
    simp at h
  have e := c9_qualified_names idleCollaborators
    ((startState qualifiedExampleTokens).frame (qualifiedExampleTokens.take 6)
      (some tokOpeningBracket) (qualifiedExampleTokens.drop 6))
    [] [tokOpeningBracket]
    [(tokIdentifier "N", tokMultipleColons), (tokIdentifier "M", tokMultipleColons)]
    (tokIdentifier "E") tokOpeningBracket hq rfl hpost hpre rfl rfl (Or.inl (by decide))
  have c := c9_qualified_names idleCollaborators
    (({ startState qualifiedExampleTokens with
        bParsingClassStructOrUnionDeclaration := true } : CXXParserState).frame
      (qualifiedExampleTokens.take 6) (some tokOpeningBracket) (qualifiedExampleTokens.drop 6))
    [] [tokOpeningBracket]
    [(tokIdentifier "N", tokMultipleColons), (tokIdentifier "M", tokMultipleColons)]
    (tokIdentifier "E") tokOpeningBracket hq rfl hpost hpre rfl rfl (Or.inl (by decide))
  ⟨e.1, e.2.1 (startState qualifiedExampleTokens) 40 rfl rfl (by decide),
    match c.2.2 (startState qualifiedExampleTokens) 40 .STRUCT idle_blockParserForward rfl
      (Or.inl rfl) (by decide) with
    | ⟨b, st', h, _, hm⟩ =>
      match hm rfl with
      | ⟨more, hmore⟩ => ⟨b, st', more, h, hmore⟩⟩


/-! ## The claim on balanced scopes -/

/-- C10 fails in the code: on `enum E { A ) };` the enumerator loop meets the unmatched
`)` and `cxxParserParseEnum` returns false (line 420) from an empty scope stack with
the scope `E` it pushed at line 405 still on the stack. -/
theorem c10_enum_failure_keeps_scope :
    (startState enumFailureTokens).scopes = [] ∧
    ∃ st', cxxParserParseEnum idleCollaborators 40 (startState enumFailureTokens)
        = .ok (false, st') ∧
      st'.scopes = [{ name := "E", kind := .ENUM, access := .Public }] := by
  have h : (match cxxParserParseEnum idleCollaborators 40 (startState enumFailureTokens) with
      | .ok (false, st') =>
        decide (st'.scopes = [{ name := "E", kind := .ENUM, access := .Public }])
      | _ => false) = true := by decide!
  refine ⟨rfl, ?_⟩
  revert h
  generalize cxxParserParseEnum idleCollaborators 40 (startState enumFailureTokens) = r
  intro h
  match r, h with
  | .ok (false, st'), h => exact ⟨st', rfl, of_decide_eq_true h⟩

/-! ## The class parser, step by step -/

theorem scopeGetFullName_push (t : CXXToken) (k : CXXTagKind) (a : CXXScopeAccess)
    (st : CXXParserState) :
    cxxScopeGetFullNameAsString (cxxScopePush t k a st)
      = some (scopeFullName (st.scopes ++ [{ name := t.pszWord, kind := k, access := a }])) := by
  unfold cxxScopeGetFullNameAsString
  split
  · rename_i heq
    simp [cxxScopePush] at heq
  · rfl

/-- The definition part of the class parser calls the block parser on the state with
the class tag committed and the scope of the class pushed, and hands the result to
the pops and the trailer. -/
theorem classDefinition_eq (env : CXXCollaborators) (fuel : Nat) (eKind : CXXTagKind)
    (bTypedef : Bool) (name : CXXToken) (n : Nat) (st : CXXParserState) :
    cxxParserParseClassStructOrUnionDefinition env fuel eKind bTypedef name n st
      = match env.cxxParserParseBlock true (classBlockEntry env eKind name st) with
        | (false, s) => .ok (false, s)
        | (true, s) =>
          match cxxParserParseEnumStructClassOrUnionFullDeclarationTrailer env fuel bTypedef
              eKind (some (scopeFullName (st.scopes ++
                [CXXScope.mk name.pszWord eKind (if eKind == .CLASS then .Private else .Public)])))
              (popScopes (n + 1) s) with
          | .error e => .error e
          | .ok (bRet, s) => .ok (bRet, cxxParserNewStatement s) := by
  unfold cxxParserParseClassStructOrUnionDefinition classBlockEntry classInheritance
  simp only [cxxTagBegin]
  by_cases hlen : st.pTokenChain.length > 0
  · simp only [hlen, if_true]
    rw [scopeGetFullName_push]
    rfl
  · simp only [hlen, if_false]
    rw [scopeGetFullName_push]
    rfl

/-- The class parser on a header that ends at an opening brace: the definition part
runs on the state left by the name extraction, its chain cleared, with the typedef
flag read at entry. -/
theorem parseClass_open (env : CXXCollaborators) (fuel : Nat) (eKind : CXXTagKind)
    (st st1 st2 : CXXParserState) (tok name : CXXToken) (n : Nat)
    (hh : cxxParserParseClassStructOrUnionHeader env fuel (classHeaderTerminators eKind)
      { st with bParsingClassStructOrUnionDeclaration := true } = .ok (true, st1))
    (hp : st1.pToken = some tok) (ht : tok.eType = CXXTokenTypeOpeningBracket)
    (hx : cxxParserExtractQualifiedName
      { st1 with bParsingClassStructOrUnionDeclaration := false } = .ok (name, n, st2)) :
    cxxParserParseClassStructOrUnion env fuel eKind st
      = cxxParserParseClassStructOrUnionDefinition env fuel eKind
          (maskTest st.uKeywordState CXXParserKeywordStateSeenTypedef) name n
          { st2 with pTokenChain := [] } := by
  unfold cxxParserParseClassStructOrUnion
  have hh' : cxxParserParseClassStructOrUnionHeader env fuel
      ((CXXTokenTypeEOF ||| CXXTokenTypeSingleColon ||| CXXTokenTypeSemicolon
        ||| CXXTokenTypeOpeningBracket ||| CXXTokenTypeSmallerThanSign)
        ||| (if eKind != .CLASS then CXXTokenTypeParenthesisChain else 0))
      { st with bParsingClassStructOrUnionDeclaration := true } = .ok (true, st1) := hh
  simp only [hp] at hx
  simp only [hh', hp]
  have e1 : (tok.eType == CXXTokenTypeParenthesisChain) = false := by rw [ht]; decide
  have e2 : (tok.eType == CXXTokenTypeSemicolon) = false := by rw [ht]; decide
  have e3 : (tok.eType == CXXTokenTypeEOF) = false := by rw [ht]; decide
  have e4 : (tok.eType == CXXTokenTypeSingleColon) = false := by rw [ht]; decide
  simp only [e1, e2, e3, e4, Bool.false_eq_true, if_false, hx]
  rfl

/-- The class parser on a header that ends at a colon, with a base clause that ends
at an opening brace: the definition part runs on the state left by the parse of the
base clause, the brace taken off the chain. -/
theorem parseClass_colon (env : CXXCollaborators) (fuel : Nat) (eKind : CXXTagKind)
    (st st1 st2 st3 : CXXParserState) (tok name ob : CXXToken) (n : Nat)
    (hh : cxxParserParseClassStructOrUnionHeader env fuel (classHeaderTerminators eKind)
      { st with bParsingClassStructOrUnionDeclaration := true } = .ok (true, st1))
    (hp : st1.pToken = some tok) (ht : tok.eType = CXXTokenTypeSingleColon)
    (hx : cxxParserExtractQualifiedName
      { st1 with bParsingClassStructOrUnionDeclaration := false } = .ok (name, n, st2))
    (hb : cxxParserParseUpToOneOf env fuel baseClauseTerminators
      { st2 with pTokenChain := [] } = .ok (true, st3))
    (hp3 : st3.pToken = some ob) (hob : ob.eType = CXXTokenTypeOpeningBracket) :
    cxxParserParseClassStructOrUnion env fuel eKind st
      = cxxParserParseClassStructOrUnionDefinition env fuel eKind
          (maskTest st.uKeywordState CXXParserKeywordStateSeenTypedef) name n
          { st3 with pTokenChain := cxxTokenChainDestroyLast st3.pTokenChain } := by
  unfold cxxParserParseClassStructOrUnion
  have hh' : cxxParserParseClassStructOrUnionHeader env fuel
      ((CXXTokenTypeEOF ||| CXXTokenTypeSingleColon ||| CXXTokenTypeSemicolon
        ||| CXXTokenTypeOpeningBracket ||| CXXTokenTypeSmallerThanSign)
        ||| (if eKind != .CLASS then CXXTokenTypeParenthesisChain else 0))
      { st with bParsingClassStructOrUnionDeclaration := true } = .ok (true, st1) := hh
  have hb' : cxxParserParseUpToOneOf env fuel
      (CXXTokenTypeEOF ||| CXXTokenTypeSemicolon ||| CXXTokenTypeOpeningBracket)
      { st2 with pTokenChain := [] } = .ok (true, st3) := hb
  simp only [hp] at hx
  simp only [hh', hp]
  have e1 : (tok.eType == CXXTokenTypeParenthesisChain) = false := by rw [ht]; decide
  have e2 : (tok.eType == CXXTokenTypeSemicolon) = false := by rw [ht]; decide
  have e3 : (tok.eType == CXXTokenTypeEOF) = false := by rw [ht]; decide
  have e4 : (tok.eType == CXXTokenTypeSingleColon) = true := by rw [ht]; decide
  have e5 : maskTest ob.eType (CXXTokenTypeSemicolon ||| CXXTokenTypeEOF) = false := by
    rw [hob]; decide
  simp only [e1, e2, e3, e4, Bool.false_eq_true, if_false, if_true, hx, hb', hp3, e5]
  rfl

/-- When no lambda is handled, the header loop of the class parser leaves the tags,
the scope stack, the keyword state and the record of calls as they are. -/
theorem classHeader_frame (env : CXXCollaborators) (fuel : Nat) :
    ∀ (T : Nat) (st : CXXParserState) (b : Bool) (st' : CXXParserState), LambdaFree env st →
      cxxParserParseClassStructOrUnionHeader env fuel T st = .ok (b, st') →
      st'.tags = st.tags ∧ st'.scopes = st.scopes ∧ st'.uKeywordState = st.uKeywordState ∧
        st'.calls = st.calls := by
  induction fuel with
  | zero => intro T st b st' _ h; cases h
  | succ n ih =>
    intro T st b st' hC h
    unfold cxxParserParseClassStructOrUnionHeader at h
    rcases hu : cxxParserParseUpToOneOf env n T st with e | ⟨b1, s1⟩
    · rw [hu] at h; cases h
    · rw [hu] at h
      rw [parseUpToOneOf_eq] at hu
      obtain ⟨c, tok, i, rfl, -, -⟩ := (condenser_frame env n).1 T defaultOpeners st b1 s1 hC hu
      cases b1 with
      | false =>
        simp only at h
        cases h
        exact ⟨rfl, rfl, rfl, rfl⟩
      | true =>
        simp only [frame_pToken] at h
        by_cases hlt : (tok.eType != CXXTokenTypeSmallerThanSign) = true
        · rw [if_pos hlt] at h
          cases h
          exact ⟨rfl, rfl, rfl, rfl⟩
        · rw [if_neg hlt] at h
          rcases hs : cxxParserParseAndCondenseCurrentSubchain env n
              (CXXTokenTypeOpeningParenthesis ||| CXXTokenTypeOpeningBracket
                ||| CXXTokenTypeOpeningSquareParenthesis ||| CXXTokenTypeSmallerThanSign)
              false (st.frame c (some tok) i) with e | ⟨b2, s2⟩
          · rw [hs] at h; cases h
          · rw [hs] at h
            obtain ⟨c2, tok2, i2, rfl, -, -⟩ := (condenser_frame env n).2.2 _ false
              (st.frame c (some tok) i) b2 s2 (by simpa using hC) hs
            cases b2 with
            | false =>
              simp only at h
              cases h
              exact ⟨rfl, rfl, rfl, rfl⟩
            | true =>
              simp only at h
              have := ih T _ b st' (by simpa using hC) h
              simpa using this

theorem classInheritance_eq (base : CXXTokenChain) :
    classInheritance base
      = match base with
        | [] => none
        | [t] => some t.pszWord
        | t :: ts => some (cxxTokenChainJoin (t :: ts)) := by
  unfold classInheritance
  match base with
  | [] => rfl
  | [t] => rfl
  | t :: u :: ts => rfl

@[simp] theorem classBlockEntry_tags (env : CXXCollaborators) (eKind : CXXTagKind)
    (name : CXXToken) (st : CXXParserState) :
    (classBlockEntry env eKind name st).tags
      = st.tags ++ [definitionTag env name eKind st.scopes (classInheritance st.pTokenChain)] := by
  unfold classBlockEntry
  by_cases h : st.pTokenChain.length > 0 <;> simp [h, cxxScopePush, cxxTagCommit, definitionTag]

@[simp] theorem classBlockEntry_scopes (env : CXXCollaborators) (eKind : CXXTagKind)
    (name : CXXToken) (st : CXXParserState) :
    (classBlockEntry env eKind name st).scopes
      = st.scopes ++
        [CXXScope.mk name.pszWord eKind (if eKind == .CLASS then .Private else .Public)] := by
  unfold classBlockEntry
  by_cases h : st.pTokenChain.length > 0 <;> simp [h, cxxScopePush, cxxTagCommit]

@[simp] theorem classBlockEntry_input (env : CXXCollaborators) (eKind : CXXTagKind)
    (name : CXXToken) (st : CXXParserState) :
    (classBlockEntry env eKind name st).input = st.input := by
  unfold classBlockEntry
  by_cases h : st.pTokenChain.length > 0 <;> simp [h, cxxScopePush, cxxTagCommit]

@[simp] theorem classBlockEntry_uKeywordState (env : CXXCollaborators) (eKind : CXXTagKind)
    (name : CXXToken) (st : CXXParserState) :
    (classBlockEntry env eKind name st).uKeywordState = st.uKeywordState := by
  unfold classBlockEntry
  by_cases h : st.pTokenChain.length > 0 <;> simp [h, cxxScopePush, cxxTagCommit]

/-- The class parser on a header that ends at a colon, with a base clause consumed at
one level up to an opening brace: the definition part runs with the base clause on
the chain. -/
theorem parseClass_base (env : CXXCollaborators) (fuel : Nat) (eKind : CXXTagKind)
    (st st1 st2 : CXXParserState) (tok name ob : CXXToken) (n : Nat)
    (base outs rest : List CXXToken)
    (hh : cxxParserParseClassStructOrUnionHeader env fuel (classHeaderTerminators eKind)
      { st with bParsingClassStructOrUnionDeclaration := true } = .ok (true, st1))
    (hp : st1.pToken = some tok) (ht : tok.eType = CXXTokenTypeSingleColon)
    (hx : cxxParserExtractQualifiedName
      { st1 with bParsingClassStructOrUnionDeclaration := false } = .ok (name, n, st2))
    (hC : LambdaFree env st2) (hi : st2.input = base ++ ob :: rest)
    (hS : Skips defaultOpeners baseClauseTerminators base outs)
    (hob : ob.eType = CXXTokenTypeOpeningBracket)
    (hf : 3 * st2.input.length + 1 ≤ fuel) :
    cxxParserParseClassStructOrUnion env fuel eKind st
      = cxxParserParseClassStructOrUnionDefinition env fuel eKind
          (maskTest st.uKeywordState CXXParserKeywordStateSeenTypedef) name n
          (st2.frame outs (some ob) rest) := by
  have hb := parseUpToOneOf_item env hS ob rest (by rw [hob]; decide)
    ({ st2 with pTokenChain := [] }) hC hi fuel hf
  rw [parseClass_colon env fuel eKind st st1 st2 _ tok name ob n hh hp ht hx hb rfl hob]
  simp [cxxTokenChainDestroyLast, CXXParserState.frame]

/-! ## The trailer, step by step -/

/-- The scan of the trailer over tokens consumed at one level and then a `;`. -/
theorem trailer_scan (env : CXXCollaborators) (st : CXXParserState)
    (body outs rest : List CXXToken) (semi : CXXToken)
    (hC : LambdaFree env st) (hi : st.input = body ++ semi :: rest)
    (hS : Skips defaultOpeners trailerTerminators body outs)
    (hsemi : semi.eType = CXXTokenTypeSemicolon)
    (fuel : Nat) (hf : 3 * st.input.length + 1 ≤ fuel) :
    cxxParserParseUpToOneOf env fuel (CXXTokenTypeEOF ||| CXXTokenTypeSemicolon)
        { st with pTokenChain := [] }
      = .ok (true, st.frame (outs ++ [semi]) (some semi) rest) := by
  have := parseUpToOneOf_item env hS semi rest (by rw [hsemi]; decide)
    ({ st with pTokenChain := [] }) hC hi fuel hf
  simpa [CXXParserState.frame] using this

/-- The trailer with nothing before the `;`: nothing happens. -/
theorem trailer_empty (env : CXXCollaborators) (bTypedef : Bool) (eKind : CXXTagKind)
    (szTypeName : Option String) (st : CXXParserState) (rest : List CXXToken) (semi : CXXToken)
    (hC : LambdaFree env st) (hi : st.input = semi :: rest)
    (hsemi : semi.eType = CXXTokenTypeSemicolon)
    (fuel : Nat) (hf : 3 * st.input.length + 1 ≤ fuel) :
    cxxParserParseEnumStructClassOrUnionFullDeclarationTrailer env fuel bTypedef eKind
        szTypeName st
      = .ok (true, st.frame [semi] (some semi) rest) := by
  unfold cxxParserParseEnumStructClassOrUnionFullDeclarationTrailer
  have hs := trailer_scan env st [] [] rest semi hC (by simpa using hi) (Skips.nil _) hsemi fuel hf
  simp only [hs, frame_pToken, frame_pTokenChain]
  have e1 : maskTest semi.eType CXXTokenTypeEOF = false := by rw [hsemi]; decide
  simp [e1]

/-- The trailer under typedef, with tokens before the `;`: a typedef tag named by the
last of them if it is an identifier, and nothing otherwise. -/
theorem trailer_typedef (env : CXXCollaborators) (eKind : CXXTagKind)
    (szTypeName : String) (st : CXXParserState) (body outs rest : List CXXToken)
    (pLast semi : CXXToken)
    (hC : LambdaFree env st) (hi : st.input = body ++ semi :: rest)
    (hS : Skips defaultOpeners trailerTerminators body (outs ++ [pLast]))
    (hsemi : semi.eType = CXXTokenTypeSemicolon)
    (fuel : Nat) (hf : 3 * st.input.length + 1 ≤ fuel) :
    cxxParserParseEnumStructClassOrUnionFullDeclarationTrailer env fuel true eKind
        (some szTypeName) st
      = .ok (true,
          if pLast.eType = CXXTokenTypeIdentifier then
            (st.frame (outs ++ [pLast]) (some semi) rest).addTags
              [typedefTag env pLast eKind szTypeName st.scopes]
          else st.frame (outs ++ [pLast]) (some semi) rest) := by
  unfold cxxParserParseEnumStructClassOrUnionFullDeclarationTrailer
  have hs := trailer_scan env st body _ rest semi hC hi hS hsemi fuel hf
  simp only [hs, frame_pToken, frame_pTokenChain]
  have e1 : maskTest semi.eType CXXTokenTypeEOF = false := by rw [hsemi]; decide
  have e2 : ¬ (outs ++ [pLast] ++ [semi]).length < 2 := by simp
  have e3 : (outs ++ [pLast]).getLast? = some pLast := by simp
  simp only [e1, e2, Bool.false_eq_true, if_false, if_true, cxxTokenChainDestroyLast,
    List.dropLast_concat, cxxTokenChainLast, e3, cxxTagBegin]
  by_cases h : pLast.eType = CXXTokenTypeIdentifier
  · simp [h, cxxTagCommit, CXXParserState.addTags, CXXParserState.frame, typedefTag]
  · simp [h, CXXParserState.frame]

/-- The trailer without typedef, with tokens before the `;`: the variable extractor
runs on the chain with the kind keyword and the type name put before it. -/
theorem trailer_variables (env : CXXCollaborators) (eKind : CXXTagKind)
    (szTypeName : String) (st : CXXParserState) (body outs rest : List CXXToken)
    (semi : CXXToken)
    (hC : LambdaFree env st) (hi : st.input = body ++ semi :: rest)
    (hS : Skips defaultOpeners trailerTerminators body outs) (hne : outs ≠ [])
    (hsemi : semi.eType = CXXTokenTypeSemicolon)
    (fuel : Nat) (hf : 3 * st.input.length + 1 ≤ fuel) :
    cxxParserParseEnumStructClassOrUnionFullDeclarationTrailer env fuel false eKind
        (some szTypeName) st
      = .ok (true, cxxParserExtractVariableDeclarations env
          (st.frame (fakeKeyword eKind :: fakeIdentifier szTypeName :: (outs ++ [semi]))
            (some semi) rest)) := by
  unfold cxxParserParseEnumStructClassOrUnionFullDeclarationTrailer
  have hs := trailer_scan env st body _ rest semi hC hi hS hsemi fuel hf
  simp only [hs, frame_pToken, frame_pTokenChain]
  have e1 : maskTest semi.eType CXXTokenTypeEOF = false := by rw [hsemi]; decide
  have e2 : ¬ (outs ++ [semi]).length < 2 := by
    cases outs with
    | nil => exact absurd rfl hne
    | cons a as => simp
  simp only [e1, e2, Bool.false_eq_true, if_false]
  rfl

/-- The trailer over tokens consumed at one level up to the end of the input: it
returns true and nothing else happens. -/
theorem trailer_eof (env : CXXCollaborators) (bTypedef : Bool) (eKind : CXXTagKind)
    (szTypeName : Option String) (st : CXXParserState) (body outs : List CXXToken)
    (hC : LambdaFree env st) (hi : st.input = body)
    (hS : Skips defaultOpeners trailerTerminators body outs)
    (fuel : Nat) (hf : 3 * st.input.length + 1 ≤ fuel) :
    cxxParserParseEnumStructClassOrUnionFullDeclarationTrailer env fuel bTypedef eKind
        szTypeName st
      = .ok (true, st.frame (outs ++ [cxxTokenEOF]) (some cxxTokenEOF) []) := by
  unfold cxxParserParseEnumStructClassOrUnionFullDeclarationTrailer
  have hs : cxxParserParseUpToOneOf env fuel (CXXTokenTypeEOF ||| CXXTokenTypeSemicolon)
      { st with pTokenChain := [] }
      = .ok (true, st.frame (outs ++ [cxxTokenEOF]) (some cxxTokenEOF) []) := by
    rw [parseUpToOneOf_eq]
    apply upTo_of_returns env (show LambdaFree env { st with pTokenChain := [] } from hC) _ fuel hf
    have h1 := upTo_at_eof env trailerTerminators defaultOpeners
      (({ st with pTokenChain := [] } : CXXParserState).frame ([] ++ outs) none []) rfl
    have := upTo_skips env hS ({ st with pTokenChain := [] }) [] none 1 _ hC
      (by simpa using hi) h1
    simpa [CXXParserState.frame, trailerTerminators] using this
  simp only [hs, frame_pToken]
  have e1 : maskTest cxxTokenEOF.eType CXXTokenTypeEOF = true := by decide
  simp [e1]

/-! ## Soundness of the equality tests -/

mutual
theorem token_eq_of_beq : ∀ (a b : CXXToken), CXXToken.beq a b = true → a = b
  | .mk t1 k1 w1 l1 s1 none, .mk t2 k2 w2 l2 s2 none, h => by
    simp only [CXXToken.beq, Bool.and_eq_true, beq_iff_eq] at h
    obtain ⟨⟨⟨⟨h1, h2⟩, h3⟩, h4⟩, h5⟩ := h
    subst h1 h2 h3 h4 h5
    rfl
  | .mk t1 k1 w1 l1 s1 (some c1), .mk t2 k2 w2 l2 s2 (some c2), h => by
    simp only [CXXToken.beq, Bool.and_eq_true, beq_iff_eq] at h
    obtain ⟨⟨⟨⟨⟨h1, h2⟩, h3⟩, h4⟩, h5⟩, h6⟩ := h
    have := chain_eq_of_beq c1 c2 h6
    subst h1 h2 h3 h4 h5 this
    rfl
  | .mk _ _ _ _ _ none, .mk _ _ _ _ _ (some _), h => by simp [CXXToken.beq] at h
  | .mk _ _ _ _ _ (some _), .mk _ _ _ _ _ none, h => by simp [CXXToken.beq] at h
theorem chain_eq_of_beq : ∀ (a b : List CXXToken), chainBeq a b = true → a = b
  | [], [], _ => rfl
  | a :: as, b :: bs, h => by
    simp only [chainBeq, Bool.and_eq_true] at h
    rw [token_eq_of_beq a b h.1, chain_eq_of_beq as bs h.2]
  | [], _ :: _, h => by simp [chainBeq] at h
  | _ :: _, [], h => by simp [chainBeq] at h
end

theorem optionChain_eq_of_beq : ∀ (a b : Option CXXTokenChain), optionChainBeq a b = true → a = b
  | none, none, _ => rfl
  | some a, some b, h => by rw [chain_eq_of_beq a b h]
  | none, some _, h => by simp [optionChainBeq] at h
  | some _, none, h => by simp [optionChainBeq] at h

theorem optionToken_eq_of_beq : ∀ (a b : Option CXXToken), optionTokenBeq a b = true → a = b
  | none, none, _ => rfl
  | some a, some b, h => by rw [token_eq_of_beq a b h]
  | none, some _, h => by simp [optionTokenBeq] at h
  | some _, none, h => by simp [optionTokenBeq] at h

theorem call_eq_of_beq (a b : CXXCall) (h : CXXCall.beq a b = true) : a = b := by
  cases a <;> cases b <;> simp only [CXXCall.beq, beq_iff_eq] at h <;>
    first
    | (rw [chain_eq_of_beq _ _ h])
    | (rw [h])
    | cases h

theorem calls_eq_of_beq : ∀ (a b : List CXXCall), callsBeq a b = true → a = b
  | [], [], _ => rfl
  | a :: as, b :: bs, h => by
    simp only [callsBeq, Bool.and_eq_true] at h
    rw [call_eq_of_beq a b h.1, calls_eq_of_beq as bs h.2]
  | [], _ :: _, h => by simp [callsBeq] at h
  | _ :: _, [], h => by simp [callsBeq] at h

theorem state_eq_of_beq (a b : CXXParserState) (h : CXXParserState.beq a b = true) : a = b := by
  simp only [CXXParserState.beq, Bool.and_eq_true, beq_iff_eq] at h
  obtain ⟨⟨⟨⟨⟨⟨⟨⟨⟨⟨⟨⟨⟨h1, h2⟩, h3⟩, h4⟩, h5⟩, h6⟩, h7⟩, h8⟩, h9⟩, h10⟩, h11⟩, h12⟩, h13⟩, h14⟩ := h
  cases a
  cases b
  simp only at h1 h2 h3 h4 h5 h6 h7 h8 h9 h10 h11 h12 h13 h14
  rw [chain_eq_of_beq _ _ h1, optionChain_eq_of_beq _ _ h2, optionToken_eq_of_beq _ _ h3, h4, h5,
    h6, h7, h8, h9, chain_eq_of_beq _ _ h10, h11, h12, h13, calls_eq_of_beq _ _ h14]

/-- Two results that pass the equality test are equal. -/
theorem result_eq_of_beq : ∀ (r r' : Except Fault (Bool × CXXParserState)),
    resultBeq r r' = true → r = r'
  | .ok (b, s), .ok (b', s'), h => by
    simp only [resultBeq, Bool.and_eq_true, beq_iff_eq] at h
    rw [h.1, state_eq_of_beq s s' h.2]
  | .error e, .error e', h => by
    simp only [resultBeq, beq_iff_eq] at h
    rw [h]
  | .ok _, .error _, h => by simp [resultBeq] at h
  | .error _, .ok _, h => by simp [resultBeq] at h

/-- Two results of the name extraction that pass the equality test are equal. -/
theorem nameResult_eq_of_beq : ∀ (r r' : Except Fault (CXXToken × Nat × CXXParserState)),
    nameResultBeq r r' = true → r = r'
  | .ok (t, n, s), .ok (t', n', s'), h => by
    simp only [nameResultBeq, Bool.and_eq_true, beq_iff_eq] at h
    rw [token_eq_of_beq t t' h.1.1, h.1.2, state_eq_of_beq s s' h.2]
  | .error e, .error e', h => by
    simp only [nameResultBeq, beq_iff_eq] at h
    rw [h]
  | .ok _, .error _, h => by simp [nameResultBeq] at h
  | .error _, .ok _, h => by simp [nameResultBeq] at h

/-! ## The claim on balanced scopes in the class parser -/

/-- C11 fails in the code: on `struct N::S : B;` the base clause ends at `;` and
`cxxParserParseClassStructOrUnion` returns true (line 634) from an empty scope stack
with the qualifier scope `N` it pushed at line 604 still on the stack. -/
theorem c11_class_base_clause_keeps_scope :
    (statementState [tokKeyword .STRUCT "struct"] classFailureTokens).scopes = [] ∧
    ∃ st', cxxParserParseClassStructOrUnion idleCollaborators 40 .STRUCT
        (statementState [tokKeyword .STRUCT "struct"] classFailureTokens) = .ok (true, st') ∧
      st'.scopes = [{ name := "N", kind := .CLASS, access := .Unknown }] := by
  have h : (match cxxParserParseClassStructOrUnion idleCollaborators 40 .STRUCT
        (statementState [tokKeyword .STRUCT "struct"] classFailureTokens) with
      | .ok (true, st') =>
        decide (st'.scopes = [{ name := "N", kind := .CLASS, access := .Unknown }])
      | _ => false) = true := by decide!
  refine ⟨rfl, ?_⟩
  revert h
  generalize cxxParserParseClassStructOrUnion idleCollaborators 40 .STRUCT
    (statementState [tokKeyword .STRUCT "struct"] classFailureTokens) = r
  intro h
  match r, h with
  | .ok (true, st'), h => exact ⟨st', rfl, of_decide_eq_true h⟩

/-! ## The claim on inheritance -/

/-- C12: (1) for a definition whose header ends at `:` (the name extraction yields
`name` from the chain before the `:`) and whose base clause `base`, consumed at one
level with its brackets folded into `outs`, ends at an opening brace, the class parser
calls the block parser in a state whose tags are the tags so far and then the tag of
`name`, with the inheritance field made of exactly the chain `outs` of the tokens
between the `:` and the brace: nothing for an empty base clause, the lexeme of a
single token, the joined text of several; (2) for a header that ends at the opening
brace, the tag of `name` has no inheritance field.  In both cases what the parser
returns is what follows the block: failure if the block fails, else the trailer. -/
theorem c12_inheritance (env : CXXCollaborators) (fuel : Nat) (eKind : CXXTagKind)
    (st st1 st2 : CXXParserState) (tok name : CXXToken) (n : Nat)
    (hh : cxxParserParseClassStructOrUnionHeader env fuel (classHeaderTerminators eKind)
      { st with bParsingClassStructOrUnionDeclaration := true } = .ok (true, st1))
    (hp : st1.pToken = some tok)
    (hx : cxxParserExtractQualifiedName
      { st1 with bParsingClassStructOrUnionDeclaration := false } = .ok (name, n, st2)) :
    (tok.eType = CXXTokenTypeSingleColon →
      ∀ (base outs rest : List CXXToken) (ob : CXXToken),
      LambdaFree env st2 → st2.input = base ++ ob :: rest →
      Skips defaultOpeners baseClauseTerminators base outs →
      ob.eType = CXXTokenTypeOpeningBracket → 3 * st2.input.length + 1 ≤ fuel →
      ∃ stB szScopeName,
        stB.tags = st2.tags ++ [definitionTag env name eKind st2.scopes
          (match outs with
            | [] => none
            | [t] => some t.pszWord
            | t :: ts => some (cxxTokenChainJoin (t :: ts)))] ∧
        stB.input = rest ∧
        cxxParserParseClassStructOrUnion env fuel eKind st
          = match env.cxxParserParseBlock true stB with
            | (false, s) => .ok (false, s)
            | (true, s) =>
              match cxxParserParseEnumStructClassOrUnionFullDeclarationTrailer env fuel
                  (maskTest st.uKeywordState CXXParserKeywordStateSeenTypedef) eKind
                  (some szScopeName) (popScopes (n + 1) s) with
              | .error e => .error e
              | .ok (bRet, s) => .ok (bRet, cxxParserNewStatement s)) ∧
    (tok.eType = CXXTokenTypeOpeningBracket →
      ∃ stB szScopeName,
        stB.tags = st2.tags ++ [definitionTag env name eKind st2.scopes none] ∧
        stB.input = st2.input ∧
        cxxParserParseClassStructOrUnion env fuel eKind st
          = match env.cxxParserParseBlock true stB with
            | (false, s) => .ok (false, s)
            | (true, s) =>
              match cxxParserParseEnumStructClassOrUnionFullDeclarationTrailer env fuel
                  (maskTest st.uKeywordState CXXParserKeywordStateSeenTypedef) eKind
                  (some szScopeName) (popScopes (n + 1) s) with
              | .error e => .error e
              | .ok (bRet, s) => .ok (bRet, cxxParserNewStatement s)) := by
  refine ⟨?_, ?_⟩
  · intro ht base outs rest ob hC hi hS hob hf
    refine ⟨classBlockEntry env eKind name (st2.frame outs (some ob) rest),
      (scopeFullName (st2.scopes ++
      [CXXScope.mk name.pszWord eKind (if eKind == .CLASS then .Private else .Public)])), ?_, ?_, ?_⟩
    · rw [classBlockEntry_tags, frame_pTokenChain, classInheritance_eq]
      rfl
    · simp
    · rw [parseClass_base env fuel eKind st st1 st2 tok name ob n base outs rest hh hp ht hx
        hC hi hS hob hf, classDefinition_eq]
      rfl
  · intro ht
    refine ⟨classBlockEntry env eKind name { st2 with pTokenChain := [] },
      (scopeFullName (st2.scopes ++
      [CXXScope.mk name.pszWord eKind (if eKind == .CLASS then .Private else .Public)])), ?_, ?_, ?_⟩
    · rw [classBlockEntry_tags]
      rfl
    · simp
    · rw [parseClass_open env fuel eKind st st1 st2 tok name n hh hp ht hx, classDefinition_eq]

/-- Witness of C12 on `class A<T> : B<U> { };`: the block parser is called with the
tag `A` committed, its inheritance field `B<U>`. -/
theorem c12_inheritance_witness :
    ∃ stB szScopeName,
      stB.tags = [] ++ [definitionTag skippingCollaborators (tokIdentifier "A") .CLASS []
        (some "B<U>")] ∧
      stB.input = [tokClosingBracket, tokSemicolon] ∧
      cxxParserParseClassStructOrUnion skippingCollaborators 40 .CLASS
          (statementState [tokKeyword .CLASS "class"] inheritanceExampleTokens)
        = match skippingCollaborators.cxxParserParseBlock true stB with
          | (false, s) => .ok (false, s)
          | (true, s) =>
            match cxxParserParseEnumStructClassOrUnionFullDeclarationTrailer
                skippingCollaborators 40
                (maskTest (statementState [tokKeyword .CLASS "class"]
                  inheritanceExampleTokens).uKeywordState CXXParserKeywordStateSeenTypedef)
                .CLASS (some szScopeName) (popScopes (0 + 1) s) with
            | .error e => .error e
            | .ok (bRet, s) => .ok (bRet, cxxParserNewStatement s) :=
  (c12_inheritance skippingCollaborators 40 .CLASS
    (statementState [tokKeyword .CLASS "class"] inheritanceExampleTokens)
    (({ statementState [tokKeyword .CLASS "class"] inheritanceExampleTokens with
        bParsingClassStructOrUnionDeclaration := true } : CXXParserState).frame
      [tokKeyword .CLASS "class", tokIdentifier "A", templateArgumentsChain, tokSingleColon]
      (some tokSingleColon) (inheritanceExampleTokens.drop 5))
    ((statementState [tokKeyword .CLASS "class"] inheritanceExampleTokens).frame
      [tokKeyword .CLASS "class", templateArgumentsChain, tokSingleColon]
      (some tokSingleColon) (inheritanceExampleTokens.drop 5))
    tokSingleColon (tokIdentifier "A") 0
    (result_eq_of_beq _ _ (by decide!)) rfl (nameResult_eq_of_beq _ _ (by decide!))).1 rfl
    [tokIdentifier "B", tokSmallerThanSign, tokIdentifier "U", tokGreaterThanSign]
    [tokIdentifier "B", tokSmallerThanSign, tokIdentifier "U", tokGreaterThanSign]
    [tokClosingBracket, tokSemicolon] tokOpeningBracket
    (Or.inl (by decide)) rfl
    (Skips.plain _ _ _ _ (by decide) (by decide) (by decide)
      (Skips.plain _ _ _ _ (by decide) (by decide) (by decide)
        (Skips.plain _ _ _ _ (by decide) (by decide) (by decide)
          (Skips.plain _ _ _ _ (by decide) (by decide) (by decide) (Skips.nil _)))))
    rfl (by decide)

/-- The run of the class parser on `class A<T> : B<U> { };`, the block parser reading
the body: it succeeds with the one tag `A`, of kind class and inheritance `B<U>`, and
with the scope stack empty again. -/
theorem class_example_run :
    ∃ st', cxxParserParseClassStructOrUnion skippingCollaborators 40 .CLASS
        (statementState [tokKeyword .CLASS "class"] inheritanceExampleTokens)
        = .ok (true, st') ∧
      st'.tags = [definitionTag skippingCollaborators (tokIdentifier "A") .CLASS []
        (some "B<U>")] ∧
      st'.scopes = [] := by
  have h : (match cxxParserParseClassStructOrUnion skippingCollaborators 40 .CLASS
        (statementState [tokKeyword .CLASS "class"] inheritanceExampleTokens) with
      | .ok (true, st') =>
        decide (st'.tags = [definitionTag skippingCollaborators (tokIdentifier "A") .CLASS []
          (some "B<U>")] ∧ st'.scopes = [])
      | _ => false) = true := by decide!
  revert h
  generalize cxxParserParseClassStructOrUnion skippingCollaborators 40 .CLASS
    (statementState [tokKeyword .CLASS "class"] inheritanceExampleTokens) = r
  intro h
  match r, h with
  | .ok (true, st'), h => exact ⟨st', rfl, of_decide_eq_true h⟩

/-! ## The claim on the default access -/

/-- C13: when `cxxParserParseClassStructOrUnion` reaches the body of a definition (the
header ends at the opening brace, or at a colon followed by a base clause that ends at
the opening brace), `st3` being the state before the class tag is begun, it calls the
block parser in a state `stB` in which the class tag has been committed after the
tags so far and the scope stack is the stack of `st3` with one more scope on top,
named by the class name, of the kind passed in, with access private for the kind
class and public for the others; what it returns is what follows the block. -/
theorem c13_default_access (env : CXXCollaborators) (fuel : Nat) (eKind : CXXTagKind)
    (st st1 st2 st3 : CXXParserState) (tok name : CXXToken) (n : Nat)
    (hh : cxxParserParseClassStructOrUnionHeader env fuel (classHeaderTerminators eKind)
      { st with bParsingClassStructOrUnionDeclaration := true } = .ok (true, st1))
    (hp : st1.pToken = some tok)
    (hx : cxxParserExtractQualifiedName
      { st1 with bParsingClassStructOrUnionDeclaration := false } = .ok (name, n, st2))
    (hr : (tok.eType = CXXTokenTypeOpeningBracket ∧ st3 = { st2 with pTokenChain := [] }) ∨
      (tok.eType = CXXTokenTypeSingleColon ∧ ∃ st3' ob,
        cxxParserParseUpToOneOf env fuel baseClauseTerminators { st2 with pTokenChain := [] }
          = .ok (true, st3') ∧
        st3'.pToken = some ob ∧ ob.eType = CXXTokenTypeOpeningBracket ∧
        st3 = { st3' with pTokenChain := cxxTokenChainDestroyLast st3'.pTokenChain })) :
    ∃ stB szScopeName,
      stB.scopes = st3.scopes ++
        [{ name := name.pszWord, kind := eKind,
           access := if eKind = .CLASS then .Private else .Public }] ∧
      (∃ inh, stB.tags = st3.tags ++ [definitionTag env name eKind st3.scopes inh]) ∧
      cxxParserParseClassStructOrUnion env fuel eKind st
        = match env.cxxParserParseBlock true stB with
          | (false, s) => .ok (false, s)
          | (true, s) =>
            match cxxParserParseEnumStructClassOrUnionFullDeclarationTrailer env fuel
                (maskTest st.uKeywordState CXXParserKeywordStateSeenTypedef) eKind
                (some szScopeName) (popScopes (n + 1) s) with
            | .error e => .error e
            | .ok (bRet, s) => .ok (bRet, cxxParserNewStatement s) := by
  have hacc : (if eKind == .CLASS then CXXScopeAccess.Private else .Public)
      = if eKind = .CLASS then CXXScopeAccess.Private else .Public := by
    cases eKind <;> rfl
  have key : cxxParserParseClassStructOrUnion env fuel eKind st
      = cxxParserParseClassStructOrUnionDefinition env fuel eKind
          (maskTest st.uKeywordState CXXParserKeywordStateSeenTypedef) name n st3 := by
    rcases hr with ⟨ht, rfl⟩ | ⟨ht, st3', ob, hb, hp3, hob, rfl⟩
    · exact parseClass_open env fuel eKind st st1 st2 tok name n hh hp ht hx
    · exact parseClass_colon env fuel eKind st st1 st2 st3' tok name ob n hh hp ht hx hb hp3 hob
  refine ⟨classBlockEntry env eKind name st3,
    scopeFullName (st3.scopes ++
      [CXXScope.mk name.pszWord eKind (if eKind == .CLASS then .Private else .Public)]),
    ?_, ⟨classInheritance st3.pTokenChain, ?_⟩, ?_⟩
  · rw [classBlockEntry_scopes, hacc]
  · rw [classBlockEntry_tags]
  · rw [key, classDefinition_eq]

/-- Witness of C13 on `struct S { };`: the block parser is called with the scope `S`,
of kind struct and public access, on top of the empty stack, the tag `S` committed. -/
theorem c13_default_access_witness :
    ∃ stB szScopeName,
      stB.scopes = [] ++ [{ name := "S", kind := .STRUCT, access := .Public }] ∧
      (∃ inh, stB.tags = [] ++ [definitionTag idleCollaborators (tokIdentifier "S") .STRUCT []
        inh]) ∧
      cxxParserParseClassStructOrUnion idleCollaborators 20 .STRUCT
          (statementState [tokKeyword .STRUCT "struct"] structExampleTokens)
        = match idleCollaborators.cxxParserParseBlock true stB with
          | (false, s) => .ok (false, s)
          | (true, s) =>
            match cxxParserParseEnumStructClassOrUnionFullDeclarationTrailer idleCollaborators
                20 (maskTest (statementState [tokKeyword .STRUCT "struct"]
                  structExampleTokens).uKeywordState CXXParserKeywordStateSeenTypedef)
                .STRUCT (some szScopeName) (popScopes (0 + 1) s) with
            | .error e => .error e
            | .ok (bRet, s) => .ok (bRet, cxxParserNewStatement s) :=
  c13_default_access idleCollaborators 20 .STRUCT
    (statementState [tokKeyword .STRUCT "struct"] structExampleTokens)
    (({ statementState [tokKeyword .STRUCT "struct"] structExampleTokens with
        bParsingClassStructOrUnionDeclaration := true } : CXXParserState).frame
      [tokKeyword .STRUCT "struct", tokIdentifier "S", tokOpeningBracket]
      (some tokOpeningBracket) [tokClosingBracket, tokSemicolon])
    ((statementState [tokKeyword .STRUCT "struct"] structExampleTokens).frame
      [tokKeyword .STRUCT "struct", tokOpeningBracket]
      (some tokOpeningBracket) [tokClosingBracket, tokSemicolon])
    ((statementState [tokKeyword .STRUCT "struct"] structExampleTokens).frame
      [] (some tokOpeningBracket) [tokClosingBracket, tokSemicolon])
    tokOpeningBracket (tokIdentifier "S") 0
    (result_eq_of_beq _ _ (by decide!)) rfl (nameResult_eq_of_beq _ _ (by decide!))
    (Or.inl ⟨rfl, rfl⟩)

/-! ## The claim on the trailer under typedef -/

/-- C14, as stated, fails: on the trailer `T[10];` of a typedef the chain holds the
identifier `T`, but the token before the `;` is the folded `[10]`; the trailer returns
true and emits no typedef tag. -/
theorem c14_last_token_is_not_the_last_identifier :
    cxxParserParseEnumStructClassOrUnionFullDeclarationTrailer idleCollaborators 20 true .ENUM
        (some "E") (startState arrayTrailerTokens)
      = .ok (true, (startState []).frame [tokIdentifier "T", arraySizeChain]
          (some tokSemicolon) []) ∧
    ((startState []).frame [tokIdentifier "T", arraySizeChain] (some tokSemicolon) []).tags = [] :=
  ⟨result_eq_of_beq _ _ (by decide!), rfl⟩

/-- C14 (amended): when the trailer runs with the typedef flag set and the tokens after
the closing brace, consumed at one level, end with `;` and leave at least one token
`pLast` before it on the chain, it returns true; if `pLast` is an identifier it emits
exactly one tag, the typedef tag named by `pLast` with the type reference made of the
kind name and of the type name passed in; otherwise it emits no tag.  The variable
extractor is not called and the scope stack is left as it is. -/
theorem c14_trailer_typedef (env : CXXCollaborators) (eKind : CXXTagKind)
    (szTypeName : String) (st : CXXParserState) (body outs rest : List CXXToken)
    (pLast semi : CXXToken)
    (hC : LambdaFree env st) (hi : st.input = body ++ semi :: rest)
    (hS : Skips defaultOpeners trailerTerminators body (outs ++ [pLast]))
    (hsemi : semi.eType = CXXTokenTypeSemicolon)
    (fuel : Nat) (hf : 3 * st.input.length + 1 ≤ fuel) :
    ∃ st', cxxParserParseEnumStructClassOrUnionFullDeclarationTrailer env fuel true eKind
        (some szTypeName) st = .ok (true, st') ∧
      (pLast.eType = CXXTokenTypeIdentifier →
        st'.tags = st.tags ++
          [{ name := pLast.pszWord, kind := .TYPEDEF, lineNumber := pLast.iLineNumber,
             scope := st.scopes, typeRef := some (eKind.name, szTypeName),
             inheritance := none, isFileScope := !env.isInputHeaderFile }]) ∧
      (pLast.eType ≠ CXXTokenTypeIdentifier → st'.tags = st.tags) ∧
      st'.calls = st.calls ∧ st'.scopes = st.scopes ∧ st'.input = rest := by
  refine ⟨_, trailer_typedef env eKind szTypeName st body outs rest pLast semi hC hi hS hsemi
    fuel hf, ?_, ?_, ?_, ?_, ?_⟩
  · intro h
    rw [if_pos h]
    rfl
  · intro h
    rw [if_neg h]
    rfl
  · split <;> rfl
  · split <;> rfl
  · split <;> rfl

/-- Witness of C14 on the trailer `T;` of `typedef enum { X, Y } T;`, the enum being
anonymous: one typedef tag `T` with the type reference (enum, `__anon0`). -/
theorem c14_trailer_typedef_witness :
    ∃ st', cxxParserParseEnumStructClassOrUnionFullDeclarationTrailer idleCollaborators 10 true
        .ENUM (some "__anon0") (startState [tokIdentifier "T", tokSemicolon]) = .ok (true, st') ∧
      st'.tags = [] ++
        [{ name := "T", kind := .TYPEDEF, lineNumber := 0,
           scope := [], typeRef := some ("enum", "__anon0"),
           inheritance := none, isFileScope := true }] ∧
      st'.calls = [] ∧ st'.scopes = [] ∧ st'.input = [] :=
  match c14_trailer_typedef idleCollaborators .ENUM "__anon0"
    (startState [tokIdentifier "T", tokSemicolon]) [tokIdentifier "T"] [] []
    (tokIdentifier "T") tokSemicolon (Or.inl (by decide)) rfl
    (Skips.plain _ _ _ _ (by decide) (by decide) (by decide) (Skips.nil _)) rfl 10
    (by decide) with
  | ⟨st', h, h1, _, h3, h4, h5⟩ => ⟨st', h, h1 rfl, h3, h4, h5⟩

/-- The run of the enum parser on `typedef enum { X, Y } T;`: the anonymous enum, its
enumerators in its scope, then the typedef `T` whose type reference is (enum,
`__anon0`). -/
theorem typedef_enum_example_run :
    ∃ st', cxxParserParseEnum idleCollaborators 40
        (typedefState [tokKeyword .ENUM "enum"] typedefEnumTokens) = .ok (true, st') ∧
      st'.tags.map (fun t => (t.name, t.kind, t.scope.map (·.name), t.typeRef))
        = [("__anon0", .ENUM, [], none), ("X", .ENUMERATOR, ["__anon0"], none),
            ("Y", .ENUMERATOR, ["__anon0"], none),
            ("T", .TYPEDEF, [], some ("enum", "__anon0"))] := by
  have h : (match cxxParserParseEnum idleCollaborators 40
        (typedefState [tokKeyword .ENUM "enum"] typedefEnumTokens) with
      | .ok (true, st') =>
        decide (st'.tags.map (fun t => (t.name, t.kind, t.scope.map (·.name), t.typeRef))
          = [("__anon0", .ENUM, [], none), ("X", .ENUMERATOR, ["__anon0"], none),
              ("Y", .ENUMERATOR, ["__anon0"], none),
              ("T", .TYPEDEF, [], some ("enum", "__anon0"))])
      | _ => false) = true := by decide!
  revert h
  generalize cxxParserParseEnum idleCollaborators 40
    (typedefState [tokKeyword .ENUM "enum"] typedefEnumTokens) = r
  intro h
  match r, h with
  | .ok (true, st'), h => exact ⟨st', rfl, of_decide_eq_true h⟩

/-! ## The claim on the trailer without typedef -/

/-- C15: when the trailer runs with the typedef flag clear, over tokens consumed at
one level, (1) with at least one token left on the chain before the terminating `;`
it returns true after one call of the variable extractor, on the chain made of a
keyword token whose lexeme is the kind name, an identifier token whose lexeme is the
type name and then the trailer tokens in their order, the `;` included (two tokens
more than the trailer chain); the tags it adds are those the extractor reports; (2)
when the trailer is just `;` and (3) when it ends at the end of the input, it returns
true, emits nothing and calls nothing. -/
theorem c15_trailer_variables (env : CXXCollaborators) (eKind : CXXTagKind)
    (szTypeName : String) (st : CXXParserState) (hC : LambdaFree env st)
    (fuel : Nat) (hf : 3 * st.input.length + 1 ≤ fuel) :
    (∀ (body outs rest : List CXXToken) (semi : CXXToken),
      st.input = body ++ semi :: rest → Skips defaultOpeners trailerTerminators body outs →
      outs ≠ [] → semi.eType = CXXTokenTypeSemicolon →
      ∃ st' chain, cxxParserParseEnumStructClassOrUnionFullDeclarationTrailer env fuel false
          eKind (some szTypeName) st = .ok (true, st') ∧
        chain = [CXXToken.mk CXXTokenTypeKeyword (.other 0) eKind.name 0 true none,
                 CXXToken.mk CXXTokenTypeIdentifier (.other 0) szTypeName 0 true none]
                ++ (outs ++ [semi]) ∧
        chain.length = (outs ++ [semi]).length + 2 ∧
        st'.calls = st.calls ++ [.extractVariableDeclarations chain] ∧
        st'.tags = st.tags ++
          (env.extractVariableDeclarations (st.frame chain (some semi) rest)).1 ∧
        st'.scopes = st.scopes) ∧
    (∀ (rest : List CXXToken) (semi : CXXToken),
      st.input = semi :: rest → semi.eType = CXXTokenTypeSemicolon →
      ∃ st', cxxParserParseEnumStructClassOrUnionFullDeclarationTrailer env fuel false
          eKind (some szTypeName) st = .ok (true, st') ∧
        st'.calls = st.calls ∧ st'.tags = st.tags ∧ st'.scopes = st.scopes) ∧
    (∀ (outs : List CXXToken),
      Skips defaultOpeners trailerTerminators st.input outs →
      ∃ st', cxxParserParseEnumStructClassOrUnionFullDeclarationTrailer env fuel false
          eKind (some szTypeName) st = .ok (true, st') ∧
        st'.calls = st.calls ∧ st'.tags = st.tags ∧ st'.scopes = st.scopes) := by
  refine ⟨?_, ?_, ?_⟩
  · intro body outs rest semi hi hS hne hsemi
    refine ⟨_, _, trailer_variables env eKind szTypeName st body outs rest semi hC hi hS hne
      hsemi fuel hf, rfl, ?_, rfl, rfl, rfl⟩
    simp
  · intro rest semi hi hsemi
    exact ⟨_, trailer_empty env false eKind (some szTypeName) st rest semi hC hi hsemi fuel hf,
      rfl, rfl, rfl⟩
  · intro outs hS
    exact ⟨_, trailer_eof env false eKind (some szTypeName) st _ outs hC rfl hS fuel hf,
      rfl, rfl, rfl⟩

/-- Witness of C15 on the trailer `x;` of `struct S { } x;`: the variable extractor is
called once, on `struct S x ;`. -/
theorem c15_trailer_variables_witness :
    ∃ st' chain, cxxParserParseEnumStructClassOrUnionFullDeclarationTrailer idleCollaborators
        10 false .STRUCT (some "S") (startState [tokIdentifier "x", tokSemicolon])
        = .ok (true, st') ∧
      chain = [CXXToken.mk CXXTokenTypeKeyword (.other 0) "struct" 0 true none,
               CXXToken.mk CXXTokenTypeIdentifier (.other 0) "S" 0 true none]
              ++ ([tokIdentifier "x"] ++ [tokSemicolon]) ∧
      chain.length = ([tokIdentifier "x"] ++ [tokSemicolon]).length + 2 ∧
      st'.calls = [] ++ [.extractVariableDeclarations chain] ∧
      st'.tags = [] ++ (idleCollaborators.extractVariableDeclarations
        ((startState [tokIdentifier "x", tokSemicolon]).frame chain (some tokSemicolon) [])).1 ∧
      st'.scopes = [] :=
  (c15_trailer_variables idleCollaborators .STRUCT "S"
    (startState [tokIdentifier "x", tokSemicolon]) (Or.inl (by decide)) 10 (by decide)).1
    [tokIdentifier "x"] [tokIdentifier "x"] [] tokSemicolon rfl
    (Skips.plain _ _ _ _ (by decide) (by decide) (by decide) (Skips.nil _))
    (by simp) rfl

/-! ## The claim on enum statements that end in `;` -/

/-- C16 fails in the code: on `enum X Y;` the chain, cleared at entry (line 287), holds
the three tokens `X Y ;`, the test `iCount > 3` of line 314 fails, and
`cxxParserParseEnum` returns true after a new statement without a typedef tag when
SeenTypedef is set and without a call of the variable extractor when it is not. -/
theorem c16_enum_declarator_is_dropped :
    cxxParserParseEnum idleCollaborators 20
        (typedefState [tokKeyword .ENUM "enum"] declaratorExampleTokens)
      = .ok (true, (startState []).frame [] (some tokSemicolon) []) ∧
    cxxParserParseEnum idleCollaborators 20
        (statementState [tokKeyword .ENUM "enum"] declaratorExampleTokens)
      = .ok (true, (startState []).frame [] (some tokSemicolon) []) ∧
    ((startState []).frame [] (some tokSemicolon) []).tags = [] ∧
    ((startState []).frame [] (some tokSemicolon) []).calls.length = 0 :=
  ⟨result_eq_of_beq _ _ (by decide!), result_eq_of_beq _ _ (by decide!), rfl, rfl⟩

/-- The sibling path: on `typedef struct X Y;` the class parser, which keeps the
keyword on the chain, passes the same test and emits the typedef tag `Y`. -/
theorem struct_declarator_example :
    cxxParserParseClassStructOrUnion idleCollaborators 20 .STRUCT
        (typedefState [tokKeyword .STRUCT "struct"] declaratorExampleTokens)
      = .ok (true, ((startState []).frame [] (some tokSemicolon) []).addTags
          [{ name := "Y", kind := .TYPEDEF, lineNumber := 0, scope := [], typeRef := none,
             inheritance := none, isFileScope := true }]) :=
  result_eq_of_beq _ _ (by decide!)

/-! ## The claim on type keywords that start a function declaration -/

/-- C17: when the header scan of `cxxParserParseEnum`, or of
`cxxParserParseClassStructOrUnion`, stops with success at a parenthesis chain, the
parser returns true and the state it returns is the state at the end of the scan (the
class parser only resets its header flag): the collected chain, ended by the
parenthesis chain, is left as it is and no new statement is started; when no lambda is
handled inside the header, the tags, the scope stack and the keyword state are those
at entry. -/
theorem c17_function_declaration (env : CXXCollaborators) (fuel : Nat) :
    (∀ (st st1 : CXXParserState) (tok : CXXToken),
      cxxParserParseUpToOneOf env fuel enumHeaderTerminators (st.frame [] st.pToken st.input)
        = .ok (true, st1) →
      st1.pToken = some tok → tok.eType = CXXTokenTypeParenthesisChain →
      cxxParserParseEnum env fuel st = .ok (true, st1) ∧
      (LambdaFree env st →
        st1.tags = st.tags ∧ st1.scopes = st.scopes ∧ st1.uKeywordState = st.uKeywordState ∧
        st1.calls = st.calls ∧ st1.pTokenChain.getLast? = some tok)) ∧
    (∀ (eKind : CXXTagKind) (st st1 : CXXParserState) (tok : CXXToken),
      cxxParserParseClassStructOrUnionHeader env fuel (classHeaderTerminators eKind)
        { st with bParsingClassStructOrUnionDeclaration := true } = .ok (true, st1) →
      st1.pToken = some tok → tok.eType = CXXTokenTypeParenthesisChain →
      cxxParserParseClassStructOrUnion env fuel eKind st
        = .ok (true, { st1 with bParsingClassStructOrUnionDeclaration := false }) ∧
      (LambdaFree env st →
        st1.tags = st.tags ∧ st1.scopes = st.scopes ∧ st1.uKeywordState = st.uKeywordState ∧
        st1.calls = st.calls)) := by
  refine ⟨?_, ?_⟩
  · intro st st1 tok hh hp ht
    refine ⟨?_, ?_⟩
    · unfold cxxParserParseEnum
      have hh' : cxxParserParseUpToOneOf env fuel
          (CXXTokenTypeEOF ||| CXXTokenTypeSemicolon ||| CXXTokenTypeParenthesisChain
            ||| CXXTokenTypeOpeningBracket) { st with pTokenChain := [] } = .ok (true, st1) := hh
      simp only [hh', hp, ht]
      rfl
    · intro hC
      rw [parseUpToOneOf_eq] at hh
      obtain ⟨c, tok', i, rfl, h2, -⟩ := (condenser_frame env fuel).1 _ _ _ _ _
        (by simpa using hC) hh
      simp only [frame_pToken, Option.some.injEq] at hp
      subst hp
      exact ⟨rfl, rfl, rfl, rfl, h2⟩
  · intro eKind st st1 tok hh hp ht
    refine ⟨?_, ?_⟩
    · unfold cxxParserParseClassStructOrUnion
      have hh' : cxxParserParseClassStructOrUnionHeader env fuel
          ((CXXTokenTypeEOF ||| CXXTokenTypeSingleColon ||| CXXTokenTypeSemicolon
            ||| CXXTokenTypeOpeningBracket ||| CXXTokenTypeSmallerThanSign)
            ||| (if eKind != .CLASS then CXXTokenTypeParenthesisChain else 0))
          { st with bParsingClassStructOrUnionDeclaration := true } = .ok (true, st1) := hh
      simp only [hh', hp, ht]
      rfl
    · intro hC
      exact classHeader_frame env fuel _
        { st with bParsingClassStructOrUnionDeclaration := true } _ _ hC hh

/-- Witness of C17 on `struct S *getS();` (and on the same tokens after `enum`): the
parser returns at the parenthesis chain with no tag and no scope, the chain kept. -/
theorem c17_function_declaration_witness :
    (cxxParserParseClassStructOrUnion idleCollaborators 20 .STRUCT
        (statementState [tokKeyword .STRUCT "struct"] functionExampleTokens)
      = .ok (true, (statementState [tokKeyword .STRUCT "struct"] functionExampleTokens).frame
          [tokKeyword .STRUCT "struct", tokIdentifier "S", tokStar, tokIdentifier "getS",
            emptyParenthesisChain]
          (some emptyParenthesisChain) [tokSemicolon])) ∧
    (cxxParserParseEnum idleCollaborators 20
        (statementState [tokKeyword .ENUM "enum"] functionExampleTokens)
      = .ok (true, (statementState [tokKeyword .ENUM "enum"] functionExampleTokens).frame
          [tokIdentifier "S", tokStar, tokIdentifier "getS", emptyParenthesisChain]
          (some emptyParenthesisChain) [tokSemicolon])) :=
  ⟨((c17_function_declaration idleCollaborators 20).2 .STRUCT
      (statementState [tokKeyword .STRUCT "struct"] functionExampleTokens)
      (({ statementState [tokKeyword .STRUCT "struct"] functionExampleTokens with
          bParsingClassStructOrUnionDeclaration := true } : CXXParserState).frame
        [tokKeyword .STRUCT "struct", tokIdentifier "S", tokStar, tokIdentifier "getS",
          emptyParenthesisChain]
        (some emptyParenthesisChain) [tokSemicolon])
      emptyParenthesisChain (result_eq_of_beq _ _ (by decide!)) rfl rfl).1,
   ((c17_function_declaration idleCollaborators 20).1
      (statementState [tokKeyword .ENUM "enum"] functionExampleTokens)
      ((statementState [tokKeyword .ENUM "enum"] functionExampleTokens).frame
        [tokIdentifier "S", tokStar, tokIdentifier "getS", emptyParenthesisChain]
        (some emptyParenthesisChain) [tokSemicolon])
      emptyParenthesisChain (result_eq_of_beq _ _ (by decide!)) rfl rfl).1⟩

/-! ## The claim on the typedef of a class with a body -/

/-- C18: when `cxxParserParseClassStructOrUnion` reaches the body of a definition
(`st3` being the state before the class tag is begun), (1) the typedef flag it hands
to the trailer is the SeenTypedef bit of the keyword state at entry, whatever state the
block parser returns; (2) hence, when that bit is set, the block succeeds and the
tokens after the body, consumed at one level, end with an identifier `pLast` and `;`,
the parser returns true and the last tag it commits, after the tags of the body, is
the typedef tag named by `pLast` whose type reference is made of the kind name and of
the qualified name of the class, even if the block has cleared the keyword state. -/
theorem c18_typedef_flag (env : CXXCollaborators) (fuel : Nat) (eKind : CXXTagKind)
    (st st1 st2 st3 : CXXParserState) (tok name : CXXToken) (n : Nat)
    (hh : cxxParserParseClassStructOrUnionHeader env fuel (classHeaderTerminators eKind)
      { st with bParsingClassStructOrUnionDeclaration := true } = .ok (true, st1))
    (hp : st1.pToken = some tok)
    (hx : cxxParserExtractQualifiedName
      { st1 with bParsingClassStructOrUnionDeclaration := false } = .ok (name, n, st2))
    (hr : (tok.eType = CXXTokenTypeOpeningBracket ∧ st3 = { st2 with pTokenChain := [] }) ∨
      (tok.eType = CXXTokenTypeSingleColon ∧ ∃ st3' ob,
        cxxParserParseUpToOneOf env fuel baseClauseTerminators { st2 with pTokenChain := [] }
          = .ok (true, st3') ∧
        st3'.pToken = some ob ∧ ob.eType = CXXTokenTypeOpeningBracket ∧
        st3 = { st3' with pTokenChain := cxxTokenChainDestroyLast st3'.pTokenChain })) :
    cxxParserParseClassStructOrUnion env fuel eKind st
      = (match env.cxxParserParseBlock true (classBlockEntry env eKind name st3) with
        | (false, s) => .ok (false, s)
        | (true, s) =>
          match cxxParserParseEnumStructClassOrUnionFullDeclarationTrailer env fuel
              (maskTest st.uKeywordState CXXParserKeywordStateSeenTypedef) eKind
              (some (scopeFullName (classBlockEntry env eKind name st3).scopes))
              (popScopes (n + 1) s) with
          | .error e => .error e
          | .ok (bRet, s) => .ok (bRet, cxxParserNewStatement s)) ∧
    (∀ (s : CXXParserState) (body outs rest : List CXXToken) (pLast semi : CXXToken),
      env.cxxParserParseBlock true (classBlockEntry env eKind name st3) = (true, s) →
      maskTest st.uKeywordState CXXParserKeywordStateSeenTypedef = true →
      LambdaFree env s → s.input = body ++ semi :: rest →
      Skips defaultOpeners trailerTerminators body (outs ++ [pLast]) →
      pLast.eType = CXXTokenTypeIdentifier → semi.eType = CXXTokenTypeSemicolon →
      3 * s.input.length + 1 ≤ fuel →
      ∃ st', cxxParserParseClassStructOrUnion env fuel eKind st = .ok (true, st') ∧
        st'.tags = s.tags ++
          [{ name := pLast.pszWord, kind := .TYPEDEF, lineNumber := pLast.iLineNumber,
             scope := (popScopes (n + 1) s).scopes,
             typeRef := some (eKind.name,
               scopeFullName (classBlockEntry env eKind name st3).scopes),
             inheritance := none, isFileScope := !env.isInputHeaderFile }]) := by
  have key : cxxParserParseClassStructOrUnion env fuel eKind st
      = cxxParserParseClassStructOrUnionDefinition env fuel eKind
          (maskTest st.uKeywordState CXXParserKeywordStateSeenTypedef) name n st3 := by
    rcases hr with ⟨ht, rfl⟩ | ⟨ht, st3', ob, hb, hp3, hob, rfl⟩
    · exact parseClass_open env fuel eKind st st1 st2 tok name n hh hp ht hx
    · exact parseClass_colon env fuel eKind st st1 st2 st3' tok name ob n hh hp ht hx hb hp3 hob
  have eq1 : cxxParserParseClassStructOrUnion env fuel eKind st
      = (match env.cxxParserParseBlock true (classBlockEntry env eKind name st3) with
        | (false, s) => .ok (false, s)
        | (true, s) =>
          match cxxParserParseEnumStructClassOrUnionFullDeclarationTrailer env fuel
              (maskTest st.uKeywordState CXXParserKeywordStateSeenTypedef) eKind
              (some (scopeFullName (classBlockEntry env eKind name st3).scopes))
              (popScopes (n + 1) s) with
          | .error e => .error e
          | .ok (bRet, s) => .ok (bRet, cxxParserNewStatement s)) := by
    rw [key, classDefinition_eq, classBlockEntry_scopes]
  refine ⟨eq1, ?_⟩
  intro s body outs rest pLast semi hblk hT hC hi hS hid hsemi hf
  rw [eq1, hblk, hT]
  simp only
  rw [trailer_typedef env eKind _ (popScopes (n + 1) s) body outs rest pLast semi
    ((popScopes_lambdaFree env _ _).mpr hC) (by rw [popScopes_input]; exact hi) hS hsemi fuel
    (by rw [popScopes_input]; exact hf)]
  refine ⟨_, rfl, ?_⟩
  rw [if_pos hid, newStatement_tags, addTags_tags, frame_tags, popScopes_tags]
  rfl

/-- Witness of C18 on `typedef struct { int x; } Foo;`, the block parser reading the
body and clearing the keyword state: the struct tag `__anon0`, then the typedef tag
`Foo` with the type reference (struct, `__anon0`). -/
theorem c18_typedef_flag_witness :
    ∃ st', cxxParserParseClassStructOrUnion skippingCollaborators 30 .STRUCT
        (typedefState [tokKeyword .STRUCT "struct"] typedefStructTokens) = .ok (true, st') ∧
      st'.tags = [definitionTag skippingCollaborators (tokAnonymous 0) .STRUCT [] none] ++
        [{ name := "Foo", kind := .TYPEDEF, lineNumber := 0, scope := [],
           typeRef := some ("struct", "__anon0"), inheritance := none,
           isFileScope := true }] :=
  (c18_typedef_flag skippingCollaborators 30 .STRUCT
    (typedefState [tokKeyword .STRUCT "struct"] typedefStructTokens)
    (({ typedefState [tokKeyword .STRUCT "struct"] typedefStructTokens with
        bParsingClassStructOrUnionDeclaration := true } : CXXParserState).frame
      [tokKeyword .STRUCT "struct", tokOpeningBracket] (some tokOpeningBracket)
      (typedefStructTokens.drop 1))
    ({ (typedefState [tokKeyword .STRUCT "struct"] typedefStructTokens).frame
        [tokKeyword .STRUCT "struct", tokOpeningBracket] (some tokOpeningBracket)
        (typedefStructTokens.drop 1) with iAnonymousCount := 1 })
    ({ (typedefState [tokKeyword .STRUCT "struct"] typedefStructTokens).frame
        [] (some tokOpeningBracket) (typedefStructTokens.drop 1) with iAnonymousCount := 1 })
    tokOpeningBracket (tokAnonymous 0) 0
    (result_eq_of_beq _ _ (by decide!)) rfl (nameResult_eq_of_beq _ _ (by decide!))
    (Or.inl ⟨rfl, rfl⟩)).2
    (skippingCollaborators.cxxParserParseBlock true
      (classBlockEntry skippingCollaborators .STRUCT (tokAnonymous 0)
        ({ (typedefState [tokKeyword .STRUCT "struct"] typedefStructTokens).frame
          [] (some tokOpeningBracket) (typedefStructTokens.drop 1) with
            iAnonymousCount := 1 }))).2
    [tokIdentifier "Foo"] [] [] (tokIdentifier "Foo") tokSemicolon
    rfl (by decide) (Or.inr (fun _ => rfl)) rfl
    (Skips.plain _ _ _ _ (by decide) (by decide) (by decide) (Skips.nil _)) rfl rfl
    (by decide)

/-! ## The claim on statements that must be functions -/

/-- C19, as stated, fails: inside the body of a function, with SeenOperator set and a
scanner that finds no signature, the analyzer does run the variable extractor (the
scanner is not even called): the enclosing function scope comes first. -/
theorem c19_function_scope_comes_first :
    maskTest operatorInFunctionState.uKeywordState CXXParserKeywordStateSeenOperator = true ∧
    idleFunctionCollaborators.cxxParserLookForFunctionSignature
      operatorInFunctionState.pTokenChain = none ∧
    cxxParserAnalyzeOtherStatement idleCollaborators idleFunctionCollaborators
        operatorInFunctionState
      = .ok { operatorInFunctionState with
          calls := [.extractVariableDeclarations operatorInFunctionState.pTokenChain] } :=
  ⟨by decide, rfl, rfl⟩

/-- C19 (amended): in `cxxParserAnalyzeOtherStatement`, if the enclosing scope is not a
function and any of SeenInline, SeenExplicit, SeenOperator or SeenVirtual is set in
the keyword state, then, when the function-signature scanner finds no signature, the
analyzer returns without running the variable extractor and without a tag: the state
is left as it is, but for the record of the call of the scanner when the statement
passes the rejection checks. -/
theorem c19_must_be_function (env : CXXCollaborators) (fenv : CXXFunctionCollaborators)
    (st : CXXParserState) (hk : cxxScopeGetKind st ≠ .FUNCTION)
    (hm : maskTest st.uKeywordState
      (CXXParserKeywordStateSeenInline ||| CXXParserKeywordStateSeenExplicit
        ||| CXXParserKeywordStateSeenOperator ||| CXXParserKeywordStateSeenVirtual) = true)
    (hs : fenv.cxxParserLookForFunctionSignature st.pTokenChain = none) :
    ∃ st', cxxParserAnalyzeOtherStatement env fenv st = .ok st' ∧
      (st' = st ∨
        st' = { st with calls := st.calls ++ [.lookForFunctionSignature st.pTokenChain] }) ∧
      (passesRejectionChecks st →
        st' = { st with calls := st.calls ++ [.lookForFunctionSignature st.pTokenChain] }) ∧
      st'.tags = st.tags ∧
      ∀ c, CXXCall.extractVariableDeclarations c ∈ st'.calls →
        CXXCall.extractVariableDeclarations c ∈ st.calls := by
  have hmay : mayBeFunction st = 2 := by
    unfold mayBeFunction
    have : (cxxScopeGetKind st == .FUNCTION) = false := by
      simpa using hk
    simp only [this, Bool.false_eq_true, if_false]
    exact if_pos hm
  unfold cxxParserAnalyzeOtherStatement
  by_cases h1 : st.pTokenChain.length < 2
  · simp only [h1, if_true]
    refine ⟨st, rfl, Or.inl rfl, ?_, rfl, fun _ h => h⟩
    rintro ⟨h, -⟩
    omega
  · simp only [h1, if_false]
    by_cases h2 : maskTest st.uKeywordState CXXParserKeywordStateSeenReturn = true
    · simp only [h2, if_true]
      refine ⟨st, rfl, Or.inl rfl, ?_, rfl, fun _ h => h⟩
      rintro ⟨-, h, -⟩
      rw [h] at h2
      cases h2
    · simp only [h2, if_false]
      rcases hc : st.pTokenChain with _ | ⟨t, ts⟩
      · rw [hc] at h1
        simp at h1
      · simp only [cxxTokenChainFirst, List.head?_cons]
        by_cases h3 : maskTest t.eType (CXXTokenTypeIdentifier ||| CXXTokenTypeKeyword) = true
        · rw [← hc]
          simp only [h3, Bool.not_true, Bool.false_eq_true, if_false, hmay, hs]
          refine ⟨_, rfl, Or.inr rfl, fun _ => rfl, rfl, ?_⟩
          intro c hmem
          simp only [List.mem_append, List.mem_singleton] at hmem
          rcases hmem with h | h
          · exact h
          · cases h
        · simp only [h3, Bool.not_false, if_true]
          refine ⟨st, rfl, Or.inl rfl, ?_, rfl, fun _ h => h⟩
          rintro ⟨-, -, t', ht', h⟩
          rw [hc] at ht'
          simp only [List.head?_cons, Option.some.injEq] at ht'
          subst ht'
          exact absurd h h3

/-- Witness of C19 on `virtual int x;` in the body of a class, the scanner finding no
signature: the analyzer returns after the call of the scanner. -/
theorem c19_must_be_function_witness :
    ∃ st', cxxParserAnalyzeOtherStatement idleCollaborators idleFunctionCollaborators
        virtualInClassState = .ok st' ∧
      (st' = virtualInClassState ∨
        st' = { virtualInClassState with
          calls := virtualInClassState.calls ++
            [.lookForFunctionSignature virtualInClassState.pTokenChain] }) ∧
      (passesRejectionChecks virtualInClassState →
        st' = { virtualInClassState with
          calls := virtualInClassState.calls ++
            [.lookForFunctionSignature virtualInClassState.pTokenChain] }) ∧
      st'.tags = virtualInClassState.tags ∧
      ∀ c, CXXCall.extractVariableDeclarations c ∈ st'.calls →
        CXXCall.extractVariableDeclarations c ∈ virtualInClassState.calls :=
  c19_must_be_function idleCollaborators idleFunctionCollaborators virtualInClassState
    (by decide) (by decide) rfl

/-! ## The claim on statements that cannot be functions -/

/-- C20: when the enclosing scope is a function, `cxxParserAnalyzeOtherStatement`
returns, whatever the function-signature scanner and the emitter of function tags
are, without calling either: a statement that passes the rejection checks goes to the
variable extractor, any other is left as it is; the only call recorded is that of the
variable extractor and the only tags added are those it reports. -/
theorem c20_cannot_be_function (env : CXXCollaborators) (fenv : CXXFunctionCollaborators)
    (st : CXXParserState) (hk : cxxScopeGetKind st = .FUNCTION) :
    ∃ st', cxxParserAnalyzeOtherStatement env fenv st = .ok st' ∧
      (passesRejectionChecks st → st' = cxxParserExtractVariableDeclarations env st) ∧
      (¬ passesRejectionChecks st → st' = st) ∧
      (∀ c ∈ st'.calls, c ∈ st.calls ∨ c = .extractVariableDeclarations st.pTokenChain) ∧
      (∃ more, st'.tags = st.tags ++ more ∧
        (more = [] ∨ more = (env.extractVariableDeclarations st).1)) := by
  have hmay : mayBeFunction st = 0 := by
    unfold mayBeFunction
    rw [hk]
    rfl
  have hno : ∀ c ∈ st.calls, c ∈ st.calls ∨ c = .extractVariableDeclarations st.pTokenChain :=
    fun _ h => Or.inl h
  have hex : ∀ c ∈ (cxxParserExtractVariableDeclarations env st).calls,
      c ∈ st.calls ∨ c = .extractVariableDeclarations st.pTokenChain := by
    intro c hc
    simp only [cxxParserExtractVariableDeclarations, List.mem_append, List.mem_singleton] at hc
    exact hc
  unfold cxxParserAnalyzeOtherStatement
  by_cases h1 : st.pTokenChain.length < 2
  · simp only [h1, if_true]
    refine ⟨st, rfl, ?_, fun _ => rfl, hno, [], by simp, Or.inl rfl⟩
    rintro ⟨h, -⟩
    omega
  · simp only [h1, if_false]
    by_cases h2 : maskTest st.uKeywordState CXXParserKeywordStateSeenReturn = true
    · simp only [h2, if_true]
      refine ⟨st, rfl, ?_, fun _ => rfl, hno, [], by simp, Or.inl rfl⟩
      rintro ⟨-, h, -⟩
      rw [h] at h2
      cases h2
    · simp only [h2, if_false]
      rcases hc : st.pTokenChain with _ | ⟨t, ts⟩
      · rw [hc] at h1
        simp at h1
      · simp only [cxxTokenChainFirst, List.head?_cons]
        by_cases h3 : maskTest t.eType (CXXTokenTypeIdentifier ||| CXXTokenTypeKeyword) = true
        · rw [← hc]
          simp only [h3, Bool.not_true, Bool.false_eq_true, if_false, hmay]
          refine ⟨_, rfl, fun _ => rfl, ?_, hex, _, rfl, Or.inr rfl⟩
          intro hn
          exact absurd ⟨by omega, by simpa using h2, t, by rw [hc]; rfl, h3⟩ hn
        · simp only [h3, Bool.not_false, if_true]
          rw [← hc]
          refine ⟨st, rfl, ?_, fun _ => rfl, hno, [], by simp, Or.inl rfl⟩
          rintro ⟨-, -, t', ht', h⟩
          rw [hc] at ht'
          simp only [List.head?_cons, Option.some.injEq] at ht'
          subst ht'
          exact absurd h h3

/-- Witness of C20 on `a.operator+;` in the body of a function: the statement goes to
the variable extractor. -/
theorem c20_cannot_be_function_witness :
    ∃ st', cxxParserAnalyzeOtherStatement idleCollaborators idleFunctionCollaborators
        operatorInFunctionState = .ok st' ∧
      (passesRejectionChecks operatorInFunctionState →
        st' = cxxParserExtractVariableDeclarations idleCollaborators operatorInFunctionState) ∧
      (¬ passesRejectionChecks operatorInFunctionState → st' = operatorInFunctionState) ∧
      (∀ c ∈ st'.calls, c ∈ operatorInFunctionState.calls ∨
        c = .extractVariableDeclarations operatorInFunctionState.pTokenChain) ∧
      (∃ more, st'.tags = operatorInFunctionState.tags ++ more ∧
        (more = [] ∨
          more = (idleCollaborators.extractVariableDeclarations operatorInFunctionState).1)) :=
  c20_cannot_be_function idleCollaborators idleFunctionCollaborators operatorInFunctionState
    (by decide)

/-! ## The generic typedef, step by step -/

theorem lastTokenOfType_none (c : List CXXToken) (M : Nat)
    (h : ∀ t ∈ c, maskTest t.eType M = false) :
    cxxTokenChainLastTokenOfType c M = none := by
  unfold cxxTokenChainLastTokenOfType
  have h1 : c.reverse.findIdx? (fun t => maskTest t.eType M) = none := by
    rw [List.findIdx?_eq_none_iff]
    intro x hx
    exact h x (List.mem_reverse.mp hx)
  rw [h1]

theorem typedefLoop_succ (env : CXXCollaborators) (n : Nat) (st : CXXParserState) :
    cxxParserParseGenericTypedefLoop env (n + 1) st
      = match cxxParserParseUpToOneOf env n typedefTerminators st with
        | .error e => .error e
        | .ok (false, st) => .ok (some false, st)
        | .ok (true, st) =>
          match st.pToken with
          | none => .error .nullPointer
          | some pToken =>
            if pToken.eType != CXXTokenTypeKeyword then
              if pToken.eType != CXXTokenTypeSemicolon then .ok (some true, st)
              else .ok (none, st)
            else if isTypedefBlockingKeyword pToken.eKeyword then .ok (some true, st)
            else cxxParserParseGenericTypedefLoop env n st := rfl

/-- The loop of the generic typedef over runs separated by keywords that do not end
it, up to a `;`: it leaves the loop at the `;` with everything on the chain. -/
theorem typedefLoop_items (env : CXXCollaborators) {body outs : List CXXToken}
    (hB : TypedefItems body outs) :
    ∀ (st : CXXParserState) (rest : List CXXToken) (semi : CXXToken) (fuel : Nat),
      LambdaFree env st → st.input = body ++ semi :: rest →
      semi.eType = CXXTokenTypeSemicolon → 3 * st.input.length + 2 ≤ fuel →
      cxxParserParseGenericTypedefLoop env fuel st
        = .ok (none, st.frame (st.pTokenChain ++ outs ++ [semi]) (some semi) rest) := by
  induction hB with
  | last seg outs hS =>
    intro st rest semi fuel hC hi hsemi hf
    obtain ⟨n, rfl⟩ : ∃ n, fuel = n + 1 := ⟨fuel - 1, by omega⟩
    rw [typedefLoop_succ, parseUpToOneOf_item env hS semi rest (by rw [hsemi]; decide) st hC hi
      n (by omega)]
    simp only [frame_pToken]
    have e1 : (semi.eType != CXXTokenTypeKeyword) = true := by rw [hsemi]; decide
    have e2 : (semi.eType != CXXTokenTypeSemicolon) = false := by rw [hsemi]; decide
    simp [e1, e2]
  | keyword seg outs kw restb routs hS hk hnb _ ih =>
    intro st rest semi fuel hC hi hsemi hf
    obtain ⟨n, rfl⟩ : ∃ n, fuel = n + 1 := ⟨fuel - 1, by omega⟩
    have hi' : st.input = seg ++ kw :: (restb ++ semi :: rest) := by rw [hi]; simp
    rw [typedefLoop_succ, parseUpToOneOf_item env hS kw (restb ++ semi :: rest)
      (by rw [hk]; decide) st hC hi' n (by omega)]
    simp only [frame_pToken]
    have e1 : (kw.eType != CXXTokenTypeKeyword) = false := by rw [hk]; decide
    simp only [e1, Bool.false_eq_true, if_false, hnb]
    rw [ih (st.frame (st.pTokenChain ++ outs ++ [kw]) (some kw) (restb ++ semi :: rest)) rest semi
      n (by simpa using hC) rfl hsemi (by
        simp only [frame_input]
        rw [hi'] at hf
        simp only [List.length_append, List.length_cons] at hf ⊢
        omega)]
    simp

/-! ## The entry points -/

/-- The run of the top-level block: the result and the chain at return. -/
theorem mainRun_spec (env : CXXCollaborators) (passCount : Nat) (input : List CXXToken)
    (q : CXXProcess) :
    ((cxxParserMainRun env passCount input q).1 = .RESCAN_FAILED ↔
      (env.cxxParserParseBlock false { q.g_cxx with input := input }).1 = false ∧
        passCount = 1) ∧
    ((cxxParserMainRun env passCount input q).1 = .RESCAN_NONE ↔
      ¬ ((env.cxxParserParseBlock false { q.g_cxx with input := input }).1 = false ∧
        passCount = 1)) ∧
    (cxxParserMainRun env passCount input q).2.g_cxx.pTokenChain = [] ∧
    (cxxParserMainRun env passCount input q).2.g_bFirstRun = q.g_bFirstRun := by
  rcases hb : env.cxxParserParseBlock false { q.g_cxx with input := input } with ⟨bRet, st⟩
  have hchain : ∀ (s : CXXParserState),
      (match ({ s with pTokenChain := [] } : CXXParserState).pTemplateTokenChain with
        | some _ => { ({ s with pTokenChain := [] } : CXXParserState) with
            pTemplateTokenChain := some [] }
        | none => { s with pTokenChain := [] }).pTokenChain = [] := by
    intro s
    cases h : s.pTemplateTokenChain <;> simp [h]
  have key : cxxParserMainRun env passCount input q
      = (if !bRet && passCount == 1 then RescanReason.RESCAN_FAILED else .RESCAN_NONE,
          { q with
            g_cxx := (match ({ st with pTokenChain := [] } : CXXParserState).pTemplateTokenChain
              with
              | some _ => { ({ st with pTokenChain := [] } : CXXParserState) with
                  pTemplateTokenChain := some [] }
              | none => { st with pTokenChain := [] }),
            pTemplateTokenChain :=
              if (match ({ st with pTokenChain := [] } : CXXParserState).pTemplateTokenChain
                with
                | some _ => { ({ st with pTokenChain := [] } : CXXParserState) with
                    pTemplateTokenChain := some [] }
                | none => { st with pTokenChain := [] }).pTemplateTokenChain.isSome then .live
              else .null }) := by
    unfold cxxParserMainRun
    simp only [hb]
    split <;> rfl
  rw [key]
  refine ⟨?_, ?_, hchain st, rfl⟩
  · cases bRet <;> by_cases hp : passCount = 1 <;> simp [hp]
  · cases bRet <;> by_cases hp : passCount = 1 <;> simp [hp]

/-- The run of the top-level block keeps the flag and the objects of the process. -/
theorem mainRun_objects (env : CXXCollaborators) (passCount : Nat) (input : List CXXToken)
    (x : CXXProcess) :
    (cxxParserMainRun env passCount input x).2.g_bFirstRun = x.g_bFirstRun ∧
    (cxxParserMainRun env passCount input x).2.pTokenChain = x.pTokenChain ∧
    (cxxParserMainRun env passCount input x).2.scope = x.scope ∧
    (cxxParserMainRun env passCount input x).2.tokenAPI = x.tokenAPI ∧
    ((cxxParserMainRun env passCount input x).2.g_cxx.pTemplateTokenChain.isSome = true →
      (cxxParserMainRun env passCount input x).2.pTemplateTokenChain = .live) := by
  unfold cxxParserMainRun
  simp only
  split <;> (refine ⟨rfl, rfl, rfl, rfl, ?_⟩; intro h; simp [h])

/-- The cleanup after a run destroys the chain and the scope stack and leaves the flag
`g_bFirstRun` false. -/
theorem cleanup_after_run (p : CXXProcess) (h1 : p.g_bFirstRun = false)
    (h2 : p.pTokenChain = .live) (h3 : p.scope = .live) (h4 : p.tokenAPI = .live)
    (h5 : p.g_cxx.pTemplateTokenChain.isSome = true → p.pTemplateTokenChain = .live) :
    ∃ p3, cxxParserCleanup p = .ok p3 ∧ p3.pTokenChain = .destroyed ∧
      p3.scope = .destroyed ∧ p3.g_bFirstRun = false := by
  rcases p with ⟨g, fr, tc, ttc, sc, api⟩
  simp only at h1 h2 h3 h4 h5
  subst h1 h2 h3 h4
  unfold cxxParserCleanup
  by_cases hs : g.pTemplateTokenChain.isSome = true
  · have := h5 hs
    subst this
    simp only [Bool.false_eq_true, if_false, useObject, hs, if_true]
    exact ⟨_, rfl, rfl, rfl, rfl⟩
  · simp only [Bool.false_eq_true, if_false, useObject, hs]
    exact ⟨_, rfl, rfl, rfl, rfl⟩

/-- A run of `cxxParserMain` that is not the first, on a destroyed scope stack. -/
theorem main_on_destroyed (env : CXXCollaborators) (passCount : Nat) (input : List CXXToken)
    (language : Int) (p : CXXProcess) (h1 : p.g_bFirstRun = false)
    (h3 : p.scope = .destroyed) :
    cxxParserMain env passCount input (cxxCppParserInitialize language p)
      = .error .useAfterFree := by
  rcases p with ⟨g, fr, tc, ttc, sc, api⟩
  simp only at h1 h3
  subst h1 h3
  rfl

/-! ## The recursion depth of the condenser -/

theorem upToDepth_succ (env : CXXCollaborators) (fuel T O : Nat) (st : CXXParserState) :
    cxxParserParseAndCondenseSubchainsUpToOneOfDepth env (fuel + 1) T O st =
      match cxxParserParseNextToken st with
      | (false, st1) => .ok (maskTest T CXXTokenTypeEOF, st1, 0)
      | (true, st1) =>
        cxxParserParseAndCondenseSubchainsUpToOneOfLoopDepth env fuel T O (shl4 O) 0 st1 := rfl

theorem subDepth_succ (env : CXXCollaborators) (fuel O : Nat) (a : Bool) (st : CXXParserState) :
    cxxParserParseAndCondenseCurrentSubchainDepth env (fuel + 1) O a st =
      match cxxTokenChainTakeLast st.pTokenChain with
      | none => .error .nullPointer
      | some (pInitial, pCurrentChain1) =>
        match st.pToken with
        | none => .error .nullPointer
        | some pToken =>
          match cxxParserParseAndCondenseSubchainsUpToOneOfDepth env fuel
              (subchainTerminators pToken.eType a) O
              { st with pTokenChain := cxxTokenChainAppend [] pInitial } with
          | .error e => .error e
          | .ok (bRet, st1, d) =>
            .ok (bRet, { st1 with
              pTokenChain := cxxTokenChainAppend pCurrentChain1
                (subchainMarker pToken.eType st1.pTokenChain),
              pToken := cxxTokenChainLast (cxxTokenChainAppend pCurrentChain1
                (subchainMarker pToken.eType st1.pTokenChain)) }, d + 1) := rfl

theorem loopDepth_succ (env : CXXCollaborators) (fuel T O F d0 : Nat) (st : CXXParserState) :
    cxxParserParseAndCondenseSubchainsUpToOneOfLoopDepth env (fuel + 1) T O F d0 st =
    match st.pToken with
    | none => .error .nullPointer
    | some pToken =>
      if maskTest pToken.eType T then
        .ok (true, st, d0)
      else if maskTest pToken.eType O then
        match (match (if maskTest pToken.eType CXXTokenTypeOpeningBracket
                    && cxxParserCurrentLanguageIsCPP st
                 then env.cxxParserOpeningBracketIsLambda st else none) with
          | some pParenthesis =>
            (.ok ((env.cxxParserHandleLambda pParenthesis st).1,
                 (env.cxxParserHandleLambda pParenthesis st).2, 0) :
                 Except Fault (Bool × CXXParserState × Nat))
          | none =>
            cxxParserParseAndCondenseCurrentSubchainDepth env fuel
              O (maskTest T CXXTokenTypeEOF) st) with
        | .error e => .error e
        | .ok (false, st1, d) => .ok (false, st1, max d0 d)
        | .ok (true, st1, d) =>
          match st1.pToken with
          | none => .error .nullPointer
          | some pToken1 =>
            if maskTest pToken1.eType T then
              .ok (true, st1, max d0 d)
            else
              match cxxParserParseNextToken st1 with
              | (false, st2) => .ok (maskTest T CXXTokenTypeEOF, st2, max d0 d)
              | (true, st2) =>
                cxxParserParseAndCondenseSubchainsUpToOneOfLoopDepth env fuel T O F (max d0 d) st2
      else if maskTest pToken.eType F then
        .ok (false, st, d0)
      else
        match cxxParserParseNextToken st with
        | (false, st1) => .ok (maskTest T CXXTokenTypeEOF, st1, d0)
        | (true, st1) =>
          cxxParserParseAndCondenseSubchainsUpToOneOfLoopDepth env fuel T O F d0 st1 := rfl

theorem openerCount_append (O : Nat) (xs ys : List CXXToken) :
    openerCount O (xs ++ ys) = openerCount O xs + openerCount O ys := by
  simp [openerCount]

theorem openerCount_cons (O : Nat) (t : CXXToken) (ys : List CXXToken) :
    openerCount O (t :: ys) = openerCount O ys + currentOpener O (some t) := by
  simp only [openerCount, currentOpener, List.countP_cons]

theorem condenser_depth (env : CXXCollaborators) (fuel : Nat) :
    (∀ T O st b st', LambdaFree env st →
      cxxParserParseAndCondenseSubchainsUpToOneOf env fuel T O st = .ok (b, st') →
      ∃ d pre, cxxParserParseAndCondenseSubchainsUpToOneOfDepth env fuel T O st
          = .ok (b, st', d) ∧
        st.input = pre ++ st'.input ∧ d ≤ openerCount O pre) ∧
    (∀ T O F d0 st b st', LambdaFree env st →
      cxxParserParseAndCondenseSubchainsUpToOneOfLoop env fuel T O F st = .ok (b, st') →
      ∃ d pre, cxxParserParseAndCondenseSubchainsUpToOneOfLoopDepth env fuel T O F d0 st
          = .ok (b, st', d) ∧
        st.input = pre ++ st'.input ∧
        d ≤ max d0 (currentOpener O st.pToken + openerCount O pre)) ∧
    (∀ O a st b st', LambdaFree env st →
      cxxParserParseAndCondenseCurrentSubchain env fuel O a st = .ok (b, st') →
      ∃ d pre, cxxParserParseAndCondenseCurrentSubchainDepth env fuel O a st
          = .ok (b, st', d) ∧
        st.input = pre ++ st'.input ∧ d ≤ 1 + openerCount O pre) := by
  induction fuel with
  | zero => refine ⟨?_, ?_, ?_⟩ <;> intros <;> rename_i h <;> cases h
  | succ n ih =>
    obtain ⟨ihU, ihL, ihS⟩ := ih
    have hnext : ∀ T O F d0 (st : CXXParserState) b st', LambdaFree env st →
        (match cxxParserParseNextToken st with
          | (false, st1) => Except.ok (maskTest T CXXTokenTypeEOF, st1)
          | (true, st1) =>
            cxxParserParseAndCondenseSubchainsUpToOneOfLoop env n T O F st1) = .ok (b, st') →
        ∃ d pre, (match cxxParserParseNextToken st with
          | (false, st1) => Except.ok (maskTest T CXXTokenTypeEOF, st1, d0)
          | (true, st1) =>
            cxxParserParseAndCondenseSubchainsUpToOneOfLoopDepth env n T O F d0 st1)
            = .ok (b, st', d) ∧
          st.input = pre ++ st'.input ∧ d ≤ max d0 (openerCount O pre) := by
      intro T O F d0 st b st' hC h
      cases hi : st.input with
      | nil =>
        rw [parseNext_nil st hi] at h ⊢
        simp only [Except.ok.injEq, Prod.mk.injEq] at h
        obtain ⟨hb, hst⟩ := h
        subst hst; subst hb
        exact ⟨d0, [], rfl, by simp, by simp⟩
      | cons t rest =>
        rw [parseNext_cons st t rest hi] at h ⊢
        obtain ⟨d, pre, h1, h2, h3⟩ := ihL T O F d0 _ b st' ((lambdaFree_frame env st _ _ _).mpr hC) h
        refine ⟨d, t :: pre, h1, ?_, ?_⟩
        · simp only [frame_input] at h2
          simp [h2]
        · simp only [frame_pToken] at h3
          rw [openerCount_cons]
          omega
    refine ⟨?_, ?_, ?_⟩
    · intro T O st b st' hC h
      rw [upTo_succ] at h
      rw [upToDepth_succ]
      obtain ⟨d, pre, h1, h2, h3⟩ := hnext T O _ 0 st b st' hC h
      exact ⟨d, pre, h1, h2, by simpa using h3⟩
    · intro T O F d0 st b st' hC h
      rw [loop_succ] at h
      rw [loopDepth_succ]
      cases hp : st.pToken with
      | none => rw [hp] at h; cases h
      | some t0 =>
        rw [hp] at h
        simp only at h ⊢
        by_cases h1 : maskTest t0.eType T = true
        · simp only [h1, if_true, Except.ok.injEq, Prod.mk.injEq] at h ⊢
          obtain ⟨hb, hst⟩ := h
          subst hst; subst hb
          exact ⟨d0, [], ⟨rfl, rfl, rfl⟩, by simp, by simp⟩
        · simp only [h1, if_false, Bool.false_eq_true] at h ⊢
          by_cases h2 : maskTest t0.eType O = true
          · simp only [h2, if_true] at h ⊢
            rw [openerStep_cmode env n O _ t0 st hC] at h
            have hl : (if (maskTest t0.eType CXXTokenTypeOpeningBracket
                    && cxxParserCurrentLanguageIsCPP st) = true
                 then env.cxxParserOpeningBracketIsLambda st else none) = none := by
              rcases hC with hC | hC
              · simp [hC]
              · simp [hC]
            rw [hl]
            simp only
            cases hs : cxxParserParseAndCondenseCurrentSubchain env n O
                (maskTest T CXXTokenTypeEOF) st with
            | error e => rw [hs] at h; cases h
            | ok r =>
              obtain ⟨b1, st1⟩ := r
              obtain ⟨d1, pre1, hs1, hs2, hs3⟩ := ihS O _ st b1 st1 hC hs
              rw [hs] at h
              rw [hs1]
              have hcur : currentOpener O (some t0) = 1 := by simp [currentOpener, h2]
              cases b1 with
              | false =>
                simp only [Except.ok.injEq, Prod.mk.injEq] at h ⊢
                obtain ⟨hb, hst⟩ := h
                subst hst; subst hb
                refine ⟨max d0 d1, pre1, ⟨rfl, rfl, rfl⟩, hs2, ?_⟩
                rw [hcur]; omega
              | true =>
                simp only at h ⊢
                cases hp1 : st1.pToken with
                | none => rw [hp1] at h; cases h
                | some t1 =>
                  rw [hp1] at h
                  simp only at h ⊢
                  by_cases h3 : maskTest t1.eType T = true
                  · simp only [h3, if_true, Except.ok.injEq, Prod.mk.injEq] at h ⊢
                    obtain ⟨hb, hst⟩ := h
                    subst hst; subst hb
                    refine ⟨max d0 d1, pre1, ⟨rfl, rfl, rfl⟩, hs2, ?_⟩
                    rw [hcur]; omega
                  · simp only [h3, if_false, Bool.false_eq_true] at h ⊢
                    have hC1 : LambdaFree env st1 := by
                      obtain ⟨c, tok, i, hfr, -⟩ := (condenser_frame env n).2.2 O _ st true st1 hC hs
                      rw [hfr]; exact (lambdaFree_frame env st _ _ _).mpr hC
                    obtain ⟨d, pre, k1, k2, k3⟩ := hnext T O F (max d0 d1) st1 b st' hC1 h
                    refine ⟨d, pre1 ++ pre, k1, ?_, ?_⟩
                    · rw [hs2, k2, List.append_assoc]
                    · rw [hcur, openerCount_append]; omega
          · simp only [h2, if_false, Bool.false_eq_true] at h ⊢
            by_cases h3 : maskTest t0.eType F = true
            · simp only [h3, if_true, Except.ok.injEq, Prod.mk.injEq] at h ⊢
              obtain ⟨hb, hst⟩ := h
              subst hst; subst hb
              exact ⟨d0, [], ⟨rfl, rfl, rfl⟩, by simp, by simp⟩
            · simp only [h3, if_false, Bool.false_eq_true] at h ⊢
              obtain ⟨d, pre, k1, k2, k3⟩ := hnext T O F d0 st b st' hC h
              refine ⟨d, pre, k1, k2, ?_⟩
              omega
    · intro O a st b st' hC h
      rw [sub_succ] at h
      rw [subDepth_succ]
      cases hc : cxxTokenChainTakeLast st.pTokenChain with
      | none => rw [hc] at h; cases h
      | some pr =>
        obtain ⟨pInitial, c1⟩ := pr
        rw [hc] at h
        simp only at h ⊢
        cases hp : st.pToken with
        | none => rw [hp] at h; cases h
        | some t0 =>
          rw [hp] at h
          simp only at h ⊢
          cases hu : cxxParserParseAndCondenseSubchainsUpToOneOf env n
              (subchainTerminators t0.eType a) O
              { st with pTokenChain := cxxTokenChainAppend [] pInitial, pToken := some t0 } with
          | error e => rw [hu] at h; cases h
          | ok r =>
            obtain ⟨b1, st1⟩ := r
            have hC0 : LambdaFree env
                { st with pTokenChain := cxxTokenChainAppend [] pInitial, pToken := some t0 } := hC
            obtain ⟨d1, pre1, hs1, hs2, hs3⟩ := ihU _ O _ b1 st1 hC0 hu
            rw [hu] at h
            rw [hs1]
            simp only [Except.ok.injEq, Prod.mk.injEq] at h ⊢
            obtain ⟨hb, hst⟩ := h
            subst hst; subst hb
            refine ⟨d1 + 1, pre1, ⟨rfl, rfl, rfl⟩, hs2, ?_⟩
            omega

/-- On the tokens `f ( [ ] ) ;` the recursion reaches depth two, the number of openers. -/
theorem condenser_depth_example :
    (match cxxParserParseAndCondenseSubchainsUpToOneOfDepth idleCollaborators 19
        CXXTokenTypeSemicolon defaultOpeners
        (startState [tokIdentifier "f", tokOpeningParenthesis, tokOpeningSquareParenthesis,
          tokClosingSquareParenthesis, tokClosingParenthesis, tokSemicolon]) with
      | .ok (b, _, d) => b && d == 2
      | .error _ => false) = true := by
  decide!

end CXX

/-! ## The Swift lexer and parser -/

namespace Swift

theorem skipBlanks_spec (input : List Char) : ∀ n0 : Nat,
    n0 < (skipBlanks n0 input).1 ∧
    (skipBlanks n0 input).2.2.length + (skipBlanks n0 input).1
      = input.length + n0 + (if (skipBlanks n0 input).2.1 = none then 1 else 0) ∧
    ((skipBlanks n0 input).2.1 = none → (skipBlanks n0 input).2.2 = []) := by
  induction input with
  | nil => intro n0; simp [skipBlanks]
  | cons c rest ih =>
    intro n0
    unfold skipBlanks
    split
    · obtain ⟨h1, h2, h3⟩ := ih (n0 + 1)
      refine ⟨by omega, ?_, h3⟩
      rw [h2]
      simp only [List.length_cons]
      omega
    · simp
      omega

theorem skipLineComment_length (input : List Char) :
    (skipLineComment input).length ≤ input.length := by
  induction input with
  | nil => simp [skipLineComment]
  | cons d rest ih =>
    unfold skipLineComment
    split
    · simp
    · simp only [List.length_cons]; omega

theorem skipBlockComment_length : ∀ (k : Nat) (input : List Char), input.length ≤ k →
    ∀ depth, (skipBlockComment depth input).length ≤ input.length := by
  intro k
  induction k with
  | zero =>
    intro input h depth
    cases input with
    | nil => simp [skipBlockComment]
    | cons _ _ => simp at h
  | succ k ih =>
    intro input h depth
    match input with
    | [] => simp [skipBlockComment]
    | [d] => unfold skipBlockComment; split <;> simp
    | d :: d2 :: rest2 =>
      simp only [List.length_cons] at h
      have e1 := fun dp => ih rest2 (by omega) dp
      have e2 := fun dp => ih (d2 :: rest2) (by simp only [List.length_cons]; omega) dp
      simp only [List.length_cons] at e2
      have f1 := e1 (depth - 1)
      have f2 := e1 (depth + 1)
      have f3 := e1 depth
      have f4 := e2 depth
      unfold skipBlockComment
      simp only [List.length_cons]
      repeat' split
      all_goals first
        | omega
        | (simp only [List.length_cons]; omega)

theorem readString_length (delimiter : Char) (input : List Char) :
    ∀ (string : String) (escaped : Bool),
    (readString string delimiter escaped input).2.length ≤ input.length := by
  induction input with
  | nil => intro s e; simp [readString]
  | cons c rest ih =>
    intro s e
    unfold readString
    repeat' split
    all_goals
      (simp only [List.length_cons]; have := ih (s.push c) false; have := ih s true; omega)

theorem readIdentifierLoop_length (input : List Char) : ∀ (string : String),
    (readIdentifierLoop string input).2.length ≤ input.length := by
  induction input with
  | nil => intro s; simp [readIdentifierLoop]
  | cons c rest ih =>
    intro s
    unfold readIdentifierLoop
    repeat' split
    all_goals
      (simp only [List.length_cons]; have := ih (s.push c); omega)

theorem readIdentifier_length (string : String) (c : Char) (input : List Char) :
    (readIdentifier string c input).2.length ≤ input.length := by
  unfold readIdentifier
  split
  · cases input with
    | nil => simp [readIdentifierLoop]
    | cons d rest =>
      have := readIdentifierLoop_length rest (string.push d)
      simp only [List.length_cons]
      omega
  · exact readIdentifierLoop_length _ _

theorem readNumber_length (input : List Char) : ∀ (string : String) (type : tokenType)
    (c : Char), (readNumber string type c input).2.2.length ≤ input.length := by
  induction input with
  | nil => intro s t c; simp [readNumber]
  | cons d rest ih =>
    intro s t c
    unfold readNumber
    repeat' split
    all_goals
      (simp only [List.length_cons]; have := ih (s.push d) .TOKEN_REAL d;
       have := ih (s.push d) t d; omega)

theorem ungetc_length (c : Option Char) (input : List Char) :
    (ungetcToInputFile c input).length ≤ input.length + 1 := by
  cases c <;> simp [ungetcToInputFile]

theorem skipEmptyLines_total (fuel : Nat) : ∀ (c : Char) (input : List Char),
    input.length + 1 ≤ fuel →
    ∃ out, skipEmptyLines fuel c input = .ok out ∧ out.length ≤ input.length := by
  induction fuel with
  | zero => intro c input h; omega
  | succ n ih =>
    intro c input h
    unfold skipEmptyLines
    have h1 : ∀ i1 : List Char, i1.length ≤ input.length →
        ∃ out, (match skipBlanks 0 i1 with
          | (_, some c2, input2) =>
            if (c2 == '\r' || c2 == '\n') = true then skipEmptyLines n c2 input2
            else Except.ok (ungetcToInputFile (some c2) input2)
          | (_, none, input2) => Except.ok (ungetcToInputFile none input2))
          = .ok out ∧ out.length ≤ input.length := by
      intro i1 hi1
      obtain ⟨k1, k2, k3⟩ := skipBlanks_spec i1 0
      rcases hs : skipBlanks 0 i1 with ⟨n1, c2, input2⟩
      rw [hs] at k1 k2 k3
      simp only at k1 k2 k3
      cases c2 with
      | none =>
        simp only [ungetcToInputFile]
        refine ⟨_, rfl, ?_⟩
        rw [k3 rfl]
        simp
      | some c2 =>
        simp only [reduceCtorEq, if_false] at k2
        simp only
        split
        · obtain ⟨out, ho, hl⟩ := ih c2 input2 (by omega)
          exact ⟨out, ho, by omega⟩
        · refine ⟨_, rfl, ?_⟩
          simp only [ungetcToInputFile, List.length_cons]
          omega
    apply h1
    split
    · cases input with
      | nil => simp [getcFromInputFile, ungetcToInputFile]
      | cons d rest =>
        simp only [getcFromInputFile]
        split
        · simp [ungetcToInputFile]
        · simp
    · exact le_refl _


theorem readTokenFull_total (fuel : Nat) : ∀ (inclWhitespaces : Bool) (input : List Char),
    input.length + 1 ≤ fuel →
    ∃ t out, readTokenFull fuel inclWhitespaces input = .ok (t, out) ∧
      out.length ≤ input.length ∧ (t.type ≠ .TOKEN_EOF → out.length < input.length) := by
  induction fuel with
  | zero => intro b input h; omega
  | succ n ih =>
    intro b input h
    unfold readTokenFull
    obtain ⟨k1, k2, k3⟩ := skipBlanks_spec input 0
    rcases hs : skipBlanks 0 input with ⟨n1, c, rest⟩
    rw [hs] at k1 k2 k3
    simp only at k1 k2 k3 ⊢
    split
    · rename_i hw
      simp only [Bool.and_eq_true, decide_eq_true_eq] at hw
      refine ⟨_, _, rfl, ?_, ?_⟩
      · have := ungetc_length c rest
        cases c with
        | none => simp only [ungetcToInputFile]; simp only [if_true] at k2; omega
        | some c => simp only [ungetcToInputFile, List.length_cons];
                    simp only [reduceCtorEq, if_false] at k2; omega
      · intro _
        cases c with
        | none => simp only [ungetcToInputFile]; simp only [if_true] at k2; omega
        | some c => simp only [ungetcToInputFile, List.length_cons];
                    simp only [reduceCtorEq, if_false] at k2; omega
    · cases c with
      | none =>
        simp only [if_true] at k2
        exact ⟨_, _, rfl, by omega, by simp⟩
      | some c =>
        simp only [reduceCtorEq, if_false] at k2
        have hr : rest.length + 1 ≤ input.length := by omega
        simp only
        have hget : ∀ d r, getcFromInputFile rest = (d, r) →
            (ungetcToInputFile d r).length ≤ rest.length ∧ r.length ≤ rest.length := by
          intro d r hg
          cases rest with
          | nil =>
            simp only [getcFromInputFile, Prod.mk.injEq] at hg
            obtain ⟨rfl, rfl⟩ := hg
            simp [ungetcToInputFile]
          | cons x xs =>
            simp only [getcFromInputFile, Prod.mk.injEq] at hg
            obtain ⟨rfl, rfl⟩ := hg
            simp [ungetcToInputFile]
        split
        · rcases hg : getcFromInputFile rest with ⟨d, r⟩
          obtain ⟨g1, g2⟩ := hget d r hg
          simp only
          split
          · exact ⟨_, _, rfl, by omega, fun _ => by omega⟩
          · exact ⟨_, _, rfl, by omega, fun _ => by omega⟩
        · split
          · rcases hq : readString (String.push "" c) c false rest with ⟨str, r⟩
            have := readString_length c rest (String.push "" c) false
            rw [hq] at this
            simp only at this ⊢
            exact ⟨_, _, rfl, by omega, fun _ => by omega⟩
          · split
            · rcases hg : getcFromInputFile rest with ⟨d, r⟩
              obtain ⟨g1, g2⟩ := hget d r hg
              simp only
              split
              · have := skipLineComment_length r
                obtain ⟨t, out, e1, e2, e3⟩ := ih b (skipLineComment r) (by omega)
                exact ⟨t, out, e1, by omega, fun _ => by omega⟩
              · split
                · have := skipBlockComment_length r.length r (le_refl _) 1
                  obtain ⟨t, out, e1, e2, e3⟩ := ih b (skipBlockComment 1 r) (by omega)
                  exact ⟨t, out, e1, by omega, fun _ => by omega⟩
                · exact ⟨_, _, rfl, by omega, fun _ => by omega⟩
            · split
              · obtain ⟨out, e1, e2⟩ := skipEmptyLines_total n c rest (by omega)
                rw [e1]
                exact ⟨_, _, rfl, by omega, fun _ => by omega⟩
              · split
                · rcases hg : getcFromInputFile rest with ⟨d, r⟩
                  obtain ⟨g1, g2⟩ := hget d r hg
                  simp only
                  split
                  · exact ⟨_, _, rfl, by omega, fun _ => by omega⟩
                  · rcases hq : readNumber (String.push "" c)
                        (if (c == '.') = true then tokenType.TOKEN_REAL
                          else tokenType.TOKEN_INTEGER) c (ungetcToInputFile d r)
                      with ⟨str, ty, r2⟩
                    have := readNumber_length (ungetcToInputFile d r) (String.push "" c)
                        (if (c == '.') = true then tokenType.TOKEN_REAL
                          else tokenType.TOKEN_INTEGER) c
                    rw [hq] at this
                    simp only at this ⊢
                    exact ⟨_, _, rfl, by omega, fun _ => by omega⟩
                · split
                  · exact ⟨_, _, rfl, by omega, fun _ => by omega⟩
                  · rcases hq : readIdentifier "" c rest with ⟨str, r⟩
                    have := readIdentifier_length "" c rest
                    rw [hq] at this
                    simp only at this ⊢
                    split
                    · exact ⟨_, _, rfl, by omega, fun _ => by omega⟩
                    · exact ⟨_, _, rfl, by omega, fun _ => by omega⟩

theorem readsFrom_refl (st : SwiftState) : ReadsFrom st st := ⟨rfl, rfl, le_refl _⟩

theorem readsFrom_trans {a b c : SwiftState} (h1 : ReadsFrom a b) (h2 : ReadsFrom b c) :
    ReadsFrom a c :=
  ⟨h2.1.trans h1.1, h2.2.1.trans h1.2.1, le_trans h2.2.2 h1.2.2⟩

theorem readToken_total (st : SwiftState) :
    ∃ t st1, readToken st = .ok (t, st1) ∧ ReadsFrom st st1 ∧
      (t.type ≠ .TOKEN_EOF → st1.input.length < st.input.length) := by
  obtain ⟨t, out, h1, h2, h3⟩ := readTokenFull_total (st.input.length + 1) false st.input
    (le_refl _)
  unfold readToken
  rw [h1]
  exact ⟨t, _, rfl, ⟨rfl, rfl, h2⟩, h3⟩

theorem readToken_readsFrom {st st1 : SwiftState} {t : tokenInfo}
    (h : readToken st = .ok (t, st1)) :
    ReadsFrom st st1 ∧ (t.type ≠ .TOKEN_EOF → st1.input.length < st.input.length) := by
  obtain ⟨t', st', h1, h2, h3⟩ := readToken_total st
  rw [h1] at h
  simp only [Except.ok.injEq, Prod.mk.injEq] at h
  obtain ⟨rfl, rfl⟩ := h
  exact ⟨h2, h3⟩

theorem readIf_total (b : Bool) (token : tokenInfo) (st : SwiftState) :
    ∃ t st1, (if b then readToken st else .ok (token, st)) = .ok (t, st1) ∧
      ReadsFrom st st1 ∧ (b = false → t = token ∧ st1 = st) ∧
      (b = true → t.type ≠ .TOKEN_EOF → st1.input.length < st.input.length) := by
  cases b with
  | false =>
    exact ⟨token, st, rfl, readsFrom_refl st, fun _ => ⟨rfl, rfl⟩, fun h => Bool.noConfusion h⟩
  | true =>
    obtain ⟨t, st1, h1, h2, h3⟩ := readToken_total st
    exact ⟨t, st1, by simpa using h1, h2, fun h => Bool.noConfusion h, fun _ => h3⟩

theorem skipOverPairLoop_total (fuel : Nat) : ∀ (tOpen tClose : tokenType)
    (repr : Option String) (reprOuterPair : Bool) (depth : Nat) (st : SwiftState),
    st.input.length + 1 ≤ fuel →
    ∃ t r st1, skipOverPairLoop fuel tOpen tClose repr reprOuterPair depth st
        = .ok (t, r, st1) ∧ ReadsFrom st st1 ∧
      (t.type ≠ .TOKEN_EOF → st1.input.length < st.input.length) ∧
      (repr.isSome = r.isSome) := by
  induction fuel with
  | zero => intros; omega
  | succ n ih =>
    intro tOpen tClose repr rop depth st h
    unfold skipOverPairLoop
    obtain ⟨t, out, h1, h2, h3⟩ := readTokenFull_total (st.input.length + 1) true st.input
      (le_refl _)
    rw [h1]
    simp only
    have key : ∀ (repr1 : Option String) (depth1 : Nat), repr.isSome = repr1.isSome →
        ∃ t2 r st1,
          (if (t.type != .TOKEN_EOF && decide (depth1 > 0)) = true then
            skipOverPairLoop n tOpen tClose repr1 rop depth1 { st with input := out }
          else .ok (t, repr1, { st with input := out })) = .ok (t2, r, st1) ∧
          ReadsFrom st st1 ∧
          (t2.type ≠ .TOKEN_EOF → st1.input.length < st.input.length) ∧
          (repr.isSome = r.isSome) := by
      intro repr1 depth1 hsome
      by_cases hc : (t.type != .TOKEN_EOF && decide (depth1 > 0)) = true
      · rw [if_pos hc]
        simp only [Bool.and_eq_true, bne_iff_ne, ne_eq, decide_eq_true_eq] at hc
        have hlt := h3 hc.1
        obtain ⟨t2, r2, st2, e1, e2, e3, e4⟩ := ih tOpen tClose repr1 rop depth1
          { st with input := out } (by simp only; omega)
        refine ⟨t2, r2, st2, e1, ⟨e2.1, e2.2.1, ?_⟩, ?_, ?_⟩
        · have := e2.2.2; simp only at this; omega
        · intro _; have := e2.2.2; simp only at this; omega
        · rw [hsome, e4]
      · rw [if_neg hc]
        exact ⟨t, _, _, rfl, ⟨rfl, rfl, h2⟩, h3, hsome⟩
    exact key _ _ (by split <;> simp)

theorem skipOverPair_total (fuel : Nat) (token : tokenInfo) (tOpen tClose : tokenType)
    (repr : Option String) (reprOuterPair : Bool) (st : SwiftState)
    (h : st.input.length + 1 ≤ fuel) :
    ∃ b t r st1, skipOverPair fuel token tOpen tClose repr reprOuterPair st
        = .ok (b, t, r, st1) ∧ ReadsFrom st st1 ∧
      (token.type = tOpen → t.type ≠ .TOKEN_EOF → st1.input.length < st.input.length) ∧
      (token.type ≠ tOpen → t = token ∧ st1 = st) ∧
      (repr.isSome = r.isSome) := by
  unfold skipOverPair
  split
  · rename_i ho
    obtain ⟨t, r, st1, e1, e2, e3, e4⟩ := skipOverPairLoop_total fuel tOpen tClose
      (if reprOuterPair = true then Option.map (fun r => reprCat r token) repr else repr)
      reprOuterPair 1 st h
    rw [e1]
    refine ⟨_, t, r, st1, rfl, e2, fun _ => e3, fun hn => absurd ho hn, ?_⟩
    rw [← e4]; split <;> simp
  · rename_i ho
    exact ⟨_, token, repr, st, rfl, readsFrom_refl st, fun hn => absurd hn ho,
      fun _ => ⟨rfl, rfl⟩, rfl⟩

theorem readType_total (fuel : Nat) : ∀ (token : tokenInfo) (st : SwiftState),
    st.input.length + 2 ≤ fuel →
    ∃ readNext t type st1, readType fuel token st = .ok (readNext, t, type, st1) ∧
      ReadsFrom st st1 := by
  induction fuel with
  | zero => intros; omega
  | succ n ih =>
    intro token st h
    unfold readType
    have tail : ∀ (first : Except CXX.Fault (Bool × tokenInfo × Option String × SwiftState)),
        (∃ readNext token1 type1 st1, first = .ok (readNext, token1, type1, st1) ∧
          ReadsFrom st st1) →
        ∃ (rn : Bool) (t : tokenInfo) (type : Option String) (st2 : SwiftState),
          (match first with
            | Except.error e =>
              (Except.error e : Except CXX.Fault (Bool × tokenInfo × Option String × SwiftState))
            | Except.ok (readNext, token1, type1, st1) =>
              match (if readNext = true then readToken st1 else Except.ok (token1, st1)) with
              | Except.error e => Except.error e
              | Except.ok (token2, st2) =>
                match type1 with
                | some t =>
                  if token2.type = tokenType.byte '?' then
                    Except.ok (readNext, token2, some (t.push '?'), st2)
                  else if token2.type = tokenType.byte '!' then
                    Except.ok (readNext, token2, some (t.push '!'), st2)
                  else Except.ok (false, token2, type1, st2)
                | none => Except.ok (false, token2, type1, st2)) = .ok (rn, t, type, st2) ∧
          ReadsFrom st st2 := by
      rintro first ⟨readNext, token1, type1, st1, rfl, hr⟩
      obtain ⟨t2, st2, e1, e2, -⟩ := readIf_total readNext token1 st1
      simp only
      rw [e1]
      simp only
      have hr2 := readsFrom_trans hr e2
      cases type1 with
      | none => exact ⟨_, _, _, _, rfl, hr2⟩
      | some ty =>
        simp only
        split
        · exact ⟨_, _, _, _, rfl, hr2⟩
        · split
          · exact ⟨_, _, _, _, rfl, hr2⟩
          · exact ⟨_, _, _, _, rfl, hr2⟩
    apply tail
    split
    · rename_i hopen
      obtain ⟨b, t1, ty1, st1, e1, e2, e3, -, -⟩ := skipOverPair_total n token (.byte '(')
        (.byte ')') (some "") true st (by omega)
      rw [e1]
      simp only
      obtain ⟨t2, st2, f1, f2, f3, f4⟩ := readIf_total b t1 st1
      rw [f1]
      simp only
      split
      · exact ⟨_, _, _, _, rfl, readsFrom_trans e2 f2⟩
      · rename_i harrow
        simp only [bne_iff_ne, ne_eq, Decidable.not_not] at harrow
        have hne : t2.type ≠ .TOKEN_EOF := by rw [harrow]; simp
        have hlt : st2.input.length < st.input.length := by
          cases b with
          | true => have := f4 rfl hne; have := e2.2.2; omega
          | false =>
            obtain ⟨rfl, rfl⟩ := f3 rfl
            exact e3 hopen hne
        obtain ⟨t3, st3, g1, g2, -⟩ := readToken_total st2
        rw [g1]
        simp only
        obtain ⟨rn, t4, sub, st4, k1, k2⟩ := ih t3 st3 (by have := g2.2.2; omega)
        rw [k1]
        exact ⟨_, _, _, _, rfl,
          readsFrom_trans (readsFrom_trans (readsFrom_trans e2 f2) g2) k2⟩
    · split
      · exact ⟨_, _, _, _, rfl, readsFrom_refl st⟩
      · obtain ⟨t1, st1, g1, g2, -⟩ := readToken_total st
        rw [g1]
        exact ⟨_, _, _, _, rfl, g2⟩

theorem initSwiftEntry_readsFrom {st st1 : SwiftState} (h : ReadsFrom st st1)
    (token : tokenInfo) (kind : swiftKind) :
    initSwiftEntry st1 token kind = initSwiftEntry st token kind := by
  unfold initSwiftEntry getEntryOfNestingLevel getEntryInCorkQueue
  rw [h.1, h.2.1]

theorem makeVariableTag_enabled (name : tokenInfo) (kind : swiftKind) (type : Option String)
    (st : SwiftState) (h : (SwiftKinds kind).enabled = true) :
    makeVariableTag name kind type st =
      (st.corkQueue.length + 1,
        { st with corkQueue :=
            st.corkQueue ++ [{ initSwiftEntry st name kind with typeRef := type }] }) := by
  unfold makeVariableTag makeTagEntry
  rw [if_pos h]

theorem enterScopeVariable_declares (fuel : Nat) (corkIndex : Nat)
    (token : tokenInfo) (st : SwiftState) (name : tokenInfo) (st1 : SwiftState)
    (hr : readToken st = .ok (name, st1)) (hn : name.type = .TOKEN_IDENTIFIER)
    (hf : st.input.length + 2 ≤ fuel) :
    ∃ readNext token1 type st4, ReadsFrom st st4 ∧
      ∀ isIf, enterScopeVariable fuel isIf corkIndex token st =
        .ok (readNext,
          if isIf then CORK_NIL
          else (makeVariableTag name
            (if token.keyword = .KEYWORD_let then .K_CONSTANT else .K_VARIABLE) type st4).1,
          token1,
          (makeVariableTag name
            (if token.keyword = .KEYWORD_let then .K_CONSTANT else .K_VARIABLE) type st4).2) := by
  obtain ⟨h1, -⟩ := readToken_readsFrom hr
  obtain ⟨t2, st2, g1, g2, -⟩ := readToken_total st1
  have htyped : ∃ (readNext : Bool) (token4 : tokenInfo) (type : Option String)
      (st4 : SwiftState),
      (if t2.type = tokenType.byte ':' then
          match readToken st2 with
          | Except.error e =>
            (Except.error e : Except CXX.Fault (Bool × tokenInfo × Option String × SwiftState))
          | Except.ok (token3, st3) => readType fuel token3 st3
        else Except.ok (false, t2, none, st2)) = .ok (readNext, token4, type, st4) ∧
      ReadsFrom st st4 := by
    split
    · obtain ⟨t3, st3, k1, k2, -⟩ := readToken_total st2
      rw [k1]
      simp only
      obtain ⟨rn, t4, ty, st4, e1, e2⟩ := readType_total fuel t3 st3
        (by have := h1.2.2; have := g2.2.2; have := k2.2.2; omega)
      exact ⟨rn, t4, ty, st4, e1,
        readsFrom_trans (readsFrom_trans (readsFrom_trans h1 g2) k2) e2⟩
    · exact ⟨_, _, _, _, rfl, readsFrom_trans h1 g2⟩
  obtain ⟨readNext, token4, type, st4, e1, e2⟩ := htyped
  refine ⟨readNext, token4, type, st4, e2, fun isIf => ?_⟩
  unfold enterScopeVariable
  simp only [hr, hn, if_true, g1]
  have key : ∀ (typed : Except CXX.Fault (Bool × tokenInfo × Option String × SwiftState)),
      typed = .ok (readNext, token4, type, st4) →
        (match typed with
          | Except.error e =>
            (Except.error e : Except CXX.Fault (Bool × Nat × tokenInfo × SwiftState))
          | Except.ok (readNext, token4, type, st4) =>
            match makeVariableTag name
                (if token.keyword = keywordId.KEYWORD_let then swiftKind.K_CONSTANT
                  else swiftKind.K_VARIABLE)
                type st4 with
            | (corkIndex1, st5) =>
              Except.ok (readNext, if isIf = true then CORK_NIL else corkIndex1, token4, st5))
          = .ok (readNext,
            if isIf = true then CORK_NIL
            else (makeVariableTag name
              (if token.keyword = keywordId.KEYWORD_let then swiftKind.K_CONSTANT
                  else swiftKind.K_VARIABLE)
              type st4).1,
            token4,
            (makeVariableTag name
              (if token.keyword = keywordId.KEYWORD_let then swiftKind.K_CONSTANT
                  else swiftKind.K_VARIABLE)
              type st4).2) := by
    rintro typed rfl
    rfl
  exact key _ e1

/-- A block that follows a tagged declaration is parsed with the level of that tag
as the current nesting level, and the level is popped at its end. -/
theorem enterScopeLoop_block (fuel : Nat) (root : Bool) (corkIndex : Nat)
    (token : tokenInfo) (st : SwiftState)
    (ht : token.type = .byte '\x7b') (hk : token.keyword = .KEYWORD_NONE)
    (hc : corkIndex ≠ CORK_NIL) :
    enterScopeLoop (fuel + 1) root corkIndex token st =
      match enterScope fuel false corkIndex
          { st with SwiftNestingLevels := nestingLevelsPush st.SwiftNestingLevels corkIndex } with
      | .error e => .error e
      | .ok (token2, st2) =>
        match (if token2.type != .TOKEN_EOF then
            readToken { st2 with SwiftNestingLevels := nestingLevelsPop st2.SwiftNestingLevels }
          else .ok (token2,
            { st2 with SwiftNestingLevels := nestingLevelsPop st2.SwiftNestingLevels })) with
        | .error e => .error e
        | .ok (token3, st3) => enterScopeLoop fuel root CORK_NIL token3 st3 := by
  rw [enterScopeLoop]
  simp [ht, hk, hc]
  cases enterScope fuel false corkIndex
      { st with SwiftNestingLevels := nestingLevelsPush st.SwiftNestingLevels corkIndex } with
  | error e => rfl
  | ok r =>
    obtain ⟨t2, s2⟩ := r
    by_cases h : t2.type = .TOKEN_EOF <;> simp [h]

/-- The kinds of the tags of `kindsExampleFile`: member in the class, local variable in
the function, variable at top level, and constant for every `let`. -/
theorem kinds_example :
    (match findSwiftTags 80 kindsExampleFile with
      | .ok q => decide (tagKinds q = [("A", .K_CLASS), ("x", .K_MEMBER), ("k", .K_CONSTANT),
          ("f", .K_FUNCTION), ("y", .K_LOCAL_VARIABLE), ("z", .K_CONSTANT),
          ("t", .K_VARIABLE), ("c", .K_CONSTANT)])
      | .error _ => false) = true := by
  decide!

end Swift

namespace CXX

/-! ## Claims C21-C29: statements, typedefs, entry points and termination -/

/-! ## The claim on rejected statements -/

/-- C21: when the chain has fewer than 2 tokens, when SeenReturn is set, or when the
first token of the chain is neither an identifier nor a keyword,
`cxxParserAnalyzeOtherStatement` returns and leaves the state as it is, whatever the
collaborators are: no tag, no call of the function-signature scanner and no call of the
variable extractor. -/
theorem c21_rejected_statements (env : CXXCollaborators) (fenv : CXXFunctionCollaborators)
    (st : CXXParserState)
    (h : st.pTokenChain.length < 2 ∨
      maskTest st.uKeywordState CXXParserKeywordStateSeenReturn = true ∨
      ∃ t, st.pTokenChain.head? = some t ∧
        maskTest t.eType (CXXTokenTypeIdentifier ||| CXXTokenTypeKeyword) = false) :
    cxxParserAnalyzeOtherStatement env fenv st = .ok st := by
  unfold cxxParserAnalyzeOtherStatement
  by_cases h1 : st.pTokenChain.length < 2
  · simp only [h1, if_true]
  · simp only [h1, if_false]
    by_cases h2 : maskTest st.uKeywordState CXXParserKeywordStateSeenReturn = true
    · simp only [h2, if_true]
    · simp only [h2, if_false]
      rcases h with h | h | ⟨t, ht, h3⟩
      · exact absurd h h1
      · exact absurd h h2
      · simp [cxxTokenChainFirst, ht, h3]

/-- Witness of C21 on the statement `+ x ;`, which starts with an operator. -/
theorem c21_rejected_statements_witness :
    cxxParserAnalyzeOtherStatement idleCollaborators idleFunctionCollaborators
        (statementState [lexerToken CXXTokenTypeOperator "+", tokIdentifier "x", tokSemicolon] [])
      = .ok (statementState [lexerToken CXXTokenTypeOperator "+", tokIdentifier "x",
          tokSemicolon] []) :=
  c21_rejected_statements idleCollaborators idleFunctionCollaborators _
    (Or.inr (Or.inr ⟨lexerToken CXXTokenTypeOperator "+", rfl, by decide⟩))

/-! ## The claim on prototypes and variables -/

/-- C22: for every statement `cxxParserAnalyzeOtherStatement` returns, and the calls
it makes are one of: none; the scanner alone; the scanner and then the emitter of
function tags, asked for the kind prototype; the scanner and then the variable
extractor; the variable extractor alone: never both the emitter and the extractor.
When the statement passes the rejection checks, outside a function scope and with no
must-be keyword seen, a successful scan leads to the tags of the emitter for the kind
prototype and to no extraction, an unsuccessful one to one run of the variable
extractor over the chain and to no emission. -/
theorem c22_prototype_or_variables (env : CXXCollaborators) (fenv : CXXFunctionCollaborators)
    (st : CXXParserState) :
    ∃ st', cxxParserAnalyzeOtherStatement env fenv st = .ok st' ∧
      (st'.calls = st.calls ∨
        st'.calls = st.calls ++ [.lookForFunctionSignature st.pTokenChain] ∨
        st'.calls = st.calls ++ [.lookForFunctionSignature st.pTokenChain,
          .emitFunctionTags .PROTOTYPE] ∨
        st'.calls = st.calls ++ [.lookForFunctionSignature st.pTokenChain,
          .extractVariableDeclarations st.pTokenChain] ∨
        st'.calls = st.calls ++ [.extractVariableDeclarations st.pTokenChain]) ∧
      (passesRejectionChecks st → cxxScopeGetKind st ≠ .FUNCTION →
        maskTest st.uKeywordState mustBeFunctionKeywords = false →
        (∀ oInfo, fenv.cxxParserLookForFunctionSignature st.pTokenChain = some oInfo →
          st'.calls = st.calls ++ [.lookForFunctionSignature st.pTokenChain,
            .emitFunctionTags .PROTOTYPE] ∧
          st'.tags = st.tags ++ fenv.cxxParserEmitFunctionTags oInfo .PROTOTYPE
            { st with calls := st.calls ++ [.lookForFunctionSignature st.pTokenChain] }) ∧
        (fenv.cxxParserLookForFunctionSignature st.pTokenChain = none →
          st'.calls = st.calls ++ [.lookForFunctionSignature st.pTokenChain,
            .extractVariableDeclarations st.pTokenChain] ∧
          st'.tags = st.tags ++ (env.extractVariableDeclarations
            { st with calls := st.calls ++ [.lookForFunctionSignature st.pTokenChain] }).1)) := by
  unfold cxxParserAnalyzeOtherStatement
  by_cases h1 : st.pTokenChain.length < 2
  · simp only [h1, if_true]
    refine ⟨st, rfl, Or.inl rfl, ?_⟩
    rintro ⟨h, -⟩
    omega
  · simp only [h1, if_false]
    by_cases h2 : maskTest st.uKeywordState CXXParserKeywordStateSeenReturn = true
    · simp only [h2, if_true]
      refine ⟨st, rfl, Or.inl rfl, ?_⟩
      rintro ⟨-, h, -⟩
      rw [h] at h2
      cases h2
    · simp only [h2, if_false]
      rcases hc : st.pTokenChain with _ | ⟨t, ts⟩
      · rw [hc] at h1
        simp at h1
      · simp only [cxxTokenChainFirst, List.head?_cons]
        by_cases h3 : maskTest t.eType (CXXTokenTypeIdentifier ||| CXXTokenTypeKeyword) = true
        · rw [← hc]
          simp only [h3, Bool.not_true, Bool.false_eq_true, if_false]
          by_cases hk : cxxScopeGetKind st = .FUNCTION
          · have hmay : mayBeFunction st = 0 := by
              unfold mayBeFunction
              rw [hk]
              rfl
            simp only [hmay]
            refine ⟨_, rfl, Or.inr (Or.inr (Or.inr (Or.inr ?_))), ?_⟩
            · simp [cxxParserExtractVariableDeclarations]
            · intro _ hk'
              exact absurd hk hk'
          · have hkb : (cxxScopeGetKind st == .FUNCTION) = false := by simpa using hk
            by_cases hm : maskTest st.uKeywordState mustBeFunctionKeywords = true
            · have hmay : mayBeFunction st = 2 := by
                unfold mayBeFunction
                simp only [hkb, Bool.false_eq_true, if_false]
                exact if_pos hm
              simp only [hmay]
              rcases hs : fenv.cxxParserLookForFunctionSignature st.pTokenChain with _ | oInfo
              · refine ⟨_, rfl, Or.inr (Or.inl rfl), ?_⟩
                intro _ _ hm'
                rw [hm'] at hm
                cases hm
              · refine ⟨_, rfl, Or.inr (Or.inr (Or.inl ?_)), ?_⟩
                · simp
                · intro _ _ hm'
                  rw [hm'] at hm
                  cases hm
            · have hmay : mayBeFunction st = 1 := by
                unfold mayBeFunction
                simp only [hkb, Bool.false_eq_true, if_false]
                exact if_neg hm
              simp only [hmay]
              rcases hs : fenv.cxxParserLookForFunctionSignature st.pTokenChain with _ | oInfo
              · refine ⟨_, rfl, Or.inr (Or.inr (Or.inr (Or.inl ?_))), ?_⟩
                · simp [cxxParserExtractVariableDeclarations]
                · intro _ _ _
                  refine ⟨fun o ho => (by cases ho), fun _ => ⟨?_, ?_⟩⟩
                  · simp [cxxParserExtractVariableDeclarations]
                  · simp [cxxParserExtractVariableDeclarations]
              · refine ⟨_, rfl, Or.inr (Or.inr (Or.inl ?_)), ?_⟩
                · simp
                · intro _ _ _
                  refine ⟨fun o ho => ?_, fun h => (by cases h)⟩
                  simp only [Option.some.injEq] at ho
                  subst ho
                  exact ⟨by simp, rfl⟩
        · simp only [h3, Bool.not_false, if_true]
          rw [← hc]
          refine ⟨st, rfl, Or.inl rfl, ?_⟩
          rintro ⟨-, -, t', ht', h⟩
          rw [hc] at ht'
          simp only [List.head?_cons, Option.some.injEq] at ht'
          subst ht'
          exact absurd h h3

/-- Witness of C22 on `int x;` at top level, the scanner finding no signature: the
scanner is called, then the variable extractor, once, on the chain. -/
theorem c22_prototype_or_variables_witness :
    ∃ st', cxxParserAnalyzeOtherStatement idleCollaborators idleFunctionCollaborators
        variableStatementState = .ok st' ∧
      st'.calls = variableStatementState.calls ++
        [.lookForFunctionSignature variableStatementState.pTokenChain,
          .extractVariableDeclarations variableStatementState.pTokenChain] :=
  match c22_prototype_or_variables idleCollaborators idleFunctionCollaborators
    variableStatementState with
  | ⟨st', h, _, h3⟩ =>
    ⟨st', h, ((h3 ⟨by decide, by decide, _, rfl, by decide⟩ (by decide) (by decide)).2 rfl).1⟩

/-! ## The claim on access specifiers -/

/-- C23: (1) when the kind of the current scope is not class, struct or union,
`cxxParserParseAccessSpecifier` returns failure and the state is untouched: no scope
changes its access, no token is read and the chain is as it was; (2) when it is one
of them and the current keyword is `public`, `private` or `protected`, the parser
returns with the scope stack it found, but for the scope on top, whose access is now
the one the keyword names; the other scopes are as they were. -/
theorem c23_access_specifier (env : CXXCollaborators) (fuel : Nat) (st : CXXParserState) :
    (cxxScopeGetKind st ≠ .CLASS → cxxScopeGetKind st ≠ .STRUCT →
      cxxScopeGetKind st ≠ .UNION →
      cxxParserParseAccessSpecifier env fuel st = .ok (false, st)) ∧
    (cxxScopeGetKind st = .CLASS ∨ cxxScopeGetKind st = .STRUCT ∨
        cxxScopeGetKind st = .UNION →
      ∀ (tok : CXXToken) (top : CXXScope) (eAccess : CXXScopeAccess),
      st.pToken = some tok → st.scopes.getLast? = some top →
      (tok.eKeyword = .PUBLIC ∧ eAccess = .Public) ∨
        (tok.eKeyword = .PRIVATE ∧ eAccess = .Private) ∨
        (tok.eKeyword = .PROTECTED ∧ eAccess = .Protected) →
      LambdaFree env st → 3 * st.input.length + 1 ≤ fuel →
      ∃ b st', cxxParserParseAccessSpecifier env fuel st = .ok (b, st') ∧
        st'.scopes = st.scopes.dropLast ++ [{ top with access := eAccess }]) := by
  refine ⟨?_, ?_⟩
  · intro h1 h2 h3
    unfold cxxParserParseAccessSpecifier
    simp [h1, h2, h3]
  · intro hk tok top eAccess hp htop hkw hC hf
    unfold cxxParserParseAccessSpecifier
    have hcond : (cxxScopeGetKind st != .CLASS && cxxScopeGetKind st != .STRUCT
        && cxxScopeGetKind st != .UNION) = false := by
      rcases hk with h | h | h <;> rw [h] <;> rfl
    simp only [hcond, Bool.false_eq_true, if_false, hp]
    have key : ∃ b st',
        (match cxxParserParseUpToOneOf env fuel
            (CXXTokenTypeSingleColon ||| CXXTokenTypeSemicolon ||| CXXTokenTypeClosingBracket
              ||| CXXTokenTypeEOF) (cxxScopeSetAccess eAccess st) with
          | .error e => .error e
          | .ok (false, st) => .ok (false, st)
          | .ok (true, st) => .ok (true, { st with pTokenChain := [] }))
          = (.ok (b, st') : Except Fault (Bool × CXXParserState)) ∧
        st'.scopes = st.scopes.dropLast ++ [{ top with access := eAccess }] := by
      have hsc : (cxxScopeSetAccess eAccess st).scopes
          = st.scopes.dropLast ++ [{ top with access := eAccess }] := by
        unfold cxxScopeSetAccess
        rw [htop]
      have hin : (cxxScopeSetAccess eAccess st).input = st.input := by
        unfold cxxScopeSetAccess
        rw [htop]
      have hC' : LambdaFree env (cxxScopeSetAccess eAccess st) := by
        unfold cxxScopeSetAccess
        rw [htop]
        exact hC
      obtain ⟨b, c, tok', i, h, -⟩ := parseUpToOneOf_spec env
        (CXXTokenTypeSingleColon ||| CXXTokenTypeSemicolon ||| CXXTokenTypeClosingBracket
          ||| CXXTokenTypeEOF) (cxxScopeSetAccess eAccess st) hC' fuel (by rw [hin]; exact hf)
      rw [h]
      cases b with
      | false => exact ⟨false, _, rfl, hsc⟩
      | true =>
        refine ⟨true, _, rfl, ?_⟩
        exact hsc
    rcases hkw with ⟨h, rfl⟩ | ⟨h, rfl⟩ | ⟨h, rfl⟩ <;> simp only [h] <;> exact key

/-- Witness of C23 on `public:` in the body of a class whose access is private: the
access of the class scope becomes public. -/
theorem c23_access_specifier_witness :
    ∃ b st', cxxParserParseAccessSpecifier idleCollaborators 20 accessSpecifierState
        = .ok (b, st') ∧
      st'.scopes = [] ++ [{ name := "C", kind := .CLASS, access := .Public }] :=
  (c23_access_specifier idleCollaborators 20 accessSpecifierState).2 (Or.inl (by decide))
    (tokKeyword .PUBLIC "public") { name := "C", kind := .CLASS, access := .Private } .Public
    rfl rfl (Or.inl ⟨rfl, rfl⟩) (Or.inl (by decide)) (by decide)

/-! ## The claim on generic typedefs that end in `;` -/

/-- C24: when `cxxParserParseGenericTypedef` runs over tokens consumed at one level, in
runs separated by keywords other than `extern`, `typedef` and `static` (which do not
end the collection), up to a `;`, it returns true with all of them on the chain; if
the chain holds an identifier, `t` being the last one, it emits exactly one tag, the
typedef tag named by `t`, unless `t` is the first token of the chain, in which case,
as when the chain holds no identifier, it emits no tag. -/
theorem c24_generic_typedef (env : CXXCollaborators) (st : CXXParserState)
    (body outs rest : List CXXToken) (semi : CXXToken)
    (hC : LambdaFree env st) (hi : st.input = body ++ semi :: rest)
    (hB : TypedefItems body outs) (hsemi : semi.eType = CXXTokenTypeSemicolon)
    (fuel : Nat) (hf : 3 * st.input.length + 2 ≤ fuel) :
    ∃ st', cxxParserParseGenericTypedef env fuel st = .ok (true, st') ∧
      st'.pTokenChain = st.pTokenChain ++ outs ++ [semi] ∧ st'.input = rest ∧
      (∀ (pre post : List CXXToken) (t : CXXToken),
        st.pTokenChain ++ outs ++ [semi] = pre ++ [t] ++ post →
        maskTest t.eType CXXTokenTypeIdentifier = true →
        (∀ u ∈ post, maskTest u.eType CXXTokenTypeIdentifier = false) →
        (pre ≠ [] →
          st'.tags = st.tags ++
            [{ name := t.pszWord, kind := .TYPEDEF, lineNumber := t.iLineNumber,
               scope := st.scopes, typeRef := none, inheritance := none,
               isFileScope := !env.isInputHeaderFile }]) ∧
        (pre = [] → st'.tags = st.tags)) ∧
      ((∀ u ∈ st.pTokenChain ++ outs ++ [semi],
          maskTest u.eType CXXTokenTypeIdentifier = false) →
        st'.tags = st.tags) := by
  unfold cxxParserParseGenericTypedef
  rw [typedefLoop_items env hB st rest semi fuel hC hi hsemi hf]
  simp only [frame_pTokenChain]
  rcases hl : cxxTokenChainLastTokenOfType (st.pTokenChain ++ outs ++ [semi])
      CXXTokenTypeIdentifier with _ | i
  · refine ⟨_, rfl, rfl, rfl, ?_, fun _ => rfl⟩
    intro pre post t hc ht hpost
    rw [hc, lastTokenOfType_found pre post t _ ht hpost] at hl
    cases hl
  · simp only
    have hnone : ¬ ∀ u ∈ st.pTokenChain ++ outs ++ [semi],
        maskTest u.eType CXXTokenTypeIdentifier = false := by
      intro h
      rw [lastTokenOfType_none _ _ h] at hl
      cases hl
    rcases hg : (st.pTokenChain ++ outs ++ [semi]).get? i with _ | t
    · exfalso
      apply hnone
      intro u hu
      by_contra hne
      have hu' : maskTest u.eType CXXTokenTypeIdentifier = true := by
        cases h : maskTest u.eType CXXTokenTypeIdentifier
        · exact absurd h hne
        · rfl
      -- the last identifier of the chain is at a position of the chain
      obtain ⟨k, hk⟩ : ∃ k, (st.pTokenChain ++ outs ++ [semi]).reverse.findIdx?
          (fun t => maskTest t.eType CXXTokenTypeIdentifier) = some k := by
        cases h : (st.pTokenChain ++ outs ++ [semi]).reverse.findIdx?
          (fun t => maskTest t.eType CXXTokenTypeIdentifier) with
        | none =>
          rw [List.findIdx?_eq_none_iff] at h
          have := h u (List.mem_reverse.mpr hu)
          rw [hu'] at this
          cases this
        | some k => exact ⟨k, rfl⟩
      have hklt := (List.findIdx?_eq_some_iff_findIdx_eq.mp hk).1
      unfold cxxTokenChainLastTokenOfType at hl
      rw [hk] at hl
      simp only [Option.some.injEq] at hl
      rw [List.length_reverse] at hklt
      have : i < (st.pTokenChain ++ outs ++ [semi]).length := by omega
      rw [List.get?_eq_none] at hg
      omega
    · simp only
      by_cases h0 : i = 0
      · subst h0
        simp only [beq_self_eq_true, if_true]
        refine ⟨_, rfl, rfl, rfl, ?_, fun h => absurd h hnone⟩
        intro pre post t' hc ht hpost
        rw [hc, lastTokenOfType_found pre post t' _ ht hpost] at hl
        simp only [Option.some.injEq] at hl
        refine ⟨fun hne => ?_, fun _ => rfl⟩
        exact absurd (List.length_eq_zero.mp hl) hne
      · have hb : (i == 0) = false := by simpa using h0
        simp only [hb, Bool.false_eq_true, if_false, cxxTagBegin]
        refine ⟨_, rfl, rfl, rfl, ?_, fun h => absurd h hnone⟩
        intro pre post t' hc ht hpost
        rw [hc, lastTokenOfType_found pre post t' _ ht hpost] at hl
        simp only [Option.some.injEq] at hl
        subst hl
        rw [hc] at hg
        have : (pre ++ [t'] ++ post).get? pre.length = some t' := by
          rw [List.append_assoc, List.get?_eq_getElem?,
            List.getElem?_append_right (Nat.le_refl _)]
          simp
        rw [this] at hg
        simp only [Option.some.injEq] at hg
        subst hg
        refine ⟨fun _ => rfl, fun he => ?_⟩
        rw [he] at h0
        exact absurd rfl h0

/-- Witness of C24 on `typedef unsigned int uint;`: the keywords `unsigned` and `int`
do not end the collection and the one tag is the typedef `uint`. -/
theorem c24_generic_typedef_witness :
    ∃ st', cxxParserParseGenericTypedef idleCollaborators 20
        (statementState [] typedefExampleTokens) = .ok (true, st') ∧
      st'.tags = [] ++
        [{ name := "uint", kind := .TYPEDEF, lineNumber := 0, scope := [], typeRef := none,
           inheritance := none, isFileScope := true }] :=
  match c24_generic_typedef idleCollaborators (statementState [] typedefExampleTokens)
    [tokKeyword (.other 2) "unsigned", tokKeyword (.other 1) "int", tokIdentifier "uint"]
    [tokKeyword (.other 2) "unsigned", tokKeyword (.other 1) "int", tokIdentifier "uint"]
    [] tokSemicolon (Or.inl (by decide)) rfl
    (TypedefItems.keyword [] [] (tokKeyword (.other 2) "unsigned") _ _ (Skips.nil _) rfl
      (by decide)
      (TypedefItems.keyword [] [] (tokKeyword (.other 1) "int") _ _ (Skips.nil _) rfl
        (by decide)
        (TypedefItems.last [tokIdentifier "uint"] [tokIdentifier "uint"]
          (Skips.plain _ _ _ _ (by decide) (by decide) (by decide) (Skips.nil _)))))
    rfl 20 (by decide) with
  | ⟨st', h, _, _, h4, _⟩ =>
    ⟨st', h, (h4 [tokKeyword (.other 2) "unsigned", tokKeyword (.other 1) "int"] [tokSemicolon]
      (tokIdentifier "uint") rfl (by decide)
      (fun u hu => by
        simp only [List.mem_singleton] at hu
        subst hu
        decide)).1 (by simp)⟩

/-! ## The claim on blocking keywords in a typedef -/

/-- C25 fails in the code: on `typedef unsigned int uint`, the `;` missing, followed
by `extern int x;`, `cxxParserParseGenericTypedef` stops at the keyword `extern` and
returns true at once (line 866, "treat as semicolon") without the typedef tag `uint`
that it emits at a `;` (lines 874-901): the identifier `uint` is on the chain, not
first, and no tag is emitted. -/
theorem c25_blocking_keyword_emits_nothing :
    cxxParserParseGenericTypedef idleCollaborators 30 (statementState [] typedefBlockedTokens)
      = .ok (true, (startState []).frame
          [tokKeyword (.other 2) "unsigned", tokKeyword (.other 1) "int", tokIdentifier "uint",
            tokKeyword .EXTERN "extern"]
          (some (tokKeyword .EXTERN "extern"))
          [tokKeyword (.other 1) "int", tokIdentifier "x", tokSemicolon]) ∧
    ((startState []).frame
      [tokKeyword (.other 2) "unsigned", tokKeyword (.other 1) "int", tokIdentifier "uint",
        tokKeyword .EXTERN "extern"]
      (some (tokKeyword .EXTERN "extern"))
      [tokKeyword (.other 1) "int", tokIdentifier "x", tokSemicolon]).tags = [] :=
  ⟨result_eq_of_beq _ _ (by decide!), rfl⟩

/-! ## The claim on the rescan result -/

/-- C26: on a process in which `cxxParserMain` can run (the first run, or a later run
with the objects of the first run alive), `cxxParserMain` returns; `stEntry` being the
state in which the top-level block parse is called (empty chain, empty scope stack,
the file as input), the result is `RESCAN_FAILED` if and only if the block parse
returns false and `passCount` is 1, and `RESCAN_NONE` otherwise; in both cases the
active chain is empty at return. -/
theorem c26_rescan_result (env : CXXCollaborators) (passCount : Nat) (input : List CXXToken)
    (p : CXXProcess)
    (hv : p.g_bFirstRun = true ∨
      (p.scope = .live ∧ p.tokenAPI = .live ∧ p.pTokenChain = .live ∧
        (p.g_cxx.pTemplateTokenChain.isSome = true → p.pTemplateTokenChain = .live))) :
    ∃ (stEntry : CXXParserState) (r : RescanReason) (p' : CXXProcess),
      stEntry.input = input ∧ stEntry.pTokenChain = [] ∧ stEntry.scopes = [] ∧
      cxxParserMain env passCount input p = .ok (r, p') ∧
      (r = .RESCAN_FAILED ↔
        (env.cxxParserParseBlock false stEntry).1 = false ∧ passCount = 1) ∧
      (r = .RESCAN_NONE ↔
        ¬ ((env.cxxParserParseBlock false stEntry).1 = false ∧ passCount = 1)) ∧
      p'.g_cxx.pTokenChain = [] ∧ p'.g_bFirstRun = false := by
  have fin : ∀ (q : CXXProcess), q.g_cxx.pTokenChain = [] → q.g_cxx.scopes = [] →
      q.g_bFirstRun = false →
      ∃ (stEntry : CXXParserState) (r : RescanReason) (p' : CXXProcess),
        stEntry.input = input ∧ stEntry.pTokenChain = [] ∧ stEntry.scopes = [] ∧
        (.ok (cxxParserMainRun env passCount input q) : Except Fault (RescanReason × CXXProcess))
          = .ok (r, p') ∧
        (r = .RESCAN_FAILED ↔
          (env.cxxParserParseBlock false stEntry).1 = false ∧ passCount = 1) ∧
        (r = .RESCAN_NONE ↔
          ¬ ((env.cxxParserParseBlock false stEntry).1 = false ∧ passCount = 1)) ∧
        p'.g_cxx.pTokenChain = [] ∧ p'.g_bFirstRun = false := by
    intro q hq1 hq2 hq3
    obtain ⟨h1, h2, h3, h4⟩ := mainRun_spec env passCount input q
    exact ⟨{ q.g_cxx with input := input }, _, _, rfl, hq1, hq2, rfl, h1, h2, h3, h4.trans hq3⟩
  unfold cxxParserMain
  rcases p with ⟨g, fr, tc, ttc, sc, api⟩
  cases fr with
  | true => exact fin _ rfl rfl rfl
  | false =>
    rcases hv with h | ⟨h1, h2, h3, h4⟩
    · cases h
    · simp only at h1 h2 h3 h4
      subst h1 h2 h3
      by_cases hs : g.pTemplateTokenChain.isSome = true
      · have := h4 hs
        subst this
        simp only [Bool.false_eq_true, if_false, useObject, hs, if_true]
        exact fin _ rfl rfl rfl
      · simp only [Bool.false_eq_true, if_false, useObject, hs]
        exact fin _ rfl rfl rfl

/-- Witness of C26 on the first run over an empty file, first pass: the block parser
succeeds and the result is `RESCAN_NONE`. -/
theorem c26_rescan_result_witness :
    ∃ (stEntry : CXXParserState) (r : RescanReason) (p' : CXXProcess),
      stEntry.input = [] ∧ stEntry.pTokenChain = [] ∧ stEntry.scopes = [] ∧
      cxxParserMain idleCollaborators 1 [] (cxxCParserInitialize 0 processStart)
        = .ok (r, p') ∧
      (r = .RESCAN_FAILED ↔
        (idleCollaborators.cxxParserParseBlock false stEntry).1 = false ∧ 1 = 1) ∧
      (r = .RESCAN_NONE ↔
        ¬ ((idleCollaborators.cxxParserParseBlock false stEntry).1 = false ∧ 1 = 1)) ∧
      p'.g_cxx.pTokenChain = [] ∧ p'.g_bFirstRun = false :=
  c26_rescan_result idleCollaborators 1 [] (cxxCParserInitialize 0 processStart) (Or.inl rfl)

/-! ## The claim on the cleanup round trip -/

/-- C27 fails in the code: after a first `cxxParserMain` and `cxxParserCleanup`, the
token chain and the scope stack are destroyed but `g_bFirstRun` is still false and the
pointers are left as they are; `cxxCppParserInitialize` does not reset them, and the
second `cxxParserMain`, taking the branch of a later run (lines 951-956), uses the
destroyed scope stack and chain instead of creating fresh ones: it is a use after
free, for every file, pass count and block parser. -/
theorem c27_second_run_uses_destroyed_objects (env : CXXCollaborators)
    (passCount passCount2 : Nat) (input input2 : List CXXToken) (language language2 : Int) :
    ∃ r p2 p3,
      cxxParserMain env passCount input (cxxCppParserInitialize language processStart)
        = .ok (r, p2) ∧
      cxxParserCleanup p2 = .ok p3 ∧
      p3.pTokenChain = .destroyed ∧ p3.scope = .destroyed ∧ p3.g_bFirstRun = false ∧
      cxxParserMain env passCount2 input2 (cxxCppParserInitialize language2 p3)
        = .error .useAfterFree := by
  have h1 : cxxParserMain env passCount input (cxxCppParserInitialize language processStart)
      = .ok (cxxParserMainRun env passCount input
          { cxxCppParserInitialize language processStart with
            tokenAPI := .live,
            g_cxx := { (cxxCppParserInitialize language processStart).g_cxx with
              pTokenChain := [], scopes := [] },
            pTokenChain := .live, scope := .live, g_bFirstRun := false }) := rfl
  obtain ⟨g1, g2, g3, g4, g5⟩ := mainRun_objects env passCount input
    { cxxCppParserInitialize language processStart with
      tokenAPI := .live,
      g_cxx := { (cxxCppParserInitialize language processStart).g_cxx with
        pTokenChain := [], scopes := [] },
      pTokenChain := .live, scope := .live, g_bFirstRun := false }
  obtain ⟨p3, c1, c2, c3, c4⟩ := cleanup_after_run _ g1 g2 g3 g4 g5
  exact ⟨_, _, p3, h1, c1, c2, c3, c4,
    main_on_destroyed env passCount2 input2 language2 p3 c4 c3⟩

/-! ## The claim on new statements -/

/-- C28: after `cxxParserNewStatement` the active chain is empty, there is no template
chain and the keyword state is 0, whatever they were; the selected language and the
two parsing flags are unchanged (and so is everything else); and applying it twice
gives the state of applying it once. -/
theorem c28_new_statement (st : CXXParserState) :
    (cxxParserNewStatement st).pTokenChain = [] ∧
    (cxxParserNewStatement st).pTemplateTokenChain = none ∧
    (cxxParserNewStatement st).uKeywordState = 0 ∧
    (cxxParserNewStatement st).eLanguage = st.eLanguage ∧
    (cxxParserNewStatement st).eCPPLanguage = st.eCPPLanguage ∧
    (cxxParserNewStatement st).eCLanguage = st.eCLanguage ∧
    (cxxParserNewStatement st).bParsingTemplateAngleBrackets
      = st.bParsingTemplateAngleBrackets ∧
    (cxxParserNewStatement st).bParsingClassStructOrUnionDeclaration
      = st.bParsingClassStructOrUnionDeclaration ∧
    (cxxParserNewStatement st).pToken = st.pToken ∧
    (cxxParserNewStatement st).input = st.input ∧
    (cxxParserNewStatement st).scopes = st.scopes ∧
    (cxxParserNewStatement st).tags = st.tags ∧
    cxxParserNewStatement (cxxParserNewStatement st) = cxxParserNewStatement st :=
  ⟨rfl, rfl, rfl, rfl, rfl, rfl, rfl, rfl, rfl, rfl, rfl, rfl, rfl⟩

/-- C29: termination of the condenser.  With lambda handling set aside, for every finite
input and every pair of masks both entry points of the mutual recursion return once
the fuel covers three steps per pending token; the input left is a suffix of the input
at entry, so every token is read at most once; and the depth of the recursion is at
most the number of opener tokens read (for the subchain entry point: the opener that is
the current token, plus those read). -/
theorem c29_condenser_termination (env : CXXCollaborators) (T O : Nat)
    (st : CXXParserState) (hC : LambdaFree env st) (fuel : Nat)
    (hf : 3 * st.input.length + 1 ≤ fuel) :
    (∃ b st' d used,
      cxxParserParseAndCondenseSubchainsUpToOneOf env fuel T O st = .ok (b, st') ∧
      cxxParserParseAndCondenseSubchainsUpToOneOfDepth env fuel T O st = .ok (b, st', d) ∧
      st.input = used ++ st'.input ∧
      d ≤ openerCount O used ∧ d ≤ openerCount O st.input) ∧
    (∀ a, st.pToken ≠ none → st.pTokenChain ≠ [] →
      ∃ b st' d used,
        cxxParserParseAndCondenseCurrentSubchain env (fuel + 1) O a st = .ok (b, st') ∧
        cxxParserParseAndCondenseCurrentSubchainDepth env (fuel + 1) O a st
          = .ok (b, st', d) ∧
        st.input = used ++ st'.input ∧
        d ≤ 1 + openerCount O used ∧ d ≤ 1 + openerCount O st.input) := by
  have hmono : ∀ used rest : List CXXToken, st.input = used ++ rest →
      openerCount O used ≤ openerCount O st.input := by
    intro used rest h
    rw [h, openerCount_append]
    omega
  constructor
  · obtain ⟨b, st', h, -⟩ := (condenser_total env fuel).1 T O st (Or.inr hC) hf
    obtain ⟨d, used, h1, h2, h3⟩ := (condenser_depth env fuel).1 T O st b st' hC h
    exact ⟨b, st', d, used, h, h1, h2, h3, le_trans h3 (hmono used _ h2)⟩
  · intro a hp hc
    obtain ⟨b, st', h, -⟩ := (condenser_total env (fuel + 1)).2.2 O a st (Or.inr hC) hp hc
      (by omega)
    obtain ⟨d, used, h1, h2, h3⟩ := (condenser_depth env (fuel + 1)).2.2 O a st b st' hC h
    exact ⟨b, st', d, used, h, h1, h2, h3, by have := hmono used _ h2; omega⟩

/-- Witness of C29 on the tokens `f ( [ ] ) ;` with terminator `;`. -/
theorem c29_condenser_termination_witness :
    LambdaFree idleCollaborators
      (startState [tokIdentifier "f", tokOpeningParenthesis, tokOpeningSquareParenthesis,
        tokClosingSquareParenthesis, tokClosingParenthesis, tokSemicolon]) ∧
    3 * (startState [tokIdentifier "f", tokOpeningParenthesis, tokOpeningSquareParenthesis,
        tokClosingSquareParenthesis, tokClosingParenthesis, tokSemicolon]).input.length + 1
      ≤ 19 ∧
    ∃ b st' d used,
      cxxParserParseAndCondenseSubchainsUpToOneOf idleCollaborators 19
        CXXTokenTypeSemicolon defaultOpeners
        (startState [tokIdentifier "f", tokOpeningParenthesis, tokOpeningSquareParenthesis,
          tokClosingSquareParenthesis, tokClosingParenthesis, tokSemicolon]) = .ok (b, st') ∧
      cxxParserParseAndCondenseSubchainsUpToOneOfDepth idleCollaborators 19
        CXXTokenTypeSemicolon defaultOpeners
        (startState [tokIdentifier "f", tokOpeningParenthesis, tokOpeningSquareParenthesis,
          tokClosingSquareParenthesis, tokClosingParenthesis, tokSemicolon])
        = .ok (b, st', d) ∧
      (startState [tokIdentifier "f", tokOpeningParenthesis, tokOpeningSquareParenthesis,
          tokClosingSquareParenthesis, tokClosingParenthesis, tokSemicolon]).input
        = used ++ st'.input ∧
      d ≤ openerCount defaultOpeners used ∧
      d ≤ openerCount defaultOpeners
        (startState [tokIdentifier "f", tokOpeningParenthesis, tokOpeningSquareParenthesis,
          tokClosingSquareParenthesis, tokClosingParenthesis, tokSemicolon]).input :=
  ⟨Or.inl (by decide), by decide,
    (c29_condenser_termination idleCollaborators CXXTokenTypeSemicolon defaultOpeners
      (startState [tokIdentifier "f", tokOpeningParenthesis, tokOpeningSquareParenthesis,
        tokClosingSquareParenthesis, tokClosingParenthesis, tokSemicolon])
      (Or.inl (by decide)) 19 (by decide)).1⟩

end CXX

/-! ## Claim C30: the kinds of Swift variables -/

namespace Swift

/-- C30: Swift variable kinds.  At a keyword `let` or `var` followed by an identifier,
the branch of `enterScope` returns once the fuel covers the input, and it adds
exactly one entry to the cork queue, with the name of the identifier; the loop of
`enterScope` goes on from there.  The kind of the entry is constant for `let`.  For
`var` it is variable when there is no nesting level (top level), member when the entry
of the current nesting level, the tagged scope the declaration is directly in, is a
class, and local variable when that entry is of any other kind. -/
theorem c30_variable_kinds (fuel : Nat) (root : Bool) (corkIndex : Nat) (token : tokenInfo)
    (st : SwiftState) (name : tokenInfo) (st1 : SwiftState)
    (hk : token.keyword = .KEYWORD_let ∨ token.keyword = .KEYWORD_var)
    (hr : readToken st = .ok (name, st1)) (hn : name.type = .TOKEN_IDENTIFIER)
    (hf : st.input.length + 2 ≤ fuel) :
    ∃ (readNext : Bool) (token1 : tokenInfo) (st2 : SwiftState) (e : tagEntryInfo),
      (∀ isIf, enterScopeVariable fuel isIf corkIndex token st =
        .ok (readNext, if isIf then CORK_NIL else st.corkQueue.length + 1, token1, st2)) ∧
      (token.type = .TOKEN_KEYWORD →
        enterScopeLoop (fuel + 1) root corkIndex token st =
          match (if readNext then readToken st2 else .ok (token1, st2)) with
          | .error err => .error err
          | .ok (token3, st3) =>
            enterScopeLoop fuel root (st.corkQueue.length + 1) token3 st3) ∧
      st2.corkQueue = st.corkQueue ++ [e] ∧
      st2.SwiftNestingLevels = st.SwiftNestingLevels ∧
      e.name = name.string ∧
      (token.keyword = .KEYWORD_let → e.kind = .K_CONSTANT) ∧
      (token.keyword = .KEYWORD_var →
        (nestingLevelsGetCurrent st.SwiftNestingLevels = none → e.kind = .K_VARIABLE) ∧
        (∀ nl parent, nestingLevelsGetCurrent st.SwiftNestingLevels = some nl →
          getEntryOfNestingLevel st nl = some parent →
          (parent.kind = .K_CLASS → e.kind = .K_MEMBER) ∧
          (parent.kind ≠ .K_CLASS → e.kind = .K_LOCAL_VARIABLE))) := by
  have hen : (SwiftKinds (if token.keyword = .KEYWORD_let then .K_CONSTANT
      else .K_VARIABLE)).enabled = true := by
    split <;> rfl
  obtain ⟨readNext, token1, type, st4, h4, hv⟩ :=
    enterScopeVariable_declares fuel corkIndex token st name st1 hr hn hf
  have hq : st4.corkQueue.length = st.corkQueue.length := by rw [h4.1]
  have hv2 : ∀ isIf, enterScopeVariable fuel isIf corkIndex token st =
      .ok (readNext, if isIf then CORK_NIL else st.corkQueue.length + 1, token1,
        { st4 with corkQueue := st4.corkQueue ++
          [{ initSwiftEntry st name
              (if token.keyword = .KEYWORD_let then .K_CONSTANT else .K_VARIABLE)
              with typeRef := type }] }) := by
    intro isIf
    rw [hv isIf, makeVariableTag_enabled _ _ _ _ hen, initSwiftEntry_readsFrom h4, hq]
  refine ⟨readNext, token1, _,
    { initSwiftEntry st name
        (if token.keyword = .KEYWORD_let then .K_CONSTANT else .K_VARIABLE)
        with typeRef := type }, hv2, ?_, ?_, h4.2.1, ?_, ?_, ?_⟩
  · intro ht
    have hnif : token.keyword ≠ .KEYWORD_if := by
      rcases hk with h | h <;> rw [h] <;> simp
    rw [enterScopeLoop]
    have hcond : (tokenType.TOKEN_KEYWORD != tokenType.TOKEN_EOF &&
        (root || tokenType.TOKEN_KEYWORD != tokenType.byte '\x7d')) = true := by
      cases root <;> decide
    simp only [ht, hnif, hk, hv2 false, hcond, if_true, if_false, Bool.false_eq_true]
  · simp only [h4.1]
  · unfold initSwiftEntry initTagEntry
    repeat' split
    all_goals rfl
  · intro hl
    simp only [hl, if_true]
    unfold initSwiftEntry initTagEntry
    repeat' split
    all_goals first | rfl | contradiction
  · intro hvar
    have hnl : token.keyword ≠ .KEYWORD_let := by rw [hvar]; simp
    simp only [hnl, if_false]
    refine ⟨?_, ?_⟩
    · intro hnone
      unfold initSwiftEntry
      simp only [hnone]
      rfl
    · intro nl parent hcur hpar
      unfold initSwiftEntry
      simp only [hcur, hpar, if_true]
      constructor
      · intro hc
        simp only [hc, if_true]
      · intro hc
        simp only [hc, if_false]

/-- Witness of C30: `var x` in the body of the class `A`. -/
theorem c30_variable_kinds_witness :
    (varToken.keyword = .KEYWORD_let ∨ varToken.keyword = .KEYWORD_var) ∧
    readToken memberExampleState
      = .ok (xToken, { memberExampleState with input := ['\n'] }) ∧
    xToken.type = .TOKEN_IDENTIFIER ∧
    memberExampleState.input.length + 2 ≤ 5 ∧
    ∃ (readNext : Bool) (token1 : tokenInfo) (st2 : SwiftState) (e : tagEntryInfo),
      (∀ isIf, enterScopeVariable 5 isIf CORK_NIL varToken memberExampleState =
        .ok (readNext,
          if isIf then CORK_NIL else memberExampleState.corkQueue.length + 1, token1, st2)) ∧
      (varToken.type = .TOKEN_KEYWORD →
        enterScopeLoop (5 + 1) false CORK_NIL varToken memberExampleState =
          match (if readNext then readToken st2 else .ok (token1, st2)) with
          | .error err => .error err
          | .ok (token3, st3) =>
            enterScopeLoop 5 false (memberExampleState.corkQueue.length + 1) token3 st3) ∧
      st2.corkQueue = memberExampleState.corkQueue ++ [e] ∧
      st2.SwiftNestingLevels = memberExampleState.SwiftNestingLevels ∧
      e.name = xToken.string ∧
      (varToken.keyword = .KEYWORD_let → e.kind = .K_CONSTANT) ∧
      (varToken.keyword = .KEYWORD_var →
        (nestingLevelsGetCurrent memberExampleState.SwiftNestingLevels = none →
          e.kind = .K_VARIABLE) ∧
        (∀ nl parent,
          nestingLevelsGetCurrent memberExampleState.SwiftNestingLevels = some nl →
          getEntryOfNestingLevel memberExampleState nl = some parent →
          (parent.kind = .K_CLASS → e.kind = .K_MEMBER) ∧
          (parent.kind ≠ .K_CLASS → e.kind = .K_LOCAL_VARIABLE))) :=
  ⟨Or.inr rfl, by rfl, rfl, by decide,
    c30_variable_kinds 5 false CORK_NIL varToken memberExampleState xToken
      { memberExampleState with input := ['\n'] } (Or.inr rfl) (by rfl) rfl (by decide)⟩

end Swift

namespace CXX

end CXX

/-! ## The Swift parser: comments, pairs and nesting levels -/

namespace Swift

theorem ok_of_check {α : Type} [DecidableEq α] (r : Except CXX.Fault α) (a : α)
    (h : (match r with
          | .ok q => decide (q = a)
          | .error _ => false) = true) : r = .ok a := by
  cases r with
  | error e => simp at h
  | ok q => simp at h; rw [h]

theorem pairCount_nil (o c : tokenType) : pairCount o c [] = 0 := by
  simp [pairCount]

theorem pairCount_cons (o c : tokenType) (t : tokenInfo) (ts : List tokenInfo) :
    pairCount o c (t :: ts)
      = (if t.type = o then 1 else 0) - (if t.type = c then 1 else 0) + pairCount o c ts := by
  unfold pairCount
  simp only [List.countP_cons, decide_eq_true_eq]
  split <;> split <;> push_cast <;> ring

theorem pairCount_append (o c : tokenType) (xs ys : List tokenInfo) :
    pairCount o c (xs ++ ys) = pairCount o c xs + pairCount o c ys := by
  unfold pairCount
  simp only [List.countP_append]
  push_cast
  ring

theorem reprCatAll_cons (r : String) (t : tokenInfo) (ts : List tokenInfo) :
    reprCatAll r (t :: ts) = reprCatAll (reprCat r t) ts := rfl

theorem readTokens_succ (n : Nat) (st : SwiftState) (t : tokenInfo) (out : List Char)
    (ts : List tokenInfo) (st1 : SwiftState)
    (h : readTokenFull (st.input.length + 1) true st.input = .ok (t, out))
    (h2 : readTokens n { st with input := out } = .ok (ts, st1)) :
    readTokens (n + 1) st = .ok (t :: ts, st1) := by
  rw [readTokens, h]
  simp only [h2]

theorem skipOverPairLoop_run (tOpen tClose : tokenType) (hne : tOpen ≠ tClose)
    (heof : tClose ≠ .TOKEN_EOF) (rop : Bool) (fuel : Nat) :
    ∀ (repr : Option String) (d : Nat) (st : SwiftState), 1 ≤ d →
    st.input.length + 1 ≤ fuel →
    ∃ (ts : List tokenInfo) (last : tokenInfo) (st1 : SwiftState),
      readTokens (ts.length + 1) st = .ok (ts ++ [last], st1) ∧
      skipOverPairLoop fuel tOpen tClose repr rop d st
        = .ok (last,
            repr.map (fun r => reprCatAll r
              (if last.type = tClose ∧ rop = false then ts else ts ++ [last])), st1) ∧
      (∀ t ∈ ts, t.type ≠ .TOKEN_EOF) ∧
      (∀ k, k ≤ ts.length → 0 < (d : Int) + pairCount tOpen tClose (ts.take k)) ∧
      (last.type = tClose → (d : Int) + pairCount tOpen tClose (ts ++ [last]) = 0) ∧
      (last.type ≠ tClose →
        last.type = .TOKEN_EOF ∧ 0 < (d : Int) + pairCount tOpen tClose (ts ++ [last])) := by
  induction fuel with
  | zero => intros; omega
  | succ n ih =>
    intro repr d st hd h
    have hne2 : ¬ tClose = tOpen := fun e => hne e.symm
    unfold skipOverPairLoop
    obtain ⟨t, out, h1, h2, h3⟩ := readTokenFull_total (st.input.length + 1) true st.input
      (le_refl _)
    rw [h1]
    simp only
    -- the depth after the token
    have hdepth : ∀ depth1 : Nat,
        depth1 = (if t.type = tOpen then d + 1 else if t.type = tClose then d - 1 else d) →
        (depth1 : Int) = (d : Int) + pairCount tOpen tClose [t] := by
      intro depth1 h
      rw [pairCount_cons, pairCount_nil, h]
      by_cases ho : t.type = tOpen
      · simp only [ho, hne, if_true, if_false]
        omega
      · by_cases hc : t.type = tClose
        · simp only [hc, hne2, if_true, if_false]
          omega
        · simp only [ho, hc, if_false]
          omega
    have key : ∀ (repr1 : Option String) (depth1 : Nat),
        repr1 = (if (rop || t.type != tClose || decide (d > 1)) = true
          then Option.map (fun r => reprCat r t) repr else repr) →
        depth1 = (if t.type = tOpen then d + 1 else if t.type = tClose then d - 1 else d) →
        ∃ (ts : List tokenInfo) (last : tokenInfo) (st1 : SwiftState),
          readTokens (ts.length + 1) st = .ok (ts ++ [last], st1) ∧
          (if (t.type != .TOKEN_EOF && decide (depth1 > 0)) = true then
            skipOverPairLoop n tOpen tClose repr1 rop depth1 { st with input := out }
          else .ok (t, repr1, { st with input := out }))
            = .ok (last,
                repr.map (fun r => reprCatAll r
                  (if last.type = tClose ∧ rop = false then ts else ts ++ [last])), st1) ∧
          (∀ t ∈ ts, t.type ≠ .TOKEN_EOF) ∧
          (∀ k, k ≤ ts.length → 0 < (d : Int) + pairCount tOpen tClose (ts.take k)) ∧
          (last.type = tClose → (d : Int) + pairCount tOpen tClose (ts ++ [last]) = 0) ∧
          (last.type ≠ tClose →
            last.type = .TOKEN_EOF ∧
              0 < (d : Int) + pairCount tOpen tClose (ts ++ [last])) := by
      intro repr1 depth1 hrepr hdep
      have hD := hdepth depth1 hdep
      by_cases hc : (t.type != .TOKEN_EOF && decide (depth1 > 0)) = true
      · rw [if_pos hc]
        simp only [Bool.and_eq_true, bne_iff_ne, ne_eq, decide_eq_true_eq] at hc
        obtain ⟨hteof, hpos⟩ := hc
        have hlt := h3 hteof
        obtain ⟨ts, last, st1, e1, e2, e3, e4, e5, e6⟩ := ih repr1 depth1
          { st with input := out } (by omega) (by simp only; omega)
        have hcond : (rop || t.type != tClose || decide (d > 1)) = true := by
          by_cases htc : t.type = tClose
          · have ho : t.type ≠ tOpen := fun ho => hne (ho.symm.trans htc)
            rw [hdep] at hpos
            simp only [htc, hne2, if_false, if_true] at hpos
            have : d > 1 := by omega
            simp [this]
          · simp [htc]
        rw [hcond] at hrepr
        simp only [if_true] at hrepr
        refine ⟨t :: ts, last, st1, ?_, ?_, ?_, ?_, ?_, ?_⟩
        · exact readTokens_succ _ st t out _ st1 h1 e1
        · rw [e2, hrepr, Option.map_map]
          by_cases hcnd : last.type = tClose ∧ rop = false
          · simp only [hcnd, and_self, if_true]
            rfl
          · simp only [hcnd, if_false]
            rfl
        · intro x hx
          rcases List.mem_cons.mp hx with rfl | hx
          · exact hteof
          · exact e3 x hx
        · intro k hk
          cases k with
          | zero => simp [pairCount_nil]; omega
          | succ k =>
            simp only [List.take_succ_cons]
            rw [pairCount_cons]
            have := e4 k (by simpa using hk)
            rw [pairCount_cons, pairCount_nil] at hD
            rw [hD] at this
            linarith
        · intro hl
          have := e5 hl
          rw [List.cons_append, pairCount_cons]
          rw [pairCount_cons, pairCount_nil] at hD
          rw [hD] at this
          linarith
        · intro hl
          obtain ⟨a, b⟩ := e6 hl
          refine ⟨a, ?_⟩
          rw [List.cons_append, pairCount_cons]
          rw [pairCount_cons, pairCount_nil] at hD
          rw [hD] at b
          linarith
      · rw [if_neg hc]
        simp only [Bool.and_eq_true, bne_iff_ne, ne_eq, decide_eq_true_eq, not_and,
          not_lt, Nat.le_zero_eq] at hc
        refine ⟨[], t, { st with input := out }, ?_, ?_, ?_, ?_, ?_, ?_⟩
        · exact readTokens_succ 0 st t out [] _ h1 rfl
        · by_cases htc : t.type = tClose
          · have ho : t.type ≠ tOpen := fun ho => hne (ho.symm.trans htc)
            have hteof : ¬ t.type = .TOKEN_EOF := by rw [htc]; exact heof
            have h0 := hc hteof
            rw [hdep] at h0
            simp only [htc, hne2, if_false, if_true] at h0
            have hd1 : ¬ d > 1 := by omega
            cases rop with
            | false =>
              simp [hrepr, htc, hd1, reprCatAll]
            | true =>
              simp [hrepr, htc, reprCatAll]
          · simp [hrepr, htc, reprCatAll]
        · intro x hx; cases hx
        · intro k hk
          have : k = 0 := by simpa using hk
          subst this
          simp [pairCount_nil]; omega
        · intro hl
          have ho : t.type ≠ tOpen := fun ho => hne (ho.symm.trans hl)
          have hteof : ¬ t.type = .TOKEN_EOF := by rw [hl]; exact heof
          have h0 := hc hteof
          simp only [List.nil_append]
          rw [← hD, h0]
          rfl
        · intro hl
          simp only [List.nil_append]
          rw [← hD]
          have hpos : 0 < depth1 := by
            rw [hdep]
            simp only [hl, if_false]
            split <;> omega
          refine ⟨?_, by exact_mod_cast hpos⟩
          by_contra hteof
          have := hc hteof
          omega
    exact key _ _ rfl rfl


theorem length_le_pending (token : tokenInfo) (st : SwiftState) :
    st.input.length ≤ pending token st := by
  unfold pending; omega

theorem pending_le_succ (token : tokenInfo) (st : SwiftState) :
    pending token st ≤ st.input.length + 1 := by
  unfold pending; split <;> omega

theorem pending_of_ne_eof (token : tokenInfo) (st : SwiftState)
    (h : token.type ≠ .TOKEN_EOF) : pending token st = st.input.length + 1 := by
  unfold pending; rw [if_neg h]

theorem pending_readToken {st st1 : SwiftState} {t : tokenInfo}
    (h : readToken st = .ok (t, st1)) :
    pending t st1 ≤ st.input.length ∧ st1.SwiftNestingLevels = st.SwiftNestingLevels ∧
      st1.corkQueue = st.corkQueue := by
  obtain ⟨h1, h2⟩ := readToken_readsFrom h
  refine ⟨?_, h1.2.1, h1.1⟩
  unfold pending
  split
  · have := h1.2.2; omega
  · rename_i hne
    have := h2 hne; omega

theorem pending_readIf (b : Bool) (token : tokenInfo) (st : SwiftState) :
    ∃ t st1, (if b then readToken st else .ok (token, st)) = .ok (t, st1) ∧
      ReadsFrom st st1 ∧ pending t st1 ≤ pending token st ∧
      (b = true → pending t st1 ≤ st.input.length) := by
  cases b with
  | false =>
    exact ⟨token, st, rfl, readsFrom_refl st, le_refl _, fun h => Bool.noConfusion h⟩
  | true =>
    obtain ⟨t, st1, h1, h2, -⟩ := readToken_total st
    have hp := (pending_readToken h1).1
    exact ⟨t, st1, by simpa using h1, h2, le_trans hp (length_le_pending _ _), fun _ => hp⟩

theorem pending_readsFrom_eq {st st1 : SwiftState} (t : tokenInfo)
    (h : st1.input = st.input) : pending t st1 = pending t st := by
  unfold pending; rw [h]

theorem skipOverPair_pending (fuel : Nat) (token : tokenInfo) (tOpen tClose : tokenType)
    (repr : Option String) (reprOuterPair : Bool) (st : SwiftState)
    (h : st.input.length + 1 ≤ fuel) :
    ∃ b t r st1, skipOverPair fuel token tOpen tClose repr reprOuterPair st
        = .ok (b, t, r, st1) ∧ ReadsFrom st st1 ∧ pending t st1 ≤ pending token st := by
  obtain ⟨b, t, r, st1, h1, h2, h3, h4, -⟩ :=
    skipOverPair_total fuel token tOpen tClose repr reprOuterPair st h
  refine ⟨b, t, r, st1, h1, h2, ?_⟩
  by_cases ho : token.type = tOpen
  · refine le_trans ?_ (length_le_pending token st)
    unfold pending
    split
    · have := h2.2.2; omega
    · rename_i hne
      have := h3 ho hne; omega
  · obtain ⟨rfl, rfl⟩ := h4 ho
    exact le_refl _

theorem readType_pending (fuel : Nat) : ∀ (token : tokenInfo) (st : SwiftState),
    st.input.length + 2 ≤ fuel →
    ∃ readNext t type st1, readType fuel token st = .ok (readNext, t, type, st1) ∧
      ReadsFrom st st1 ∧ pending t st1 ≤ pending token st := by
  induction fuel with
  | zero => intros; omega
  | succ n ih =>
    intro token st h
    unfold readType
    have tail : ∀ (first : Except CXX.Fault (Bool × tokenInfo × Option String × SwiftState)),
        (∃ readNext token1 type1 st1, first = .ok (readNext, token1, type1, st1) ∧
          ReadsFrom st st1 ∧ pending token1 st1 ≤ pending token st) →
        ∃ (rn : Bool) (t : tokenInfo) (type : Option String) (st2 : SwiftState),
          (match first with
            | Except.error e =>
              (Except.error e : Except CXX.Fault (Bool × tokenInfo × Option String × SwiftState))
            | Except.ok (readNext, token1, type1, st1) =>
              match (if readNext = true then readToken st1 else Except.ok (token1, st1)) with
              | Except.error e => Except.error e
              | Except.ok (token2, st2) =>
                match type1 with
                | some t =>
                  if token2.type = tokenType.byte '?' then
                    Except.ok (readNext, token2, some (t.push '?'), st2)
                  else if token2.type = tokenType.byte '!' then
                    Except.ok (readNext, token2, some (t.push '!'), st2)
                  else Except.ok (false, token2, type1, st2)
                | none => Except.ok (false, token2, type1, st2)) = .ok (rn, t, type, st2) ∧
          ReadsFrom st st2 ∧ pending t st2 ≤ pending token st := by
      rintro first ⟨readNext, token1, type1, st1, rfl, hr, hp⟩
      obtain ⟨t2, st2, e1, e2, e3, -⟩ := pending_readIf readNext token1 st1
      simp only
      rw [e1]
      simp only
      have hr2 := readsFrom_trans hr e2
      have hp2 := le_trans e3 hp
      cases type1 with
      | none => exact ⟨_, _, _, _, rfl, hr2, hp2⟩
      | some ty =>
        simp only
        split
        · exact ⟨_, _, _, _, rfl, hr2, hp2⟩
        · split
          · exact ⟨_, _, _, _, rfl, hr2, hp2⟩
          · exact ⟨_, _, _, _, rfl, hr2, hp2⟩
    apply tail
    split
    · rename_i hopen
      obtain ⟨b, t1, ty1, st1, e1, e2, e3⟩ := skipOverPair_pending n token (.byte '(')
        (.byte ')') (some "") true st (by omega)
      obtain ⟨_, _, _, _, e1', _, e4, -, -⟩ := skipOverPair_total n token (.byte '(')
        (.byte ')') (some "") true st (by omega)
      rw [e1] at e1'
      simp only [Except.ok.injEq, Prod.mk.injEq] at e1'
      obtain ⟨rfl, rfl, rfl, rfl⟩ := e1'
      rw [e1]
      simp only
      obtain ⟨t2, st2, f1, f2, f3, f4⟩ := pending_readIf b t1 st1
      rw [f1]
      simp only
      split
      · exact ⟨_, _, _, _, rfl, readsFrom_trans e2 f2, le_trans f3 e3⟩
      · rename_i harrow
        simp only [bne_iff_ne, ne_eq, Decidable.not_not] at harrow
        have hne : t2.type ≠ .TOKEN_EOF := by rw [harrow]; simp
        -- the arrow was read, so the input got shorter
        have hlt : st2.input.length < st.input.length := by
          have hp : pending t2 st2 ≤ st.input.length := by
            cases b with
            | true => have := f4 rfl; have := e2.2.2; omega
            | false =>
              simp only [Bool.false_eq_true, if_false, Except.ok.injEq, Prod.mk.injEq] at f1
              obtain ⟨rfl, rfl⟩ := f1
              have := e4 hopen hne
              rw [pending_of_ne_eof _ _ hne]; omega
          rw [pending_of_ne_eof _ _ hne] at hp; omega
        obtain ⟨t3, st3, g1, g2, -⟩ := readToken_total st2
        have g3 := (pending_readToken g1).1
        rw [g1]
        simp only
        obtain ⟨rn, t4, sub, st4, k1, k2, k3⟩ := ih t3 st3 (by have := g2.2.2; omega)
        rw [k1]
        refine ⟨_, _, _, _, rfl,
          readsFrom_trans (readsFrom_trans (readsFrom_trans e2 f2) g2) k2, ?_⟩
        have := length_le_pending token st
        omega
    · split
      · exact ⟨_, _, _, _, rfl, readsFrom_refl st, le_refl _⟩
      · obtain ⟨t1, st1, g1, g2, -⟩ := readToken_total st
        have g3 := (pending_readToken g1).1
        rw [g1]
        exact ⟨_, _, _, _, rfl, g2, le_trans g3 (length_le_pending _ _)⟩

theorem makeVariableTag_frame (name : tokenInfo) (kind : swiftKind) (type : Option String)
    (st : SwiftState) :
    (makeVariableTag name kind type st).2.SwiftNestingLevels = st.SwiftNestingLevels ∧
    (makeVariableTag name kind type st).2.input = st.input := by
  unfold makeVariableTag makeTagEntry
  split <;> exact ⟨rfl, rfl⟩

theorem makeFunctionTag_frame (name : tokenInfo) (arglist type : Option String)
    (st : SwiftState) :
    (makeFunctionTag name arglist type st).2.SwiftNestingLevels = st.SwiftNestingLevels ∧
    (makeFunctionTag name arglist type st).2.input = st.input := by
  unfold makeFunctionTag makeTagEntry
  split <;> exact ⟨rfl, rfl⟩

theorem makeClassTag_frame (name : tokenInfo) (inheritance : String) (st : SwiftState) :
    (makeClassTag name inheritance st).2.SwiftNestingLevels = st.SwiftNestingLevels ∧
    (makeClassTag name inheritance st).2.input = st.input := by
  unfold makeClassTag makeTagEntry
  split <;> exact ⟨rfl, rfl⟩

theorem makeTypeAliasTag_frame (name : tokenInfo) (aliased : Option String)
    (st : SwiftState) :
    (makeTypeAliasTag name aliased st).2.SwiftNestingLevels = st.SwiftNestingLevels ∧
    (makeTypeAliasTag name aliased st).2.input = st.input := by
  unfold makeTypeAliasTag makeTagEntry
  split <;> exact ⟨rfl, rfl⟩

theorem typed_pending (fuel : Nat) (sep : tokenType) (t2 : tokenInfo) (st2 : SwiftState)
    (h : st2.input.length + 2 ≤ fuel) :
    ∃ (rn : Bool) (t4 : tokenInfo) (ty : Option String) (st4 : SwiftState),
      (if t2.type = sep then
          match readToken st2 with
          | Except.error e =>
            (Except.error e : Except CXX.Fault (Bool × tokenInfo × Option String × SwiftState))
          | Except.ok (token3, st3) => readType fuel token3 st3
        else Except.ok (false, t2, none, st2)) = .ok (rn, t4, ty, st4) ∧
      ReadsFrom st2 st4 ∧ pending t4 st4 ≤ pending t2 st2 := by
  split
  · obtain ⟨t3, st3, k1, k2, -⟩ := readToken_total st2
    have k3 := (pending_readToken k1).1
    rw [k1]
    simp only
    obtain ⟨rn, t4, ty, st4, e1, e2, e3⟩ := readType_pending fuel t3 st3
      (by have := k2.2.2; omega)
    exact ⟨rn, t4, ty, st4, e1, readsFrom_trans k2 e2,
      le_trans e3 (le_trans k3 (length_le_pending _ _))⟩
  · exact ⟨_, _, _, _, rfl, readsFrom_refl _, le_refl _⟩

theorem enterScopeVariable_total (fuel : Nat) (isIf : Bool) (corkIndex : Nat)
    (token : tokenInfo) (st : SwiftState) (h : st.input.length + 2 ≤ fuel) :
    ∃ rn ci t st1, enterScopeVariable fuel isIf corkIndex token st = .ok (rn, ci, t, st1) ∧
      st1.SwiftNestingLevels = st.SwiftNestingLevels ∧ pending t st1 ≤ st.input.length ∧
      (isIf = true → corkIndex = CORK_NIL → ci = CORK_NIL) := by
  unfold enterScopeVariable
  obtain ⟨name, st1, g1, g2, -⟩ := readToken_total st
  have g3 := (pending_readToken g1).1
  rw [g1]
  simp only
  split
  · obtain ⟨t2, st2, k1, k2, -⟩ := readToken_total st1
    have k3 := (pending_readToken k1).1
    rw [k1]
    simp only
    obtain ⟨rn, t4, ty, st4, e1, e2, e3⟩ := typed_pending fuel (.byte ':') t2 st2
      (by have := g2.2.2; have := k2.2.2; omega)
    generalize hty : (if t2.type = tokenType.byte ':' then _ else _) = typed
    have e4 : typed = .ok (rn, t4, ty, st4) := hty.symm.trans e1
    subst e4
    simp only
    obtain ⟨m1, m2⟩ := makeVariableTag_frame name
      (if token.keyword = .KEYWORD_let then .K_CONSTANT else .K_VARIABLE) ty st4
    refine ⟨_, _, _, _, rfl, ?_, ?_, ?_⟩
    · rw [m1, e2.2.1, k2.2.1, g2.2.1]
    · rw [pending_readsFrom_eq _ m2]
      have := g2.2.2
      omega
    · intro hi _
      simp [hi]
  · exact ⟨_, _, _, _, rfl, g2.2.1, g3, fun _ hc => hc⟩


theorem enterScopeTypealias_total (fuel : Nat) (corkIndex : Nat)
    (st : SwiftState) (h : st.input.length + 2 ≤ fuel) :
    ∃ rn ci t st1, enterScopeTypealias fuel corkIndex st = .ok (rn, ci, t, st1) ∧
      st1.SwiftNestingLevels = st.SwiftNestingLevels ∧ pending t st1 ≤ st.input.length := by
  unfold enterScopeTypealias
  obtain ⟨name, st1, g1, g2, -⟩ := readToken_total st
  have g3 := (pending_readToken g1).1
  rw [g1]
  simp only
  split
  · exact ⟨_, _, _, _, rfl, g2.2.1, g3⟩
  · obtain ⟨t2, st2, k1, k2, -⟩ := readToken_total st1
    have k3 := (pending_readToken k1).1
    rw [k1]
    simp only
    obtain ⟨rn, t4, ty, st4, e1, e2, e3⟩ := typed_pending fuel (.byte '=') t2 st2
      (by have := g2.2.2; have := k2.2.2; omega)
    generalize hty : (if t2.type = tokenType.byte '=' then _ else _) = typed
    have e4 : typed = .ok (rn, t4, ty, st4) := hty.symm.trans e1
    subst e4
    simp only
    obtain ⟨m1, m2⟩ := makeTypeAliasTag_frame name ty st4
    refine ⟨_, _, _, _, rfl, ?_, ?_⟩
    · rw [m1, e2.2.1, k2.2.1, g2.2.1]
    · rw [pending_readsFrom_eq _ m2]
      have := g2.2.2
      omega

theorem readTokenFull_keyword (fuel : Nat) : ∀ (inclWhitespaces : Bool) (input : List Char)
    (t : tokenInfo) (out : List Char),
    readTokenFull fuel inclWhitespaces input = .ok (t, out) →
    t.keyword = .KEYWORD_NONE ∨ t.type = .TOKEN_KEYWORD := by
  induction fuel with
  | zero => intro b input t out h; cases h
  | succ n ih =>
    intro b input t out h
    rw [readTokenFull] at h
    generalize skipBlanks 0 input = sb at h
    obtain ⟨n1, c, rest⟩ := sb
    simp only at h
    have fin : ∀ (ty : tokenType) (s : String) (o : List Char),
        (Except.ok (⟨ty, .KEYWORD_NONE, s⟩, o) : Except CXX.Fault (tokenInfo × List Char))
          = .ok (t, out) → t.keyword = .KEYWORD_NONE ∨ t.type = .TOKEN_KEYWORD := by
      intro ty s o h
      simp only [Except.ok.injEq, Prod.mk.injEq] at h
      obtain ⟨rfl, -⟩ := h
      exact Or.inl rfl
    split at h
    · exact fin _ _ _ h
    · cases c with
      | none => exact fin _ _ _ h
      | some c =>
        simp only at h
        split at h
        · split at h <;> exact fin _ _ _ h
        · split at h
          · exact fin _ _ _ h
          · split at h
            · split at h
              · exact ih _ _ _ _ h
              · split at h
                · exact ih _ _ _ _ h
                · exact fin _ _ _ h
            · split at h
              · cases hs : skipEmptyLines n c rest with
                | error e => rw [hs] at h; cases h
                | ok o => rw [hs] at h; exact fin _ _ _ h
              · split at h
                · split at h
                  · exact fin _ _ _ h
                  · exact fin _ _ _ h
                · split at h
                  · exact fin _ _ _ h
                  · split at h
                    · exact fin _ _ _ h
                    · simp only [Except.ok.injEq, Prod.mk.injEq] at h
                      obtain ⟨rfl, -⟩ := h
                      exact Or.inr rfl

theorem readToken_keyword {st st1 : SwiftState} {t : tokenInfo}
    (h : readToken st = .ok (t, st1)) :
    t.keyword = .KEYWORD_NONE ∨ t.type = .TOKEN_KEYWORD := by
  unfold readToken at h
  cases hr : readTokenFull (st.input.length + 1) false st.input with
  | error e => rw [hr] at h; cases h
  | ok r =>
    obtain ⟨t', out⟩ := r
    rw [hr] at h
    simp only [Except.ok.injEq, Prod.mk.injEq] at h
    obtain ⟨rfl, -⟩ := h
    exact readTokenFull_keyword _ _ _ _ _ hr


theorem enterScopeInheritance_once (fuel : Nat) (inheritance : String) (st : SwiftState) :
    ∃ t st1, readToken st = .ok (t, st1) ∧
      enterScopeInheritance (fuel + 1) inheritance st
        = .ok (t,
            if t.type = .TOKEN_IDENTIFIER ∨ t.keyword = .KEYWORD_class then
              (if inheritance.length > 0 then inheritance ++ ", " else inheritance)
                ++ t.string
            else inheritance, st1) := by
  rw [enterScopeInheritance]
  obtain ⟨t, st1, g1, -, -⟩ := readToken_total st
  refine ⟨t, st1, g1, ?_⟩
  rw [g1]
  simp only
  split
  · rename_i hid
    have hc : ¬ t.type = .byte ',' := by
      intro hc
      rcases hid with hid | hid
      · rw [hc] at hid; cases hid
      · rcases readToken_keyword g1 with hk | hk
        · rw [hk] at hid; cases hid
        · rw [hc] at hk; cases hk
    rw [if_neg hc]
  · rfl

theorem enterScopeClass_total (fuel : Nat) (corkIndex : Nat) (st : SwiftState) :
    ∃ rn ci t st1, enterScopeClass (fuel + 1) corkIndex st = .ok (rn, ci, t, st1) ∧
      st1.SwiftNestingLevels = st.SwiftNestingLevels ∧ pending t st1 ≤ st.input.length := by
  unfold enterScopeClass
  obtain ⟨name, st1, g1, g2, -⟩ := readToken_total st
  have g3 := (pending_readToken g1).1
  rw [g1]
  simp only
  split
  · exact ⟨_, _, _, _, rfl, g2.2.1, g3⟩
  · obtain ⟨t2, st2, k1, k2, -⟩ := readToken_total st1
    have k3 := (pending_readToken k1).1
    rw [k1]
    simp only
    have hin : ∃ (t3 : tokenInfo) (inh : String) (st3 : SwiftState),
        (if t2.type = tokenType.byte ':' then enterScopeInheritance (fuel + 1) "" st2
          else Except.ok (t2, "", st2)) = .ok (t3, inh, st3) ∧
        st3.SwiftNestingLevels = st2.SwiftNestingLevels ∧
        pending t3 st3 ≤ pending t2 st2 := by
      split
      · obtain ⟨t3, st3, e1, e2⟩ := enterScopeInheritance_once fuel "" st2
        obtain ⟨p1, p2, -⟩ := pending_readToken e1
        exact ⟨_, _, _, e2, p2, le_trans p1 (length_le_pending _ _)⟩
      · exact ⟨_, _, _, rfl, rfl, le_refl _⟩
    obtain ⟨t3, inh, st3, e1, e2, e3⟩ := hin
    rw [e1]
    simp only
    obtain ⟨m1, m2⟩ := makeClassTag_frame name inh st3
    refine ⟨_, _, _, _, rfl, ?_, ?_⟩
    · rw [m1, e2, k2.2.1, g2.2.1]
    · rw [pending_readsFrom_eq _ m2]
      have := g2.2.2
      omega

theorem enterScopeFunction_total (fuel : Nat) (corkIndex : Nat) (token : tokenInfo)
    (st : SwiftState) (h : st.input.length + 2 ≤ fuel) :
    ∃ rn ci t st1, enterScopeFunction fuel corkIndex token st = .ok (rn, ci, t, st1) ∧
      st1.SwiftNestingLevels = st.SwiftNestingLevels ∧ pending t st1 ≤ st.input.length := by
  unfold enterScopeFunction
  obtain ⟨name, st1, g1, g2, g3, g4⟩ := pending_readIf
    (decide (token.keyword = .KEYWORD_func)) token st
  have g1' : (if token.keyword = .KEYWORD_func then readToken st else .ok (token, st))
      = .ok (name, st1) := by
    by_cases hk : token.keyword = .KEYWORD_func
    · simpa [hk] using g1
    · simpa [hk] using g1
  rw [g1']
  simp only
  split
  · rename_i hc
    refine ⟨_, _, _, _, rfl, g2.2.1, ?_⟩
    by_cases hk : token.keyword = .KEYWORD_func
    · exact g4 (by simp [hk])
    · exfalso
      simp only [hk, if_false, Except.ok.injEq, Prod.mk.injEq] at g1'
      obtain ⟨rfl, -⟩ := g1'
      exact hk hc.1
  · obtain ⟨t2, st2, k1, k2, -⟩ := readToken_total st1
    have k3 := (pending_readToken k1).1
    rw [k1]
    simp only
    obtain ⟨b, t3, arglist, st3, s1, s2, s3⟩ := skipOverPair_pending fuel t2 (.byte '(')
      (.byte ')') (some "") true st2 (by have := g2.2.2; have := k2.2.2; omega)
    rw [s1]
    simp only
    obtain ⟨t4, st4, f1, f2, f3, -⟩ := pending_readIf b t3 st3
    rw [f1]
    simp only
    obtain ⟨rn, t6, ty, st6, e1, e2, e3⟩ := typed_pending fuel .TOKEN_RIGHT_ARROW t4 st4
      (by have := g2.2.2; have := k2.2.2; have := s2.2.2; have := f2.2.2; omega)
    generalize hty : (if t4.type = tokenType.TOKEN_RIGHT_ARROW then _ else _) = typed
    have e4 : typed = .ok (rn, t6, ty, st6) := hty.symm.trans e1
    subst e4
    simp only
    obtain ⟨m1, m2⟩ := makeFunctionTag_frame name arglist ty st6
    refine ⟨_, _, _, _, rfl, ?_, ?_⟩
    · rw [m1, e2.2.1, f2.2.1, s2.2.1, k2.2.1, g2.2.1]
    · rw [pending_readsFrom_eq _ m2]
      have := g2.2.2
      omega


theorem dropLast_push (l : List NestingLevel) (c : Nat) :
    nestingLevelsPop (nestingLevelsPush l c) = l := by
  simp [nestingLevelsPop, nestingLevelsPush]

theorem enterScope_balanced (fuel : Nat) :
    (∀ root parentIndex st, 2 * st.input.length + 2 ≤ fuel →
      ∃ t st1, enterScope fuel root parentIndex st = .ok (t, st1) ∧
        st1.SwiftNestingLevels = st.SwiftNestingLevels ∧
        pending t st1 ≤ st.input.length ∧
        (t.type = .TOKEN_EOF ∨ (root = false ∧ t.type = .byte '\x7d'))) ∧
    (∀ root corkIndex token st, 2 * pending token st + 1 ≤ fuel →
      ∃ t st1, enterScopeLoop fuel root corkIndex token st = .ok (t, st1) ∧
        st1.SwiftNestingLevels = st.SwiftNestingLevels ∧
        pending t st1 ≤ pending token st ∧
        (t.type = .TOKEN_EOF ∨ (root = false ∧ t.type = .byte '\x7d'))) := by
  induction fuel with
  | zero => exact ⟨fun _ _ _ h => by omega, fun _ _ _ _ h => by omega⟩
  | succ n ih =>
    obtain ⟨ihU, ihL⟩ := ih
    refine ⟨?_, ?_⟩
    · intro root parentIndex st h
      rw [enterScope]
      obtain ⟨t, st1, g1, g2, -⟩ := readToken_total st
      have g3 := (pending_readToken g1).1
      rw [g1]
      simp only
      obtain ⟨t2, st2, e1, e2, e3, e4⟩ := ihL root CORK_NIL t st1 (by omega)
      exact ⟨t2, st2, e1, e2.trans g2.2.1, le_trans e3 g3, e4⟩
    · intro root corkIndex token st h
      rw [enterScopeLoop]
      by_cases hcond : (token.type != .TOKEN_EOF && (root || token.type != .byte '\x7d')) = true
      · rw [if_pos hcond]
        have hne : token.type ≠ .TOKEN_EOF := by
          simp only [Bool.and_eq_true, bne_iff_ne, ne_eq] at hcond
          exact hcond.1
        have hL : 2 * st.input.length + 2 ≤ n := by
          rw [pending_of_ne_eof _ _ hne] at h; omega
        have hP : pending token st = st.input.length + 1 := pending_of_ne_eof _ _ hne
        -- lines 730-736
        generalize hpre : (if token.keyword = keywordId.KEYWORD_if then _ else _) = pre
        have hpre2 : ∃ isIf ci1 t1 s1, pre = .ok (isIf, ci1, t1, s1) ∧
            s1.SwiftNestingLevels = st.SwiftNestingLevels ∧
            s1.input.length ≤ st.input.length ∧
            (pending t1 s1 ≤ st.input.length ∨ (t1 = token ∧ s1 = st)) := by
          rw [← hpre]
          split
          · obtain ⟨t1, s1, g1, g2, -⟩ := readToken_total st
            have g3 := (pending_readToken g1).1
            rw [g1]
            exact ⟨_, _, _, _, rfl, g2.2.1, g2.2.2, Or.inl g3⟩
          · exact ⟨_, _, _, _, rfl, rfl, le_refl _, Or.inr ⟨rfl, rfl⟩⟩
        obtain ⟨isIf, ci1, t1, s1, rfl, p1, p2, p3⟩ := hpre2
        simp only
        -- the branches
        generalize hbody : (if t1.keyword = keywordId.KEYWORD_let ∨ t1.keyword = keywordId.KEYWORD_var then _ else _) = body
        have hbody2 : ∃ rn ci2 t2 s2, body = .ok (rn, ci2, t2, s2) ∧
            s2.SwiftNestingLevels = st.SwiftNestingLevels ∧
            s2.input.length ≤ st.input.length ∧
            (pending t2 s2 ≤ st.input.length ∨ rn = true) := by
          rw [← hbody]
          have hlen : ∀ (t : tokenInfo) (s : SwiftState), pending t s ≤ s1.input.length →
              s.input.length ≤ st.input.length ∧ pending t s ≤ st.input.length := by
            intro t s hp
            have := length_le_pending t s
            exact ⟨by omega, by omega⟩
          split
          · obtain ⟨rn, ci, t, s, e1, e2, e3, -⟩ :=
              enterScopeVariable_total n isIf ci1 t1 s1 (by omega)
            exact ⟨rn, ci, t, s, e1, e2.trans p1, (hlen t s e3).1, Or.inl (hlen t s e3).2⟩
          · split
            · obtain ⟨rn, ci, t, s, e1, e2, e3⟩ :=
                enterScopeFunction_total n ci1 t1 s1 (by omega)
              exact ⟨rn, ci, t, s, e1, e2.trans p1, (hlen t s e3).1, Or.inl (hlen t s e3).2⟩
            · split
              · obtain ⟨m, rfl⟩ : ∃ m, n = m + 1 := ⟨n - 1, by omega⟩
                obtain ⟨rn, ci, t, s, e1, e2, e3⟩ := enterScopeClass_total m ci1 s1
                exact ⟨rn, ci, t, s, e1, e2.trans p1, (hlen t s e3).1,
                  Or.inl (hlen t s e3).2⟩
              · split
                · obtain ⟨rn, ci, t, s, e1, e2, e3⟩ :=
                    enterScopeTypealias_total n ci1 s1 (by omega)
                  exact ⟨rn, ci, t, s, e1, e2.trans p1, (hlen t s e3).1,
                    Or.inl (hlen t s e3).2⟩
                · split
                  · obtain ⟨t2, s2, e1, e2, e3, -⟩ := ihU false ci1
                      (if ci1 ≠ CORK_NIL then
                        { s1 with SwiftNestingLevels :=
                            nestingLevelsPush s1.SwiftNestingLevels ci1 }
                       else s1)
                      (by split <;> first | omega | (simp only; omega))
                    rw [e1]
                    simp only
                    have hin : (if ci1 ≠ CORK_NIL then
                        { s1 with SwiftNestingLevels :=
                            nestingLevelsPush s1.SwiftNestingLevels ci1 }
                       else s1).input = s1.input := by split <;> rfl
                    rw [hin] at e3
                    refine ⟨_, _, _, _, rfl, ?_, ?_, Or.inl ?_⟩
                    · by_cases hc : ci1 = CORK_NIL
                      · simp only [hc, ne_eq, not_true_eq_false, if_false] at e2 ⊢
                        exact e2.trans p1
                      · simp only [hc, ne_eq, not_false_eq_true, if_true] at e2 ⊢
                        rw [e2, dropLast_push]
                        exact p1
                    · have : (if ci1 ≠ CORK_NIL then
                          { s2 with SwiftNestingLevels :=
                              nestingLevelsPop s2.SwiftNestingLevels }
                         else s2).input = s2.input := by split <;> rfl
                      rw [this]
                      exact (hlen t2 s2 e3).1
                    · have : (if ci1 ≠ CORK_NIL then
                          { s2 with SwiftNestingLevels :=
                              nestingLevelsPop s2.SwiftNestingLevels }
                         else s2).input = s2.input := by split <;> rfl
                      rw [pending_readsFrom_eq _ this]
                      exact (hlen t2 s2 e3).2
                  · exact ⟨_, _, _, _, rfl, p1, p2, Or.inr rfl⟩
        obtain ⟨rn, ci2, t2, s2, rfl, q1, q2, q3⟩ := hbody2
        simp only
        obtain ⟨t3, s3, f1, f2, f3, f4⟩ := pending_readIf rn t2 s2
        rw [f1]
        simp only
        have hp3 : pending t3 s3 ≤ st.input.length := by
          rcases q3 with q3 | q3
          · exact le_trans f3 q3
          · exact le_trans (f4 q3) q2
        obtain ⟨t4, s4, e1, e2, e3, e4⟩ := ihL root ci2 t3 s3 (by omega)
        exact ⟨t4, s4, e1, e2.trans (f2.2.1.trans q1), by omega, e4⟩
      · rw [if_neg hcond]
        refine ⟨token, st, rfl, rfl, le_refl _, ?_⟩
        simp only [Bool.and_eq_true, bne_iff_ne, ne_eq, Bool.or_eq_true, not_and, not_or,
          Decidable.not_not] at hcond
        by_cases he : token.type = .TOKEN_EOF
        · exact Or.inl he
        · obtain ⟨r1, r2⟩ := hcond he
          exact Or.inr ⟨by simpa using r1, r2⟩

/-- With one base class the inheritance is its name, with none the empty string. -/
theorem inheritance_examples :
    findSwiftTags 40 singleBaseExampleFile
      = .ok [{ initTagEntry "A" .K_CLASS with inheritance := some "B" }] ∧
    findSwiftTags 40 noBaseExampleFile
      = .ok [{ initTagEntry "A" .K_CLASS with inheritance := some "" }] :=
  ⟨ok_of_check _ _ (by decide!), ok_of_check _ _ (by decide!)⟩

/-- The tags of `init` and `deinit` are named by the keyword, the tag of a function
with a name by that name. -/
theorem function_names_example :
    findSwiftTags 80 initExampleFile
      = .ok [{ initTagEntry "init" .K_FUNCTION with signature := some "(a: Int)" },
             { initTagEntry "deinit" .K_FUNCTION with signature := some "" }] ∧
    findSwiftTags 80 namedFuncExampleFile
      = .ok [{ initTagEntry "f" .K_FUNCTION with signature := some "(a: Int)" }] :=
  ⟨ok_of_check _ _ (by decide!), ok_of_check _ _ (by decide!)⟩

/-- The token after the nested comment of `commentExampleFile` is the identifier `x`. -/
theorem comment_example :
    readTokenFull 25 false commentExampleFile = .ok (xToken, ['\n']) ∧
    blockCommentRest 1 commentExampleRest = some [' ', 'x', '\n'] :=
  ⟨ok_of_check _ _ (by decide!), by decide⟩

/-- On `a (b) c) d` after an opening parenthesis the pair is closed at the second
closing parenthesis and the representation is `a (b) c`. -/
theorem pair_example :
    skipOverPair 12 openParenToken (.byte '(') (.byte ')') (some "") false pairExampleState
      = .ok (true, closeParenToken, some "a (b) c", fileState [' ', 'd', '\n']) :=
  ok_of_check _ _ (by decide!)

end Swift

namespace CXX

end CXX

/-! ## Claims C31-C36: the Swift parser -/

namespace Swift

/-- C31 fails in the code: on `class A : B, C` followed by a block, the class tag of
`A` carries the inheritance string `B`, not `B, C`.  The loop of lines 828-841 tests
`token->type == ','` on the token it has just accepted as a base name, which is an
identifier, so it never takes a second turn and the separator of lines 834-835 is
never added. -/
theorem c31_inheritance_keeps_first_base_only :
    findSwiftTags 40 inheritanceExampleFile
      = .ok [{ initTagEntry "A" .K_CLASS with inheritance := some "B" }] :=
  ok_of_check _ _ (by decide!)

/-- C32 fails in the code: on `var x: Int?` the tag of `x` carries the type `Int`,
without the suffix.  After the identifier `readType` reads the next token (line 699),
the `?`, and then one more (line 711) before it tests for `?` or `!` (line 712).  The
path of the tuple types reads once only: on `var x: (Int)?` the type is `(Int)?`. -/
theorem c32_optional_suffix_is_dropped :
    findSwiftTags 40 optionalExampleFile
      = .ok [{ initTagEntry "x" .K_VARIABLE with typeRef := some "Int" }] ∧
    findSwiftTags 40 tupleOptionalExampleFile
      = .ok [{ initTagEntry "x" .K_VARIABLE with typeRef := some "(Int)?" }] :=
  ⟨ok_of_check _ _ (by decide!), ok_of_check _ _ (by decide!)⟩

/-- C33 fails in the code: on `func (x)` a function tag is made, named `(`.  The test
of lines 781-782 looks at the keyword of the token read after `func`, not at the keyword
`func` itself, so it only rejects a second `func`; every other token that follows
`func` becomes the name of a tag. -/
theorem c33_func_without_name_is_tagged :
    findSwiftTags 40 funcExampleFile
      = .ok [{ initTagEntry "(" .K_FUNCTION with signature := some "" }] :=
  ok_of_check _ _ (by decide!)

/-- C34 as stated fails for a block that follows an ordinary statement: in
`whileExampleFile` the opening brace follows `while x > 0`, not a declaration, yet the
level of the variable `x`, declared on the line before, is pushed for it: the tag of
`y` has the scope index 1 and the kind local variable, which `initSwiftEntry` gives
inside a nesting level only.  The value of `corkIndex` is kept over the tokens that
start no declaration. -/
theorem c34_block_after_statement_pushes_a_level :
    findSwiftTags 80 whileExampleFile
      = .ok [initTagEntry "x" .K_VARIABLE,
             { initTagEntry "y" .K_LOCAL_VARIABLE with scopeIndex := 1 }] :=
  ok_of_check _ _ (by decide!)

/-- C34, amended: nesting levels are balanced.  (1) With fuel for the input,
`enterScope` returns with the nesting levels it was entered with, for every input,
and at the end of the input when `root` is set.  (2) So the run of `findSwiftTags`
ends with no nesting level.  (3) At an opening brace the loop pushes a level exactly
when `corkIndex` is not `CORK_NIL`; the nested `enterScope` returns with that level
still on top, the level is popped, and the loop goes on with `corkIndex` being
`CORK_NIL`.  (4) `corkIndex` is `CORK_NIL` at the start of `enterScope`, (5) after a
`let` or `var` declaration that follows `if`, and (6) after `if` and a token that
starts no declaration and no block; (7) without `if`, such a token leaves `corkIndex`
as it is. -/
theorem c34_nesting_levels_balanced (fuel : Nat) (root : Bool) (parentIndex : Nat)
    (st : SwiftState) (hf : 2 * st.input.length + 2 ≤ fuel) :
    (∃ t st1, enterScope fuel root parentIndex st = .ok (t, st1) ∧
      st1.SwiftNestingLevels = st.SwiftNestingLevels ∧
      (root = true → t.type = .TOKEN_EOF)) ∧
    (∀ input, st = fileState input →
      ∃ t st1, enterScope fuel true CORK_NIL (fileState input) = .ok (t, st1) ∧
        st1.SwiftNestingLevels = [] ∧ findSwiftTags fuel input = .ok st1.corkQueue) ∧
    (∀ (outer : Bool) (corkIndex : Nat) (token : tokenInfo),
      token.type = .byte '\x7b' → token.keyword = .KEYWORD_NONE →
      ∃ t2 st2,
        enterScope fuel false corkIndex
            (if corkIndex ≠ CORK_NIL then
              { st with SwiftNestingLevels :=
                  nestingLevelsPush st.SwiftNestingLevels corkIndex }
             else st) = .ok (t2, st2) ∧
        st2.SwiftNestingLevels =
          (if corkIndex ≠ CORK_NIL then
            st.SwiftNestingLevels ++ [{ corkIndex := corkIndex }]
           else st.SwiftNestingLevels) ∧
        enterScopeLoop (fuel + 1) outer corkIndex token st =
          match (if t2.type != .TOKEN_EOF then
              readToken { st2 with SwiftNestingLevels := st.SwiftNestingLevels }
            else .ok (t2, { st2 with SwiftNestingLevels := st.SwiftNestingLevels })) with
          | .error e => .error e
          | .ok (t3, st3) => enterScopeLoop fuel outer CORK_NIL t3 st3) ∧
    (enterScope fuel root parentIndex st =
      match readToken st with
      | .error e => .error e
      | .ok (t, st1) => enterScopeLoop (fuel - 1) root CORK_NIL t st1) ∧
    (∀ (outer : Bool) (corkIndex : Nat) (token t1 : tokenInfo) (s1 : SwiftState),
      token.type = .TOKEN_KEYWORD → token.keyword = .KEYWORD_if →
      readToken st = .ok (t1, s1) →
      t1.keyword = .KEYWORD_let ∨ t1.keyword = .KEYWORD_var →
      ∃ rn t2 s2,
        enterScopeVariable fuel true CORK_NIL t1 s1 = .ok (rn, CORK_NIL, t2, s2) ∧
        enterScopeLoop (fuel + 1) outer corkIndex token st =
          match (if rn then readToken s2 else .ok (t2, s2)) with
          | .error e => .error e
          | .ok (t3, s3) => enterScopeLoop fuel outer CORK_NIL t3 s3) ∧
    (∀ (outer : Bool) (corkIndex : Nat) (token t1 : tokenInfo) (s1 : SwiftState),
      token.type = .TOKEN_KEYWORD → token.keyword = .KEYWORD_if →
      readToken st = .ok (t1, s1) →
      t1.keyword = .KEYWORD_NONE → t1.type ≠ .byte '\x7b' →
      enterScopeLoop (fuel + 1) outer corkIndex token st =
        match readToken s1 with
        | .error e => .error e
        | .ok (t3, s3) => enterScopeLoop fuel outer CORK_NIL t3 s3) ∧
    (∀ (outer : Bool) (corkIndex : Nat) (token : tokenInfo),
      token.keyword = .KEYWORD_NONE → token.type ≠ .TOKEN_EOF →
      token.type ≠ .byte '\x7b' → (outer = true ∨ token.type ≠ .byte '\x7d') →
      enterScopeLoop (fuel + 1) outer corkIndex token st =
        match readToken st with
        | .error e => .error e
        | .ok (t, st1) => enterScopeLoop fuel outer corkIndex t st1) := by
  refine ⟨?_, ?_, ?_, ?_, ?_, ?_, ?_⟩
  · obtain ⟨t, st1, e1, e2, -, e4⟩ := (enterScope_balanced fuel).1 root parentIndex st hf
    refine ⟨t, st1, e1, e2, ?_⟩
    intro hr
    rcases e4 with e4 | ⟨e4, -⟩
    · exact e4
    · rw [hr] at e4; cases e4
  · intro input hin
    subst hin
    obtain ⟨t, st1, e1, e2, -, -⟩ := (enterScope_balanced fuel).1 true CORK_NIL
      (fileState input) hf
    refine ⟨t, st1, e1, e2, ?_⟩
    have e1' : enterScope fuel true CORK_NIL
        { input := input, corkQueue := [], SwiftNestingLevels := [] } = .ok (t, st1) := e1
    unfold findSwiftTags
    rw [e1']
  · intro outer corkIndex token ht hk
    obtain ⟨t2, st2, e1, e2, -, -⟩ := (enterScope_balanced fuel).1 false corkIndex
      (if corkIndex ≠ CORK_NIL then
        { st with SwiftNestingLevels := nestingLevelsPush st.SwiftNestingLevels corkIndex }
       else st)
      (by split <;> first | omega | (simp only; omega))
    refine ⟨t2, st2, e1, ?_, ?_⟩
    · rw [e2]
      split <;> rfl
    · have hcond : (token.type != .TOKEN_EOF && (outer || token.type != .byte '\x7d'))
          = true := by
        rw [ht]; cases outer <;> decide
      rw [enterScopeLoop, if_pos hcond]
      have hpop : (if corkIndex ≠ CORK_NIL then
            { st2 with SwiftNestingLevels := nestingLevelsPop st2.SwiftNestingLevels }
          else st2) = { st2 with SwiftNestingLevels := st.SwiftNestingLevels } := by
        by_cases hc : corkIndex = CORK_NIL
        · simp only [hc, ne_eq, not_true_eq_false, if_false] at e2 ⊢
          rw [← e2]
        · simp only [hc, ne_eq, not_false_eq_true, if_true] at e2 ⊢
          rw [e2, dropLast_push]
      simp only [hk, ht, if_true, if_false, reduceCtorEq, false_or, or_self, e1, hpop]
  · obtain ⟨m, rfl⟩ : ∃ m, fuel = m + 1 := ⟨fuel - 1, by omega⟩
    rw [enterScope]
    rfl
  · intro outer corkIndex token t1 s1 ht hk hr hlet
    obtain ⟨h1, -⟩ := readToken_readsFrom hr
    obtain ⟨rn, ci, t2, s2, e1, -, -, e4⟩ := enterScopeVariable_total fuel true CORK_NIL t1 s1
      (by have := h1.2.2; omega)
    have hci := e4 rfl rfl
    subst hci
    refine ⟨rn, t2, s2, e1, ?_⟩
    have hcond : (token.type != .TOKEN_EOF && (outer || token.type != .byte '\x7d'))
        = true := by
      rw [ht]; cases outer <;> decide
    rw [enterScopeLoop, if_pos hcond]
    simp only [hk, hr, hlet, e1, if_true]
  · intro outer corkIndex token t1 s1 ht hk hr hk1 hb1
    have hcond : (token.type != .TOKEN_EOF && (outer || token.type != .byte '\x7d'))
        = true := by
      rw [ht]; cases outer <;> decide
    rw [enterScopeLoop, if_pos hcond]
    simp only [hk, hr, hk1, hb1, if_true, if_false, reduceCtorEq, false_or, or_self]
  · intro outer corkIndex token hk hne hnb hout
    have hcond : (token.type != .TOKEN_EOF && (outer || token.type != .byte '\x7d'))
        = true := by
      rcases hout with hout | hout
      · simp [hne, hout]
      · simp [hne, hout]
    rw [enterScopeLoop, if_pos hcond]
    simp only [hk, hnb, if_true, if_false, reduceCtorEq, false_or, or_self]

/-- Witness of C34 on a file with a closing brace too many and two blocks that are not
closed. -/
theorem c34_nesting_levels_balanced_witness :
    2 * (fileState unbalancedExampleFile).input.length + 2 ≤ 60 ∧
    ∃ t st1, enterScope 60 true CORK_NIL (fileState unbalancedExampleFile) = .ok (t, st1) ∧
      st1.SwiftNestingLevels = (fileState unbalancedExampleFile).SwiftNestingLevels ∧
      (true = true → t.type = .TOKEN_EOF) :=
  ⟨by decide,
    (c34_nesting_levels_balanced 60 true CORK_NIL (fileState unbalancedExampleFile)
      (by decide)).1⟩

/-- The value returned by `skipOverPair` is the test `token->type == tClose` of line
551, not a test of the depth.  The two differ only for a closer type no caller
passes, the type of the end of the input: with the opener `(` and the closer
`TOKEN_EOF`, on the input `(` the function reads a second opener and then the end of
the input, and returns true although the count of openers minus closers, the initial
one included, is positive after every token. -/
theorem skipOverPair_eof_closer_example :
    skipOverPair 5 openParenToken (.byte '(') .TOKEN_EOF none false (fileState ['('])
      = .ok (true, eofToken, none, fileState []) ∧
    readTokens 2 (fileState ['(']) = .ok ([openParenToken, eofToken], fileState []) ∧
    (∀ k, k ≤ 2 →
      0 < 1 + pairCount (.byte '(') .TOKEN_EOF (List.take k [openParenToken, eofToken])) :=
  ⟨ok_of_check _ _ (by decide!), ok_of_check _ _ (by decide!), by decide⟩

/-- C35: for `tOpen` different from `tClose`, with `tClose` the type of a token that
stands in the input and not the mark of its end (the callers, at lines 637, 673 and
793, pass `(` and `)`), at a current token of type `tOpen`, `skipOverPair` returns
once the fuel covers the input.  It reads the
tokens `ts` and then `last`, white space included; none of `ts` is the end of the
input and after none of them the count of `tOpen` minus `tClose` tokens, the initial
one included, is zero.  It returns true exactly when `last` is of type `tClose`, and
then the count is zero after `last`; otherwise `last` is the end of the input and the
count is still positive.  With `reprOuterPair` false and a pair that is closed, the
representation receives the tokens `ts`, those strictly between the outer pair. -/
theorem c35_skip_over_pair (fuel : Nat) (token : tokenInfo) (tOpen tClose : tokenType)
    (repr : Option String) (reprOuterPair : Bool) (st : SwiftState)
    (hne : tOpen ≠ tClose) (heof : tClose ≠ .TOKEN_EOF) (ht : token.type = tOpen)
    (hf : st.input.length + 1 ≤ fuel) :
    ∃ (ts : List tokenInfo) (last : tokenInfo) (repr1 : Option String) (st1 : SwiftState),
      readTokens (ts.length + 1) st = .ok (ts ++ [last], st1) ∧
      skipOverPair fuel token tOpen tClose repr reprOuterPair st
        = .ok (last.type == tClose, last, repr1, st1) ∧
      (∀ t ∈ ts, t.type ≠ .TOKEN_EOF) ∧
      (∀ k, k ≤ ts.length → 0 < 1 + pairCount tOpen tClose (ts.take k)) ∧
      (last.type = tClose → 1 + pairCount tOpen tClose (ts ++ [last]) = 0) ∧
      (last.type ≠ tClose →
        last.type = .TOKEN_EOF ∧ 0 < 1 + pairCount tOpen tClose (ts ++ [last])) ∧
      (reprOuterPair = false → last.type = tClose →
        repr1 = repr.map (fun r => reprCatAll r ts)) ∧
      (reprOuterPair = true →
        repr1 = repr.map (fun r => reprCatAll (reprCat r token) (ts ++ [last]))) := by
  obtain ⟨ts, last, st1, e1, e2, e3, e4, e5, e6⟩ :=
    skipOverPairLoop_run tOpen tClose hne heof reprOuterPair fuel
      (if reprOuterPair = true then repr.map (fun r => reprCat r token) else repr) 1 st
      (le_refl _) hf
  refine ⟨ts, last,
    (if reprOuterPair = true then repr.map (fun r => reprCat r token) else repr).map
      (fun r => reprCatAll r
        (if last.type = tClose ∧ reprOuterPair = false then ts else ts ++ [last])),
    st1, e1, ?_, e3, ?_, ?_, ?_, ?_, ?_⟩
  · unfold skipOverPair
    rw [if_pos ht, e2]
  · intro k hk
    have := e4 k hk
    simpa using this
  · intro hl
    have := e5 hl
    simpa using this
  · intro hl
    obtain ⟨a, b⟩ := e6 hl
    exact ⟨a, by simpa using b⟩
  · intro hr hl
    subst hr
    simp [hl]
  · intro hr
    subst hr
    simp only [if_true, Bool.true_eq_false, and_false, if_false, Option.map_map]
    rfl

/-- Witness of C35 on the characters `a (b) c) d` after an opening parenthesis, with
an empty representation and `reprOuterPair` false. -/
theorem c35_skip_over_pair_witness :
    tokenType.byte '(' ≠ tokenType.byte ')' ∧ tokenType.byte ')' ≠ .TOKEN_EOF ∧
    openParenToken.type = .byte '(' ∧ pairExampleState.input.length + 1 ≤ 12 ∧
    ∃ (ts : List tokenInfo) (last : tokenInfo) (repr1 : Option String) (st1 : SwiftState),
      readTokens (ts.length + 1) pairExampleState = .ok (ts ++ [last], st1) ∧
      skipOverPair 12 openParenToken (.byte '(') (.byte ')') (some "") false
          pairExampleState
        = .ok (last.type == .byte ')', last, repr1, st1) ∧
      (∀ t ∈ ts, t.type ≠ .TOKEN_EOF) ∧
      (∀ k, k ≤ ts.length → 0 < 1 + pairCount (.byte '(') (.byte ')') (ts.take k)) ∧
      (last.type = .byte ')' → 1 + pairCount (.byte '(') (.byte ')') (ts ++ [last]) = 0) ∧
      (last.type ≠ .byte ')' →
        last.type = .TOKEN_EOF ∧
          0 < 1 + pairCount (.byte '(') (.byte ')') (ts ++ [last])) ∧
      (false = false → last.type = .byte ')' →
        repr1 = (some "").map (fun r => reprCatAll r ts)) ∧
      (false = true →
        repr1 = (some "").map (fun r => reprCatAll (reprCat r openParenToken)
          (ts ++ [last]))) :=
  ⟨by decide, by decide, rfl, by decide,
    c35_skip_over_pair 12 openParenToken (.byte '(') (.byte ')') (some "") false
      pairExampleState (by decide) (by decide) rfl (by decide)⟩

end Swift

namespace CXX

end CXX
